import Mathlib

/-! # Server-side client connection subsystem: shallow embedding

Source files embedded here:

* `codemp/server/smod.h`, `codemp/server/smod.cpp` (namespace `SMOD`)
* `codemp/server/sv_client.cpp`

Conventions of the embedding.

* A C `int` is a Lean `Int`.  The bitwise operators are computed on the
  32-bit two's-complement pattern (`toU32`, `ofU32`).
* A C string is a Lean `String`, one `Char` per byte.
* Every function that takes a `client_t*` becomes a function on `St`: the
  slot itself (`St.cl`) together with the list of calls made to collaborators
  that are not part of the three files (`St.out`, oldest call first).
* Globals (`svs`, `sv`, the cvar store) and collaborators whose code is not
  in the three files (tokenizer, filesystem, info strings, wire codec) are
  fields of `Engine`; every theorem quantifies over all of them.
-/

/-! ## Machine integers -/

/-- The 32-bit pattern of a C `int`. -/
def toU32 (x : Int) : Nat := (x % 4294967296).toNat

/-- The C `int` whose 32-bit two's-complement pattern is `n % 2^32`. -/
def ofU32 (n : Nat) : Int :=
  if n % 4294967296 < 2147483648 then ((n % 4294967296 : Nat) : Int)
  else ((n % 4294967296 : Nat) : Int) - 4294967296

/-- C `a ^ b` on `int`. -/
def xor32 (a b : Int) : Int := ofU32 (toU32 a ^^^ toU32 b)

/-- C `a & b` on `int`. -/
def and32 (a b : Int) : Int := ofU32 (toU32 a &&& toU32 b)

/-- The value of a C `int` after a conversion that keeps the low 32 bits. -/
def wrap32 (x : Int) : Int := ofU32 (toU32 x)

/-- The C `int` range. -/
def isInt32 (x : Int) : Prop := -2147483648 ≤ x ∧ x < 2147483648

/-- Flip bit `k` (0 = least significant, 31 = sign bit) of a C `int`. -/
def flipBit (x : Int) (k : Nat) : Int := xor32 x (ofU32 (2 ^ k))

/-- The xor of the bit patterns of a list of C ints, starting from `a`. -/
def xorPatterns (a : Nat) (l : List Int) : Nat := l.foldl (fun acc c => acc ^^^ toU32 c) a

/-! ## libc and q_shared helpers -/

/-- Decimal digits read by `atoi`, most significant first, accumulated into `acc`. -/
def atoiDigits : List Char → Nat → Nat
  | [], acc => acc
  | c :: cs, acc => if c.isDigit then atoiDigits cs (acc * 10 + (c.toNat - 48)) else acc

/-- Leading white space skipped by `atoi`. -/
def atoiSkip : List Char → List Char
  | [] => []
  | c :: cs => if c = ' ' ∨ (9 ≤ c.toNat ∧ c.toNat ≤ 13) then atoiSkip cs else c :: cs

/-- libc `atoi`: optional white space, optional sign, decimal digits; the
result is kept in the `int` range by keeping the low 32 bits. -/
def atoi (s : String) : Int :=
  match atoiSkip s.toList with
  | '-' :: cs => wrap32 (-(atoiDigits cs 0 : Int))
  | '+' :: cs => wrap32 (atoiDigits cs 0 : Int)
  | cs => wrap32 (atoiDigits cs 0 : Int)

/-- The first byte of a C string (`*p`); `'\0'` for the empty string. -/
def firstChar (s : String) : Char := s.toList.headD (Char.ofNat 0)

/-- The `Q_strncpyz(dest, src, destsize)` result: at most `destsize - 1` bytes of `src`. -/
def Q_strncpyz (src : String) (destsize : Nat) : String :=
  String.mk (src.toList.take (destsize - 1))

/-- Modelled from the spec: `Com_Clampi( min, max, value )` of the shared math
code ("clamp client-requested value into" an interval): `value` clamped into
`[min, max]`, the lower bound tested first. -/
def Com_Clampi (min max value : Int) : Int :=
  if value < min then min else if value > max then max else value

/-! ## Data model (server.h, q_shared.h) -/

/-- Modelled from the spec: the `clientState_t` enumeration of `server.h`
(states FREE, ZOMBIE, CONNECTED, PRIMED, ACTIVE of the lifecycle table). -/
inductive clientState_t where
  | CS_FREE
  | CS_ZOMBIE
  | CS_CONNECTED
  | CS_PRIMED
  | CS_ACTIVE
  deriving DecidableEq, Repr

open clientState_t

/-- Modelled from the spec: the enumerator values of `clientState_t` in
`server.h`, used where the code compares states with `>=` or tests a state
for being non-zero.  Flood protection (`state >= CS_ACTIVE`) applies "when
the client is ACTIVE", the population counts (`state >= CS_CONNECTED`) leave
out FREE and ZOMBIE. -/
def clientState_t.toInt : clientState_t → Int
  | CS_FREE => 0
  | CS_ZOMBIE => 1
  | CS_CONNECTED => 2
  | CS_PRIMED => 3
  | CS_ACTIVE => 4

/-- Address kinds of `netadr_t` that the three files tell apart. -/
inductive netadrtype_t where
  | NA_BOT
  | NA_BAD
  | NA_LOOPBACK
  | NA_BROADCAST
  | NA_IP
  deriving DecidableEq, Repr

/-- A network address. -/
structure netadr_t where
  type : netadrtype_t
  ip : List Nat
  port : Int
  deriving DecidableEq, Repr

/-- The fields of `netchan_t` read or written by the three files. -/
structure netchan_t where
  remoteAddress : netadr_t
  qport : Int
  outgoingSequence : Int
  unsentFragments : Bool
  deriving DecidableEq, Repr

/-- A user command (`usercmd_t`). -/
structure usercmd_t where
  serverTime : Int
  angles : List Int
  buttons : Int
  weapon : Int
  forcesel : Int
  invensel : Int
  generic_cmd : Int
  forwardmove : Int
  rightmove : Int
  upmove : Int
  deriving DecidableEq, Repr

/-- A zeroed `usercmd_t` (`Com_Memset( &nullcmd, 0, sizeof(nullcmd) )`). -/
def usercmd_t.zero : usercmd_t :=
  { serverTime := 0, angles := [0, 0, 0], buttons := 0, weapon := 0, forcesel := 0,
    invensel := 0, generic_cmd := 0, forwardmove := 0, rightmove := 0, upmove := 0 }

/-- One connection slot (`client_t`): the fields used by the three files. -/
structure client_t where
  state : clientState_t
  userinfo : String
  userinfoPostponed : String
  reliableCommands : List String
  reliableSequence : Int
  reliableAcknowledge : Int
  messageAcknowledge : Int
  gamestateMessageNum : Int
  challenge : Int
  lastUsercmd : usercmd_t
  lastClientCommand : Int
  lastClientCommandString : String
  gentity : Option Int
  name : String
  downloadName : String
  download : Int
  downloadSize : Int
  downloadCount : Int
  downloadClientBlock : Int
  downloadCurrentBlock : Int
  downloadXmitBlock : Int
  downloadBlocks : List (Option (List Nat))
  downloadBlockSize : List Int
  downloadEOF : Bool
  downloadSendTime : Int
  deltaMessage : Int
  nextSnapshotTime : Int
  lastPacketTime : Int
  lastConnectTime : Int
  lastReliableTime : Int
  lastUserInfoChange : Int
  lastUserInfoCount : Int
  rate : Int
  snapshotMsec : Int
  wishSnaps : Int
  pureAuthentic : Int
  gotCP : Bool
  netchan : netchan_t
  oldServerTime : Int
  frames : List Int
  demorecording : Bool
  unfixPing : Bool
  chatLogPolicySent : Bool
  chatLogPolicySentTime : Int
  disableDuelCull : Bool
  jpPlugin : Bool
  smod : Int
  smodID : Int
  isFrozen : Bool
  warnLevel : Int

/-- A zeroed slot: `Com_Memset (newcl, 0, sizeof(client_t))` in `SV_DirectConnect`,
"the only place a client_t is ever initialized". -/
def client_t.zero : client_t :=
  { state := CS_FREE, userinfo := "", userinfoPostponed := "",
    reliableCommands := List.replicate 64 "", reliableSequence := 0,
    reliableAcknowledge := 0, messageAcknowledge := 0, gamestateMessageNum := 0,
    challenge := 0, lastUsercmd := usercmd_t.zero, lastClientCommand := 0,
    lastClientCommandString := "", gentity := none, name := "", downloadName := "",
    download := 0, downloadSize := 0, downloadCount := 0, downloadClientBlock := 0,
    downloadCurrentBlock := 0, downloadXmitBlock := 0,
    downloadBlocks := List.replicate 8 none, downloadBlockSize := List.replicate 8 0,
    downloadEOF := false, downloadSendTime := 0, deltaMessage := 0, nextSnapshotTime := 0,
    lastPacketTime := 0, lastConnectTime := 0, lastReliableTime := 0,
    lastUserInfoChange := 0, lastUserInfoCount := 0, rate := 0, snapshotMsec := 0,
    wishSnaps := 0, pureAuthentic := 0, gotCP := false,
    netchan := { remoteAddress := { type := netadrtype_t.NA_BOT, ip := [0, 0, 0, 0], port := 0 },
                 qport := 0, outgoingSequence := 0, unsentFragments := false },
    oldServerTime := 0, frames := List.replicate 32 0, demorecording := false,
    unfixPing := false, chatLogPolicySent := false, chatLogPolicySentTime := 0,
    disableDuelCull := false, jpPlugin := false, smod := 0, smodID := 0,
    isFrozen := false, warnLevel := 0 }

/-! ## Collaborators and globals -/

/-- A ban rule (`serverBan_t`): an address, the width of its subnet mask, and
whether the rule is an exception from the bans. -/
structure serverBan_t where
  ip : netadr_t
  subnet : Int
  isexception : Bool
  deriving DecidableEq, Repr

/-- A configuration variable as the code reads it (`->string`, `->integer`). -/
structure cvar_t where
  string : String
  integer : Int
  deriving DecidableEq, Repr

/-- The handlers of the SMOD command table (`smodcmd_t::func`). -/
inductive smodFunc where
  | Freeze
  | Warn
  | WarnLevel
  | Bring
  | Teleport
  | Cheats
  | JAguid
  | Tell
  | Slay
  deriving DecidableEq, Repr

/-- A call made by the code of a slot to something outside the slot, in the
order of the source.  `toAll` is `true` for `SV_SendServerCommand( NULL, ... )`.

The callees are not part of the embedded files.  A call is recorded in the
trace, and of its writes to the slot those that the specification states are
applied where the call is made (`SV_SetUserinfo`: the userinfo;
`SV_StopRecordDemo`: the recording flag).  Not applied are the writes of
`SV_SendServerCommand`, which queues a reliable command through
`SV_AddServerCommand` (sv_main.cpp): on every addressed slot whose state is at
least `CS_PRIMED` it increments `reliableSequence`, stores the text in
`reliableCommands` and drops the slot when the queue overflows; and the
clearing of `name` by `SV_SetUserinfo` and `SV_BotFreeClient`.  The values of
`reliableSequence`, `reliableCommands` and `name` in a slot after such a
recorded call are those before the callee ran, so the properties of a slot
after such a call are properties of its other fields. -/
inductive Event where
  | SV_SendServerCommand (toAll : Bool) (text : String)
  | Com_Printf (text : String)
  | Com_DPrintf (text : String)
  | smodHandler (f : smodFunc)
  | GVM_ClientCommand (argv : List String)
  | GVM_ClientDisconnect
  | GVM_ClientBegin
  | GVM_ClientThink (cmd : usercmd_t)
  | GVM_ClientUserinfoChanged
  | SV_SendClientSnapshot
  | SV_SendMessageToClient (gamestate : Bool)
  | SV_Netchan_TransmitNextFragment
  | SV_UpdateConfigstrings
  | SVC_WhitelistAdr
  | SV_BeginAutoRecordDemos
  | SV_StopRecordDemo
  | SV_BotFreeClient
  | SV_SetUserinfo (val : String)
  | FS_FCloseFile (f : Int)
  | Z_Free (index : Nat)
  | SV_Heartbeat_f
  | hibernation_lastTimeDisconnected
  | hibernation_enabled_false
  | GVM_ClientConnect
  | NET_OutOfBandPrint (text : String)
  | Z_Malloc (index : Nat)
  | Cvar_Set (name value : String)
  | svc_download_error (errorMessage : String)
  | svc_download_block (block : Int) (downloadSize : Option Int) (blockSize : Int)
      (data : List Nat)
  | previousPacketDeltas (index : Nat) (value : Int)
  | Com_Error (text : String)
  deriving DecidableEq, Repr

/-- A slot together with the calls its code has made so far. -/
structure St where
  cl : client_t
  out : List Event

/-- Append one call to the trace. -/
def St.emit (s : St) (e : Event) : St := { s with out := s.out ++ [e] }

/-- Append one call whose arguments are read from the slot. -/
def St.emitS (s : St) (f : client_t → Event) : St := s.emit (f s.cl)

/-- Write fields of the slot. -/
def St.modify (s : St) (f : client_t → client_t) : St := { s with cl := f s.cl }

/-- A statement guarded by `if (c)`. -/
def St.when (s : St) (c : Bool) (f : St → St) : St := if c then f s else s

/-- A statement guarded by a condition read from the slot. -/
def St.whenS (s : St) (c : client_t → Bool) (f : St → St) : St := if c s.cl then f s else s

/-- Server modifications told apart by `svs.servermod`. -/
inductive servermod_t where
  | SVMOD_UNKNOWN
  | SVMOD_BASEJKA
  | SVMOD_JAPLUS
  | SVMOD_JAPRO
  | SVMOD_MBII
  deriving DecidableEq, Repr

/-- The globals read by the three files and the collaborators they call whose
code is elsewhere.  A global cvar pointer is looked up under the name of the C
variable: `sv_pure->integer` is `(cvar "sv_pure").integer`; `Cvar_Get( name, "", ... )`
is `cvar name`, and a variable that was never set has the empty string and integer 0. -/
structure Engine where
  /-- The index of the slot in `svs.clients` (`cl - svs.clients`). -/
  clientNum : Int
  /-- The other slots of `svs.clients`. -/
  otherClients : List client_t
  /-- Compiled with `DEDICATED`. -/
  DEDICATED : Bool
  /-- Compiled with `FINAL_BUILD`. -/
  FINAL_BUILD : Bool
  /-- The cvar store. -/
  cvar : String → cvar_t
  /-- The value of `svs.time`. -/
  svs_time : Int
  /-- The value of `svs.servermod`. -/
  svs_servermod : servermod_t
  /-- The value of `svs.gvmIsLegacy`. -/
  svs_gvmIsLegacy : Bool
  /-- The value of `svs.gameLoggingEnabled`. -/
  svs_gameLoggingEnabled : Bool
  /-- The value of `sv.time`. -/
  sv_time : Int
  /-- Whether `sv.state == SS_GAME`. -/
  sv_state_is_SS_GAME : Bool
  /-- The value of `sv.serverId`. -/
  sv_serverId : Int
  /-- The value of `sv.restartedServerId`. -/
  sv_restartedServerId : Int
  /-- The value of `sv.checksumFeed`. -/
  sv_checksumFeed : Int
  /-- The tokenizer `Cmd_TokenizeString`: the resulting `Cmd_Argv` vector. -/
  Cmd_TokenizeString : String → List String
  /-- The filesystem lookup `FS_FileIsInPAK( name, &checksum )`: return value and checksum. -/
  FS_FileIsInPAK : String → Int × Int
  /-- The string returned by `FS_LoadedPakPureChecksums()`. -/
  FS_LoadedPakPureChecksums : String
  /-- The localized string lookup `SV_GetStringEdString( refSection, refName )`. -/
  SV_GetStringEdString : String → String → String
  /-- The info-string lookup `Info_ValueForKey( s, key )`. -/
  Info_ValueForKey : String → String → String
  /-- The info string after `Info_SetValueForKey( s, key, value )`. -/
  Info_SetValueForKey : String → String → String → String
  /-- The test `Sys_IsLANAddress( adr )`. -/
  Sys_IsLANAddress : netadr_t → Bool
  /-- The test `NET_IsLocalAddress( adr )`. -/
  NET_IsLocalAddress : netadr_t → Bool
  /-- The string `NET_AdrToString( adr )`. -/
  NET_AdrToString : netadr_t → String
  /-- The macro `Q_IsColorStringExt( p )` as a function of the bytes `p[0]` and `p[1]`. -/
  Q_IsColorStringExt : Char → Char → Bool
  /-- The string `Cmd_Args()` of a tokenized command. -/
  Cmd_Args : List String → String
  /-- The argument vector after `Cmd_Args_Sanitize( length, strip, repl )`. -/
  Cmd_Args_Sanitize : Nat → String → String → List String → List String
  /-- The value of the `sv_legacyFixes` flag constant `SVFIXES_<name>`. -/
  SVFIXES : String → Int
  /-- The configstring `CS_PLAYERS + clientNum` read by `SV_GetConfigstring`. -/
  SV_GetConfigstring_player : String
  /-- The `pm_flags` of `SV_GameClientNum( clientNum )`; `none` when that pointer is NULL. -/
  ps_pm_flags : Option Int
  /-- The constant `PMF_FOLLOW`. -/
  PMF_FOLLOW : Int
  /-- The constant `BUTTON_ATTACK`. -/
  BUTTON_ATTACK : Int
  /-- The constant `BUTTON_ALT_ATTACK`. -/
  BUTTON_ALT_ATTACK : Int
  /-- The constant `FP_LEVITATION`. -/
  FP_LEVITATION : Int
  /-- The constant `NUM_FORCE_POWERS`. -/
  NUM_FORCE_POWERS : Int
  /-- The wire decoder `MSG_ReadDeltaUsercmdKey( msg, key, from, to )`: the
  command decoded from the next encoded command of the message. -/
  MSG_ReadDeltaUsercmdKey : Int → usercmd_t → List Nat → usercmd_t
  /-- The hash `Com_HashKey( string, maxlen )`. -/
  Com_HashKey : String → Int → Int
  /-- The value of `Sys_Milliseconds()`. -/
  Sys_Milliseconds : Int
  /-- The row `previousPacketDeltas[clientNum]` of the file-static ping table. -/
  previousPacketDeltas : List Int
  /-- The entry `previousPacketDeltasIndex[clientNum]` of the file-static ping table. -/
  previousPacketDeltasIndex : Int
  /-- The constant `MAX_DOWNLOAD_BLKSIZE`. -/
  MAX_DOWNLOAD_BLKSIZE : Int
  /-- The names of `FS_ReferencedPakNames()` as `Cmd_TokenizeStringIgnoreQuotes` splits them. -/
  FS_ReferencedPakNames : List String
  /-- The comparison `FS_FilenameCompare( s1, s2 )`: `true` (non-zero) when the names differ. -/
  FS_FilenameCompare : String → String → Bool
  /-- The test `FS_idPak( pak, base )`. -/
  FS_idPak : String → String → Bool
  /-- The call `FS_SV_FOpenFileRead( name, &f )`: the length returned and the handle stored in `f`. -/
  FS_SV_FOpenFileRead : String → Int × Int
  /-- The call `FS_Read( buffer, MAX_DOWNLOAD_BLKSIZE, f )` on a file of which `pos`
  bytes have been read: the count returned and the bytes put into the buffer. -/
  FS_Read : Int → Int → Int × List Nat
  /-- The constant `PROTOCOL_VERSION`. -/
  PROTOCOL_VERSION : Int
  /-- The entries `serverBans[0 .. serverBansCount)`. -/
  serverBans : List serverBan_t
  /-- The test `NET_CompareBaseAdrMask( a, b, netmask )`. -/
  NET_CompareBaseAdrMask : netadr_t → netadr_t → Int → Bool
  /-- The test `NET_CompareBaseAdr( a, b )`. -/
  NET_CompareBaseAdr : netadr_t → netadr_t → Bool
  /-- The test `SV_VerifyChallenge( challenge, from )`. -/
  SV_VerifyChallenge : Int → netadr_t → Bool
  /-- The channel left by `Netchan_Setup( NS_SERVER, chan, adr, qport )`. -/
  Netchan_Setup : netadr_t → Int → netchan_t

/-- The expression `Cmd_Argv( i )` for a tokenized command: the empty string past the end. -/
def Cmd_Argv (argv : List String) (i : Nat) : String := argv.getD i ""

/-- The expression `Cmd_Argc()` for a tokenized command. -/
def Cmd_Argc (argv : List String) : Int := (argv.length : Int)

/-! ## smod.h / smod.cpp -/

namespace SMOD

def SMOD_ADMIN_START : Int := 1
def SMOD_ADMIN_END : Int := 16
def SMOD_LOGGED_OUT : Int := -1

/-- The colour escape `S_COLOR_YELLOW` of q_shared. -/
def S_COLOR_YELLOW : String := "^3"

/-- An entry of the command table (`smodcmd_t`). -/
structure smodcmd_t where
  name : String
  lvl : Int
  func : smodFunc
  deriving DecidableEq, Repr

/-- The table `smodcmds` without its terminating `{NULL, NULL, NULL}` entry. -/
def smodcmds : List smodcmd_t :=
  [ { name := "freeze", lvl := 0x40000, func := smodFunc.Freeze },
    { name := "warn", lvl := 0x80000, func := smodFunc.Warn },
    { name := "warnlvl", lvl := 0x100000, func := smodFunc.WarnLevel },
    { name := "bring", lvl := 0x1000000, func := smodFunc.Bring },
    { name := "tp", lvl := 0x1000000, func := smodFunc.Teleport },
    { name := "cheats", lvl := 0x2000000, func := smodFunc.Cheats },
    { name := "jaguid", lvl := 0x4000000, func := smodFunc.JAguid },
    { name := "tell", lvl := 0x8000000, func := smodFunc.Tell },
    { name := "slay", lvl := 0x10000000, func := smodFunc.Slay } ]

/-- SMOD::IsEnabled. -/
def IsEnabled (e : Engine) : Bool := (e.cvar "g_smodconfig_1").integer != 0

/-- SMOD::GetMaxWarnLevel. -/
def GetMaxWarnLevel (e : Engine) : Int := (e.cvar "g_maxWarnLevel").integer

/-- SMOD::AuthenticateClient. -/
def AuthenticateClient (e : Engine) (cl : client_t) (id : Int) (password : String) : client_t :=
  if cl.state ≠ CS_ACTIVE ∨ ¬ IsEnabled e then cl
  else if id < SMOD_ADMIN_START ∨ id > SMOD_ADMIN_END then cl
  else
    let config := "g_smodAdminPassword_" ++ toString id
    let adminPass := (e.cvar config).string
    if adminPass = "" then cl
    else if password = adminPass then
      let smodString := "g_smodconfig_" ++ toString id
      { cl with smodID := id, smod := (e.cvar smodString).integer }
    else cl

/-- SMOD::LogoutClient. -/
def LogoutClient (cl : client_t) : client_t :=
  { cl with smodID := SMOD_LOGGED_OUT, smod := SMOD_LOGGED_OUT, isFrozen := false, warnLevel := 0 }

/-- SMOD::IsLoggedIn. -/
def IsLoggedIn (cl : client_t) : Bool :=
  decide (cl.smod > SMOD_LOGGED_OUT) && decide (cl.smodID > SMOD_LOGGED_OUT)

/-- The loop of SMOD::GetCommandFromString over a table. -/
def findCommand (cmd : String) : List smodcmd_t → Option smodcmd_t
  | [] => none
  | c :: cs => if cmd = c.name then some c else findCommand cmd cs

/-- SMOD::GetCommandFromString (`none` is `NULL`). -/
def GetCommandFromString (cmd : String) : Option smodcmd_t := findCommand cmd smodcmds

/-- SMOD::IsAuthorized. -/
def IsAuthorized (cl : client_t) (cmd : Option smodcmd_t) : Bool :=
  match cmd with
  | none => false
  | some c => if and32 cl.smod c.lvl = c.lvl then true else false

/-- SMOD::Print. -/
def Print (s : St) (msg : String) : St :=
  s.emit (Event.SV_SendServerCommand false ("print \"" ++ S_COLOR_YELLOW ++ msg ++ "\n\"\n"))

/-- SMOD::CommandCheck. -/
def CommandCheck (e : Engine) (src : St) (cmd : Option smodcmd_t) : Bool × St :=
  if src.cl.state ≠ CS_ACTIVE ∨ ¬ IsEnabled e then (false, src)
  else if cmd = none then (false, src)
  else if ¬ IsLoggedIn src.cl then
    (false, Print src "You have to be logged in in order to use this command.")
  else if ¬ IsAuthorized src.cl cmd then
    (false, Print src "This command is not enabled for your SMOD admin account.")
  else (true, src)

/-- SMOD::Execute.  The call `cmd->func(src)` is recorded as `Event.smodHandler`. -/
def Execute (e : Engine) (src : St) (cmdStr : String) : Bool × St :=
  let cmd := GetCommandFromString cmdStr
  match CommandCheck e src cmd with
  | (false, s) => (false, s)
  | (true, s) =>
    match cmd with
    | some c => (true, s.emit (Event.smodHandler c.func))
    | none => (true, s)

end SMOD

/-! ## sv_client.cpp: dropping a client, gamestate, entering the world -/

def MAX_DOWNLOAD_WINDOW : Nat := 8
def MAX_RELIABLE_COMMANDS : Nat := 64
def MAX_PACKET_USERCMDS : Nat := 32
def PACKET_BACKUP : Nat := 32
def MAX_INFO_STRING : Nat := 1024
def S_COLOR_WHITE : String := "^7"
def S_COLOR_RED : String := "^1"

/-- The `Z_Free` calls of SV_CloseDownload: one for every window buffer that is allocated. -/
def downloadFreeEvents (blocks : List (Option (List Nat))) : List Event :=
  (List.range MAX_DOWNLOAD_WINDOW).filterMap
    (fun i => if (blocks.getD i none).isSome then some (Event.Z_Free i) else none)

/-- SV_CloseDownload. -/
def SV_CloseDownload (s : St) : St :=
  { cl := { s.cl with download := 0, downloadName := "",
                      downloadBlocks := List.replicate MAX_DOWNLOAD_WINDOW none },
    out := s.out ++ (if s.cl.download ≠ 0 then [Event.FS_FCloseFile s.cl.download] else [])
            ++ downloadFreeEvents s.cl.downloadBlocks }

/-- Modelled from the spec: `SV_SetUserinfo( index, val )` of the server's
game interface, called by SV_DropClient with the empty string to "clear
userinfo": the slot's userinfo becomes `val`. -/
def SV_SetUserinfo (s : St) (val : String) : St :=
  (s.emit (Event.SV_SetUserinfo val)).modify (fun cl => { cl with userinfo := val })

/-- Modelled from the spec: `SV_StopRecordDemo( cl )` of the demo recorder
("stop demo recorder if recording"): the slot no longer records. -/
def SV_StopRecordDemo (s : St) : St :=
  (s.emit Event.SV_StopRecordDemo).modify (fun cl => { cl with demorecording := false })

/-- A slot counted by the population scans: `state >= CS_CONNECTED`. -/
def isConnected (c : client_t) : Bool := decide (c.state.toInt ≥ CS_CONNECTED.toInt)

/-- The first scan at the end of SV_DropClient: some slot is connected and not a bot. -/
def anyHumans (table : List client_t) : Bool :=
  table.any (fun c => isConnected c && decide (c.netchan.remoteAddress.type ≠ netadrtype_t.NA_BOT))

/-- The second scan at the end of SV_DropClient: no slot is connected. -/
def noneConnected (table : List client_t) : Bool := table.all (fun c => ! isConnected c)

/-- SV_DropClient.  The two scans at the end run over the whole of
`svs.clients`: this slot and `Engine.otherClients`. -/
def SV_DropClient (e : Engine) (drop : St) (reason : String) : St :=
  let isBot : Bool := decide (drop.cl.netchan.remoteAddress.type = netadrtype_t.NA_BOT)
  if drop.cl.state = CS_ZOMBIE then drop
  else
    (SV_CloseDownload drop)
    |>.when e.DEDICATED (fun s => s.modify
        (fun cl => { cl with chatLogPolicySentTime := 0, chatLogPolicySent := false }))
    |>.emitS (fun cl => Event.SV_SendServerCommand true
        ("print \"" ++ cl.name ++ S_COLOR_WHITE ++ " " ++ reason ++ "\n\""))
    |>.emit Event.GVM_ClientDisconnect
    |>.emit (Event.SV_SendServerCommand false ("disconnect \"" ++ reason ++ "\""))
    |>.when isBot (fun s => s.emit Event.SV_BotFreeClient)
    |> (fun s => SV_SetUserinfo s "")
    |>.when isBot (fun s => s.modify (fun cl => { cl with state := CS_FREE }))
    |>.when (! isBot) (fun s =>
        (s.emitS (fun cl => Event.Com_DPrintf ("Going to CS_ZOMBIE for " ++ cl.name ++ "\n"))).modify
          (fun cl => { cl with state := CS_ZOMBIE }))
    |>.whenS (fun cl => cl.demorecording) SV_StopRecordDemo
    |>.whenS (fun cl => noneConnected (cl :: e.otherClients)) (fun s => s.emit Event.SV_Heartbeat_f)
    |>.whenS (fun cl => ! anyHumans (cl :: e.otherClients))
        (fun s => s.emit Event.hibernation_lastTimeDisconnected)

/-- SV_SendClientGameState.  The loop that drains pending fragments runs until
the netchan reports none: it is one `SV_Netchan_TransmitNextFragment` event
and a cleared `unsentFragments`.  The message written by
SV_CreateClientGameStateMessage is handed to `SV_SendMessageToClient`. -/
def SV_SendClientGameState (_e : Engine) (client : St) : St :=
  client
  |>.whenS (fun cl => decide (cl.state ≠ CS_FREE) && cl.netchan.unsentFragments) (fun s =>
      ((s.emitS (fun cl => Event.Com_Printf
          ("[ISM]SV_SendClientGameState() [2] for " ++ cl.name ++ ", writing out old fragments\n"))).emit
        Event.SV_Netchan_TransmitNextFragment).modify
        (fun cl => { cl with netchan := { cl.netchan with unsentFragments := false } }))
  |>.emitS (fun cl => Event.Com_DPrintf ("SV_SendClientGameState() for " ++ cl.name ++ "\n"))
  |>.emitS (fun cl => Event.Com_DPrintf ("Going from CS_CONNECTED to CS_PRIMED for " ++ cl.name ++ "\n"))
  |>.whenS (fun cl => decide (cl.state = CS_CONNECTED))
      (fun s => s.modify (fun cl => { cl with state := CS_PRIMED }))
  |>.modify (fun cl => { cl with pureAuthentic := 0, gotCP := false })
  |>.modify (fun cl => { cl with gamestateMessageNum := cl.netchan.outgoingSequence })
  |>.emit (Event.SV_SendMessageToClient true)

/-- SV_ClientEnterWorld; `cmd = none` is a NULL `cmd`. -/
def SV_ClientEnterWorld (e : Engine) (client : St) (cmd : Option usercmd_t) : St :=
  client
  |>.emitS (fun cl => Event.Com_DPrintf ("Going from CS_PRIMED to CS_ACTIVE for " ++ cl.name ++ "\n"))
  |>.modify (fun cl => { cl with state := CS_ACTIVE })
  |>.when (decide ((e.cvar "sv_autoWhitelist").integer ≠ 0)) (fun s => s.emit Event.SVC_WhitelistAdr)
  |>.emit Event.SV_UpdateConfigstrings
  |>.modify (fun cl => { cl with gentity := some e.clientNum })
  |>.modify (fun cl => { cl with lastUserInfoChange := 0, lastUserInfoCount := 0 })
  |>.modify (fun cl => { cl with deltaMessage := -1, nextSnapshotTime := e.svs_time })
  |>.modify (fun cl => { cl with lastUsercmd := cmd.getD usercmd_t.zero })
  |>.emit Event.GVM_ClientBegin
  |>.emit Event.SV_BeginAutoRecordDemos

/-! ## sv_client.cpp: download commands -/

/-- The tokenized command seen by a handler and left behind by it
(`Cmd_TokenizeString` keeps one global argument vector). -/
abbrev Argv := List String

/-- SV_StopDownload_f. -/
def SV_StopDownload_f (e : Engine) (s : St) (argv : Argv) : St × Argv :=
  if s.cl.state = CS_ACTIVE then (s, argv)
  else
    (SV_CloseDownload (s.whenS (fun cl => decide (cl.downloadName ≠ "")) (fun s => s.emitS
      (fun cl => Event.Com_DPrintf ("clientDownload: " ++ toString e.clientNum ++ " : file \""
        ++ cl.downloadName ++ "\" aborted\n")))),
     argv)

/-- SV_DoneDownload_f. -/
def SV_DoneDownload_f (e : Engine) (s : St) (argv : Argv) : St × Argv :=
  if s.cl.state = CS_ACTIVE then (s, argv)
  else
    (SV_SendClientGameState e
      (s.emitS (fun cl => Event.Com_DPrintf ("clientDownload: " ++ cl.name ++ " Done\n"))), argv)

/-- The expression `cl->downloadBlockSize[ block % MAX_DOWNLOAD_WINDOW ]`. -/
def downloadBlockSizeAt (cl : client_t) (block : Int) : Int :=
  cl.downloadBlockSize.getD (Int.tmod block MAX_DOWNLOAD_WINDOW).toNat 0

/-- SV_NextDownload_f. -/
def SV_NextDownload_f (e : Engine) (s : St) (argv : Argv) : St × Argv :=
  let block := atoi (Cmd_Argv argv 1)
  if s.cl.state = CS_ACTIVE then (s, argv)
  else if block = s.cl.downloadClientBlock then
    let s1 := s.emit (Event.Com_DPrintf
      ("clientDownload: " ++ toString e.clientNum ++ " : client acknowledge of block "
        ++ toString block ++ "\n"))
    if downloadBlockSizeAt s.cl s.cl.downloadClientBlock = 0 then
      (SV_CloseDownload (s1.emitS (fun cl => Event.Com_Printf
        ("clientDownload: " ++ toString e.clientNum ++ " : file \"" ++ cl.downloadName
          ++ "\" completed\n"))), argv)
    else
      (s1.modify (fun cl => { cl with downloadSendTime := e.svs_time,
                                      downloadClientBlock := cl.downloadClientBlock + 1 }), argv)
  else (SV_DropClient e s "broken download", argv)

/-- The size of `client_t::downloadName` (MAX_QPATH). -/
def MAX_QPATH : Nat := 64

/-- SV_BeginDownload_f. -/
def SV_BeginDownload_f (_e : Engine) (s : St) (argv : Argv) : St × Argv :=
  if s.cl.state = CS_ACTIVE then (s, argv)
  else
    ((SV_CloseDownload s).modify
      (fun cl => { cl with downloadName := Q_strncpyz (Cmd_Argv argv 1) MAX_QPATH }), argv)

/-! ## sv_client.cpp: disconnect and the purity commands -/

/-- SV_Disconnect_f. -/
def SV_Disconnect_f (e : Engine) (s : St) (argv : Argv) : St × Argv :=
  (SV_DropClient e s (e.SV_GetStringEdString "MP_SVGAME" "DISCONNECTED"), argv)

/-- The duplicate scan of SV_VerifyPaks_f over the first `n` stored checksums:
true when `nClientChkSum[i] == nClientChkSum[j]` for some `i != j` below `n`. -/
def clientChkSumRepeats (nClientChkSum : List Int) (n : Nat) : Bool :=
  (List.range n).any (fun i => (List.range n).any
    (fun j => i != j && decide (nClientChkSum.getD i 0 = nClientChkSum.getD j 0)))

/-- The membership scan of SV_VerifyPaks_f: true when some of the first `n`
stored client checksums equals none of the server checksums. -/
def clientChkSumUnknown (nClientChkSum : List Int) (n : Nat) (nServerChkSum : List Int) : Bool :=
  (List.range n).any (fun i => ! (List.range nServerChkSum.length).any
    (fun j => decide (nClientChkSum.getD i 0 = nServerChkSum.getD j 0)))

/-- The checksums stored from `FS_LoadedPakPureChecksums()`: `nServerPaks` is
capped at 1024, every token (from index 0) is read with `atoi`. -/
def serverPureChecksums (e : Engine) : List Int :=
  ((e.Cmd_TokenizeString e.FS_LoadedPakPureChecksums).take 1024).map atoi

/-- The value compared with the last client number: `sv.checksumFeed` xor
the first `n` stored checksums xor `n`. -/
def pureChecksumXor (feed : Int) (nClientChkSum : List Int) (n : Nat) : Int :=
  xor32 ((nClientChkSum.take n).foldl xor32 feed) (n : Int)

/-- The body of the `while (bGood)` block of SV_VerifyPaks_f: the final value
of `bGood` and the argument vector left behind (the block re-tokenizes with
the server's checksum string once the duplicate scan has passed). -/
def SV_VerifyPaks_checks (e : Engine) (argv : Argv) (nChkSum1 nChkSum2 : Int) : Bool × Argv :=
  if Cmd_Argc argv < 6 then (false, argv)
  else if firstChar (Cmd_Argv argv 1) = '@' ∨ atoi (Cmd_Argv argv 1) ≠ nChkSum1 then (false, argv)
  else if firstChar (Cmd_Argv argv 2) = '@' ∨ atoi (Cmd_Argv argv 2) ≠ nChkSum2 then (false, argv)
  else if firstChar (Cmd_Argv argv 3) ≠ '@' then (false, argv)
  else
    let nClientChkSum := (argv.drop 4).map atoi
    let nClientPaks := nClientChkSum.length - 1
    if clientChkSumRepeats nClientChkSum nClientPaks then (false, argv)
    else
      let argvServer := e.Cmd_TokenizeString e.FS_LoadedPakPureChecksums
      let nServerChkSum := serverPureChecksums e
      if clientChkSumUnknown nClientChkSum nClientPaks nServerChkSum then (false, argvServer)
      else if pureChecksumXor e.sv_checksumFeed nClientChkSum nClientPaks
          ≠ nClientChkSum.getD nClientPaks 0 then (false, argvServer)
      else (true, argvServer)

/-- The value of `bGood` when SV_VerifyPaks_f leaves its `while` block, and
the argument vector left behind: the two `FS_FileIsInPAK` lookups, then the
block itself. -/
def SV_VerifyPaks_bGood (e : Engine) (argv : Argv) : Bool × Argv :=
  let r1 := e.FS_FileIsInPAK "cgamex86.dll"
  if r1.1 = 1 then
    let r2 := e.FS_FileIsInPAK "uix86.dll"
    if r2.1 = 1 then SV_VerifyPaks_checks e argv r1.2 r2.2 else (false, argv)
  else (false, argv)

/-- The reason given by SV_VerifyPaks_f when it drops a client. -/
def unpureReason : String := "Unpure client detected. Invalid .PK3 files referenced!"

/-- SV_VerifyPaks_f. -/
def SV_VerifyPaks_f (e : Engine) (s : St) (argv : Argv) : St × Argv :=
  if (e.cvar "sv_pure").integer ≠ 0 then
    let chk := SV_VerifyPaks_bGood e argv
    let s1 := s.modify (fun cl => { cl with gotCP := true })
    if chk.1 then (s1.modify (fun cl => { cl with pureAuthentic := 1 }), chk.2)
    else
      (SV_DropClient e
        ((s1.modify (fun cl => { cl with pureAuthentic := 0, nextSnapshotTime := -1,
                                         state := CS_ACTIVE })).emit Event.SV_SendClientSnapshot)
        unpureReason, chk.2)
  else (s, argv)

/-- SV_ResetPureClient_f. -/
def SV_ResetPureClient_f (_e : Engine) (s : St) (argv : Argv) : St × Argv :=
  (s.modify (fun cl => { cl with pureAuthentic := 0, gotCP := false }), argv)

/-! ## sv_client.cpp: SV_ClientCleanName and SV_UserinfoChanged -/

def INFO_CHANGE_MIN_INTERVAL : Int := 6000
def INFO_CHANGE_MAX_COUNT : Int := 3
def Q_COLOR_ESCAPE : Char := '^'

/-- The size of `client_t::name` and of the `cleanName` buffer. -/
def MAX_NAME_LENGTH : Nat := 64

/-- Upper-case an ASCII letter, as Q_stricmpn does before comparing. -/
def upperAscii (c : Char) : Char :=
  if 'a' ≤ c ∧ c ≤ 'z' then Char.ofNat (c.toNat - 32) else c

/-- Modelled from the spec: the test `!Q_stricmpn( s1, s2, n )` of q_shared,
the case-insensitive comparison of at most `n` bytes by which commands and
values are recognised: true when the two strings agree, ignoring ASCII case,
on their first `n` bytes. -/
def Q_stricmpn_eq (s1 s2 : String) (n : Nat) : Bool :=
  (s1.toList.take n).map upperAscii == (s2.toList.take n).map upperAscii

/-- The lookahead test of SV_ClientCleanName: `*in`, `in[1]`, `in[2]` are all
blanks or all `@`, with `in[1]` and `in[2]` inside the string. -/
def cleanNameTriple (c : Char) (rest : List Char) : Bool :=
  match rest with
  | c1 :: c2 :: _ =>
    (c == ' ' && c1 == ' ' && c2 == ' ') || (c == '@' && c1 == '@' && c2 == '@')
  | _ => false

/-- The bytes that SV_ClientCleanName drops in its `switch`. -/
def cleanNameBlacklist : List Nat := [0x81, 0x8D, 0x8F, 0x90, 0x9D, 0xA0, 0xAD]

/-- The main loop of SV_ClientCleanName over the rest of the input: `out` is
`out[0..outpos)`, the result is the final `out` and `colorlessLen`. -/
def cleanNameLoop (e : Engine) (outSize : Nat) : List Char → List Char → Int → List Char × Int
  | [], out, colorlessLen => (out, colorlessLen)
  | c :: rest, out, colorlessLen =>
    if ¬ (out.length < outSize - 1) then (out, colorlessLen)
    else if cleanNameTriple c rest then cleanNameLoop e outSize rest out colorlessLen
    else if c.toNat < 0x20 then cleanNameLoop e outSize rest out colorlessLen
    else if c.toNat ∈ cleanNameBlacklist then cleanNameLoop e outSize rest out colorlessLen
    else if out.getLast? = some Q_COLOR_ESCAPE then
      if e.Q_IsColorStringExt Q_COLOR_ESCAPE c then
        cleanNameLoop e outSize rest (out ++ [c]) (colorlessLen - 1)
      else cleanNameLoop e outSize rest (out ++ [c]) (colorlessLen + 1)
    else cleanNameLoop e outSize rest (out ++ [c]) (colorlessLen + 1)

/-- SV_ClientCleanName: the string left in `out`. -/
def SV_ClientCleanName (e : Engine) (inp : String) (outSize : Nat) : String :=
  let in1 := inp.toList.dropWhile (fun c => c == ' ')
  let in2 := if e.svs_servermod = servermod_t.SVMOD_BASEJKA then in1.dropWhile (fun c => c == '*')
    else in1
  let r := cleanNameLoop e outSize in2 [] 0
  if r.1 = [] ∨ r.2 = 0 then Q_strncpyz "Padawan" outSize else String.mk r.1

/-- The expression `sv_legacyFixes->integer && !(sv_legacyFixes->integer & SVFIXES_<flag>)`. -/
def legacyFix (e : Engine) (flag : String) : Bool :=
  decide ((e.cvar "sv_legacyFixes").integer ≠ 0)
    && decide (and32 (e.cvar "sv_legacyFixes").integer (e.SVFIXES flag) = 0)

/-- SV_UserinfoChanged, the name. -/
def userinfoName (e : Engine) (s : St) : St :=
  if legacyFix e "ALLOW_INVALID_PLAYER_NAMES" ∧ e.svs_servermod ≠ servermod_t.SVMOD_JAPLUS
      ∧ e.svs_servermod ≠ servermod_t.SVMOD_MBII ∧ e.svs_servermod ≠ servermod_t.SVMOD_JAPRO then
    s.modify (fun cl =>
      let cleanName := SV_ClientCleanName e (e.Info_ValueForKey cl.userinfo "name") MAX_NAME_LENGTH
      { cl with userinfo := e.Info_SetValueForKey cl.userinfo "name" cleanName,
                name := Q_strncpyz cleanName MAX_NAME_LENGTH })
  else
    s.modify (fun cl =>
      { cl with name := Q_strncpyz (e.Info_ValueForKey cl.userinfo "name") MAX_NAME_LENGTH })

/-- The rate chosen under `sv_ratePolicy == 2` for the client's `rate` value. -/
def userinfoRateValue (e : Engine) (val : String) : Int :=
  let i := atoi val
  let i := if i = 0 then (e.cvar "sv_maxRate").integer else i
  let i := Com_Clampi 1000 100000 i
  Com_Clampi (e.cvar "sv_minRate").integer (e.cvar "sv_maxRate").integer i

/-- SV_UserinfoChanged, the rate command. -/
def userinfoRate (e : Engine) (s : St) : St :=
  s.modify (fun cl =>
    if e.Sys_IsLANAddress cl.netchan.remoteAddress ∧ (e.cvar "com_dedicated").integer ≠ 2
        ∧ (e.cvar "sv_lanForceRate").integer = 1 then { cl with rate := 100000 }
    else if (e.cvar "sv_ratePolicy").integer = 1 then
      { cl with rate := (e.cvar "sv_clientRate").integer }
    else if (e.cvar "sv_ratePolicy").integer = 2 then
      { cl with rate := userinfoRateValue e (e.Info_ValueForKey cl.userinfo "rate") }
    else cl)

/-- The local `minSnaps` of SV_UserinfoChanged. -/
def userinfoMinSnaps (e : Engine) : Int :=
  if (e.cvar "sv_snapsMin").integer > 0 then
    Com_Clampi 1 (e.cvar "sv_snapsMax").integer (e.cvar "sv_snapsMin").integer
  else 1

/-- The local `maxSnaps` of SV_UserinfoChanged. -/
def userinfoMaxSnaps (e : Engine) : Int :=
  if (e.cvar "sv_snapsMax").integer > 0 then
    min (e.cvar "sv_fps").integer (e.cvar "sv_snapsMax").integer
  else (e.cvar "sv_fps").integer

/-- The update `if (i != cl->snapshotMsec) { cl->nextSnapshotTime = -1; cl->snapshotMsec = i; }`. -/
def setSnapshotMsec (cl : client_t) (i : Int) : client_t :=
  if i ≠ cl.snapshotMsec then { cl with nextSnapshotTime := -1, snapshotMsec := i } else cl

/-- SV_UserinfoChanged, the snaps command.  `/` is C division (truncation);
for a divisor 0, where C leaves the result undefined, the quotient here is 0. -/
def userinfoSnaps (e : Engine) (s : St) : St :=
  s.modify (fun cl =>
    let wish := atoi (e.Info_ValueForKey cl.userinfo "snaps")
    let cl := { cl with wishSnaps := if wish = 0 then userinfoMaxSnaps e else wish }
    if (e.cvar "sv_fps").integer ≠ 0 ∧ (e.cvar "sv_snapsPolicy").integer = 1 then
      setSnapshotMsec { cl with wishSnaps := (e.cvar "sv_fps").integer }
        (Int.tdiv 1000 (e.cvar "sv_fps").integer)
    else if (e.cvar "sv_snapsPolicy").integer = 2 then
      setSnapshotMsec cl
        (Int.tdiv 1000 (Com_Clampi (userinfoMinSnaps e) (userinfoMaxSnaps e) cl.wishSnaps))
    else cl)

/-- SV_UserinfoChanged, the ip information. -/
def userinfoIp (e : Engine) (s : St) : St :=
  let ip := if e.NET_IsLocalAddress s.cl.netchan.remoteAddress then "localhost"
    else e.NET_AdrToString s.cl.netchan.remoteAddress
  let val := e.Info_ValueForKey s.cl.userinfo "ip"
  let len : Int := if val ≠ "" then (ip.length : Int) - val.length + s.cl.userinfo.length
    else (ip.length : Int) + 4 + s.cl.userinfo.length
  if len ≥ MAX_INFO_STRING then SV_DropClient e s "userinfo string length exceeded"
  else s.modify (fun cl => { cl with userinfo := e.Info_SetValueForKey cl.userinfo "ip" ip })

/-- The `badModel` test of SV_UserinfoChanged on the `model` value. -/
def userinfoBadModel (val : String) : Bool :=
  (Q_stricmpn_eq val "jedi_" val.length
    && (Q_stricmpn_eq val "jedi_/red" val.length || Q_stricmpn_eq val "jedi_/blue" val.length))
  || Q_stricmpn_eq val "rancor" 6 || Q_stricmpn_eq val "wampa" 5

/-- SV_UserinfoChanged, the model (the part compiled under `DEDICATED`). -/
def userinfoModel (e : Engine) (s : St) : St :=
  let val := e.Info_ValueForKey s.cl.userinfo "model"
  if e.DEDICATED then
    s
    |>.when (Q_stricmpn_eq val "darksidetools" 13
        && decide (s.cl.netchan.remoteAddress.type ≠ netadrtype_t.NA_LOOPBACK)) (fun s =>
      (s.emitS (fun cl => Event.Com_Printf
        (S_COLOR_RED ++ "Detected DST injection from client " ++ S_COLOR_WHITE ++ cl.name ++ "\n")))
      |>.when (decide ((e.cvar "sv_antiDST").integer ≠ 0)) (fun s =>
        (SV_DropClient e s "was kicked for cheating by JKA.io").modify
          (fun cl => { cl with lastPacketTime := e.svs_time })))
    |>.when (legacyFix e "ALLOW_BROKEN_MODELS" && decide (e.svs_servermod ≠ servermod_t.SVMOD_MBII)
        && userinfoBadModel val) (fun s =>
      s.modify (fun cl => { cl with userinfo := e.Info_SetValueForKey cl.userinfo "model" "kyle" }))
  else s

/-- The validity loop of SV_UserinfoChanged over `forcePowers[i..]`: whether it
ended with `badForce` set, and the final `seps`. -/
def forcePowersScan (prev : Option Char) (i seps : Nat) : List Char → Bool × Nat
  | [] => (false, seps)
  | c :: rest =>
    if c ≠ '-' ∧ (c < '0' ∨ c > '9') then (true, seps)
    else if c = '-' ∧ (i < 1 ∨ i > 5) then (true, seps)
    else if i ≠ 0 ∧ prev = some '-' ∧ c = '-' then (true, seps)
    else forcePowersScan (some c) (i + 1) (if c = '-' then seps + 1 else seps) rest

/-- The final `badForce` of SV_UserinfoChanged for the copied `forcePowers` buffer. -/
def badForce (forcePowers : String) : Bool :=
  if 22 ≤ forcePowers.length ∧ forcePowers.length ≤ 24 then
    let r := forcePowersScan none 0 0 forcePowers.toList
    r.1 || decide (r.2 % 256 ≠ 2)
  else true

/-- SV_UserinfoChanged, the force powers. -/
def userinfoForcepowers (e : Engine) (s : St) : St :=
  if legacyFix e "ALLOW_INVALID_FORCEPOWERS" then
    s.modify (fun cl =>
      let forcePowers := Q_strncpyz (e.Info_ValueForKey cl.userinfo "forcepowers") 30
      let forcePowers := if badForce forcePowers then Q_strncpyz "7-1-030000000000003332" 30
        else forcePowers
      { cl with userinfo := e.Info_SetValueForKey cl.userinfo "forcepowers" forcePowers })
  else s

/-- SV_UserinfoChanged, the plugin flags (compiled under `DEDICATED`). -/
def userinfoPlugin (e : Engine) (s : St) : St :=
  if e.DEDICATED then
    s.modify (fun cl =>
      let cl := { cl with disableDuelCull := false, jpPlugin := false }
      if (e.svs_servermod = servermod_t.SVMOD_JAPLUS ∨ e.svs_servermod = servermod_t.SVMOD_JAPRO)
          ∧ (e.Info_ValueForKey cl.userinfo "cjp_client").length ≥ 3 then
        if e.svs_servermod = servermod_t.SVMOD_JAPRO
            ∧ and32 (atoi (e.Info_ValueForKey cl.userinfo "cp_pluginDisable")) 2 ≠ 0 then
          { cl with jpPlugin := true, disableDuelCull := true }
        else { cl with jpPlugin := true }
      else cl)
  else s

/-- SV_UserinfoChanged. -/
def SV_UserinfoChanged (e : Engine) (s : St) : St :=
  s |> userinfoName e |> userinfoRate e |> userinfoSnaps e |> userinfoIp e |> userinfoModel e
    |> userinfoForcepowers e |> userinfoPlugin e

/-- SV_UpdateUserinfo_f. -/
def SV_UpdateUserinfo_f (e : Engine) (s : St) (argv : Argv) : St × Argv :=
  let arg := Cmd_Argv argv 1
  let apply (s : St) : St :=
    (SV_UserinfoChanged e
      (s.modify (fun cl => { cl with userinfo := Q_strncpyz arg MAX_INFO_STRING }))).emit
      Event.GVM_ClientUserinfoChanged
  if arg = "" then (s, argv)
  else if e.FINAL_BUILD ∧ s.cl.lastUserInfoChange > e.svs_time then
    let s1 := s.modify (fun cl => { cl with lastUserInfoCount := cl.lastUserInfoCount + 1 })
    if s1.cl.lastUserInfoCount ≥ INFO_CHANGE_MAX_COUNT then
      ((s1.modify (fun cl => { cl with userinfoPostponed := Q_strncpyz arg MAX_INFO_STRING })).emit
        (Event.SV_SendServerCommand false
          "print \"Warning: Too many info changes, last info postponed\n\"\n"), argv)
    else (apply s1, argv)
  else
    (apply (s.modify (fun cl => { cl with userinfoPostponed := "", lastUserInfoCount := 0,
                                          lastUserInfoChange := e.svs_time + INFO_CHANGE_MIN_INTERVAL })),
      argv)

/-! ## sv_client.cpp: client command execution -/

/-- An entry of the table `ucmds` (`ucmd_t`). -/
structure ucmd_t where
  name : String
  func : Engine → St → Argv → St × Argv

/-- The table `ucmds` without its terminating `{NULL, NULL}` entry. -/
def ucmds : List ucmd_t :=
  [ { name := "userinfo", func := SV_UpdateUserinfo_f },
    { name := "disconnect", func := SV_Disconnect_f },
    { name := "cp", func := SV_VerifyPaks_f },
    { name := "vdr", func := SV_ResetPureClient_f },
    { name := "download", func := SV_BeginDownload_f },
    { name := "nextdl", func := SV_NextDownload_f },
    { name := "stopdl", func := SV_StopDownload_f },
    { name := "donedl", func := SV_DoneDownload_f } ]

/-- The lookup loop of SV_ExecuteClientCommand: the first entry whose name is
`cmd`; `none` when the loop ends on the terminating entry (`!u->name`). -/
def findUcmd (cmd : String) : List ucmd_t → Option ucmd_t
  | [] => none
  | u :: us => if cmd = u.name then some u else findUcmd cmd us

/-- The check under `DEDICATED` for a `jkaDST_` command, made after the server-level handler. -/
def antiDST (e : Engine) (cmd : String) (s : St) : St :=
  s.when (e.DEDICATED && Q_stricmpn_eq cmd "jkaDST_" 7
      && decide (s.cl.netchan.remoteAddress.type ≠ netadrtype_t.NA_LOOPBACK)) (fun s =>
    (s.emitS (fun cl => Event.Com_Printf
      (S_COLOR_RED ++ "Detected DST command from client " ++ S_COLOR_WHITE ++ cl.name ++ "\n")))
    |>.when (decide ((e.cvar "sv_antiDST").integer ≠ 0)) (fun s =>
      (SV_DropClient e s "was kicked for cheating by JKA.io").modify
        (fun cl => { cl with lastPacketTime := e.svs_time })))

/-- The local `sayCmd` of SV_ExecuteClientCommand. -/
def isSayCmd (cmd : String) : Bool :=
  Q_stricmpn_eq cmd "say" 3 || Q_stricmpn_eq cmd "say_team" 8 || Q_stricmpn_eq cmd "tell" 4

/-- Whether one of the `sv_legacyFixes` filters of SV_ExecuteClientCommand
clears `clientOK` for the command `cmd arg1 arg2`. -/
def legacyBlocked (e : Engine) (cmd arg1 arg2 : String) : Bool :=
  decide ((e.cvar "sv_legacyFixes").integer ≠ 0) && decide (e.svs_servermod ≠ servermod_t.SVMOD_MBII)
  && ((legacyFix e "DISABLE_GC_CRASHFIX" && Q_stricmpn_eq cmd "gc" 2
        && decide (atoi arg1 ≥ (e.cvar "sv_maxclients").integer))
    || (legacyFix e "DISABLE_NPC_CRASHFIX" && decide (e.svs_servermod ≠ servermod_t.SVMOD_JAPRO)
        && Q_stricmpn_eq cmd "npc" 3 && Q_stricmpn_eq arg1 "spawn" 5
        && (Q_stricmpn_eq arg2 "ragnos" 6 || Q_stricmpn_eq arg2 "saber_droid" 6))
    || (legacyFix e "DISABLE_TEAM_CRASHFIX" && Q_stricmpn_eq cmd "team" 4
        && (Q_stricmpn_eq arg1 "follow1" 7 || Q_stricmpn_eq arg1 "follow2" 7))
    || (legacyFix e "ALLOW_CALLTEAMVOTE" && decide (e.svs_servermod = servermod_t.SVMOD_BASEJKA)
        && Q_stricmpn_eq cmd "callteamvote" 12)
    || (legacyFix e "ALLOW_NEGATIVE_CALLVOTES" && decide (e.svs_servermod = servermod_t.SVMOD_BASEJKA)
        && Q_stricmpn_eq cmd "callvote" 8
        && (Q_stricmpn_eq arg1 "fraglimit" 9 || Q_stricmpn_eq arg1 "timelimit" 9)
        && decide (atoi arg2 < 0)))

/-- The size given to `Cmd_Args_Sanitize` (MAX_CVAR_VALUE_STRING). -/
def MAX_CVAR_VALUE_STRING : Nat := 256

/-- The arguments handed to the game module: sanitized as `sv_filterCommands` asks. -/
def sanitizedArgs (e : Engine) (sayCmd : Bool) (argv : Argv) : Argv :=
  if (e.cvar "sv_filterCommands").integer ≠ 0 then
    let argv1 := e.Cmd_Args_Sanitize MAX_CVAR_VALUE_STRING "\n\r" "  " argv
    if (e.cvar "sv_filterCommands").integer = 2 ∧ sayCmd = false then
      e.Cmd_Args_Sanitize MAX_CVAR_VALUE_STRING ";" " " argv1
    else argv1
  else argv

/-- SV_ExecuteClientCommand.  `cmd`, `arg1` and `arg2` point into the
tokenizer's buffer; a handler that tokenizes again (`cp`) leaves `cmd` at the
start of the new contents, which only the `jkaDST_` test can observe. -/
def SV_ExecuteClientCommand (e : Engine) (cl : St) (s : String) (clientOK : Bool) : St :=
  let argv := e.Cmd_TokenizeString s
  let cmd := Cmd_Argv argv 0
  let arg1 := Cmd_Argv argv 1
  let arg2 := Cmd_Argv argv 2
  let u := findUcmd cmd ucmds
  let r : St × Argv := match u with
    | some h => h.func e cl argv
    | none => (cl, argv)
  let bProcessed := u.isSome
  let cl1 := antiDST e (match u with | some _ => Cmd_Argv r.2 0 | none => cmd) r.1
  let sayCmd := isSayCmd cmd
  let clientOK := clientOK
    && ! (sayCmd && e.svs_gvmIsLegacy && decide ((e.cvar "sv_legacyFixes").integer ≠ 0)
          && decide ((e.Cmd_Args argv).length > 256))
    && ! legacyBlocked e cmd arg1 arg2
  if clientOK then
    cl1.whenS (fun c => ! bProcessed && e.sv_state_is_SS_GAME
        && (decide (c.state = CS_ACTIVE) || decide (c.state = CS_PRIMED)))
      (fun t => t.emit (Event.GVM_ClientCommand (sanitizedArgs e sayCmd argv)))
  else
    cl1.when (! bProcessed) (fun t => t.emitS (fun c => Event.Com_DPrintf
      ("client text ignored for " ++ c.name ++ ": " ++ cmd ++ "\n")))

/-- The size of `client_t::lastClientCommandString` (MAX_STRING_CHARS). -/
def MAX_STRING_CHARS : Nat := 1024

/-- The flood-protection block of SV_ClientCommand: the value of `clientOk`
and the slot with `lastReliableTime` updated. -/
def floodProtect (e : Engine) (cl : client_t) : Bool × client_t :=
  if (e.cvar "com_cl_running").integer = 0 ∧ cl.state.toInt ≥ CS_ACTIVE.toInt
      ∧ (e.cvar "sv_floodProtect").integer ≠ 0 then
    let floodTime : Int := if (e.cvar "sv_floodProtect").integer = 1 then 1000
      else (e.cvar "sv_floodProtect").integer
    let r : Bool × client_t :=
      if e.svs_time < cl.lastReliableTime + floodTime then (false, cl)
      else (true, { cl with lastReliableTime := e.svs_time })
    if (e.cvar "sv_floodProtectSlow").integer ≠ 0 then
      (r.1, { r.2 with lastReliableTime := e.svs_time })
    else r
  else (true, cl)

/-- SV_ClientCommand for the command `(seq, s)` read from the message: the
return value (`qtrue`: go on with the packet) and the resulting state. -/
def SV_ClientCommand (e : Engine) (cl : St) (seq : Int) (s : String) : Bool × St :=
  if cl.cl.lastClientCommand ≥ seq then (true, cl)
  else
    let cl1 := cl.emitS (fun c => Event.Com_DPrintf
      ("clientCommand: " ++ c.name ++ " : " ++ toString seq ++ " : " ++ s ++ "\n"))
    if seq > cl.cl.lastClientCommand + 1 then
      (false, SV_DropClient e
        (cl1.emitS (fun c => Event.Com_Printf ("Client " ++ c.name ++ " lost "
          ++ toString (seq - c.lastClientCommand + 1) ++ " clientCommands\n")))
        "Lost reliable commands")
    else
      let fp := floodProtect e cl.cl
      let cl2 := cl1.modify (fun _ => fp.2)
      let cl3 := SV_ExecuteClientCommand e cl2 s fp.1
      (true, cl3.modify (fun c => { c with lastClientCommand := seq,
                                           lastClientCommandString := Q_strncpyz s MAX_STRING_CHARS }))

/-! ## sv_client.cpp: user commands -/

/-- The block of SV_ClientThink that applies a postponed userinfo change. -/
def applyPostponedUserinfo (e : Engine) (s : St) : St :=
  s.whenS (fun cl => decide (cl.lastUserInfoCount ≥ INFO_CHANGE_MAX_COUNT)
      && decide (cl.lastUserInfoChange < e.svs_time) && decide (cl.userinfoPostponed ≠ "")) (fun s =>
    (SV_UserinfoChanged e
      (s.modify (fun cl => { cl with userinfo := Q_strncpyz cl.userinfoPostponed MAX_INFO_STRING })))
    |>.emit Event.GVM_ClientUserinfoChanged
    |>.modify (fun cl =>
      { cl with userinfo := e.Info_SetValueForKey cl.userinfo "name"
                  (e.Info_ValueForKey e.SV_GetConfigstring_player "n"),
                name := Q_strncpyz (e.Info_ValueForKey e.SV_GetConfigstring_player "n") MAX_NAME_LENGTH })
    |>.modify (fun cl => { cl with userinfoPostponed := "", lastUserInfoCount := 0,
                                   lastUserInfoChange := e.svs_time + INFO_CHANGE_MIN_INTERVAL }))

/-- The condition under which SV_ClientThink (under `DEDICATED`) issues `followPrev`. -/
def followPrevWanted (e : Engine) (cl : client_t) (cmd : usercmd_t) : Bool :=
  legacyFix e "DISABLE_SPEC_ALTFIRE_FOLLOWPREV"
  && (decide (e.svs_servermod = servermod_t.SVMOD_BASEJKA)
      || decide (e.svs_servermod = servermod_t.SVMOD_JAPLUS))
  && (match e.ps_pm_flags with
      | some flags => decide (and32 flags e.PMF_FOLLOW ≠ 0)
      | none => false)
  && decide (and32 cmd.buttons e.BUTTON_ALT_ATTACK ≠ 0)
  && decide (and32 cmd.buttons e.BUTTON_ATTACK = 0)
  && decide (and32 cl.lastUsercmd.buttons e.BUTTON_ALT_ATTACK = 0)

/-- SV_ClientThink. -/
def SV_ClientThink (e : Engine) (cl : St) (cmd : usercmd_t) : St :=
  if e.DEDICATED then
    if cl.cl.state ≠ CS_ACTIVE then cl.modify (fun c => { c with lastUsercmd := cmd })
    else
      cl
      |>.whenS (fun c => followPrevWanted e c cmd)
          (fun s => SV_ExecuteClientCommand e s "followPrev" true)
      |>.modify (fun c => { c with lastUsercmd := cmd })
      |> applyPostponedUserinfo e
      |>.emit (Event.GVM_ClientThink cmd)
  else
    let cl1 := cl.modify (fun c => { c with lastUsercmd := cmd })
    if cl.cl.state ≠ CS_ACTIVE then cl1
    else (applyPostponedUserinfo e cl1).emit (Event.GVM_ClientThink cmd)

/-- One decoded command after the fixes applied by the decoding loop of
SV_UserMove.  The debug line that the loop prints, at most once in five
seconds, for a corrected time is left out. -/
def fixUsercmd (e : Engine) (active : Bool) (cmd : usercmd_t) : usercmd_t :=
  let cmd := if (e.cvar "sv_legacyFixes").integer ≠ 0 then
      let cmd := if and32 (e.cvar "sv_legacyFixes").integer (e.SVFIXES "ALLOW_INVALID_FORCESEL") = 0
          ∧ (cmd.forcesel = e.FP_LEVITATION ∨ cmd.forcesel ≥ e.NUM_FORCE_POWERS)
        then { cmd with forcesel := 0xFF } else cmd
      if and32 (e.cvar "sv_legacyFixes").integer (e.SVFIXES "ALLOW_INVALID_VIEWANGLES") = 0
      then { cmd with angles := cmd.angles.set 2 0 } else cmd
    else cmd
  if (e.cvar "sv_strictPacketTimestamp").integer ≠ 0 ∧ active = true then
    if cmd.serverTime < e.sv_time - 1000 then { cmd with serverTime := e.sv_time - 1000 }
    else if cmd.serverTime > e.sv_time + 200 then { cmd with serverTime := e.sv_time + 200 }
    else cmd
  else cmd

/-- The decoding loop of SV_UserMove: `cmds[0..cmdCount)`, each decoded
against the previous one (the first against `oldcmd`). -/
def decodeUsercmds (e : Engine) (key : Int) (active : Bool) :
    usercmd_t → List (List Nat) → List usercmd_t
  | _, [] => []
  | oldcmd, w :: ws =>
    let cmd := fixUsercmd e active (e.MSG_ReadDeltaUsercmdKey key oldcmd w)
    cmd :: decodeUsercmds e key active cmd ws

/-- The key of SV_UserMove. -/
def usercmdKey (e : Engine) (cl : client_t) : Int :=
  xor32 (xor32 e.sv_checksumFeed cl.messageAcknowledge)
    (e.Com_HashKey (cl.reliableCommands.getD
      (toU32 (and32 cl.reliableAcknowledge ((MAX_RELIABLE_COMMANDS : Int) - 1))) "") 32)

/-- The index `cl->messageAcknowledge & PACKET_MASK` into `cl->frames`. -/
def frameIndex (cl : client_t) : Nat := toU32 (and32 cl.messageAcknowledge ((PACKET_BACKUP : Int) - 1))

/-- The final loop of SV_UserMove over `cmds[i..]`: the commands handed to
SV_ClientThink, and the locals `firstServerTime` and `lastServerTime` kept
under `DEDICATED`.  `last` is `cmds[cmdCount-1].serverTime`. -/
def thinkLoop (e : Engine) (last : Int) : St × Int × Int → List usercmd_t → St × Int × Int
  | r, [] => r
  | (s, first, lastT), c :: cs =>
    if c.serverTime > last then thinkLoop e last (s, first, lastT) cs
    else if c.serverTime ≤ s.cl.lastUsercmd.serverTime then thinkLoop e last (s, first, lastT) cs
    else
      let first1 := if first = 0 then c.serverTime else first
      let lastT1 := if first = 0 then lastT else if c.serverTime > lastT then c.serverTime else lastT
      thinkLoop e last (SV_ClientThink e s c, first1, lastT1) cs

/-- SV_SendClientChatLogPolicy (compiled under `DEDICATED`). -/
def SV_SendClientChatLogPolicy (e : Engine) (s : St) : St :=
  if (e.cvar "com_logChat").integer ≥ 2 then s
  else if e.svs_gameLoggingEnabled = false ∧ (e.cvar "com_logfile").integer = 0 then s
  else if e.svs_servermod = servermod_t.SVMOD_UNKNOWN
      ∨ (e.svs_servermod = servermod_t.SVMOD_MBII ∧ s.cl.chatLogPolicySent = true) then s
  else if e.svs_time - s.cl.chatLogPolicySentTime ≤ 5000 then s
  else
    (s.emit (Event.SV_SendServerCommand false
      (if (e.cvar "com_logChat").integer = 1 then
        "print \"" ++ "^5" ++ "com_logChat is 1: This server does not log private messages (/tell) to protect player privacy\n\""
      else
        "print \"" ++ "^5" ++ "com_logChat is 0: This server has a no-logging policy to protect player privacy\n\""))).modify
      (fun cl => { cl with chatLogPolicySentTime := e.svs_time, chatLogPolicySent := true })

/-- The ping bookkeeping at the end of SV_UserMove (compiled under
`DEDICATED`): the store into the file-static table is the event
`previousPacketDeltas`, `unfixPing` is set from the average of the row. -/
def pingFixTail (e : Engine) (oldServerTime firstServerTime lastServerTime : Int) (s : St) : St :=
  let lastServerTime := if lastServerTime ≤ 0 then firstServerTime else lastServerTime
  let packetDelta := lastServerTime - oldServerTime
  if (e.cvar "sv_pingFix").integer = 2 ∧ oldServerTime > 0 ∧ firstServerTime > 0
      ∧ lastServerTime > 0 ∧ packetDelta > 0 then
    let slot := (Int.tmod (e.previousPacketDeltasIndex % 65536) PACKET_BACKUP).toNat
    let row := e.previousPacketDeltas.set slot (packetDelta % 65536)
    let total := ((row.take PACKET_BACKUP).foldl (fun a b => a + b) 0 : Int)
    let total := if total = 0 then packetDelta else total
    let average := Int.tdiv total PACKET_BACKUP
    ((s.emit (Event.previousPacketDeltas slot (packetDelta % 65536))).modify
      (fun cl => { cl with unfixPing := decide (average > 20) }))
    |>.when (decide (average > 20) && decide ((e.cvar "com_developer").integer > 3)) (fun s =>
      (s.emit (Event.Com_Printf "Packet delta too low -  using old ping calc on client")).emit
        (Event.SV_SendServerCommand false
          "print \"Packet delta too low -  using old ping calc on client\""))
  else s

/-- The statement of SV_UserMove that saves the time for the ping calculation:
`if (!fixPing || frames[..].messageAcked == -1) frames[..].messageAcked = ...`. -/
def saveAckTime (e : Engine) (fixPing : Bool) (c : client_t) : client_t :=
  if fixPing = false ∨ c.frames.getD (frameIndex c) 0 = -1 then
    { c with frames := c.frames.set (frameIndex c)
               (if fixPing then e.Sys_Milliseconds else e.svs_time) }
  else c

/-- The second half of SV_UserMove, after the commands `cmds[0..cmdCount)` have
been decoded and the acknowledge time saved: the purity gate, entering the
world, and the loop that runs the commands.  `oldServerTime` is the local
set under `DEDICATED`. -/
def userMoveExecute (e : Engine) (cl : St) (cmds : List usercmd_t) (oldServerTime : Int) : St :=
  if (e.cvar "sv_pure").integer ≠ 0 ∧ cl.cl.pureAuthentic = 0 ∧ cl.cl.gotCP = false then
    cl.whenS (fun c => decide (c.state = CS_ACTIVE)) (fun s =>
      SV_SendClientGameState e (s.emitS (fun c => Event.Com_DPrintf
        (c.name ++ ": didn't get cp command, resending gamestate\n"))))
  else
    let cl := cl.whenS (fun c => decide (c.state = CS_PRIMED)) (fun s =>
      (SV_ClientEnterWorld e s cmds.head?).whenS
        (fun c => e.DEDICATED && ! c.chatLogPolicySent
          && decide (e.svs_servermod = servermod_t.SVMOD_MBII))
        (SV_SendClientChatLogPolicy e))
    if (e.cvar "sv_pure").integer ≠ 0 ∧ cl.cl.pureAuthentic = 0 then
      SV_DropClient e cl "Cannot validate pure client!"
    else if cl.cl.state ≠ CS_ACTIVE then cl.modify (fun c => { c with deltaMessage := -1 })
    else
      let r := thinkLoop e ((cmds.getLast?.map (fun c => c.serverTime)).getD 0) (cl, 0, 0) cmds
      if e.DEDICATED then pingFixTail e oldServerTime r.2.1 r.2.2 r.1 else r.1

/-- SV_UserMove for a movement block: the byte `cmdCount` and the encoded
commands that follow.  Its second half is `userMoveExecute`. -/
def SV_UserMove (e : Engine) (cl : St) (delta : Bool) (cmdCount : Int) (wire : List (List Nat)) : St :=
  let cl := cl.modify (fun c => { c with deltaMessage := if delta then c.messageAcknowledge else -1 })
  if cmdCount < 1 then cl.emit (Event.Com_Printf "cmdCount < 1\n")
  else if cmdCount > MAX_PACKET_USERCMDS then cl.emit (Event.Com_Printf "cmdCount > MAX_PACKET_USERCMDS\n")
  else
    let oldServerTime : Int := if e.DEDICATED then cl.cl.lastUsercmd.serverTime else 0
    let unfix : Bool := e.DEDICATED && cl.cl.unfixPing
    let fixPing : Bool := decide ((e.cvar "sv_pingFix").integer ≠ 0)
      && ! (unfix && decide ((e.cvar "sv_pingFix").integer = 2))
    let cl := cl.when (unfix && decide ((e.cvar "sv_pingFix").integer ≠ 2))
      (fun s => s.modify (fun c => { c with unfixPing := false }))
    let cmds := decodeUsercmds e (usercmdKey e cl.cl) (decide (cl.cl.state = CS_ACTIVE))
      usercmd_t.zero ((List.range cmdCount.toNat).map (fun i => wire.getD i []))
    userMoveExecute e (cl.modify (saveAckTime e fixPing)) cmds oldServerTime

/-! ## sv_client.cpp: SV_ExecuteClientMessage -/

/-- The byte that ends the client commands of a message. -/
inductive clcOp where
  | clc_move
  | clc_moveNoDelta
  | clc_EOF
  | other (c : Int)
  deriving DecidableEq, Repr

/-- A client message as SV_ExecuteClientMessage reads it: the three header
longs, the `clc_clientCommand` entries `(seq, s)`, the first byte that is not
`clc_clientCommand`, and what SV_UserMove would read after it. -/
structure clientMessage where
  serverId : Int
  messageAcknowledge : Int
  reliableAcknowledge : Int
  commands : List (Int × String)
  op : clcOp
  cmdCount : Int
  usercmds : List (List Nat)

/-- Modelled from the spec: libc `strstr( haystack, needle ) != NULL`. -/
def strstr (haystack needle : String) : Bool :=
  haystack.toList.tails.any (fun t => needle.toList.isPrefixOf t)

/-- The loop `do { ... } while ( 1 )` of SV_ExecuteClientMessage over the client
commands of the message: `false` when the function returns from inside the
loop, `true` when the loop is left by `break`. -/
def readClientCommands (e : Engine) : St → List (Int × String) → Bool × St
  | s, [] => (true, s)
  | s, c :: rest =>
    let r := SV_ClientCommand e s c.1 c.2
    if r.1 = false then (false, r.2)
    else if r.2.cl.state = CS_ZOMBIE then (false, r.2)
    else readClientCommands e r.2 rest

/-- The end of SV_ExecuteClientMessage: the byte `c` after the client commands. -/
def readUsercmd (e : Engine) (cl : St) (m : clientMessage) : St :=
  match m.op with
  | clcOp.clc_move => SV_UserMove e cl true m.cmdCount m.usercmds
  | clcOp.clc_moveNoDelta => SV_UserMove e cl false m.cmdCount m.usercmds
  | clcOp.clc_EOF => cl
  | clcOp.other _ => cl.emit (Event.Com_Printf "WARNING: bad command byte for client\n")

/-- The block of SV_ExecuteClientMessage for a message "from a previous
gamestate": ignore it or retransmit the current gamestate. -/
def staleServerId (e : Engine) (cl : St) (m : clientMessage) : St :=
  if m.serverId ≥ e.sv_restartedServerId ∧ m.serverId < e.sv_serverId then
    cl.emitS (fun c => Event.Com_DPrintf
      (c.name ++ " : ignoring pre map_restart / outdated client message\n"))
  else
    cl.whenS (fun c => decide (c.state ≠ CS_ACTIVE)
        && decide (c.messageAcknowledge > c.gamestateMessageNum)) (fun s =>
      SV_SendClientGameState e (s.emitS (fun c => Event.Com_DPrintf
        (c.name ++ " : dropped gamestate, resending\n"))))

/-- The statement of SV_ExecuteClientMessage that notes an acknowledged
gamestate: `if ( cl->oldServerTime && serverId == sv.serverId ) { ... }`. -/
def ackGamestate (e : Engine) (cl : St) (m : clientMessage) : St :=
  cl.whenS (fun c => decide (c.oldServerTime ≠ 0) && decide (m.serverId = e.sv_serverId))
    (fun s => (s.emitS (fun c => Event.Com_DPrintf (c.name ++ " acknowledged gamestate\n"))).modify
      (fun c => { c with oldServerTime := 0 }))

/-- The rest of SV_ExecuteClientMessage once the header is accepted: the
gamestate acknowledgement, the client commands, the user commands. -/
def readMessageBody (e : Engine) (cl : St) (m : clientMessage) : St :=
  let r := readClientCommands e (ackGamestate e cl m) m.commands
  if r.1 = false then r.2 else readUsercmd e r.2 m

/-- The slot after SV_ExecuteClientMessage has stored the two acknowledge numbers of the header. -/
def storeAcks (cl : St) (m : clientMessage) : St :=
  (cl.modify (fun c => { c with messageAcknowledge := m.messageAcknowledge })).modify
    (fun c => { c with reliableAcknowledge := m.reliableAcknowledge })

/-- SV_ExecuteClientMessage. -/
def SV_ExecuteClientMessage (e : Engine) (cl : St) (m : clientMessage) : St :=
  if m.messageAcknowledge < 0 then
    cl.modify (fun c => { c with messageAcknowledge := m.messageAcknowledge })
  else if m.reliableAcknowledge < (storeAcks cl m).cl.reliableSequence - MAX_RELIABLE_COMMANDS then
    (storeAcks cl m).modify (fun c => { c with reliableAcknowledge := c.reliableSequence })
  else if m.serverId ≠ e.sv_serverId ∧ (storeAcks cl m).cl.downloadName = ""
      ∧ strstr (storeAcks cl m).cl.lastClientCommandString "nextdl" = false then
    staleServerId e (storeAcks cl m) m
  else readMessageBody e (storeAcks cl m) m

/-! ## sv_client.cpp: SV_WriteDownloadToClient -/

/-- The game directory `BASEGAME`. -/
def BASEGAME : String := "base"

/-- The call `strrchr( pakbuf, '.' )` followed by `*pakptr = '\0'`: the name
before the last dot and the extension after it; `none` when there is no dot. -/
def splitLastDot (s : String) : Option (String × String) :=
  match s.toList.reverse.dropWhile (fun c => c != '.') with
  | [] => none
  | _ :: base =>
    some (String.mk base.reverse, String.mk (s.toList.reverse.takeWhile (fun c => c != '.')).reverse)

/-- The locals `unreferenced`, `idPack` and `missionPack` after the first block
of SV_WriteDownloadToClient (`Q_stricmp` is `Q_stricmpn` with the count 99999). -/
def downloadPakFlags (e : Engine) (downloadName : String) : Bool × Bool × Bool :=
  match splitLastDot (Q_strncpyz downloadName MAX_QPATH) with
  | none => (true, false, false)
  | some (pakbuf, ext) =>
    if Q_stricmpn_eq ext "pk3" 99999
        && e.FS_ReferencedPakNames.any (fun n => ! e.FS_FilenameCompare n pakbuf) then
      (false, e.FS_idPak pakbuf "missionpack" || e.FS_idPak pakbuf BASEGAME,
        e.FS_idPak pakbuf "missionpack")
    else (true, false, false)

/-- The console line and the `errorMessage` of SV_WriteDownloadToClient for a
file that is not sent. -/
def downloadRefusal (e : Engine) (name : String) (unreferenced idPack missionPack : Bool) :
    String × String :=
  let line := "clientDownload: " ++ toString e.clientNum ++ " : \"" ++ name ++ "\""
  if unreferenced then
    (line ++ " is not referenced and cannot be downloaded.\n",
      "File \"" ++ name ++ "\" is not referenced and cannot be downloaded.")
  else if idPack then
    (line ++ " cannot download id pk3 files\n",
      if missionPack then
        "Cannot autodownload Team Arena file \"" ++ name ++ "\"\n"
          ++ "The Team Arena mission pack can be found in your local game store."
      else "Cannot autodownload id pk3 file \"" ++ name ++ "\"")
  else if (e.cvar "sv_allowDownload").integer = 0 then
    (line ++ " download disabled\n",
      if (e.cvar "sv_pure").integer ≠ 0 then
        "Could not download \"" ++ name ++ "\" because autodownloading is disabled on the server.\n\n"
          ++ "You will need to get this file elsewhere before you "
          ++ "can connect to this pure server.\n"
      else
        "Could not download \"" ++ name ++ "\" because autodownloading is disabled on the server.\n\n"
          ++ "The server you are connecting to is not a pure server, "
          ++ "set autodownload to No in your settings and you might be "
          ++ "able to join the game anyway.\n")
  else
    (line ++ " file not found on server\n",
      "File \"" ++ name ++ "\" not found on server for autodownloading.\n")

/-- The branch "cannot auto-download file" of SV_WriteDownloadToClient. -/
def refuseDownload (e : Engine) (unreferenced idPack missionPack : Bool) (s : St) : St :=
  s
  |>.emitS (fun cl => Event.Com_Printf
      (downloadRefusal e cl.downloadName unreferenced idPack missionPack).1)
  |>.emitS (fun cl => Event.svc_download_error
      (Q_strncpyz (downloadRefusal e cl.downloadName unreferenced idPack missionPack).2 1024))
  |>.modify (fun cl => { cl with downloadName := "" })
  |>.whenS (fun cl => decide (cl.download ≠ 0)) (fun t => t.emitS
      (fun cl => Event.FS_FCloseFile cl.download))

/-- The block `if(!cl->download) { ... }` of SV_WriteDownloadToClient: `false`
when the function returns from inside it. -/
def openDownload (e : Engine) (s : St) : Bool × St :=
  let flags := downloadPakFlags e s.cl.downloadName
  let s0 := s.modify (fun cl => { cl with download := 0 })
  if (e.cvar "sv_allowDownload").integer = 0 ∨ flags.2.1 = true ∨ flags.1 = true then
    (false, refuseDownload e flags.1 flags.2.1 flags.2.2 s0)
  else
    let s1 := s0.modify (fun cl =>
      { cl with downloadSize := (e.FS_SV_FOpenFileRead cl.downloadName).1,
                download := (e.FS_SV_FOpenFileRead cl.downloadName).2 })
    if s1.cl.downloadSize < 0 then (false, refuseDownload e flags.1 flags.2.1 flags.2.2 s1)
    else
      (true, (s1.emitS (fun cl => Event.Com_Printf ("clientDownload: " ++ toString e.clientNum
          ++ " : beginning \"" ++ cl.downloadName ++ "\"\n"))).modify
        (fun cl => { cl with downloadCurrentBlock := 0, downloadClientBlock := 0,
                             downloadXmitBlock := 0, downloadCount := 0, downloadEOF := false }))

/-- The index `block % MAX_DOWNLOAD_WINDOW` of a block in the window (for a
block number that is not negative). -/
def downloadIndex (block : Int) : Nat := (Int.tmod block MAX_DOWNLOAD_WINDOW).toNat

/-- One pass of the loop "Perform any reads that we need to" when its
condition holds: the buffer is allocated if need be and filled by `FS_Read`
(the file position is `downloadCount`); `false` when the loop is left by
`break`. -/
def readDownloadBlock (e : Engine) (s : St) : Bool × St :=
  let curindex := downloadIndex s.cl.downloadCurrentBlock
  let rd := e.FS_Read s.cl.download s.cl.downloadCount
  let s1 := (s.whenS (fun cl => (cl.downloadBlocks.getD curindex none).isNone) (fun t =>
      (t.emit (Event.Z_Malloc curindex)).modify (fun cl =>
        { cl with downloadBlocks := cl.downloadBlocks.set curindex (some []) }))).modify
    (fun cl => { cl with downloadBlocks := cl.downloadBlocks.set curindex (some rd.2),
                         downloadBlockSize := cl.downloadBlockSize.set curindex rd.1 })
  if rd.1 < 0 then (false, s1.modify (fun cl => { cl with downloadCount := cl.downloadSize }))
  else
    (true, s1.modify (fun cl => { cl with downloadCount := cl.downloadCount + rd.1,
                                          downloadCurrentBlock := cl.downloadCurrentBlock + 1 }))

/-- The loop "Perform any reads that we need to" of SV_WriteDownloadToClient,
run for at most `fuel` passes. -/
def readDownloadBlocks (e : Engine) : Nat → St → St
  | 0, s => s
  | fuel + 1, s =>
    if s.cl.downloadCurrentBlock - s.cl.downloadClientBlock < MAX_DOWNLOAD_WINDOW
        ∧ s.cl.downloadSize ≠ s.cl.downloadCount then
      if (readDownloadBlock e s).1 = true then readDownloadBlocks e fuel (readDownloadBlock e s).2
      else (readDownloadBlock e s).2
    else s

/-- The number of passes after which the read loop has certainly ended: every
pass that does not leave it raises `downloadCurrentBlock`. -/
def readFuel (cl : client_t) : Nat :=
  ((MAX_DOWNLOAD_WINDOW : Int) - (cl.downloadCurrentBlock - cl.downloadClientBlock)).toNat

/-- The statement of SV_WriteDownloadToClient that adds the EOF block. -/
def addEOFBlock (s : St) : St :=
  s.whenS (fun cl => decide (cl.downloadCount = cl.downloadSize) && ! cl.downloadEOF
      && decide (cl.downloadCurrentBlock - cl.downloadClientBlock < MAX_DOWNLOAD_WINDOW))
    (fun t => t.modify (fun cl =>
      { cl with downloadBlockSize :=
                  cl.downloadBlockSize.set (downloadIndex cl.downloadCurrentBlock) 0,
                downloadCurrentBlock := cl.downloadCurrentBlock + 1,
                downloadEOF := true }))

/-- The value of `sv_maxRate->integer` after `Cvar_Set( "sv_MaxRate", "1000" )`
for a value below 1000 (the variable is set at once). -/
def flooredMaxRate (e : Engine) : Int :=
  if (e.cvar "sv_maxRate").integer < 1000 then 1000 else (e.cvar "sv_maxRate").integer

/-- The local `rate` of SV_WriteDownloadToClient. -/
def downloadRate (e : Engine) (cl : client_t) : Int :=
  if (e.cvar "sv_maxRate").integer ≠ 0 then
    if flooredMaxRate e < cl.rate then flooredMaxRate e else cl.rate
  else cl.rate

/-- The local `blockspersnap` of SV_WriteDownloadToClient before the loop
that sends; the product and the sum are 32-bit. -/
def blockspersnap (e : Engine) (cl : client_t) : Int :=
  let n : Int :=
    if downloadRate e cl = 0 then 1
    else
      Int.tdiv (wrap32 (Int.tdiv (wrap32 (downloadRate e cl * cl.snapshotMsec)) 1000
        + e.MAX_DOWNLOAD_BLKSIZE)) e.MAX_DOWNLOAD_BLKSIZE
  if n < 0 then 1 else n

/-- The message written for the block `downloadXmitBlock`. -/
def downloadBlockMessage (cl : client_t) : Event :=
  Event.svc_download_block cl.downloadXmitBlock
    (if cl.downloadXmitBlock = 0 then some cl.downloadSize else none)
    (downloadBlockSizeAt cl cl.downloadXmitBlock)
    (if downloadBlockSizeAt cl cl.downloadXmitBlock ≠ 0 then
      ((cl.downloadBlocks.getD (downloadIndex cl.downloadXmitBlock) none).getD []).take
        (downloadBlockSizeAt cl cl.downloadXmitBlock).toNat
     else [])

/-- The loop `while (blockspersnap--)` of SV_WriteDownloadToClient for the
given number of passes. -/
def sendDownloadBlocks (e : Engine) : Nat → St → St
  | 0, s => s
  | n + 1, s =>
    if s.cl.downloadClientBlock = s.cl.downloadCurrentBlock then s
    else if s.cl.downloadXmitBlock = s.cl.downloadCurrentBlock
        ∧ ¬ (e.svs_time - s.cl.downloadSendTime > 1000) then s
    else
      sendDownloadBlocks e n
        (s
        |>.whenS (fun cl => decide (cl.downloadXmitBlock = cl.downloadCurrentBlock)) (fun t =>
            t.modify (fun cl => { cl with downloadXmitBlock := cl.downloadClientBlock }))
        |>.emitS downloadBlockMessage
        |>.emitS (fun cl => Event.Com_DPrintf ("clientDownload: " ++ toString e.clientNum
            ++ " : writing block " ++ toString cl.downloadXmitBlock ++ "\n"))
        |>.modify (fun cl => { cl with downloadXmitBlock := cl.downloadXmitBlock + 1,
                                       downloadSendTime := e.svs_time }))

/-- SV_WriteDownloadToClient after the file is open: the reads, the EOF block,
the rate and the blocks sent. -/
def pumpDownload (e : Engine) (s : St) : St :=
  readDownloadBlocks e (readFuel s.cl) s
  |> addEOFBlock
  |>.when (decide ((e.cvar "sv_maxRate").integer ≠ 0)
      && decide ((e.cvar "sv_maxRate").integer < 1000))
      (fun t => t.emit (Event.Cvar_Set "sv_MaxRate" "1000"))
  |> (fun t => sendDownloadBlocks e (blockspersnap e t.cl).toNat t)

/-- SV_WriteDownloadToClient: the messages written into `msg` are the
`svc_download` events of the trace. -/
def SV_WriteDownloadToClient (e : Engine) (cl : St) : St :=
  if cl.cl.downloadName = "" then cl
  else if cl.cl.download = 0 then
    if (openDownload e cl).1 = true then pumpDownload e (openDownload e cl).2
    else (openDownload e cl).2
  else pumpDownload e cl

/-- The `(block, blockSize)` pairs of the download blocks written in a trace. -/
def sentBlocks : List Event → List (Int × Int)
  | [] => []
  | Event.svc_download_block block _ blockSize _ :: rest => (block, blockSize) :: sentBlocks rest
  | _ :: rest => sentBlocks rest

/-! ## Map change and the initialisation of a slot -/

/-- SV_SendClientMapChange: the number of the last client command, the pending
server commands and `svc_mapchange` are written into one message (not a
gamestate), which is sent. -/
def SV_SendClientMapChange (client : St) : St :=
  client.emit (Event.SV_SendMessageToClient false)

/-- SV_DirectConnect from the label `gotnewcl:` on: the slot chosen for the
connection is overwritten with the zeroed `temp` and initialised.  `netchan` is
the channel left by `Netchan_Setup (NS_SERVER, &newcl->netchan, from, qport)`,
`userinfo` the local buffer, `denied` the answer of `GVM_ClientConnect` and
`hibernating` the value of `svs.hibernation.enabled`.  The count at the end runs
over this slot and `Engine.otherClients`.  (The JAPLUS team fix writes the local
buffer after it was copied into the slot.) -/
def SV_DirectConnect_gotnewcl (e : Engine) (newcl : St) (challenge : Int) (netchan : netchan_t)
    (userinfo : String) (denied : Option String) (hibernating : Bool) : St :=
  let built := (newcl.modify (fun _ =>
      { client_t.zero with gentity := some e.clientNum, challenge := challenge,
                           netchan := netchan,
                           userinfo := Q_strncpyz userinfo MAX_INFO_STRING })).emit
    Event.GVM_ClientConnect
  match denied with
  | some d =>
    (built.emit (Event.NET_OutOfBandPrint ("print\n" ++ d ++ "\n"))).emit
      (Event.Com_DPrintf ("Game rejected a connection: " ++ d ++ ".\n"))
  | none =>
    built
    |>.when hibernating (fun s =>
        (s.emit Event.hibernation_enabled_false).emit
          (Event.Com_Printf "Server restored from hibernation\n"))
    |> SV_UserinfoChanged e
    |>.emit (Event.NET_OutOfBandPrint "connectResponse")
    |>.emitS (fun cl => Event.Com_DPrintf
        ("Going from CS_FREE to CS_CONNECTED for " ++ cl.name ++ "\n"))
    |>.modify (fun cl => { cl with state := CS_CONNECTED, nextSnapshotTime := e.svs_time,
                                   lastPacketTime := e.svs_time, lastConnectTime := e.svs_time,
                                   gamestateMessageNum := -1, lastUserInfoChange := 0,
                                   lastUserInfoCount := 0 })
    |>.when e.DEDICATED (fun s => s.modify
        (fun cl => { cl with chatLogPolicySentTime := 0, chatLogPolicySent := false }))
    |>.whenS (fun cl =>
        decide (((cl :: e.otherClients).filter isConnected).length = 1)
        || decide ((((cl :: e.otherClients).filter isConnected).length : Int)
                    = (e.cvar "sv_maxclients").integer))
        (fun s => s.emit Event.SV_Heartbeat_f)

/-- The state in which SV_ClientCommand calls SV_DropClient for lost commands:
the slot is untouched, the two console lines have been printed. -/
def lostCommandsReport (cl : St) (seq : Int) (s : String) : St :=
  (cl.emitS (fun c => Event.Com_DPrintf
      ("clientCommand: " ++ c.name ++ " : " ++ toString seq ++ " : " ++ s ++ "\n"))).emitS
    (fun c => Event.Com_Printf ("Client " ++ c.name ++ " lost "
      ++ toString (seq - c.lastClientCommand + 1) ++ " clientCommands\n"))

/-- The invariant of the purity flags: `pureAuthentic = 1` requires `gotCP`. -/
def pureInv (cl : client_t) : Prop := cl.pureAuthentic = 1 → cl.gotCP = true

/-- The fields of a slot that only the purity commands, the gamestate and
SV_ClientCommand write. -/
def coreOf (cl : client_t) : Int × Bool × Int := (cl.pureAuthentic, cl.gotCP, cl.lastClientCommand)

/-- A step from slot `a` to slot `b` that leaves `lastClientCommand` alone
and keeps the invariant of the purity flags. -/
def Keeps (a b : client_t) : Prop :=
  b.lastClientCommand = a.lastClientCommand ∧ (pureInv a → pureInv b)

/-- The pak checksums listed by a `cp` command: the numbers after the three
leading arguments, without the last one. -/
def cpPakChecksums (argv : Argv) : List Int := ((argv.drop 4).map atoi).dropLast

/-- The last number of a `cp` command (the xor value sent by the client). -/
def cpTrailer (argv : Argv) : Int := ((argv.drop 4).map atoi).getLastD 0

/-- The slot just before SV_VerifyPaks_f drops it: purity refused, forced to
ACTIVE and one snapshot sent. -/
def unpureBeforeDrop (s : St) : St :=
  ((s.modify (fun cl => { cl with gotCP := true })).modify
    (fun cl => { cl with pureAuthentic := 0, nextSnapshotTime := -1, state := CS_ACTIVE })).emit
    Event.SV_SendClientSnapshot

/-! ## sv_client.cpp: SV_IsBanned and SV_DirectConnect -/

/-- The loop of SV_IsBanned over `serverBans`: some rule of the kind
`isexception` matches the address. -/
def banRuleMatches (e : Engine) (from_ : netadr_t) (isexception : Bool) : Bool :=
  e.serverBans.any (fun curban =>
    (curban.isexception == isexception) && e.NET_CompareBaseAdrMask curban.ip from_ curban.subnet)

/-- SV_IsBanned.  The recursive call asks for an exception rule; it is made
with `serverBansCount` known to be non-zero and goes straight to the loop. -/
def SV_IsBanned (e : Engine) (from_ : netadr_t) (isexception : Bool) : Bool :=
  if e.serverBans.length = 0 then false
  else if isexception = false ∧ banRuleMatches e from_ true = true then false
  else banRuleMatches e from_ isexception

/-- The array `svs.clients` together with the calls made so far, oldest first.
The calls that concern one slot are those of the slot that SV_DirectConnect
has chosen (`newcl`). -/
structure Table where
  clients : List client_t
  out : List Event

/-- Append one call to the trace of the table. -/
def Table.emit (t : Table) (ev : Event) : Table := { t with out := t.out ++ [ev] }

/-- The slots `svs.clients[0 .. sv_maxclients->integer)` over which the loops run. -/
def scannedSlots (e : Engine) (clients : List client_t) : List client_t :=
  clients.take (e.cvar "sv_maxclients").integer.toNat

/-- The engine as the code that works on `&svs.clients[i]` sees it:
`cl - svs.clients` is `i`, the other slots are the rest of the scanned table. -/
def Engine.forSlot (e : Engine) (clients : List client_t) (i : Nat) : Engine :=
  { e with clientNum := (i : Int), otherClients := (scannedSlots e clients).eraseIdx i }

/-- Run the code of one slot on `svs.clients[i]`; a slot that is not in the
table is left out of the model. -/
def Table.onSlot (t : Table) (i : Nat) (f : St → St) : Table :=
  match t.clients.get? i with
  | some cl => { clients := t.clients.set i (f { cl := cl, out := t.out }).cl,
                 out := (f { cl := cl, out := t.out }).out }
  | none => t

/-- The test of the two scans of SV_DirectConnect on a slot: the same base
address, and the same qport or the same port. -/
def sameClient (e : Engine) (from_ : netadr_t) (qport : Int) (cl : client_t) : Bool :=
  e.NET_CompareBaseAdr from_ cl.netchan.remoteAddress
    && (decide (cl.netchan.qport = qport) || decide (from_.port = cl.netchan.remoteAddress.port))

/-- The "quick reject" loop of SV_DirectConnect: `true` when it returns from
the function with "too soon".  The loop looks at slots of every state and
leaves (`break`) at the first slot that matches. -/
def quickReject (e : Engine) (from_ : netadr_t) (qport : Int) : List client_t → Bool
  | [] => false
  | cl :: rest =>
    if sameClient e from_ qport cl then
      decide (e.svs_time - cl.lastConnectTime < (e.cvar "sv_reconnectlimit").integer * 1000)
    else quickReject e from_ qport rest

/-- The loop "if there is already a slot for this ip, reuse it": the index of
the first slot from index `i` on that is not FREE and matches. -/
def reuseScan (e : Engine) (from_ : netadr_t) (qport : Int) : Nat → List client_t → Option Nat
  | _, [] => none
  | i, cl :: rest =>
    if cl.state ≠ CS_FREE ∧ sameClient e from_ qport cl = true then some i
    else reuseScan e from_ qport (i + 1) rest

/-- The loop "find a client slot": the index of the first FREE slot among
`svs.clients[startIndex .. sv_maxclients)`; the list holds the slots from
index `i` on. -/
def freeScan (startIndex : Int) : Nat → List client_t → Option Nat
  | _, [] => none
  | i, cl :: rest =>
    if startIndex ≤ (i : Int) ∧ cl.state = CS_FREE then some i
    else freeScan startIndex (i + 1) rest

/-- The local `count` of the loop that looks for bots among
`svs.clients[startIndex .. sv_maxclients)`; the list holds the slots from
index `i` on. -/
def botCount (startIndex : Int) : Nat → List client_t → Int
  | _, [] => 0
  | i, cl :: rest =>
    (if startIndex ≤ (i : Int) ∧ cl.netchan.remoteAddress.type = netadrtype_t.NA_BOT then 1 else 0)
      + botCount startIndex (i + 1) rest

/-- The local `userinfo` of SV_DirectConnect as copied from `Cmd_Argv(1)`. -/
def connectUserinfo (argv : Argv) : String := Q_strncpyz (Cmd_Argv argv 1) MAX_INFO_STRING

/-- The local `ip` of SV_DirectConnect. -/
def connectIp (e : Engine) (from_ : netadr_t) : String :=
  if e.NET_IsLocalAddress from_ then "localhost" else e.NET_AdrToString from_

/-- The local `startIndex` of SV_DirectConnect: 0 for a connection with the
private password, `sv_privateClients` otherwise.  `userinfo` is the local
buffer with the key `ip` set. -/
def connectStartIndex (e : Engine) (userinfo : String) : Int :=
  if e.Info_ValueForKey userinfo "password" = (e.cvar "sv_privatePassword").string then 0
  else (e.cvar "sv_privateClients").integer

/-- SV_DirectConnect from the label `gotnewcl:` on, for `newcl = &svs.clients[i]`. -/
def gotnewcl (e : Engine) (sv : Table) (i : Nat) (from_ : netadr_t) (challenge qport : Int)
    (userinfo : String) (denied : Option String) (hibernating : Bool) : Table :=
  sv.onSlot i (fun newcl =>
    SV_DirectConnect_gotnewcl (e.forSlot sv.clients i) newcl challenge (e.Netchan_Setup from_ qport)
      userinfo denied hibernating)

/-- SV_DirectConnect once no slot of the address was found for reuse: the
scan for a FREE slot, and the replacement of the last bot for a local client.
The two stores through `cl` before `gotnewcl:` hit the slot that is
overwritten right after (or, when `startIndex` is not below `sv_maxclients`,
memory outside the table): they are left out.  A server without slots
(`sv_maxclients < 1`) has no last slot to drop: the model stops there. -/
def findFreeSlot (e : Engine) (sv : Table) (from_ : netadr_t) (challenge qport : Int)
    (userinfo : String) (denied : Option String) (hibernating : Bool) : Table :=
  let startIndex := connectStartIndex e userinfo
  match freeScan startIndex 0 (scannedSlots e sv.clients) with
  | some i => gotnewcl e sv i from_ challenge qport userinfo denied hibernating
  | none =>
    if e.NET_IsLocalAddress from_ then
      if botCount startIndex 0 (scannedSlots e sv.clients)
          ≥ (e.cvar "sv_maxclients").integer - startIndex then
        if 1 ≤ (e.cvar "sv_maxclients").integer then
          gotnewcl e
            (sv.onSlot ((e.cvar "sv_maxclients").integer - 1).toNat (fun drop =>
              SV_DropClient (e.forSlot sv.clients ((e.cvar "sv_maxclients").integer - 1).toNat)
                drop "only bots on server"))
            ((e.cvar "sv_maxclients").integer - 1).toNat from_ challenge qport userinfo denied
            hibernating
        else sv
      else sv.emit (Event.Com_Error "server is full on local connect\n")
    else
      (sv.emit (Event.NET_OutOfBandPrint
        ("print\n" ++ e.SV_GetStringEdString "MP_SVGAME" "SERVER_IS_FULL" ++ "\n"))).emit
        (Event.Com_DPrintf "Rejected a connection.\n")

/-- SV_DirectConnect for the command `connect` whose arguments are `argv`.
`denied` is the answer of `GVM_ClientConnect` and `hibernating` the value of
`svs.hibernation.enabled`.  The differences and products of the reconnect test
are exact, as C's are where they are defined. -/
def SV_DirectConnect (e : Engine) (sv : Table) (from_ : netadr_t) (argv : Argv)
    (denied : Option String) (hibernating : Bool) : Table :=
  let sv0 := sv.emit (Event.Com_DPrintf "SVC_DirectConnect ()\n")
  let userinfo := connectUserinfo argv
  let version := atoi (e.Info_ValueForKey userinfo "protocol")
  let challenge := atoi (e.Info_ValueForKey userinfo "challenge")
  let qport := atoi (e.Info_ValueForKey userinfo "qport")
  let ip := connectIp e from_
  if SV_IsBanned e from_ false = true then
    (sv0.emit (Event.NET_OutOfBandPrint "print\nYou are banned from this server.\n")).emit
      (Event.Com_DPrintf ("    rejected connect from " ++ e.NET_AdrToString from_ ++ " (banned)\n"))
  else if version ≠ e.PROTOCOL_VERSION then
    (sv0.emit (Event.NET_OutOfBandPrint ("print\nServer uses protocol version "
        ++ toString e.PROTOCOL_VERSION ++ " (yours is " ++ toString version ++ ").\n"))).emit
      (Event.Com_DPrintf ("    rejected connect from version " ++ toString version ++ "\n"))
  else if quickReject e from_ qport (scannedSlots e sv.clients) = true then
    (sv0.emit (Event.NET_OutOfBandPrint "print\nReconnect rejected : too soon\n")).emit
      (Event.Com_DPrintf (e.NET_AdrToString from_ ++ ":reconnect rejected : too soon\n"))
  else if (ip.length : Int) + userinfo.length + 4 ≥ MAX_INFO_STRING then
    sv0.emit (Event.NET_OutOfBandPrint
      "print\nUserinfo string length exceeded.  Try removing setu cvars from your config.\n")
  else if e.NET_IsLocalAddress from_ = false ∧ e.SV_VerifyChallenge challenge from_ = false then
    sv0.emit (Event.NET_OutOfBandPrint "print\nIncorrect challenge for your address.\n")
  else
    match reuseScan e from_ qport 0 (scannedSlots e sv.clients) with
    | some i =>
      gotnewcl e
        ((sv0.emit (Event.Com_Printf (e.NET_AdrToString from_ ++ ":reconnect\n"))).emit
          Event.GVM_ClientDisconnect)
        i from_ challenge qport (e.Info_SetValueForKey userinfo "ip" ip) denied hibernating
    | none =>
      findFreeSlot e sv0 from_ challenge qport (e.Info_SetValueForKey userinfo "ip" ip) denied
        hibernating

/-! ## Calls of the game module and flood protection -/

/-- The argument vectors handed to the game module by the `GVM_ClientCommand`
calls of a trace, in order. -/
def dispatches : List Event → List (List String)
  | [] => []
  | Event.GVM_ClientCommand argv :: rest => argv :: dispatches rest
  | _ :: rest => dispatches rest

/-- The state in which SV_ClientCommand calls SV_ExecuteClientCommand for the
command it accepts: the debug line is printed and the flood-protection block
has run. -/
def commandArrived (e : Engine) (cl : St) (seq : Int) (s : String) : St :=
  (cl.emitS (fun c => Event.Com_DPrintf
    ("clientCommand: " ++ c.name ++ " : " ++ toString seq ++ " : " ++ s ++ "\n"))).modify
    (fun _ => (floodProtect e cl.cl).2)

/-- The last two statements of SV_ClientCommand: the command is recorded as executed. -/
def commandStored (seq : Int) (s : String) (t : St) : St :=
  t.modify (fun c => { c with lastClientCommand := seq,
                              lastClientCommandString := Q_strncpyz s MAX_STRING_CHARS })

/-- The final value of `clientOK` in SV_ExecuteClientCommand. -/
def finalClientOK (e : Engine) (s : String) (clientOK : Bool) : Bool :=
  clientOK
  && ! (isSayCmd (Cmd_Argv (e.Cmd_TokenizeString s) 0) && e.svs_gvmIsLegacy
        && decide ((e.cvar "sv_legacyFixes").integer ≠ 0)
        && decide ((e.Cmd_Args (e.Cmd_TokenizeString s)).length > 256))
  && ! legacyBlocked e (Cmd_Argv (e.Cmd_TokenizeString s) 0) (Cmd_Argv (e.Cmd_TokenizeString s) 1)
        (Cmd_Argv (e.Cmd_TokenizeString s) 2)

/-- The local `floodTime` of SV_ClientCommand. -/
def floodTime (e : Engine) : Int :=
  if (e.cvar "sv_floodProtect").integer = 1 then 1000 else (e.cvar "sv_floodProtect").integer

/-! ## The download protocol, the block budget and the acknowledgements -/

/-- A step of the download protocol on a slot: one of the client commands
`download` and `nextdl`, or a call of SV_WriteDownloadToClient. -/
inductive downloadOp where
  | download (argv : Argv)
  | nextdl (argv : Argv)
  | write

/-- The slot after a step of the download protocol on the server `e`. -/
def downloadOp.run (e : Engine) (s : St) : downloadOp → St
  | downloadOp.download argv => (SV_BeginDownload_f e s argv).1
  | downloadOp.nextdl argv => (SV_NextDownload_f e s argv).1
  | downloadOp.write => SV_WriteDownloadToClient e s

/-- The slot after a sequence of steps, each on the server as it is at that time. -/
def runDownloadOps (s : St) : List (Engine × downloadOp) → St
  | [] => s
  | step :: rest => runDownloadOps (step.2.run step.1 s) rest

/-- The order of the three cursors of the download window. -/
def cursorsOrdered (cl : client_t) : Prop :=
  0 ≤ cl.downloadClientBlock ∧ cl.downloadClientBlock ≤ cl.downloadXmitBlock
    ∧ cl.downloadXmitBlock ≤ cl.downloadCurrentBlock

/-- The blocks read and not yet acknowledged fit the window. -/
def windowBound (cl : client_t) : Prop :=
  cl.downloadCurrentBlock - cl.downloadClientBlock ≤ MAX_DOWNLOAD_WINDOW

/-- Every `nextdl` of the sequence names a block that was transmitted before:
its number is below `downloadXmitBlock` when the command arrives. -/
def acksTransmitted (s : St) : List (Engine × downloadOp) → Prop
  | [] => True
  | step :: rest =>
    (match step.2 with
      | downloadOp.nextdl argv => atoi (Cmd_Argv argv 1) < s.cl.downloadXmitBlock
      | _ => True)
    ∧ acksTransmitted (step.2.run step.1 s) rest

/-- One round of a download: the server pumps the file with
SV_WriteDownloadToClient, then the `nextdl` command `r.2` of the client arrives. -/
def downloadRound (s : St) (r : Engine × Argv) : St :=
  (SV_NextDownload_f r.1 (SV_WriteDownloadToClient r.1 s) r.2).1

/-- The server `e` can send the file `name`: downloads are allowed, the pak is
referenced and no id pak, it opens with the given handle and size, and a read
at position `pos` returns the bytes that are left, at most `blk` of them. -/
def servesFile (e : Engine) (name : String) (handle size blk : Int) : Prop :=
  (e.cvar "sv_allowDownload").integer ≠ 0
  ∧ (downloadPakFlags e name).1 = false
  ∧ (downloadPakFlags e name).2.1 = false
  ∧ e.FS_SV_FOpenFileRead name = (size, handle)
  ∧ ∀ pos, 0 ≤ pos → pos < size → (e.FS_Read handle pos).1 = min blk (size - pos)

/-- The state of a slot in the middle of the download of a file of `size`
bytes in `n` data blocks of `blk` bytes (the last one may be shorter): what was
read so far, and the sizes stored for the blocks of the window. -/
def serving (name : String) (handle size blk n : Int) (cl : client_t) : Prop :=
  cl.state ≠ CS_ACTIVE ∧ cl.downloadName = name ∧ cl.download = handle ∧ cl.downloadSize = size
  ∧ cl.downloadBlockSize.length = MAX_DOWNLOAD_WINDOW
  ∧ 0 ≤ cl.downloadClientBlock ∧ cl.downloadClientBlock ≤ cl.downloadCurrentBlock
  ∧ cl.downloadCurrentBlock ≤ cl.downloadClientBlock + MAX_DOWNLOAD_WINDOW
  ∧ cl.downloadCurrentBlock ≤ n + 1
  ∧ cl.downloadCount = min size (blk * cl.downloadCurrentBlock)
  ∧ (cl.downloadEOF = true ↔ cl.downloadCurrentBlock = n + 1)
  ∧ ∀ i, cl.downloadClientBlock ≤ i → i < cl.downloadCurrentBlock →
      downloadBlockSizeAt cl i = (if i < n then min blk (size - blk * i) else 0)

/-- The slot before round `j` of a download: still unopened before round 0,
in the middle of the download with `j` blocks acknowledged afterwards. -/
def awaiting (name : String) (handle size blk n : Int) (j : Nat) (cl : client_t) : Prop :=
  (j : Int) ≤ n
  ∧ ((j = 0 ∧ cl.state ≠ CS_ACTIVE ∧ cl.downloadName = name ∧ cl.download = 0
        ∧ cl.downloadBlockSize.length = MAX_DOWNLOAD_WINDOW)
      ∨ (serving name handle size blk n cl ∧ cl.downloadClientBlock = j))

/-- The ceiling of `a / b` for a positive `b`. -/
def ceilDiv (a b : Int) : Int := -((-a) / b)

/-- The block budget as the specification words it: the ceiling of
`(effective_rate * snapshotMsec / 1000) / MAX_DOWNLOAD_BLKSIZE` with
`effective_rate = min(cl.rate, max(sv_maxRate, 1000))`. -/
def blockspersnapSpec (e : Engine) (cl : client_t) : Int :=
  ceilDiv (min cl.rate (max (e.cvar "sv_maxRate").integer 1000) * cl.snapshotMsec)
    (1000 * e.MAX_DOWNLOAD_BLKSIZE)

/-- SV_ExecuteClientMessage up to and including the range check of
`reliableAcknowledge`, for a message whose `messageAcknowledge` is not negative. -/
def readAcks (cl : St) (m : clientMessage) : St :=
  if m.reliableAcknowledge < (storeAcks cl m).cl.reliableSequence - MAX_RELIABLE_COMMANDS then
    (storeAcks cl m).modify (fun c => { c with reliableAcknowledge := c.reliableSequence })
  else storeAcks cl m

/-! ## Definitions used to state the properties of the userinfo and of the user commands -/

/-- The list that the main loop of SV_ClientCleanName runs over: the name
without its leading blanks and, on a BASEJKA server, without the asterisks
that follow them. -/
def cleanNameStart (e : Engine) (inp : String) : List Char :=
  if e.svs_servermod = servermod_t.SVMOD_BASEJKA then
    (inp.toList.dropWhile (fun c => c == ' ')).dropWhile (fun c => c == '*')
  else inp.toList.dropWhile (fun c => c == ' ')

/-- The bytes of a list that the main loop of SV_ClientCleanName copies while
the buffer has room: not the first of three blanks or of three `@`, not below
0x20 and not one of the seven dropped bytes. -/
def cleanNameKept : List Char → List Char
  | [] => []
  | c :: rest =>
    if cleanNameTriple c rest = true ∨ c.toNat < 0x20 ∨ c.toNat ∈ cleanNameBlacklist then
      cleanNameKept rest
    else c :: cleanNameKept rest

/-- The change of `colorlessLen` over the bytes `t` copied after the byte `prev`. -/
def colorlessDelta (e : Engine) : Option Char → List Char → Int
  | _, [] => 0
  | prev, c :: t =>
    (if prev = some Q_COLOR_ESCAPE then
        (if e.Q_IsColorStringExt Q_COLOR_ESCAPE c = true then -1 else 1)
      else 1)
      + colorlessDelta e (some c) t

/-- No byte of the list is the first of three blanks or of three `@`. -/
def tripleFree : List Char → Prop
  | [] => True
  | c :: rest => cleanNameTriple c rest = false ∧ tripleFree rest

/-- A name none of whose bytes SV_ClientCleanName drops for its value: no
byte below 0x20 and none of the seven dropped bytes. -/
def plainName (s : String) : Prop :=
  ∀ c ∈ s.toList, 0x20 ≤ c.toNat ∧ c.toNat ∉ cleanNameBlacklist

/-- The end of SV_UpdateUserinfo_f: the argument is stored as the userinfo of
the slot, SV_UserinfoChanged is applied and the game module is told. -/
def applyUserinfo (e : Engine) (s : St) (arg : String) : St :=
  (SV_UserinfoChanged e
    (s.modify (fun cl => { cl with userinfo := Q_strncpyz arg MAX_INFO_STRING }))).emit
    Event.GVM_ClientUserinfoChanged

/-- Fields that SV_UserinfoChanged and SV_DropClient never write: the throttle
of userinfo changes, the last user command, the channel and the challenge. -/
def sessionOf (cl : client_t) : Int × Int × String × usercmd_t × netchan_t × Int :=
  (cl.lastUserInfoChange, cl.lastUserInfoCount, cl.userinfoPostponed, cl.lastUsercmd, cl.netchan,
    cl.challenge)

/-- The default that SV_UserinfoChanged writes for a bad `forcepowers` value. -/
def defaultForcepowers : String := "7-1-030000000000003332"

/-- The well-formed `forcepowers` value as the specification words it: length
22 to 24, only digits and `-`, exactly two `-`, both at an index from 1 to 5,
and not next to each other. -/
def forcepowersWellFormed (v : String) : Prop :=
  22 ≤ v.length ∧ v.length ≤ 24
  ∧ (∀ c ∈ v.toList, c = '-' ∨ ('0' ≤ c ∧ c ≤ '9'))
  ∧ v.toList.count '-' = 2
  ∧ (∀ i, v.toList.get? i = some '-' → 1 ≤ i ∧ i ≤ 5)
  ∧ (∀ i, v.toList.get? i = some '-' → v.toList.get? (i + 1) ≠ some '-')

/-- The slot as the force-power block of SV_UserinfoChanged finds it. -/
def userinfoBeforeForcepowers (e : Engine) (s : St) : St :=
  s |> userinfoName e |> userinfoRate e |> userinfoSnaps e |> userinfoIp e |> userinfoModel e

/-- The commands of a block that are handed to SV_ClientThink, as the
specification words it: in order, each command whose `serverTime` is greater
than the `serverTime` of `lastUsercmd` at that moment (`cur`: the command
handed on before it, if any) and not greater than `last`. -/
def dispatchedCmds (last : Int) : Int → List usercmd_t → List usercmd_t
  | _, [] => []
  | cur, c :: cs =>
    if cur < c.serverTime ∧ c.serverTime ≤ last then c :: dispatchedCmds last c.serverTime cs
    else dispatchedCmds last cur cs

/-- The slot of SV_UserMove when the commands are decoded and the time of the
acknowledgement is saved, for a `cmdCount` in range. -/
def userMoveReady (e : Engine) (cl : St) (delta : Bool) : St :=
  (((cl.modify (fun c => { c with deltaMessage := if delta then c.messageAcknowledge else -1 })).when
      ((e.DEDICATED && cl.cl.unfixPing) && decide ((e.cvar "sv_pingFix").integer ≠ 2))
      (fun s => s.modify (fun c => { c with unfixPing := false }))).modify
    (saveAckTime e (decide ((e.cvar "sv_pingFix").integer ≠ 0)
      && ! ((e.DEDICATED && cl.cl.unfixPing) && decide ((e.cvar "sv_pingFix").integer = 2)))))

/-- The commands `cmds[0 .. cmdCount)` decoded by SV_UserMove. -/
def userMoveCmds (e : Engine) (cl : St) (cmdCount : Int) (wire : List (List Nat)) : List usercmd_t :=
  decodeUsercmds e (usercmdKey e cl.cl) (decide (cl.cl.state = CS_ACTIVE)) usercmd_t.zero
    ((List.range cmdCount.toNat).map (fun i => wire.getD i []))

/-- The local `oldServerTime` of SV_UserMove. -/
def userMoveOldServerTime (e : Engine) (cl : St) : Int :=
  if e.DEDICATED then cl.cl.lastUsercmd.serverTime else 0

/-- The `serverTime` of `cmds[cmdCount-1]`. -/
def lastServerTimeOf (cmds : List usercmd_t) : Int :=
  (cmds.getLast?.map (fun c => c.serverTime)).getD 0

/-- The rate of a slot. -/
def rateOf (cl : client_t) : Int := cl.rate

/-- The server `e` at the time `t` (`svs.time`). -/
def Engine.atTime (e : Engine) (t : Int) : Engine := { e with svs_time := t }

/-- The slot after a sequence of `userinfo` commands, each given with the
value of `svs.time` at which it arrives. -/
def runUserinfo (e : Engine) (s : St) : List (Int × Argv) → St
  | [] => s
  | c :: rest => runUserinfo e (SV_UpdateUserinfo_f (e.atTime c.1) s c.2).1 rest

/-! ## Definitions used to state the properties of a packet, of the snapshot interval and of a download -/

/-- The divisor of the statement `i = 1000 / Com_Clampi(minSnaps, maxSnaps,
cl->wishSnaps)` that SV_UserinfoChanged runs under `sv_snapsPolicy == 2`, for
the slot as the snaps block finds it. -/
def snapsDivisor (e : Engine) (cl : client_t) : Int :=
  Com_Clampi (userinfoMinSnaps e) (userinfoMaxSnaps e)
    (if atoi (e.Info_ValueForKey cl.userinfo "snaps") = 0 then userinfoMaxSnaps e
      else atoi (e.Info_ValueForKey cl.userinfo "snaps"))

/-- The number of gamestates handed to `SV_SendMessageToClient` in a trace. -/
def gamestatesSent (out : List Event) : Nat := out.count (Event.SV_SendMessageToClient true)

/-- The size of block `i` of a file of `S` bytes sent in `N` data blocks of
at most `B` bytes; block `N` is the zero-length block that marks the end. -/
def downloadBlockLen (S B N i : Int) : Int := if i < N then min B (S - B * i) else 0

/-- The `k` blocks from block `a` on, each with its number and size. -/
def blockList (S B N : Int) (a : Int) (k : Nat) : List (Int × Int) :=
  (List.range k).map (fun (i : Nat) => (a + (i : Int), downloadBlockLen S B N (a + (i : Int))))

/-- Every `nextdl` of the rounds names a block that the server has written
before the command arrives. -/
def acksReceived (s : St) : List (Engine × Argv) → Prop
  | [] => True
  | r :: rest =>
    atoi (Cmd_Argv r.2 1) < (SV_WriteDownloadToClient r.1 s).cl.downloadXmitBlock
    ∧ acksReceived (downloadRound s r) rest

/-- The slot before round `j` of a download whose blocks are written in order:
unopened before round 0; afterwards in the middle of the download with `j`
blocks acknowledged, the blocks `0 .. x-1` written after the blocks `base`,
and the time `tprev` of the last acknowledgement noted. -/
def sending (name : String) (handle S B N : Int) (base : List (Int × Int)) (tprev : Int)
    (j : Nat) (t : St) : Prop :=
  (j : Int) ≤ N
  ∧ ((j = 0 ∧ t.cl.state ≠ CS_ACTIVE ∧ t.cl.downloadName = name ∧ t.cl.download = 0
        ∧ t.cl.downloadBlockSize.length = MAX_DOWNLOAD_WINDOW ∧ sentBlocks t.out = base)
      ∨ (1 ≤ j ∧ serving name handle S B N t.cl ∧ t.cl.downloadClientBlock = j
        ∧ t.cl.downloadSendTime = tprev
        ∧ ∃ x : Nat, (j : Int) ≤ x ∧ t.cl.downloadXmitBlock = x
            ∧ (x : Int) ≤ t.cl.downloadCurrentBlock
            ∧ sentBlocks t.out = base ++ blockList S B N 0 x))

/-! ## Concrete inputs used by the examples -/

/-- Split a command line at single blanks (a tokenizer for the examples). -/
def splitBlanks : List Char → List Char → List String
  | [], cur => [String.mk cur.reverse]
  | c :: cs, cur => if c = ' ' then String.mk cur.reverse :: splitBlanks cs [] else splitBlanks cs (c :: cur)

/-- A cvar store given by a list of `(name, value)` pairs; `integer` is `atoi` of the value. -/
def cvarOfList (l : List (String × String)) (name : String) : cvar_t :=
  match l.lookup name with
  | some v => { string := v, integer := atoi v }
  | none => { string := "", integer := 0 }

/-- A dedicated server running a game, with the given cvars. -/
def engineWith (cvars : List (String × String)) : Engine :=
  { clientNum := 0, otherClients := [],
    DEDICATED := true, FINAL_BUILD := true, cvar := cvarOfList cvars,
    svs_time := 10000, svs_servermod := servermod_t.SVMOD_MBII, svs_gvmIsLegacy := false,
    svs_gameLoggingEnabled := false,
    sv_time := 10000, sv_state_is_SS_GAME := true, sv_serverId := 7, sv_restartedServerId := 7,
    sv_checksumFeed := 17,
    Cmd_TokenizeString := fun s => splitBlanks s.toList [],
    FS_FileIsInPAK := fun n => if n = "cgamex86.dll" then (1, 111) else if n = "uix86.dll" then (1, 222) else (0, 0),
    FS_LoadedPakPureChecksums := "170 187",
    SV_GetStringEdString := fun _ n => n,
    Info_ValueForKey := fun _ _ => "",
    Info_SetValueForKey := fun s _ _ => s,
    Sys_IsLANAddress := fun _ => false,
    NET_IsLocalAddress := fun _ => false,
    NET_AdrToString := fun _ => "10.0.0.2:29070",
    Q_IsColorStringExt := fun a b => decide (a = '^') && b.isDigit,
    Cmd_Args := fun argv => " ".intercalate (argv.drop 1),
    Cmd_Args_Sanitize := fun _ _ _ argv => argv,
    SVFIXES := fun _ => 0,
    SV_GetConfigstring_player := "",
    ps_pm_flags := none,
    PMF_FOLLOW := 4096, BUTTON_ATTACK := 1, BUTTON_ALT_ATTACK := 128,
    FP_LEVITATION := 1, NUM_FORCE_POWERS := 18,
    MSG_ReadDeltaUsercmdKey := fun _ old wire =>
      { old with serverTime := old.serverTime + (wire.headD 0 : Int) },
    Com_HashKey := fun _ _ => 0,
    Sys_Milliseconds := 123456,
    previousPacketDeltas := List.replicate 32 0,
    previousPacketDeltasIndex := 0,
    MAX_DOWNLOAD_BLKSIZE := 1024,
    FS_ReferencedPakNames := ["base/assets0", "MBII/x"],
    FS_FilenameCompare := fun a b => a != b,
    FS_idPak := fun pak base => pak.startsWith (base ++ "/assets"),
    FS_SV_FOpenFileRead := fun n => if n = "MBII/x.pk3" then (3800, 5) else (-1, 0),
    FS_Read := fun _ pos =>
      (min 1024 (3800 - pos), List.replicate (min 1024 (3800 - pos)).toNat 0),
    PROTOCOL_VERSION := 26,
    serverBans := [],
    NET_CompareBaseAdrMask := fun a b _ => decide (a.ip = b.ip),
    NET_CompareBaseAdr := fun a b => decide (a.type = b.type ∧ a.ip = b.ip),
    SV_VerifyChallenge := fun challenge _ => decide (challenge = 4242),
    Netchan_Setup := fun adr qport =>
      { remoteAddress := adr, qport := qport, outgoingSequence := 1, unsentFragments := false } }

/-- A server with SMOD enabled: account 1 has every capability bit 0..30, account 2
has no password, account 3 is configured with mask -1. -/
def smodEngine : Engine :=
  engineWith [("g_smodconfig_1", "2147483647"), ("g_smodAdminPassword_1", "secret"),
              ("g_smodconfig_2", "262144"),
              ("g_smodconfig_3", "-1"), ("g_smodAdminPassword_3", "hunter2")]

/-- An ACTIVE slot that has not logged in to SMOD. -/
def activeSlot : client_t :=
  { client_t.zero with
    state := CS_ACTIVE
    name := "Luke"
    netchan := { remoteAddress := { type := netadrtype_t.NA_IP, ip := [10, 0, 0, 2], port := 29070 },
                 qport := 9000, outgoingSequence := 5, unsentFragments := false }
    smod := -1
    smodID := -1 }

/-- A pure server: `sv_pure 1`, checksum feed 17, cgame checksum 111, ui
checksum 222, loaded paks with pure checksums 170 and 187. -/
def pureEngine : Engine := engineWith [("sv_pure", "1")]

/-- A client message with two reliable commands followed by one user command. -/
def exampleMessage : clientMessage :=
  { serverId := 7, messageAcknowledge := 4, reliableAcknowledge := 0,
    commands := [(1, "say hi"), (2, "say again")], op := clcOp.clc_move,
    cmdCount := 1, usercmds := [[50]] }

/-- A dedicated server with `sv_floodProtect 1`; `svs.time` is 10000. -/
def floodEngine : Engine := engineWith [("sv_floodProtect", "1")]

/-- The same server 500 ms later. -/
def floodEngineLater : Engine := { floodEngine with svs_time := 10500 }

/-- The same server with a local client running (`com_cl_running 1`). -/
def listenEngine : Engine := engineWith [("sv_floodProtect", "1"), ("com_cl_running", "1")]

/-- An ACTIVE slot whose last accepted command came 100 ms before `svs.time = 10000`. -/
def floodedSlot : client_t := { activeSlot with lastReliableTime := 9900 }

/-- An ACTIVE slot with a download in progress, waiting for block 3 to be acknowledged. -/
def activeDownloadSlot : client_t :=
  { activeSlot with downloadName := "MBII/x.pk3", download := 5, downloadSize := 3800,
                    downloadClientBlock := 3, downloadXmitBlock := 4, downloadCurrentBlock := 5 }

/-- A slot that has sent ten reliable commands to its client. -/
def tenCommandsSlot : client_t := { activeSlot with reliableSequence := 10 }

/-- A message without commands that acknowledges server command 1000. -/
def overAckMessage : clientMessage :=
  { serverId := 7, messageAcknowledge := 4, reliableAcknowledge := 1000,
    commands := [], op := clcOp.clc_EOF, cmdCount := 0, usercmds := [] }

/-- A server that offers downloads (`sv_allowDownload 1`); the referenced pak
`MBII/x.pk3` has 3800 bytes and is read in blocks of 1024 bytes. -/
def downloadEngine : Engine := engineWith [("sv_allowDownload", "1")]

/-- A slot that is connected and not yet in the game (rate 0: one block per frame). -/
def connectedSlot : client_t := { activeSlot with state := CS_CONNECTED }

/-- The client asks for the pak, the server sends block 0, the client
acknowledges block 0 and then block 1, which was not sent yet. -/
def ackAheadOps : List (Engine × downloadOp) :=
  [(downloadEngine, downloadOp.download ["download", "MBII/x.pk3"]),
   (downloadEngine, downloadOp.write),
   (downloadEngine, downloadOp.nextdl ["nextdl", "0"]),
   (downloadEngine, downloadOp.nextdl ["nextdl", "1"])]

/-- The download of `MBII/x.pk3` with every block acknowledged in turn: the
command `download`, then a call of SV_WriteDownloadToClient before each of the
acknowledgements `nextdl 0` to `nextdl 4`. -/
def downloadSessionOps : List (Engine × downloadOp) :=
  [(downloadEngine, downloadOp.download ["download", "MBII/x.pk3"]),
   (downloadEngine, downloadOp.write), (downloadEngine, downloadOp.nextdl ["nextdl", "0"]),
   (downloadEngine, downloadOp.write), (downloadEngine, downloadOp.nextdl ["nextdl", "1"]),
   (downloadEngine, downloadOp.write), (downloadEngine, downloadOp.nextdl ["nextdl", "2"]),
   (downloadEngine, downloadOp.write), (downloadEngine, downloadOp.nextdl ["nextdl", "3"]),
   (downloadEngine, downloadOp.write), (downloadEngine, downloadOp.nextdl ["nextdl", "4"])]

/-- A connected slot with the rate 25000 and 50 ms between snapshots (two blocks per frame). -/
def fastSlot : client_t := { connectedSlot with rate := 25000, snapshotMsec := 50 }

/-- The connected slot after the command `download MBII/x.pk3`. -/
def requestedSlot : St :=
  (SV_BeginDownload_f downloadEngine { cl := connectedSlot, out := [] }
    ["download", "MBII/x.pk3"]).1

/-- Five rounds on the download server: the acknowledgements `nextdl 0` to `nextdl 4`. -/
def ackRounds : List (Engine × Argv) :=
  [(downloadEngine, ["nextdl", "0"]), (downloadEngine, ["nextdl", "1"]),
   (downloadEngine, ["nextdl", "2"]), (downloadEngine, ["nextdl", "3"]),
   (downloadEngine, ["nextdl", "4"])]

/-- Split an info string at its backslashes (an info-string reader for the examples). -/
def infoFields : List Char → List Char → List String
  | [], cur => [String.mk cur.reverse]
  | c :: cs, cur =>
    if c = '\\' then String.mk cur.reverse :: infoFields cs [] else infoFields cs (c :: cur)

/-- The `(key, value)` pairs of a list of fields. -/
def infoPairs : List String → List (String × String)
  | k :: v :: rest => (k, v) :: infoPairs rest
  | _ => []

/-- The pairs of the info string `\key\value\key\value`. -/
def infoParse (s : String) : List (String × String) :=
  infoPairs ((infoFields s.toList []).drop 1)

/-- The info string of a list of pairs. -/
def infoRender : List (String × String) → String
  | [] => ""
  | p :: rest => "\\" ++ p.1 ++ "\\" ++ p.2 ++ infoRender rest

/-- The value of a key in an info string; empty when the key is missing. -/
def infoValueForKey (s key : String) : String := ((infoParse s).lookup key).getD ""

/-- The info string with the key removed and, for a value that is not empty, added at the end. -/
def infoSetValueForKey (s key value : String) : String :=
  infoRender (((infoParse s).filter (fun p => p.1 != key))
    ++ (if value = "" then [] else [(key, value)]))

/-- A dedicated server that reads info strings, with the given cvars. -/
def infoEngine (cvars : List (String × String)) : Engine :=
  { engineWith cvars with Info_ValueForKey := infoValueForKey,
                          Info_SetValueForKey := infoSetValueForKey }

/-- A server with three slots, the first of them private (password `sesame`),
that refuses a reconnect within 5 seconds; `svs.time` is 10000. -/
def connectEngine : Engine :=
  infoEngine [("sv_maxclients", "3"), ("sv_privateClients", "1"), ("sv_privatePassword", "sesame"),
              ("sv_reconnectlimit", "5"), ("sv_ratePolicy", "2"), ("sv_maxRate", "25000")]

/-- The same server two seconds later. -/
def connectEngineLater : Engine := { connectEngine with svs_time := 12000 }

/-- The address of the client of the examples. -/
def lukeAdr : netadr_t := { type := netadrtype_t.NA_IP, ip := [10, 0, 0, 2], port := 29070 }

/-- The command `connect` of the client: protocol 26, the challenge of the
server, qport 9000. -/
def connectArgv : Argv :=
  ["connect", "\\protocol\\26\\challenge\\4242\\qport\\9000\\name\\Luke\\rate\\25000\\snaps\\40"]

/-- The same command with the private password. -/
def connectPrivateArgv : Argv :=
  ["connect", "\\protocol\\26\\challenge\\4242\\qport\\9000\\name\\Luke\\password\\sesame"]

/-- The command `connect` of a client that speaks protocol 25. -/
def connectOldArgv : Argv :=
  ["connect", "\\protocol\\25\\challenge\\4242\\qport\\9000\\name\\Luke"]

/-- A table of three slots that were never used. -/
def emptyTable : Table := { clients := [client_t.zero, client_t.zero, client_t.zero], out := [] }

/-- A slot that has its gamestate and waits for the first user command. -/
def primedSlot : client_t := { activeSlot with state := CS_PRIMED }

/-- A PRIMED slot whose `cp` command was refused. -/
def refusedSlot : client_t := { primedSlot with gotCP := true }

/-- An ACTIVE slot whose last user command has the time 100. -/
def movingSlot : client_t :=
  { activeSlot with lastUsercmd := { usercmd_t.zero with serverTime := 100 } }

/-- A server with `sv_ratePolicy 2` on which `sv_maxRate` and `sv_minRate` were never set. -/
def ratePolicyEngine : Engine := infoEngine [("sv_ratePolicy", "2")]

/-- A connected slot whose userinfo asks for the rate 25000. -/
def rateSlot : client_t := { connectedSlot with userinfo := "\\name\\Luke\\rate\\25000" }

/-- A ZOMBIE slot. -/
def zombieSlot : client_t := { activeSlot with state := CS_ZOMBIE }

/-- A FREE slot that still holds the channel of an earlier connection of the
client of the examples, made at the time 0. -/
def staleSlot : client_t :=
  { client_t.zero with
    netchan := { remoteAddress := lukeAdr, qport := 9000, outgoingSequence := 1,
                 unsentFragments := false } }

/-- The slot of the client of the examples, connected at the time 8000. -/
def recentSlot : client_t := { staleSlot with state := CS_CONNECTED, lastConnectTime := 8000 }

/-- The private slot is FREE and stale, the client is connected in slot 1. -/
def staleTable : Table := { clients := [staleSlot, recentSlot, client_t.zero], out := [] }

/-- A bot. -/
def botSlot : client_t := { client_t.zero with state := CS_ACTIVE, name := "Bot" }

/-- A server with two slots, both taken by bots; connections from the local address. -/
def botEngine : Engine :=
  { infoEngine [("sv_maxclients", "2")] with NET_IsLocalAddress := fun _ => true }

/-- The table of the server with two bots. -/
def botTable : Table := { clients := [botSlot, botSlot], out := [] }

/-- The table after the client of the examples has connected to the empty server. -/
def joinedTable : Table :=
  { clients := (SV_DirectConnect connectEngine emptyTable lukeAdr connectArgv none false).clients,
    out := [] }

/-- The command `userinfo` with a name. -/
def userinfoArgv (name : String) : Argv := ["userinfo", "\\name\\" ++ name]

/-- A server that applies every fix of `sv_legacyFixes` (`sv_legacyFixes 1`). -/
def fixesEngine : Engine := infoEngine [("sv_legacyFixes", "1")]

/-- A connected slot whose userinfo holds well-formed force powers. -/
def forceSlot : client_t :=
  { connectedSlot with userinfo := "\\name\\Luke\\forcepowers\\7-1-032330000000001333" }

/-- A connected slot whose userinfo holds force powers with a letter. -/
def badForceSlot : client_t :=
  { connectedSlot with userinfo := "\\name\\Luke\\forcepowers\\7-1-03233000000000133x" }

/-- A BASEJKA server. -/
def basejkaEngine : Engine := { engineWith [] with svs_servermod := servermod_t.SVMOD_BASEJKA }

/-- Four `userinfo` commands within three seconds, the first at the time 10000. -/
def fourChanges : List (Int × Argv) :=
  [(10000, userinfoArgv "A"), (11000, userinfoArgv "B"), (12000, userinfoArgv "C"),
   (13000, userinfoArgv "D")]

/-- A server whose hash of a command is its length. -/
def hashEngine : Engine := { engineWith [] with Com_HashKey := fun s _ => (s.length : Int) }

/-- An ACTIVE slot that has acknowledged message 4 and whose reliable
acknowledge is -3, with the command `cs 1 x` at index 61. -/
def ackedSlot : client_t :=
  { activeSlot with messageAcknowledge := 4, reliableAcknowledge := -3,
                    reliableCommands := (List.replicate 64 "").set 61 "cs 1 x" }

/-- A bot that has played: its entity, its rate and its last user command are set. -/
def playedBotSlot : client_t :=
  { botSlot with gentity := some 1, rate := 16384,
                 lastUsercmd := { usercmd_t.zero with serverTime := 9950 } }

/-- A server with `sv_snapsPolicy 2` on which `sv_snapsMax` is 0 (no bound
of its own) and `sv_snapsMin` is 10. -/
def snapsEngine : Engine :=
  infoEngine [("sv_snapsPolicy", "2"), ("sv_fps", "40"), ("sv_snapsMin", "10"), ("sv_snapsMax", "0")]

/-- A connected slot whose userinfo asks for -1 snapshots per second. -/
def snapsSlot : client_t := { connectedSlot with userinfo := "\\name\\Luke\\snaps\\-1" }

/-- A server whose map was restarted at the server id 5 and is now at 7. -/
def restartEngine : Engine := { engineWith [] with sv_restartedServerId := 5 }

/-- A client message with one reliable command and one user command that
carries the server id `id` and acknowledges message 9. -/
def staleMessage (id : Int) : clientMessage :=
  { serverId := id, messageAcknowledge := 9, reliableAcknowledge := 0,
    commands := [(1, "say hi")], op := clcOp.clc_move, cmdCount := 1, usercmds := [[50]] }

/-- A PRIMED slot whose last client command was `nextdl 4` and which has no
download open. -/
def afterDownloadSlot : client_t := { primedSlot with lastClientCommandString := "nextdl 4" }

/-- The fast slot after the command `download MBII/x.pk3`. -/
def fastRequestedSlot : St :=
  (SV_BeginDownload_f downloadEngine { cl := fastSlot, out := [] }
    ["download", "MBII/x.pk3"]).1

/-- Five rounds on the download server, two seconds apart: the
acknowledgements `nextdl 0` to `nextdl 4`. -/
def slowRounds : List (Engine × Argv) :=
  [({ downloadEngine with svs_time := 10000 }, ["nextdl", "0"]),
   ({ downloadEngine with svs_time := 12000 }, ["nextdl", "1"]),
   ({ downloadEngine with svs_time := 14000 }, ["nextdl", "2"]),
   ({ downloadEngine with svs_time := 16000 }, ["nextdl", "3"]),
   ({ downloadEngine with svs_time := 18000 }, ["nextdl", "4"])]

/-- A dedicated server with flood protection on which `sv_antiDST` is set. -/
def dstEngine : Engine := engineWith [("sv_floodProtect", "1"), ("sv_antiDST", "1")]

/-- A connected slot of a LAN client: rate 99999 and 50 ms between snapshots
(five blocks per frame). -/
def lanSlot : client_t := { connectedSlot with rate := 99999, snapshotMsec := 50 }

/-- The LAN slot after the command `download MBII/x.pk3`, once the client has
entered the game (state ACTIVE) with the download still pending. -/
def activeRequestedSlot : St :=
  { cl := { (SV_BeginDownload_f downloadEngine { cl := lanSlot, out := [] }
              ["download", "MBII/x.pk3"]).1.cl with state := CS_ACTIVE },
    out := [] }

/-- Five rounds on the download server, 900 ms apart: the acknowledgements
`nextdl 0` to `nextdl 4`. -/
def promptRounds : List (Engine × Argv) :=
  [({ downloadEngine with svs_time := 10000 }, ["nextdl", "0"]),
   ({ downloadEngine with svs_time := 10900 }, ["nextdl", "1"]),
   ({ downloadEngine with svs_time := 11800 }, ["nextdl", "2"]),
   ({ downloadEngine with svs_time := 12700 }, ["nextdl", "3"]),
   ({ downloadEngine with svs_time := 13600 }, ["nextdl", "4"])]

/-- Modelled from the spec: `Info_SetValueForKey` of the shared code
(q_shared), which is not among the embedded files, on a `userinfo` that is a
"bounded key/value string (≤ MAX_INFO_STRING)": the key is removed, and the
pair is added only when the info string stays below `MAX_INFO_STRING` bytes; a
pair that does not fit is not written. -/
def infoSetValueForKeyBounded (s key value : String) : String :=
  let rest := infoRender ((infoParse s).filter (fun p => p.1 != key))
  if value = "" then rest
  else if ("\\" ++ key ++ "\\" ++ value).length + rest.length ≥ MAX_INFO_STRING then rest
  else rest ++ "\\" ++ key ++ "\\" ++ value

/-- A dedicated server that applies every fix of `sv_legacyFixes` and keeps
info strings below `MAX_INFO_STRING` bytes. -/
def boundedInfoEngine : Engine :=
  { engineWith [("sv_legacyFixes", "1")] with Info_ValueForKey := infoValueForKey,
                                              Info_SetValueForKey := infoSetValueForKeyBounded }

/-- A connected slot whose userinfo of 1000 bytes holds the force powers `x`. -/
def fullUserinfoSlot : client_t :=
  { connectedSlot with
    userinfo := "\\name\\Luke\\forcepowers\\x\\pad\\" ++ String.mk (List.replicate 971 'a') }

/-! # Theorems -/

/-! ## SMOD -/

theorem SMOD.findCommand_table (c : SMOD.smodcmd_t) (hc : c ∈ SMOD.smodcmds) :
    SMOD.GetCommandFromString c.name = some c := by
  simp only [ SMOD.smodcmds, List.mem_cons, List.mem_singleton, List.not_mem_nil, or_false] at hc
  rcases hc with h | h | h | h | h | h | h | h | h <;> subst h <;> decide

/-- The condition under which `SMOD::CommandCheck` lets a table command through. -/
theorem SMOD.CommandCheck_some (e : Engine) (src : St) (c : SMOD.smodcmd_t) :
    (SMOD.CommandCheck e src (some c)).1 = true ↔
      (src.cl.state = CS_ACTIVE ∧ SMOD.IsEnabled e = true ∧ and32 src.cl.smod c.lvl = c.lvl
        ∧ src.cl.smod > -1 ∧ src.cl.smodID > -1) := by
  unfold SMOD.CommandCheck SMOD.IsLoggedIn SMOD.IsAuthorized SMOD.SMOD_LOGGED_OUT
  by_cases h1 : src.cl.state = CS_ACTIVE <;> by_cases h2 : SMOD.IsEnabled e = true <;>
    by_cases h3 : src.cl.smod > -1 <;> by_cases h4 : src.cl.smodID > -1 <;>
    by_cases h5 : and32 src.cl.smod c.lvl = c.lvl <;> simp [h1, h2, h3, h4, h5]

/-- C1 (as stated) fails: on a server with SMOD enabled, an ACTIVE slot logged in
to account 3, whose configured mask is -1, satisfies `(M & R) == R` and
`smodID >= 0` for `freeze`, yet `SMOD::Execute` refuses and runs no handler; and
a slot that is not ACTIVE is refused whatever its mask. -/
theorem SMOD.Execute_claim_counterexample :
    (SMOD.AuthenticateClient smodEngine activeSlot 3 "hunter2").smod = -1
    ∧ (SMOD.AuthenticateClient smodEngine activeSlot 3 "hunter2").smodID = 3
    ∧ and32 (-1) 0x40000 = 0x40000
    ∧ (SMOD.Execute smodEngine
        { cl := SMOD.AuthenticateClient smodEngine activeSlot 3 "hunter2", out := [] } "freeze").1 = false
    ∧ (SMOD.Execute smodEngine
        { cl := { activeSlot with state := CS_PRIMED, smod := 0x40000, smodID := 1 }, out := [] }
        "freeze").1 = false := by
  refine ⟨by decide, by decide, by decide, by decide, by decide⟩

/-- C1 (amended): for every slot and every command `c` of the SMOD table,
`SMOD::Execute` on the verb `c.name` runs the handler of `c` and returns true
if and only if the slot is ACTIVE, SMOD is enabled, `(smod & c.lvl) == c.lvl`,
`smod > -1` and `smodID > -1`; otherwise it returns false and runs no handler
(it may print a refusal to the client, which queues a reliable command for the
slot). -/
theorem SMOD.Execute_runs_iff (e : Engine) (src : St) (c : SMOD.smodcmd_t)
    (hc : c ∈ SMOD.smodcmds) :
    (SMOD.Execute e src c.name = (true, src.emit (Event.smodHandler c.func)) ↔
      (src.cl.state = CS_ACTIVE ∧ SMOD.IsEnabled e = true ∧ and32 src.cl.smod c.lvl = c.lvl
        ∧ src.cl.smod > -1 ∧ src.cl.smodID > -1))
    ∧ ((SMOD.Execute e src c.name).1 = true ↔
      (src.cl.state = CS_ACTIVE ∧ SMOD.IsEnabled e = true ∧ and32 src.cl.smod c.lvl = c.lvl
        ∧ src.cl.smod > -1 ∧ src.cl.smodID > -1))
    ∧ ((SMOD.Execute e src c.name).1 = false →
        ∃ l, (SMOD.Execute e src c.name).2.out = src.out ++ l
            ∧ ∀ f, Event.smodHandler f ∉ l) := by
  have hfind := SMOD.findCommand_table c hc
  have hchk := SMOD.CommandCheck_some e src c
  have hshape : SMOD.CommandCheck e src (some c) = (true, src)
      ∨ ((SMOD.CommandCheck e src (some c)).1 = false
          ∧ ∃ l, (SMOD.CommandCheck e src (some c)).2.out = src.out ++ l
              ∧ ∀ f, Event.smodHandler f ∉ l) := by
    unfold SMOD.CommandCheck SMOD.Print St.emit
    split_ifs <;>
      first
        | exact Or.inl rfl
        | exact Or.inr ⟨rfl, _, rfl, by simp⟩
        | exact Or.inr ⟨rfl, [], by simp, by simp⟩
  have hex : SMOD.Execute e src c.name =
      match SMOD.CommandCheck e src (some c) with
      | (false, s) => (false, s)
      | (true, s) => (true, s.emit (Event.smodHandler c.func)) := by
    unfold SMOD.Execute
    simp only [hfind]
  rcases hshape with h | ⟨h1, h3⟩
  · have ht : (SMOD.CommandCheck e src (some c)).1 = true := by rw [h]
    have hres : SMOD.Execute e src c.name = (true, src.emit (Event.smodHandler c.func)) := by
      rw [hex, h]
    refine ⟨⟨fun _ => hchk.mp ht, fun _ => hres⟩, ⟨fun _ => hchk.mp ht, fun _ => by rw [hres]⟩, ?_⟩
    intro hf
    rw [hres] at hf
    exact absurd hf (by simp)
  · have hres : SMOD.Execute e src c.name = (false, (SMOD.CommandCheck e src (some c)).2) := by
      rw [hex]
      rcases h : SMOD.CommandCheck e src (some c) with ⟨b, s⟩
      rw [h] at h1
      simp only at h1
      subst h1
      rfl
    have hn : ¬ (src.cl.state = CS_ACTIVE ∧ SMOD.IsEnabled e = true
        ∧ and32 src.cl.smod c.lvl = c.lvl ∧ src.cl.smod > -1 ∧ src.cl.smodID > -1) := by
      intro hcond
      have := hchk.mpr hcond
      rw [h1] at this
      exact absurd this (by simp)
    refine ⟨⟨fun hh => ?_, fun hh => absurd hh hn⟩, ⟨fun hh => ?_, fun hh => absurd hh hn⟩, ?_⟩
    · rw [hres] at hh
      have := congrArg Prod.fst hh
      simp at this
    · rw [hres] at hh
      simp at hh
    · intro _
      rw [hres]
      exact h3

/-- Witness for `SMOD.Execute_runs_iff`: the `warn` entry of the table. -/
theorem SMOD.Execute_runs_iff_witness :
    ({ name := "warn", lvl := 0x80000, func := smodFunc.Warn } : SMOD.smodcmd_t) ∈ SMOD.smodcmds
    ∧ (SMOD.Execute smodEngine { cl := activeSlot, out := [] } "warn").1 = false :=
  ⟨by decide, by
    have h := (SMOD.Execute_runs_iff smodEngine { cl := activeSlot, out := [] }
      { name := "warn", lvl := 0x80000, func := smodFunc.Warn } (by decide)).2.1
    by_contra hne
    have ht : (SMOD.Execute smodEngine { cl := activeSlot, out := [] } "warn").1 = true := by
      simpa using hne
    have := (h.mp ht).2.2.2.1
    exact absurd this (by decide)⟩

/-- C2: for an ACTIVE slot on a server with SMOD enabled and a verb of the
SMOD command table, `SMOD::CommandCheck` returns true exactly when
`(smod & required) == required`, `smod > -1` and `smodID > -1`; a logged-out
slot (`smod = smodID = -1`), although its mask has every bit set, is refused. -/
theorem SMOD.CommandCheck_active_iff (e : Engine) (src : St) (c : SMOD.smodcmd_t)
    (hc : c ∈ SMOD.smodcmds) (hact : src.cl.state = CS_ACTIVE) (hen : SMOD.IsEnabled e = true) :
    ((SMOD.CommandCheck e src (SMOD.GetCommandFromString c.name)).1 = true ↔
      (and32 src.cl.smod c.lvl = c.lvl ∧ src.cl.smod > -1 ∧ src.cl.smodID > -1))
    ∧ (src.cl.smod = SMOD.SMOD_LOGGED_OUT → src.cl.smodID = SMOD.SMOD_LOGGED_OUT →
        and32 src.cl.smod c.lvl = c.lvl
        ∧ (SMOD.CommandCheck e src (SMOD.GetCommandFromString c.name)).1 = false) := by
  rw [ SMOD.findCommand_table c hc]
  have hchk := SMOD.CommandCheck_some e src c
  refine ⟨?_, ?_⟩
  · rw [hchk]
    constructor
    · rintro ⟨_, _, h⟩
      exact h
    · intro h
      exact ⟨hact, hen, h⟩
  · intro hs hid
    constructor
    · rw [hs]
      simp only [ SMOD.smodcmds, List.mem_cons, List.mem_singleton, List.not_mem_nil,
        or_false] at hc
      rcases hc with h | h | h | h | h | h | h | h | h <;> subst h <;> decide
    · by_contra hne
      have ht : (SMOD.CommandCheck e src (some c)).1 = true := by simpa using hne
      have := (hchk.mp ht).2.2.2.1
      rw [hs] at this
      exact absurd this (by decide)

/-- Witness for `SMOD.CommandCheck_active_iff`: the logged-out ACTIVE slot and `slay`. -/
theorem SMOD.CommandCheck_active_iff_witness :
    and32 activeSlot.smod 0x10000000 = 0x10000000
    ∧ (SMOD.CommandCheck smodEngine { cl := activeSlot, out := [] }
        (SMOD.GetCommandFromString "slay")).1 = false :=
  (SMOD.CommandCheck_active_iff smodEngine { cl := activeSlot, out := [] }
    { name := "slay", lvl := 0x10000000, func := smodFunc.Slay }
    (by decide) (by decide) (by decide)).2 (by decide) (by decide)

/-- C3 (as stated) fails: the slot is ACTIVE, SMOD is enabled, id 2 lies in
[1,16] and the supplied password equals the configured (empty)
`g_smodAdminPassword_2`, yet the slot is left unchanged. -/
theorem SMOD.AuthenticateClient_claim_counterexample :
    activeSlot.state = CS_ACTIVE
    ∧ SMOD.IsEnabled smodEngine = true
    ∧ "" = (smodEngine.cvar "g_smodAdminPassword_2").string
    ∧ (smodEngine.cvar "g_smodconfig_2").integer = 262144
    ∧ (SMOD.AuthenticateClient smodEngine activeSlot 2 "").smodID = -1
    ∧ (SMOD.AuthenticateClient smodEngine activeSlot 2 "").smod = -1 := by
  refine ⟨by decide, by decide, by decide, by decide, by decide, by decide⟩

/-- C3 (amended): `SMOD::AuthenticateClient` stores `smodID = id` and
`smod = ` the integer value of `g_smodconfig_<id>`, changing no other field,
when the slot is ACTIVE, SMOD is enabled, `id` is in [1,16], the configured
`g_smodAdminPassword_<id>` is not empty and the supplied password equals it;
in every other case it leaves the slot entirely unchanged. -/
theorem SMOD.AuthenticateClient_eq (e : Engine) (cl : client_t) (id : Int) (password : String) :
    SMOD.AuthenticateClient e cl id password =
      if cl.state = CS_ACTIVE ∧ SMOD.IsEnabled e = true ∧ 1 ≤ id ∧ id ≤ 16
          ∧ (e.cvar ("g_smodAdminPassword_" ++ toString id)).string ≠ ""
          ∧ password = (e.cvar ("g_smodAdminPassword_" ++ toString id)).string
      then { cl with smodID := id, smod := (e.cvar ("g_smodconfig_" ++ toString id)).integer }
      else cl := by
  unfold SMOD.AuthenticateClient SMOD.SMOD_ADMIN_START SMOD.SMOD_ADMIN_END
  dsimp only
  by_cases hA : cl.state ≠ CS_ACTIVE ∨ ¬ SMOD.IsEnabled e = true
  · rw [if_pos hA, if_neg]
    rintro ⟨h1, h2, _⟩
    rcases hA with h | h
    · exact h h1
    · exact h h2
  · rw [if_neg hA]
    by_cases hB : id < 1 ∨ id > 16
    · rw [if_pos hB, if_neg]
      rintro ⟨_, _, h3, h4, _⟩
      omega
    · rw [if_neg hB]
      by_cases hC : (e.cvar ("g_smodAdminPassword_" ++ toString id)).string = ""
      · rw [if_pos hC, if_neg]
        rintro ⟨_, _, _, _, h5, _⟩
        exact h5 hC
      · rw [if_neg hC]
        by_cases hD : password = (e.cvar ("g_smodAdminPassword_" ++ toString id)).string
        · rw [if_pos hD, if_pos]
          refine ⟨?_, ?_, ?_, ?_, hC, hD⟩
          · by_contra h
            exact hA (Or.inl h)
          · by_contra h
            exact hA (Or.inr h)
          · omega
          · omega
        · rw [if_neg hD, if_neg]
          rintro ⟨_, _, _, _, _, h6⟩
          exact hD h6

/-! ## 32-bit arithmetic -/

theorem toU32_lt (x : Int) : toU32 x < 4294967296 := by
  unfold toU32
  omega

theorem toU32_ofU32 (n : Nat) (h : n < 4294967296) : toU32 (ofU32 n) = n := by
  unfold toU32 ofU32
  split_ifs <;> omega

theorem toU32_xor32 (a b : Int) : toU32 (xor32 a b) = toU32 a ^^^ toU32 b := by
  unfold xor32
  apply toU32_ofU32
  have := @Nat.xor_lt_two_pow (toU32 a) (toU32 b) 32 (by have := toU32_lt a; omega)
    (by have := toU32_lt b; omega)
  omega

theorem toU32_flipBit (x : Int) (k : Nat) (hk : k < 32) : toU32 (flipBit x k) = toU32 x ^^^ 2 ^ k := by
  unfold flipBit
  rw [toU32_xor32, toU32_ofU32]
  calc 2 ^ k < 2 ^ 32 := Nat.pow_lt_pow_right (by norm_num) hk
    _ = 4294967296 := by norm_num

/-- Flipping one of the 32 bits changes the bit pattern. -/
theorem toU32_flipBit_ne (x : Int) (k : Nat) (hk : k < 32) : toU32 (flipBit x k) ≠ toU32 x := by
  rw [toU32_flipBit x k hk]
  intro h
  have h2 : toU32 x ^^^ 2 ^ k = toU32 x ^^^ 0 := by rw [h, Nat.xor_zero]
  have h3 := Nat.xor_right_inj.mp h2
  exact absurd h3 (by positivity)

theorem toU32_foldl_xor32 (l : List Int) (a : Int) :
    toU32 (l.foldl xor32 a) = xorPatterns (toU32 a) l := by
  induction l generalizing a with
  | nil => rfl
  | cons c cs ih =>
    simp only [List.foldl_cons, xorPatterns]
    rw [ih, toU32_xor32]
    rfl

theorem xorPatterns_xor (a d : Nat) (l : List Int) :
    xorPatterns (a ^^^ d) l = xorPatterns a l ^^^ d := by
  induction l generalizing a with
  | nil => rfl
  | cons c cs ih =>
    simp only [xorPatterns, List.foldl_cons] at ih ⊢
    rw [show a ^^^ d ^^^ toU32 c = (a ^^^ toU32 c) ^^^ d by
      rw [Nat.xor_assoc, Nat.xor_comm d, ← Nat.xor_assoc]]
    exact ih _

/-- Replacing entry `j` by a value whose pattern differs by `d` changes the xor by `d`. -/
theorem xorPatterns_set (a : Nat) (l : List Int) (j : Nat) (x : Int) (d : Nat) (hj : j < l.length)
    (hx : toU32 x = toU32 (l.getD j 0) ^^^ d) :
    xorPatterns a (l.set j x) = xorPatterns a l ^^^ d := by
  induction l generalizing a j with
  | nil => simp at hj
  | cons c cs ih =>
    cases j with
    | zero =>
      simp only [List.set_cons_zero, xorPatterns, List.foldl_cons]
      simp only [List.getD_cons_zero] at hx
      rw [hx, ← Nat.xor_assoc]
      exact xorPatterns_xor _ _ _
    | succ j =>
      simp only [List.set_cons_succ, xorPatterns, List.foldl_cons]
      simp only [List.getD_cons_succ] at hx
      exact ih _ j (by simpa using hj) hx

/-! ## Purity verification -/

theorem clientChkSumRepeats_iff (l : List Int) (n : Nat) (hn : n ≤ l.length) :
    clientChkSumRepeats l n = true ↔ ¬ (l.take n).Nodup := by
  unfold clientChkSumRepeats
  simp only [List.any_eq_true, List.mem_range, Bool.and_eq_true, bne_iff_ne, ne_eq,
    decide_eq_true_eq]
  rw [List.nodup_iff_getElem?_ne_getElem?]
  have hlen : (l.take n).length = n := by simp [hn]
  have hget : ∀ i, i < n → l.getD i 0 = ((l.take n)[i]?).getD 0 := by
    intro i hi
    rw [List.getD_eq_getElem?_getD, List.getElem?_take, if_pos hi]
  have hsome : ∀ i, i < n → (l.take n)[i]? = some (((l.take n)[i]?).getD 0) := by
    intro i hi
    rw [List.getElem?_eq_getElem (by omega)]
    rfl
  constructor
  · rintro ⟨i, hi, j, hj, hij, heq⟩ hnd
    rw [hget i hi, hget j hj] at heq
    rcases Nat.lt_or_gt_of_ne hij with h | h
    · apply hnd i j h (by omega)
      rw [hsome i hi, hsome j hj, heq]
    · apply hnd j i h (by omega)
      rw [hsome i hi, hsome j hj, heq]
  · intro h
    push_neg at h
    obtain ⟨i, j, hij, hj, heq⟩ := h
    rw [hlen] at hj
    refine ⟨i, by omega, j, hj, by omega, ?_⟩
    rw [hget i (by omega), hget j hj, heq]

theorem clientChkSumUnknown_iff (l : List Int) (n : Nat) (srv : List Int) (hn : n ≤ l.length) :
    clientChkSumUnknown l n srv = true ↔ ∃ c ∈ l.take n, c ∉ srv := by
  unfold clientChkSumUnknown
  simp only [List.any_eq_true, List.mem_range, Bool.not_eq_true', decide_eq_true_eq]
  have hlen : (l.take n).length = n := by simp [hn]
  have hget : ∀ i (hi : i < n), l.getD i 0 = (l.take n)[i] := by
    intro i hi
    rw [List.getD_eq_getElem _ _ (by omega), List.getElem_take]
  have hmem : ∀ c, (∃ j, j < srv.length ∧ c = srv.getD j 0) ↔ c ∈ srv := by
    intro c
    rw [List.mem_iff_getElem]
    constructor
    · rintro ⟨j, hj, h⟩
      exact ⟨j, hj, by rw [h, List.getD_eq_getElem _ _ hj]⟩
    · rintro ⟨j, hj, h⟩
      exact ⟨j, hj, by rw [← h, List.getD_eq_getElem _ _ hj]⟩
  constructor
  · rintro ⟨i, hi, h⟩
    refine ⟨l.getD i 0, ?_, ?_⟩
    · rw [hget i hi]
      exact List.getElem_mem _
    · intro hc
      obtain ⟨j, hj, hjc⟩ := (hmem _).mpr hc
      have : (List.range srv.length).any (fun j => decide (l.getD i 0 = srv.getD j 0)) = true := by
        rw [List.any_eq_true]
        exact ⟨j, List.mem_range.mpr hj, by simpa using hjc⟩
      rw [this] at h
      exact absurd h (by simp)
  · rintro ⟨c, hc, hns⟩
    obtain ⟨i, hi, hic⟩ := List.mem_iff_getElem.mp hc
    rw [hlen] at hi
    refine ⟨i, hi, ?_⟩
    rw [Bool.eq_false_iff]
    intro hany
    rw [List.any_eq_true] at hany
    obtain ⟨j, hj, hjc⟩ := hany
    apply hns
    apply (hmem c).mp
    refine ⟨j, List.mem_range.mp hj, ?_⟩
    rw [← hic, ← hget i hi]
    simpa using hjc

/-- What the `while (bGood)` block of SV_VerifyPaks_f accepts. -/
theorem SV_VerifyPaks_checks_iff (e : Engine) (argv : Argv) (c1 c2 : Int) :
    (SV_VerifyPaks_checks e argv c1 c2).1 = true ↔
      (6 ≤ argv.length
        ∧ (firstChar (Cmd_Argv argv 1) ≠ '@' ∧ atoi (Cmd_Argv argv 1) = c1)
        ∧ (firstChar (Cmd_Argv argv 2) ≠ '@' ∧ atoi (Cmd_Argv argv 2) = c2)
        ∧ firstChar (Cmd_Argv argv 3) = '@'
        ∧ (cpPakChecksums argv).Nodup
        ∧ (∀ c ∈ cpPakChecksums argv, c ∈ serverPureChecksums e)
        ∧ xor32 ((cpPakChecksums argv).foldl xor32 e.sv_checksumFeed)
            ((cpPakChecksums argv).length : Int) = cpTrailer argv) := by
  have htake : ((argv.drop 4).map atoi).take (((argv.drop 4).map atoi).length - 1)
      = cpPakChecksums argv := by
    unfold cpPakChecksums
    rw [List.dropLast_eq_take]
  have hlen : (cpPakChecksums argv).length = ((argv.drop 4).map atoi).length - 1 := by
    unfold cpPakChecksums
    rw [List.length_dropLast]
  have hlast : ((argv.drop 4).map atoi).getD (((argv.drop 4).map atoi).length - 1) 0
      = cpTrailer argv := by
    unfold cpTrailer
    generalize (argv.drop 4).map atoi = l
    rcases List.eq_nil_or_concat l with h | ⟨l', a, h⟩
    · subst h
      rfl
    · subst h
      simp [List.getD_eq_getElem?_getD]
  unfold SV_VerifyPaks_checks
  by_cases h0 : Cmd_Argc argv < 6
  · rw [if_pos h0]
    unfold Cmd_Argc at h0
    constructor
    · intro h
      exact absurd h (by simp)
    · rintro ⟨h, _⟩
      omega
  rw [if_neg h0]
  have h0' : 6 ≤ argv.length := by
    unfold Cmd_Argc at h0
    omega
  by_cases h1 : firstChar (Cmd_Argv argv 1) = '@' ∨ atoi (Cmd_Argv argv 1) ≠ c1
  · rw [if_pos h1]
    constructor
    · intro h
      exact absurd h (by simp)
    · rintro ⟨_, ⟨ha, hb⟩, _⟩
      rcases h1 with h | h
      · exact absurd h ha
      · exact absurd hb h
  rw [if_neg h1]
  by_cases h2 : firstChar (Cmd_Argv argv 2) = '@' ∨ atoi (Cmd_Argv argv 2) ≠ c2
  · rw [if_pos h2]
    constructor
    · intro h
      exact absurd h (by simp)
    · rintro ⟨_, _, ⟨ha, hb⟩, _⟩
      rcases h2 with h | h
      · exact absurd h ha
      · exact absurd hb h
  rw [if_neg h2]
  by_cases h3 : firstChar (Cmd_Argv argv 3) ≠ '@'
  · rw [if_pos h3]
    constructor
    · intro h
      exact absurd h (by simp)
    · rintro ⟨_, _, _, ha, _⟩
      exact absurd ha h3
  rw [if_neg h3]
  dsimp only
  have hle : ((argv.drop 4).map atoi).length - 1 ≤ ((argv.drop 4).map atoi).length := by omega
  by_cases h4 : clientChkSumRepeats ((argv.drop 4).map atoi) (((argv.drop 4).map atoi).length - 1) = true
  · rw [if_pos h4]
    rw [clientChkSumRepeats_iff _ _ hle, htake] at h4
    constructor
    · intro h
      exact absurd h (by simp)
    · rintro ⟨_, _, _, _, ha, _⟩
      exact absurd ha h4
  rw [if_neg h4]
  rw [clientChkSumRepeats_iff _ _ hle, htake, not_not] at h4
  by_cases h5 : clientChkSumUnknown ((argv.drop 4).map atoi) (((argv.drop 4).map atoi).length - 1)
      (serverPureChecksums e) = true
  · rw [if_pos h5]
    rw [clientChkSumUnknown_iff _ _ _ hle, htake] at h5
    obtain ⟨c, hc, hns⟩ := h5
    constructor
    · intro h
      exact absurd h (by simp)
    · rintro ⟨_, _, _, _, _, ha, _⟩
      exact absurd (ha c hc) hns
  rw [if_neg h5]
  rw [clientChkSumUnknown_iff _ _ _ hle, htake] at h5
  push_neg at h5
  have hx : pureChecksumXor e.sv_checksumFeed ((argv.drop 4).map atoi)
      (((argv.drop 4).map atoi).length - 1)
      = xor32 ((cpPakChecksums argv).foldl xor32 e.sv_checksumFeed)
          ((cpPakChecksums argv).length : Int) := by
    unfold pureChecksumXor
    rw [htake, hlen]
  rw [hx, hlast]
  by_cases h6 : xor32 ((cpPakChecksums argv).foldl xor32 e.sv_checksumFeed)
      ((cpPakChecksums argv).length : Int) ≠ cpTrailer argv
  · rw [if_pos h6]
    constructor
    · intro h
      exact absurd h (by simp)
    · rintro ⟨_, _, _, _, _, _, ha⟩
      exact absurd ha h6
  rw [if_neg h6]
  rw [not_not] at h6
  rw [not_or, not_not] at h1 h2
  rw [not_not] at h3
  exact ⟨fun _ => ⟨h0', h1, h2, h3, h4, h5, h6⟩, fun _ => rfl⟩

/-! ## Slot and trace of the basic steps -/

@[simp] theorem St.emit_cl (s : St) (ev : Event) : (s.emit ev).cl = s.cl := rfl

@[simp] theorem St.emit_out (s : St) (ev : Event) : (s.emit ev).out = s.out ++ [ev] := rfl

@[simp] theorem St.emitS_cl (s : St) (f : client_t → Event) : (s.emitS f).cl = s.cl := rfl

@[simp] theorem St.emitS_out (s : St) (f : client_t → Event) :
    (s.emitS f).out = s.out ++ [f s.cl] := rfl

@[simp] theorem St.modify_cl (s : St) (f : client_t → client_t) : (s.modify f).cl = f s.cl := rfl

@[simp] theorem St.modify_out (s : St) (f : client_t → client_t) : (s.modify f).out = s.out := rfl

@[simp] theorem St.when_true (s : St) (f : St → St) : s.when true f = f s := rfl

@[simp] theorem St.when_false (s : St) (f : St → St) : s.when false f = s := rfl

theorem St.whenS_eq (s : St) (c : client_t → Bool) (f : St → St) :
    s.whenS c f = s.when (c s.cl) f := rfl

theorem St.when_cl (s : St) (c : Bool) (f : St → St) :
    (s.when c f).cl = if c = true then (f s).cl else s.cl := by
  cases c <;> rfl

theorem St.when_out (s : St) (c : Bool) (f : St → St) :
    (s.when c f).out = if c = true then (f s).out else s.out := by
  cases c <;> rfl

/-- A guarded statement that only appends to the trace leaves the slot alone. -/
theorem St.when_cl_of_keeps (s : St) (c : Bool) (f : St → St) (hf : ∀ t, (f t).cl = t.cl) :
    (s.when c f).cl = s.cl := by
  cases c
  · rfl
  · exact hf s

theorem St.whenS_cl_of_keeps (s : St) (c : client_t → Bool) (f : St → St)
    (hf : ∀ t, (f t).cl = t.cl) : (s.whenS c f).cl = s.cl :=
  St.when_cl_of_keeps s (c s.cl) f hf

@[simp] theorem SV_CloseDownload_cl (s : St) :
    (SV_CloseDownload s).cl =
      { s.cl with download := 0, downloadName := "",
                  downloadBlocks := List.replicate MAX_DOWNLOAD_WINDOW none } := rfl

@[simp] theorem SV_SetUserinfo_cl (s : St) (val : String) :
    (SV_SetUserinfo s val).cl = { s.cl with userinfo := val } := rfl

@[simp] theorem SV_StopRecordDemo_cl (s : St) :
    (SV_StopRecordDemo s).cl = { s.cl with demorecording := false } := rfl

/-! ## Dropping a client -/

theorem SV_DropClient_zombie (e : Engine) (s : St) (reason : String) (h : s.cl.state = CS_ZOMBIE) :
    SV_DropClient e s reason = s := by
  unfold SV_DropClient
  rw [if_pos h]

/-- The slot left by SV_DropClient when it was not a ZOMBIE already. -/
theorem SV_DropClient_cl (e : Engine) (s : St) (reason : String) (h : s.cl.state ≠ CS_ZOMBIE) :
    (SV_DropClient e s reason).cl =
      { s.cl with
        download := 0
        downloadName := ""
        downloadBlocks := List.replicate MAX_DOWNLOAD_WINDOW none
        chatLogPolicySentTime := if e.DEDICATED = true then 0 else s.cl.chatLogPolicySentTime
        chatLogPolicySent := if e.DEDICATED = true then false else s.cl.chatLogPolicySent
        userinfo := ""
        state := if s.cl.netchan.remoteAddress.type = netadrtype_t.NA_BOT then CS_FREE else CS_ZOMBIE
        demorecording := false } := by
  unfold SV_DropClient
  rw [if_neg h]
  cases hd : s.cl.demorecording <;> cases hD : e.DEDICATED <;>
    by_cases hb : s.cl.netchan.remoteAddress.type = netadrtype_t.NA_BOT <;>
    simp [St.whenS_eq, St.when_cl, hd, hD, hb]

@[simp] theorem SV_CloseDownload_out (s : St) :
    (SV_CloseDownload s).out =
      s.out ++ (if s.cl.download ≠ 0 then [Event.FS_FCloseFile s.cl.download] else [])
        ++ downloadFreeEvents s.cl.downloadBlocks := rfl

@[simp] theorem SV_SetUserinfo_out (s : St) (val : String) :
    (SV_SetUserinfo s val).out = s.out ++ [Event.SV_SetUserinfo val] := rfl

@[simp] theorem SV_StopRecordDemo_out (s : St) :
    (SV_StopRecordDemo s).out = s.out ++ [Event.SV_StopRecordDemo] := rfl

theorem noneConnected_cons (c : client_t) (t : List client_t) :
    noneConnected (c :: t) = (! isConnected c && noneConnected t) := rfl

theorem anyHumans_cons (c : client_t) (t : List client_t) :
    anyHumans (c :: t) = ((isConnected c
      && decide (c.netchan.remoteAddress.type ≠ netadrtype_t.NA_BOT)) || anyHumans t) := rfl

theorem isConnected_of_state (c : client_t) (h : c.state = CS_FREE ∨ c.state = CS_ZOMBIE) :
    isConnected c = false := by
  unfold isConnected
  rcases h with h | h <;> rw [h] <;> decide

/-- The calls made by SV_DropClient on a slot that is not a ZOMBIE, in order. -/
theorem SV_DropClient_out (e : Engine) (s : St) (reason : String) (h : s.cl.state ≠ CS_ZOMBIE) :
    (SV_DropClient e s reason).out =
      s.out ++ (if s.cl.download ≠ 0 then [Event.FS_FCloseFile s.cl.download] else [])
        ++ downloadFreeEvents s.cl.downloadBlocks
        ++ [Event.SV_SendServerCommand true
              ("print \"" ++ s.cl.name ++ S_COLOR_WHITE ++ " " ++ reason ++ "\n\""),
            Event.GVM_ClientDisconnect,
            Event.SV_SendServerCommand false ("disconnect \"" ++ reason ++ "\"")]
        ++ (if s.cl.netchan.remoteAddress.type = netadrtype_t.NA_BOT
            then [Event.SV_BotFreeClient, Event.SV_SetUserinfo ""]
            else [Event.SV_SetUserinfo "",
                  Event.Com_DPrintf ("Going to CS_ZOMBIE for " ++ s.cl.name ++ "\n")])
        ++ (if s.cl.demorecording = true then [Event.SV_StopRecordDemo] else [])
        ++ (if noneConnected e.otherClients = true then [Event.SV_Heartbeat_f] else [])
        ++ (if anyHumans e.otherClients = true then [] else [Event.hibernation_lastTimeDisconnected]) := by
  unfold SV_DropClient
  rw [if_neg h]
  cases hd : s.cl.demorecording <;> cases hD : e.DEDICATED <;>
    by_cases hb : s.cl.netchan.remoteAddress.type = netadrtype_t.NA_BOT <;>
    cases hn : noneConnected e.otherClients <;> cases ha : anyHumans e.otherClients <;>
    simp [St.whenS_eq, St.when_out, St.when_cl, hd, hD, hb, hn, ha, noneConnected_cons,
      anyHumans_cons, isConnected, clientState_t.toInt]

/-! ## SV_VerifyPaks_f -/

theorem SV_VerifyPaks_f_eq (e : Engine) (s : St) (argv : Argv)
    (hpure : (e.cvar "sv_pure").integer ≠ 0) :
    SV_VerifyPaks_f e s argv =
      if (SV_VerifyPaks_bGood e argv).1 = true then
        ((s.modify (fun cl => { cl with gotCP := true })).modify
          (fun cl => { cl with pureAuthentic := 1 }), (SV_VerifyPaks_bGood e argv).2)
      else (SV_DropClient e (unpureBeforeDrop s) unpureReason, (SV_VerifyPaks_bGood e argv).2) := by
  unfold SV_VerifyPaks_f
  rw [if_pos hpure]
  rfl

theorem SV_VerifyPaks_bGood_iff (e : Engine) (argv : Argv) :
    (SV_VerifyPaks_bGood e argv).1 = true ↔
      ((e.FS_FileIsInPAK "cgamex86.dll").1 = 1 ∧ (e.FS_FileIsInPAK "uix86.dll").1 = 1
        ∧ (SV_VerifyPaks_checks e argv (e.FS_FileIsInPAK "cgamex86.dll").2
            (e.FS_FileIsInPAK "uix86.dll").2).1 = true) := by
  unfold SV_VerifyPaks_bGood
  dsimp only
  by_cases h1 : (e.FS_FileIsInPAK "cgamex86.dll").1 = 1
  · rw [if_pos h1]
    by_cases h2 : (e.FS_FileIsInPAK "uix86.dll").1 = 1
    · rw [if_pos h2]
      exact ⟨fun h => ⟨h1, h2, h⟩, fun h => h.2.2⟩
    · rw [if_neg h2]
      exact ⟨fun h => absurd h (by simp), fun h => absurd h.2.1 h2⟩
  · rw [if_neg h1]
    exact ⟨fun h => absurd h (by simp), fun h => absurd h.1 h1⟩

/-- What happens to a client refused by SV_VerifyPaks_f: it is dropped with the
unpure-client reason. -/
theorem unpure_drop_facts (e : Engine) (s : St) :
    (SV_DropClient e (unpureBeforeDrop s) unpureReason).cl.pureAuthentic = 0
    ∧ (SV_DropClient e (unpureBeforeDrop s) unpureReason).cl.gotCP = true
    ∧ (SV_DropClient e (unpureBeforeDrop s) unpureReason).cl.state =
        (if s.cl.netchan.remoteAddress.type = netadrtype_t.NA_BOT then CS_FREE else CS_ZOMBIE)
    ∧ (∃ l, (SV_DropClient e (unpureBeforeDrop s) unpureReason).out
          = s.out ++ Event.SV_SendClientSnapshot :: l
        ∧ Event.SV_SendServerCommand false ("disconnect \"" ++ unpureReason ++ "\"") ∈ l) := by
  have hst : (unpureBeforeDrop s).cl.state ≠ CS_ZOMBIE := by
    simp [unpureBeforeDrop]
  refine ⟨?_, ?_, ?_, ?_⟩
  · rw [SV_DropClient_cl e _ _ hst]
    rfl
  · rw [SV_DropClient_cl e _ _ hst]
    rfl
  · rw [SV_DropClient_cl e _ _ hst]
    rfl
  · rw [SV_DropClient_out e _ _ hst]
    have hout : (unpureBeforeDrop s).out = s.out ++ [Event.SV_SendClientSnapshot] := rfl
    rw [hout]
    simp only [List.append_assoc, List.singleton_append]
    exact ⟨_, rfl, by simp⟩

theorem cpPakChecksums_cons (verb a1 a2 a3 : String) (paks : List String) (trailer : String) :
    cpPakChecksums (verb :: a1 :: a2 :: a3 :: (paks ++ [trailer])) = paks.map atoi := by
  simp [cpPakChecksums]

theorem cpTrailer_cons (verb a1 a2 a3 : String) (paks : List String) (trailer : String) :
    cpTrailer (verb :: a1 :: a2 :: a3 :: (paks ++ [trailer])) = atoi trailer := by
  simp [cpTrailer]

/-- C4: with `sv_pure != 0`, a `cp` command whose first two arguments are the
server's cgame and ui checksums, whose third argument is "@", whose N >= 1
pak checksums are pairwise distinct and all in the server's loaded-pak
pure-checksum list, and whose last argument is
`checksumFeed xor c1 xor ... xor cN xor N`, sets `pureAuthentic = 1` and
`gotCP = true`, changes nothing else and makes no call (the client is not
dropped). -/
theorem SV_VerifyPaks_f_authenticates (e : Engine) (s : St) (verb a1 a2 : String)
    (paks : List String) (trailer : String) (cgame ui : Int)
    (hpure : (e.cvar "sv_pure").integer ≠ 0)
    (hcg : e.FS_FileIsInPAK "cgamex86.dll" = (1, cgame))
    (hui : e.FS_FileIsInPAK "uix86.dll" = (1, ui))
    (ha1 : firstChar a1 ≠ '@' ∧ atoi a1 = cgame)
    (ha2 : firstChar a2 ≠ '@' ∧ atoi a2 = ui)
    (hN : 1 ≤ paks.length)
    (hdistinct : (paks.map atoi).Nodup)
    (hpresent : ∀ c ∈ paks.map atoi, c ∈ serverPureChecksums e)
    (hxor : atoi trailer
      = xor32 ((paks.map atoi).foldl xor32 e.sv_checksumFeed) (paks.length : Int)) :
    (SV_VerifyPaks_f e s (verb :: a1 :: a2 :: "@" :: (paks ++ [trailer]))).1.cl
        = { s.cl with gotCP := true, pureAuthentic := 1 }
    ∧ (SV_VerifyPaks_f e s (verb :: a1 :: a2 :: "@" :: (paks ++ [trailer]))).1.out = s.out := by
  have hgood : (SV_VerifyPaks_bGood e (verb :: a1 :: a2 :: "@" :: (paks ++ [trailer]))).1 = true := by
    rw [SV_VerifyPaks_bGood_iff, hcg, hui, SV_VerifyPaks_checks_iff, cpPakChecksums_cons,
      cpTrailer_cons]
    refine ⟨rfl, rfl, ?_, ha1, ha2, rfl, hdistinct, hpresent, ?_⟩
    · simp only [List.length_cons, List.length_append, List.length_nil]
      omega
    · rw [hxor, List.length_map]
  rw [SV_VerifyPaks_f_eq e s _ hpure, if_pos hgood]
  exact ⟨rfl, rfl⟩

/-- Witness for `SV_VerifyPaks_f_authenticates`: `cp 111 222 @ 170 187 2` on the
pure server (17 xor 170 xor 187 xor 2 = 2). -/
theorem SV_VerifyPaks_f_authenticates_witness :
    (SV_VerifyPaks_f pureEngine { cl := activeSlot, out := [] }
        ["cp", "111", "222", "@", "170", "187", "2"]).1.cl
      = { activeSlot with gotCP := true, pureAuthentic := 1 }
    ∧ (SV_VerifyPaks_f pureEngine { cl := activeSlot, out := [] }
        ["cp", "111", "222", "@", "170", "187", "2"]).1.out = [] :=
  SV_VerifyPaks_f_authenticates pureEngine { cl := activeSlot, out := [] } "cp" "111" "222"
    ["170", "187"] "2" 111 222 (by decide) (by decide) (by decide) (by decide) (by decide)
    (by decide) (by decide) (by decide) (by decide)

/-- When the xor test of SV_VerifyPaks_f passes on the stored numbers `l`
(checksums followed by the client's value), the xor of all bit patterns with
the feed and the count vanishes. -/
theorem pure_xor_patterns (feed : Int) (l : List Int) (hl : l ≠ [])
    (h : xor32 ((l.dropLast).foldl xor32 feed) ((l.dropLast).length : Int) = l.getLastD 0) :
    xorPatterns (toU32 feed) l ^^^ toU32 ((l.length - 1 : Nat) : Int) = 0 := by
  rcases List.eq_nil_or_concat l with h0 | ⟨cs, t, h0⟩
  · exact absurd h0 hl
  · subst h0
    simp only [List.concat_eq_append, List.dropLast_concat, List.getLastD_eq_getLast?,
      List.getLast?_append, List.getLast?_singleton, Option.or_some, Option.getD_some] at h
    simp only [List.concat_eq_append, List.length_append, List.length_singleton,
      add_tsub_cancel_right]
    have h2 := congrArg toU32 h
    rw [toU32_xor32, toU32_foldl_xor32] at h2
    have h3 : xorPatterns (toU32 feed) (cs ++ [t]) = xorPatterns (toU32 feed) cs ^^^ toU32 t := by
      simp [xorPatterns, List.foldl_append]
    rw [h3, ← h2, Nat.xor_cancel_left, Nat.xor_self]

theorem SV_VerifyPaks_f_refused (e : Engine) (s : St) (argv : Argv)
    (hpure : (e.cvar "sv_pure").integer ≠ 0) (hbad : (SV_VerifyPaks_bGood e argv).1 = false) :
    (SV_VerifyPaks_f e s argv).1 = SV_DropClient e (unpureBeforeDrop s) unpureReason := by
  rw [SV_VerifyPaks_f_eq e s _ hpure, if_neg (by rw [hbad]; simp)]

theorem SV_VerifyPaks_f_good_of_authentic (e : Engine) (s : St) (argv : Argv)
    (hpure : (e.cvar "sv_pure").integer ≠ 0)
    (hauth : (SV_VerifyPaks_f e s argv).1.cl.pureAuthentic = 1) :
    (SV_VerifyPaks_bGood e argv).1 = true := by
  by_contra hne
  have hbad : (SV_VerifyPaks_bGood e argv).1 = false := by simpa using hne
  rw [SV_VerifyPaks_f_refused e s argv hpure hbad, (unpure_drop_facts e s).1] at hauth
  exact absurd hauth (by decide)

/-- C5: with `sv_pure != 0`, take a `cp` command that authenticates; flipping
one bit `k` of one of its numbers after the "@" (entry `j`: a listed pak
checksum or the trailing xor value) makes verification fail: the client is
dropped with the unpure-client reason, `pureAuthentic` is 0 afterwards. -/
theorem SV_VerifyPaks_f_bit_flip (e : Engine) (s : St) (verb a1 a2 a3 : String)
    (nums nums' : List String) (j k : Nat)
    (hpure : (e.cvar "sv_pure").integer ≠ 0)
    (hauth : (SV_VerifyPaks_f e s (verb :: a1 :: a2 :: a3 :: nums)).1.cl.pureAuthentic = 1)
    (hj : j < nums.length) (hk : k < 32)
    (hflip : nums'.map atoi
      = (nums.map atoi).set j (flipBit ((nums.map atoi).getD j 0) k)) :
    (SV_VerifyPaks_f e s (verb :: a1 :: a2 :: a3 :: nums')).1
        = SV_DropClient e (unpureBeforeDrop s) unpureReason
    ∧ (SV_VerifyPaks_f e s (verb :: a1 :: a2 :: a3 :: nums')).1.cl.pureAuthentic = 0
    ∧ (SV_VerifyPaks_f e s (verb :: a1 :: a2 :: a3 :: nums')).1.cl.state =
        (if s.cl.netchan.remoteAddress.type = netadrtype_t.NA_BOT then CS_FREE else CS_ZOMBIE)
    ∧ (∃ l, (SV_VerifyPaks_f e s (verb :: a1 :: a2 :: a3 :: nums')).1.out
          = s.out ++ Event.SV_SendClientSnapshot :: l
        ∧ Event.SV_SendServerCommand false ("disconnect \"" ++ unpureReason ++ "\"") ∈ l) := by
  have hgood := SV_VerifyPaks_f_good_of_authentic e s _ hpure hauth
  rw [SV_VerifyPaks_bGood_iff, SV_VerifyPaks_checks_iff] at hgood
  obtain ⟨hc1, hc2, _, hh1, hh2, hh3, _, _, hx⟩ := hgood
  have hl : nums.map atoi ≠ [] := by
    intro h0
    have := congrArg List.length h0
    simp only [List.length_map, List.length_nil] at this
    omega
  have hlen' : (nums'.map atoi).length = (nums.map atoi).length := by
    rw [hflip, List.length_set]
  have hl' : nums'.map atoi ≠ [] := by
    intro h0
    rw [h0] at hlen'
    simp only [List.length_map, List.length_nil] at hlen'
    omega
  have hQ := pure_xor_patterns e.sv_checksumFeed (nums.map atoi) hl hx
  have hbad : (SV_VerifyPaks_bGood e (verb :: a1 :: a2 :: a3 :: nums')).1 = false := by
    rw [Bool.eq_false_iff]
    intro hgood'
    rw [SV_VerifyPaks_bGood_iff, SV_VerifyPaks_checks_iff] at hgood'
    obtain ⟨_, _, _, _, _, _, _, _, hx'⟩ := hgood'
    have hQ' := pure_xor_patterns e.sv_checksumFeed (nums'.map atoi) hl' hx'
    rw [hlen', hflip, xorPatterns_set _ _ j _ (2 ^ k) (by simpa using hj)
      (toU32_flipBit _ k hk)] at hQ'
    rw [Nat.xor_eq_zero] at hQ hQ'
    rw [hQ] at hQ'
    have h0 : toU32 ((((nums.map atoi).length - 1 : Nat) : Int)) ^^^ 2 ^ k
        = toU32 ((((nums.map atoi).length - 1 : Nat) : Int)) ^^^ 0 := by
      rw [hQ', Nat.xor_zero]
    have := Nat.xor_right_inj.mp h0
    exact absurd this (by positivity)
  rw [SV_VerifyPaks_f_refused e s _ hpure hbad]
  exact ⟨rfl, unpure_drop_facts e s |>.1, unpure_drop_facts e s |>.2.2.1,
    unpure_drop_facts e s |>.2.2.2⟩

/-- Witness for `SV_VerifyPaks_f_bit_flip`: `cp 111 222 @ 170 187 2` authenticates on
the pure server; with bit 0 of the first pak checksum flipped (170 becomes 171)
the client is dropped. -/
theorem SV_VerifyPaks_f_bit_flip_witness :
    (SV_VerifyPaks_f pureEngine { cl := activeSlot, out := [] }
        ["cp", "111", "222", "@", "170", "187", "2"]).1.cl.pureAuthentic = 1
    ∧ flipBit 170 0 = 171
    ∧ (SV_VerifyPaks_f pureEngine { cl := activeSlot, out := [] }
        ["cp", "111", "222", "@", "171", "187", "2"]).1.cl.pureAuthentic = 0
    ∧ (SV_VerifyPaks_f pureEngine { cl := activeSlot, out := [] }
        ["cp", "111", "222", "@", "171", "187", "2"]).1.cl.state = CS_ZOMBIE :=
  ⟨by decide, by decide,
    (SV_VerifyPaks_f_bit_flip pureEngine { cl := activeSlot, out := [] } "cp" "111" "222" "@"
      ["170", "187", "2"] ["171", "187", "2"] 0 0 (by decide) (by decide) (by decide)
      (by decide) (by decide)).2.1,
    (SV_VerifyPaks_f_bit_flip pureEngine { cl := activeSlot, out := [] } "cp" "111" "222" "@"
      ["170", "187", "2"] ["171", "187", "2"] 0 0 (by decide) (by decide) (by decide)
      (by decide) (by decide)).2.2.1⟩

/-- C6: with `sv_pure != 0`, a `cp` command whose pak-checksum list contains a
repeated checksum, or a checksum that is not in the server's loaded-pak
pure-checksum list, is rejected whatever its trailing value (also a
consistent one): `pureAuthentic = 0` and the client is dropped with the
unpure-client reason. -/
theorem SV_VerifyPaks_f_rejects_bad_list (e : Engine) (s : St) (argv : Argv)
    (hpure : (e.cvar "sv_pure").integer ≠ 0)
    (hbad : ¬ (cpPakChecksums argv).Nodup
      ∨ ∃ c ∈ cpPakChecksums argv, c ∉ serverPureChecksums e) :
    (SV_VerifyPaks_f e s argv).1 = SV_DropClient e (unpureBeforeDrop s) unpureReason
    ∧ (SV_VerifyPaks_f e s argv).1.cl.pureAuthentic = 0
    ∧ (SV_VerifyPaks_f e s argv).1.cl.state =
        (if s.cl.netchan.remoteAddress.type = netadrtype_t.NA_BOT then CS_FREE else CS_ZOMBIE)
    ∧ (∃ l, (SV_VerifyPaks_f e s argv).1.out = s.out ++ Event.SV_SendClientSnapshot :: l
        ∧ Event.SV_SendServerCommand false ("disconnect \"" ++ unpureReason ++ "\"") ∈ l) := by
  have hb : (SV_VerifyPaks_bGood e argv).1 = false := by
    rw [Bool.eq_false_iff]
    intro hgood
    rw [SV_VerifyPaks_bGood_iff, SV_VerifyPaks_checks_iff] at hgood
    obtain ⟨_, _, _, _, _, _, hnd, hsub, _⟩ := hgood
    rcases hbad with h | ⟨c, hc, hns⟩
    · exact h hnd
    · exact hns (hsub c hc)
  rw [SV_VerifyPaks_f_refused e s _ hpure hb]
  exact ⟨rfl, unpure_drop_facts e s |>.1, unpure_drop_facts e s |>.2.2.1,
    unpure_drop_facts e s |>.2.2.2⟩

/-- Witness for `SV_VerifyPaks_f_rejects_bad_list`: `cp 111 222 @ 170 170 19` repeats
checksum 170 and carries the consistent value 17 xor 170 xor 170 xor 2 = 19. -/
theorem SV_VerifyPaks_f_rejects_bad_list_witness :
    cpPakChecksums ["cp", "111", "222", "@", "170", "170", "19"] = [170, 170]
    ∧ xor32 (List.foldl xor32 pureEngine.sv_checksumFeed [170, 170]) 2
        = cpTrailer ["cp", "111", "222", "@", "170", "170", "19"]
    ∧ (SV_VerifyPaks_f pureEngine { cl := activeSlot, out := [] }
        ["cp", "111", "222", "@", "170", "170", "19"]).1.cl.pureAuthentic = 0
    ∧ (SV_VerifyPaks_f pureEngine { cl := activeSlot, out := [] }
        ["cp", "111", "222", "@", "170", "170", "19"]).1.cl.state = CS_ZOMBIE :=
  ⟨by decide, by decide,
    (SV_VerifyPaks_f_rejects_bad_list pureEngine { cl := activeSlot, out := [] }
      ["cp", "111", "222", "@", "170", "170", "19"] (by decide) (Or.inl (by decide))).2.1,
    (SV_VerifyPaks_f_rejects_bad_list pureEngine { cl := activeSlot, out := [] }
      ["cp", "111", "222", "@", "170", "170", "19"] (by decide) (Or.inl (by decide))).2.2.1⟩

/-! ## Fields left alone by the connection code -/

theorem coreOf_SV_DropClient (e : Engine) (s : St) (reason : String) :
    coreOf (SV_DropClient e s reason).cl = coreOf s.cl := by
  by_cases h : s.cl.state = CS_ZOMBIE
  · rw [SV_DropClient_zombie e s reason h]
  · rw [SV_DropClient_cl e s reason h]
    rfl

theorem coreOf_SV_ClientEnterWorld (e : Engine) (s : St) (cmd : Option usercmd_t) :
    coreOf (SV_ClientEnterWorld e s cmd).cl = coreOf s.cl := by
  unfold SV_ClientEnterWorld
  simp only [St.when, St.whenS]
  split_ifs <;> rfl

theorem coreOf_SV_SendClientChatLogPolicy (e : Engine) (s : St) :
    coreOf (SV_SendClientChatLogPolicy e s).cl = coreOf s.cl := by
  unfold SV_SendClientChatLogPolicy
  split_ifs <;> rfl

theorem coreOf_userinfoName (e : Engine) (s : St) : coreOf (userinfoName e s).cl = coreOf s.cl := by
  unfold userinfoName
  split_ifs <;> rfl

theorem coreOf_userinfoRate (e : Engine) (s : St) : coreOf (userinfoRate e s).cl = coreOf s.cl := by
  unfold userinfoRate
  simp only [St.modify_cl]
  split_ifs <;> rfl

theorem coreOf_userinfoSnaps (e : Engine) (s : St) : coreOf (userinfoSnaps e s).cl = coreOf s.cl := by
  unfold userinfoSnaps setSnapshotMsec
  simp only [St.modify_cl]
  split_ifs <;> rfl

theorem coreOf_userinfoIp (e : Engine) (s : St) : coreOf (userinfoIp e s).cl = coreOf s.cl := by
  unfold userinfoIp
  dsimp only
  split_ifs <;> first | rfl | exact coreOf_SV_DropClient e s _

theorem coreOf_when (s : St) (c : Bool) (f : St → St) (hf : ∀ t, coreOf (f t).cl = coreOf t.cl) :
    coreOf (s.when c f).cl = coreOf s.cl := by
  cases c
  · rfl
  · exact hf s

theorem coreOf_whenS (s : St) (c : client_t → Bool) (f : St → St)
    (hf : ∀ t, coreOf (f t).cl = coreOf t.cl) : coreOf (s.whenS c f).cl = coreOf s.cl :=
  coreOf_when s (c s.cl) f hf

theorem coreOf_when' (s s0 : St) (c : Bool) (f : St → St)
    (hf : ∀ t, coreOf (f t).cl = coreOf t.cl) (hs : coreOf s.cl = coreOf s0.cl) :
    coreOf (s.when c f).cl = coreOf s0.cl := (coreOf_when s c f hf).trans hs

theorem coreOf_whenS' (s s0 : St) (c : client_t → Bool) (f : St → St)
    (hf : ∀ t, coreOf (f t).cl = coreOf t.cl) (hs : coreOf s.cl = coreOf s0.cl) :
    coreOf (s.whenS c f).cl = coreOf s0.cl := (coreOf_whenS s c f hf).trans hs

/-- The `sv_antiDST` reaction shared by SV_UserinfoChanged and SV_ExecuteClientCommand. -/
theorem coreOf_dstKick (e : Engine) (msg : client_t → Event) (t : St) :
    coreOf (((t.emitS msg).when (decide ((e.cvar "sv_antiDST").integer ≠ 0)) (fun s =>
      (SV_DropClient e s "was kicked for cheating by JKA.io").modify
        (fun cl => { cl with lastPacketTime := e.svs_time }))).cl) = coreOf t.cl := by
  refine (coreOf_when _ _ _ (fun u => ?_)).trans ?_
  · exact coreOf_SV_DropClient e u _
  · rfl

theorem coreOf_userinfoModel (e : Engine) (s : St) : coreOf (userinfoModel e s).cl = coreOf s.cl := by
  unfold userinfoModel
  dsimp only
  split_ifs
  · refine (coreOf_when _ _ _ (fun t => ?_)).trans ?_
    · rfl
    · exact coreOf_when _ _ _ (fun t => coreOf_dstKick e _ t)
  · rfl

theorem coreOf_userinfoForcepowers (e : Engine) (s : St) :
    coreOf (userinfoForcepowers e s).cl = coreOf s.cl := by
  unfold userinfoForcepowers
  split_ifs <;> rfl

theorem coreOf_userinfoPlugin (e : Engine) (s : St) :
    coreOf (userinfoPlugin e s).cl = coreOf s.cl := by
  unfold userinfoPlugin
  by_cases hD : e.DEDICATED = true
  · rw [if_pos hD]
    simp only [St.modify_cl]
    split_ifs <;> rfl
  · rw [if_neg hD]

theorem coreOf_SV_UserinfoChanged (e : Engine) (s : St) :
    coreOf (SV_UserinfoChanged e s).cl = coreOf s.cl := by
  unfold SV_UserinfoChanged
  rw [coreOf_userinfoPlugin, coreOf_userinfoForcepowers, coreOf_userinfoModel, coreOf_userinfoIp,
    coreOf_userinfoSnaps, coreOf_userinfoRate, coreOf_userinfoName]

theorem coreOf_antiDST (e : Engine) (cmd : String) (s : St) :
    coreOf (antiDST e cmd s).cl = coreOf s.cl := by
  unfold antiDST
  exact coreOf_when _ _ _ (fun t => coreOf_dstKick e _ t)

theorem coreOf_applyPostponedUserinfo (e : Engine) (s : St) :
    coreOf (applyPostponedUserinfo e s).cl = coreOf s.cl := by
  unfold applyPostponedUserinfo
  apply coreOf_whenS
  intro t
  exact (coreOf_SV_UserinfoChanged e _).trans rfl

theorem coreOf_pingFixTail (e : Engine) (a b c : Int) (s : St) :
    coreOf (pingFixTail e a b c s).cl = coreOf s.cl := by
  unfold pingFixTail
  dsimp only
  split_ifs <;> first | rfl | exact coreOf_when' _ _ _ _ (fun t => rfl) rfl

theorem coreOf_SV_UpdateUserinfo_f (e : Engine) (s : St) (argv : Argv) :
    coreOf (SV_UpdateUserinfo_f e s argv).1.cl = coreOf s.cl := by
  unfold SV_UpdateUserinfo_f
  dsimp only
  split_ifs <;> first | rfl | exact (coreOf_SV_UserinfoChanged e _).trans rfl

theorem coreOf_SV_Disconnect_f (e : Engine) (s : St) (argv : Argv) :
    coreOf (SV_Disconnect_f e s argv).1.cl = coreOf s.cl :=
  coreOf_SV_DropClient e s _

theorem coreOf_SV_BeginDownload_f (e : Engine) (s : St) (argv : Argv) :
    coreOf (SV_BeginDownload_f e s argv).1.cl = coreOf s.cl := by
  unfold SV_BeginDownload_f
  split_ifs <;> rfl

theorem coreOf_SV_StopDownload_f (e : Engine) (s : St) (argv : Argv) :
    coreOf (SV_StopDownload_f e s argv).1.cl = coreOf s.cl := by
  unfold SV_StopDownload_f
  split_ifs
  · rfl
  · show coreOf (s.whenS _ _).cl = coreOf s.cl
    exact coreOf_whenS' _ _ _ _ (fun t => rfl) rfl

theorem coreOf_SV_NextDownload_f (e : Engine) (s : St) (argv : Argv) :
    coreOf (SV_NextDownload_f e s argv).1.cl = coreOf s.cl := by
  unfold SV_NextDownload_f
  dsimp only
  split_ifs <;> first | rfl | exact coreOf_SV_DropClient e s _

/-! ## Steps that keep the reliable-command cursor and the purity invariant -/

theorem Keeps.refl (a : client_t) : Keeps a a := ⟨rfl, id⟩

theorem Keeps.trans {a b c : client_t} (h1 : Keeps a b) (h2 : Keeps b c) : Keeps a c :=
  ⟨h2.1.trans h1.1, fun h => h2.2 (h1.2 h)⟩

theorem Keeps.of_coreOf {a b : client_t} (h : coreOf b = coreOf a) : Keeps a b := by
  unfold coreOf at h
  simp only [Prod.mk.injEq] at h
  obtain ⟨h1, h2, h3⟩ := h
  refine ⟨h3, ?_⟩
  unfold pureInv
  rw [h1, h2]
  exact id

theorem Keeps_when (s0 s : St) (c : Bool) (f : St → St) (hf : ∀ t, Keeps t.cl (f t).cl)
    (hs : Keeps s0.cl s.cl) : Keeps s0.cl (s.when c f).cl := by
  cases c
  · exact hs
  · exact hs.trans (hf s)

theorem Keeps_whenS (s0 s : St) (c : client_t → Bool) (f : St → St)
    (hf : ∀ t, Keeps t.cl (f t).cl) (hs : Keeps s0.cl s.cl) : Keeps s0.cl (s.whenS c f).cl :=
  Keeps_when s0 s (c s.cl) f hf hs

theorem Keeps_SV_SendClientGameState (e : Engine) (s : St) :
    Keeps s.cl (SV_SendClientGameState e s).cl := by
  unfold SV_SendClientGameState
  simp only [St.whenS, St.when]
  split_ifs <;> exact ⟨rfl, fun _ h => absurd (show (0 : Int) = 1 from h) (by decide)⟩

theorem Keeps_SV_DropClient (e : Engine) (s : St) (reason : String) :
    Keeps s.cl (SV_DropClient e s reason).cl :=
  Keeps.of_coreOf (coreOf_SV_DropClient e s reason)

theorem Keeps_SV_DoneDownload_f (e : Engine) (s : St) (argv : Argv) :
    Keeps s.cl (SV_DoneDownload_f e s argv).1.cl := by
  unfold SV_DoneDownload_f
  split_ifs
  · exact Keeps.refl _
  · exact Keeps_SV_SendClientGameState e _

theorem Keeps_SV_ResetPureClient_f (e : Engine) (s : St) (argv : Argv) :
    Keeps s.cl (SV_ResetPureClient_f e s argv).1.cl :=
  ⟨rfl, fun _ h => absurd (show (0 : Int) = 1 from h) (by decide)⟩

theorem Keeps_SV_VerifyPaks_f (e : Engine) (s : St) (argv : Argv) :
    Keeps s.cl (SV_VerifyPaks_f e s argv).1.cl := by
  unfold SV_VerifyPaks_f
  dsimp only
  split_ifs
  · exact ⟨rfl, fun _ _ => rfl⟩
  · refine Keeps.trans ?_ (Keeps_SV_DropClient e _ _)
    exact ⟨rfl, fun _ h => absurd (show (0 : Int) = 1 from h) (by decide)⟩
  · exact Keeps.refl _

/-- Every handler of the table `ucmds` keeps the cursor and the purity invariant. -/
theorem Keeps_ucmds (e : Engine) (s : St) (argv : Argv) (cmd : String) (u : ucmd_t)
    (hu : findUcmd cmd ucmds = some u) : Keeps s.cl (u.func e s argv).1.cl := by
  unfold ucmds findUcmd at hu
  repeat' (first
    | (split_ifs at hu with hname)
    | (unfold findUcmd at hu))
  all_goals first
    | (injection hu with hu; subst hu; first
        | exact Keeps.of_coreOf (coreOf_SV_UpdateUserinfo_f e s argv)
        | exact Keeps.of_coreOf (coreOf_SV_Disconnect_f e s argv)
        | exact Keeps_SV_VerifyPaks_f e s argv
        | exact Keeps_SV_ResetPureClient_f e s argv
        | exact Keeps.of_coreOf (coreOf_SV_BeginDownload_f e s argv)
        | exact Keeps.of_coreOf (coreOf_SV_NextDownload_f e s argv)
        | exact Keeps.of_coreOf (coreOf_SV_StopDownload_f e s argv)
        | exact Keeps_SV_DoneDownload_f e s argv)
    | exact absurd hu (by simp)

theorem Keeps_SV_ExecuteClientCommand (e : Engine) (cl : St) (s : String) (clientOK : Bool) :
    Keeps cl.cl (SV_ExecuteClientCommand e cl s clientOK).cl := by
  have hr : Keeps cl.cl
      (match findUcmd (Cmd_Argv (e.Cmd_TokenizeString s) 0) ucmds with
        | some h => h.func e cl (e.Cmd_TokenizeString s)
        | none => (cl, e.Cmd_TokenizeString s)).1.cl := by
    cases hu : findUcmd (Cmd_Argv (e.Cmd_TokenizeString s) 0) ucmds with
    | none => exact Keeps.refl _
    | some u => exact Keeps_ucmds e cl _ _ u hu
  unfold SV_ExecuteClientCommand
  dsimp only
  split_ifs
  · refine Keeps_whenS _ _ _ _ (fun t => Keeps.refl _) ?_
    exact hr.trans (Keeps.of_coreOf (coreOf_antiDST e _ _))
  · refine Keeps_when _ _ _ _ (fun t => Keeps.refl _) ?_
    exact hr.trans (Keeps.of_coreOf (coreOf_antiDST e _ _))

theorem Keeps_applyPostponedUserinfo (e : Engine) (s : St) :
    Keeps s.cl (applyPostponedUserinfo e s).cl :=
  Keeps.of_coreOf (coreOf_applyPostponedUserinfo e s)

theorem Keeps_SV_ClientThink (e : Engine) (cl : St) (cmd : usercmd_t) :
    Keeps cl.cl (SV_ClientThink e cl cmd).cl := by
  unfold SV_ClientThink
  dsimp only
  split_ifs
  · exact Keeps.refl _
  · refine Keeps.trans ?_ (Keeps_applyPostponedUserinfo e _)
    show Keeps cl.cl (cl.whenS _ _).cl
    exact Keeps_whenS _ _ _ _ (fun t => Keeps_SV_ExecuteClientCommand e t _ _) (Keeps.refl _)
  · exact Keeps.refl _
  · exact Keeps_applyPostponedUserinfo e _

theorem Keeps_thinkLoop (e : Engine) (last : Int) (cmds : List usercmd_t) (r : St × Int × Int) :
    Keeps r.1.cl (thinkLoop e last r cmds).1.cl := by
  induction cmds generalizing r with
  | nil =>
    unfold thinkLoop
    exact Keeps.refl _
  | cons c cs ih =>
    obtain ⟨s, first, lastT⟩ := r
    unfold thinkLoop
    dsimp only
    split_ifs <;> first | exact ih _ | exact (Keeps_SV_ClientThink e s c).trans (ih _)

theorem Keeps_userMoveExecute (e : Engine) (cl : St) (cmds : List usercmd_t) (old : Int) :
    Keeps cl.cl (userMoveExecute e cl cmds old).cl := by
  have hEnter : Keeps cl.cl (cl.whenS (fun c => decide (c.state = CS_PRIMED)) (fun s =>
      (SV_ClientEnterWorld e s cmds.head?).whenS
        (fun c => e.DEDICATED && ! c.chatLogPolicySent
          && decide (e.svs_servermod = servermod_t.SVMOD_MBII))
        (SV_SendClientChatLogPolicy e))).cl := by
    refine Keeps_whenS _ _ _ _ (fun t => ?_) (Keeps.refl _)
    refine Keeps_whenS _ _ _ _
      (fun u => Keeps.of_coreOf (coreOf_SV_SendClientChatLogPolicy e u)) ?_
    exact Keeps.of_coreOf (coreOf_SV_ClientEnterWorld e t _)
  unfold userMoveExecute
  dsimp only
  split_ifs
  · exact Keeps_whenS _ _ _ _ (fun t => Keeps_SV_SendClientGameState e _) (Keeps.refl _)
  · exact hEnter.trans (Keeps_SV_DropClient e _ _)
  · exact hEnter
  · exact (hEnter.trans (Keeps_thinkLoop e _ cmds _)).trans
      (Keeps.of_coreOf (coreOf_pingFixTail e _ _ _ _))
  · exact hEnter.trans (Keeps_thinkLoop e _ cmds _)

theorem coreOf_saveAckTime (e : Engine) (fixPing : Bool) (c : client_t) :
    coreOf (saveAckTime e fixPing c) = coreOf c := by
  unfold saveAckTime
  split_ifs <;> rfl

theorem Keeps_SV_UserMove (e : Engine) (cl : St) (delta : Bool) (cmdCount : Int)
    (wire : List (List Nat)) : Keeps cl.cl (SV_UserMove e cl delta cmdCount wire).cl := by
  unfold SV_UserMove
  dsimp only
  by_cases h1 : cmdCount < 1
  · rw [if_pos h1]
    exact Keeps.of_coreOf rfl
  · rw [if_neg h1]
    by_cases h2 : cmdCount > (MAX_PACKET_USERCMDS : Int)
    · rw [if_pos h2]
      exact Keeps.of_coreOf rfl
    · rw [if_neg h2]
      refine Keeps.trans ?_ (Keeps_userMoveExecute e _ _ _)
      rw [St.modify_cl]
      refine Keeps.trans ?_ (Keeps.of_coreOf (coreOf_saveAckTime e _ _))
      exact Keeps_when _ _ _ _ (fun t => Keeps.of_coreOf rfl) (Keeps.of_coreOf rfl)

theorem Keeps_readUsercmd (e : Engine) (cl : St) (m : clientMessage) :
    Keeps cl.cl (readUsercmd e cl m).cl := by
  unfold readUsercmd
  split
  · exact Keeps_SV_UserMove e cl _ _ _
  · exact Keeps_SV_UserMove e cl _ _ _
  · exact Keeps.refl _
  · exact Keeps.refl _

/-! ## SV_ClientCommand and SV_ExecuteClientMessage -/

theorem SV_ClientCommand_duplicate (e : Engine) (cl : St) (seq : Int) (s : String)
    (h : seq ≤ cl.cl.lastClientCommand) : SV_ClientCommand e cl seq s = (true, cl) := by
  unfold SV_ClientCommand
  rw [if_pos h]

theorem SV_ClientCommand_lost (e : Engine) (cl : St) (seq : Int) (s : String)
    (h : seq > cl.cl.lastClientCommand + 1) :
    SV_ClientCommand e cl seq s =
      (false, SV_DropClient e (lostCommandsReport cl seq s) "Lost reliable commands") := by
  unfold SV_ClientCommand
  rw [if_neg (by omega)]
  dsimp only
  rw [if_pos h]
  rfl

theorem SV_ClientCommand_accepted (e : Engine) (cl : St) (seq : Int) (s : String)
    (h : seq = cl.cl.lastClientCommand + 1) :
    (SV_ClientCommand e cl seq s).1 = true
    ∧ (SV_ClientCommand e cl seq s).2.cl.lastClientCommand = seq
    ∧ (SV_ClientCommand e cl seq s).2.cl.lastClientCommandString = Q_strncpyz s MAX_STRING_CHARS := by
  unfold SV_ClientCommand
  rw [if_neg (by omega)]
  dsimp only
  rw [if_neg (by omega)]
  exact ⟨rfl, rfl, rfl⟩

theorem floodProtect_coreOf (e : Engine) (cl : client_t) :
    coreOf (floodProtect e cl).2 = coreOf cl := by
  unfold floodProtect
  dsimp only
  split_ifs <;> rfl

/-- SV_ClientCommand never lowers `lastClientCommand` and keeps the purity invariant. -/
theorem SV_ClientCommand_steps (e : Engine) (cl : St) (seq : Int) (s : String) :
    cl.cl.lastClientCommand ≤ (SV_ClientCommand e cl seq s).2.cl.lastClientCommand
    ∧ (pureInv cl.cl → pureInv (SV_ClientCommand e cl seq s).2.cl) := by
  by_cases h1 : seq ≤ cl.cl.lastClientCommand
  · rw [SV_ClientCommand_duplicate e cl seq s h1]
    exact ⟨le_refl _, id⟩
  · by_cases h2 : seq > cl.cl.lastClientCommand + 1
    · rw [SV_ClientCommand_lost e cl seq s h2]
      have hk := Keeps_SV_DropClient e (lostCommandsReport cl seq s) "Lost reliable commands"
      exact ⟨le_of_eq hk.1.symm, hk.2⟩
    · have h3 : seq = cl.cl.lastClientCommand + 1 := by omega
      refine ⟨?_, ?_⟩
      · rw [(SV_ClientCommand_accepted e cl seq s h3).2.1]
        omega
      · unfold SV_ClientCommand
        rw [if_neg h1]
        dsimp only
        rw [if_neg h2]
        intro hinv
        have hk := Keeps_SV_ExecuteClientCommand e
          ((cl.emitS (fun c => Event.Com_DPrintf
            ("clientCommand: " ++ c.name ++ " : " ++ toString seq ++ " : " ++ s ++ "\n"))).modify
            (fun _ => (floodProtect e cl.cl).2)) s (floodProtect e cl.cl).1
        have h0 : pureInv (floodProtect e cl.cl).2 :=
          (Keeps.of_coreOf (floodProtect_coreOf e cl.cl)).2 hinv
        exact hk.2 h0

theorem readClientCommands_steps (e : Engine) (cmds : List (Int × String)) (cl : St) :
    cl.cl.lastClientCommand ≤ (readClientCommands e cl cmds).2.cl.lastClientCommand
    ∧ (pureInv cl.cl → pureInv (readClientCommands e cl cmds).2.cl) := by
  induction cmds generalizing cl with
  | nil =>
    unfold readClientCommands
    exact ⟨le_refl _, id⟩
  | cons c rest ih =>
    have h1 := SV_ClientCommand_steps e cl c.1 c.2
    have h2 := ih (SV_ClientCommand e cl c.1 c.2).2
    unfold readClientCommands
    dsimp only
    split_ifs
    · exact h1
    · exact h1
    · exact ⟨le_trans h1.1 h2.1, fun h => h2.2 (h1.2 h)⟩

theorem Keeps_storeAcks (cl : St) (m : clientMessage) : Keeps cl.cl (storeAcks cl m).cl :=
  Keeps.of_coreOf rfl

theorem Keeps_staleServerId (e : Engine) (cl : St) (m : clientMessage) :
    Keeps cl.cl (staleServerId e cl m).cl := by
  unfold staleServerId
  split_ifs
  · exact Keeps.of_coreOf rfl
  · exact Keeps_whenS _ _ _ _ (fun t => Keeps_SV_SendClientGameState e _) (Keeps.refl _)

theorem Keeps_ackGamestate (e : Engine) (cl : St) (m : clientMessage) :
    Keeps cl.cl (ackGamestate e cl m).cl :=
  Keeps_whenS _ _ _ _ (fun _ => Keeps.of_coreOf rfl) (Keeps.refl _)

theorem readMessageBody_steps (e : Engine) (cl : St) (m : clientMessage) :
    cl.cl.lastClientCommand ≤ (readMessageBody e cl m).cl.lastClientCommand
    ∧ (pureInv cl.cl → pureInv (readMessageBody e cl m).cl) := by
  have hp := Keeps_ackGamestate e cl m
  have h3 := readClientCommands_steps e m.commands (ackGamestate e cl m)
  unfold readMessageBody
  dsimp only
  split_ifs
  · exact ⟨le_trans (le_of_eq hp.1.symm) h3.1, fun h => h3.2 (hp.2 h)⟩
  · have h4 := Keeps_readUsercmd e (readClientCommands e (ackGamestate e cl m) m.commands).2 m
    exact ⟨le_trans (le_trans (le_of_eq hp.1.symm) h3.1) (le_of_eq h4.1.symm),
      fun h => h4.2 (h3.2 (hp.2 h))⟩

/-- SV_ExecuteClientMessage never lowers `lastClientCommand` and keeps the purity invariant. -/
theorem SV_ExecuteClientMessage_steps (e : Engine) (cl : St) (m : clientMessage) :
    cl.cl.lastClientCommand ≤ (SV_ExecuteClientMessage e cl m).cl.lastClientCommand
    ∧ (pureInv cl.cl → pureInv (SV_ExecuteClientMessage e cl m).cl) := by
  have key : ∀ (a b : client_t), Keeps a b →
      a.lastClientCommand ≤ b.lastClientCommand ∧ (pureInv a → pureInv b) :=
    fun a b h => ⟨le_of_eq h.1.symm, h.2⟩
  unfold SV_ExecuteClientMessage
  split_ifs
  · exact key _ _ (Keeps.of_coreOf rfl)
  · exact key _ _ (Keeps.of_coreOf rfl)
  · exact key _ _ ((Keeps_storeAcks cl m).trans (Keeps_staleServerId e _ m))
  · have h := readMessageBody_steps e (storeAcks cl m) m
    exact ⟨h.1, h.2⟩

theorem downloadFreeEvents_mem (blocks : List (Option (List Nat))) (ev : Event)
    (h : ev ∈ downloadFreeEvents blocks) : ∃ i, ev = Event.Z_Free i := by
  unfold downloadFreeEvents at h
  rw [List.mem_filterMap] at h
  obtain ⟨i, _, hi⟩ := h
  split_ifs at hi
  · exact ⟨i, by injection hi with h'; exact h'.symm⟩

/-- SV_DropClient only appends to the trace and never calls the game module's
client-command entry point. -/
theorem SV_DropClient_no_dispatch (e : Engine) (s : St) (reason : String) :
    ∃ l, (SV_DropClient e s reason).out = s.out ++ l
      ∧ ∀ argv, Event.GVM_ClientCommand argv ∉ l := by
  by_cases hz : s.cl.state = CS_ZOMBIE
  · rw [SV_DropClient_zombie e s reason hz]
    exact ⟨[], by simp, by simp⟩
  · rw [SV_DropClient_out e s reason hz]
    simp only [List.append_assoc]
    refine ⟨_, rfl, ?_⟩
    intro argv hmem
    simp only [List.mem_append, List.mem_cons, List.mem_singleton, List.not_mem_nil,
      or_false] at hmem
    rcases hmem with h | h | h | h | h | h | h
    · split_ifs at h <;> simp at h
    · obtain ⟨i, hi⟩ := downloadFreeEvents_mem _ _ h
      exact absurd hi (by simp)
    · rcases h with h | h | h <;> exact absurd h (by simp)
    · split_ifs at h <;> simp at h
    · split_ifs at h <;> simp at h
    · split_ifs at h <;> simp at h
    · split_ifs at h <;> simp at h

/-! ## The initialisation of a slot -/

theorem coreOf_SV_DirectConnect_gotnewcl (e : Engine) (newcl : St) (challenge : Int)
    (netchan : netchan_t) (userinfo : String) (denied : Option String) (hibernating : Bool) :
    coreOf (SV_DirectConnect_gotnewcl e newcl challenge netchan userinfo denied hibernating).cl
      = (0, false, 0) := by
  unfold SV_DirectConnect_gotnewcl
  cases denied with
  | some d => rfl
  | none =>
    dsimp only
    simp only [St.whenS, St.when]
    split_ifs <;>
      exact Eq.trans (b := coreOf (SV_UserinfoChanged e _).cl) rfl
        ((coreOf_SV_UserinfoChanged e _).trans rfl)

theorem SMOD.coreOf_AuthenticateClient (e : Engine) (cl : client_t) (id : Int) (password : String) :
    coreOf (SMOD.AuthenticateClient e cl id password) = coreOf cl := by
  unfold SMOD.AuthenticateClient
  dsimp only
  split_ifs <;> rfl

theorem SMOD.CommandCheck_cl (e : Engine) (src : St) (cmd : Option SMOD.smodcmd_t) :
    (SMOD.CommandCheck e src cmd).2.cl = src.cl := by
  unfold SMOD.CommandCheck
  split_ifs <;> rfl

theorem SMOD.Execute_cl (e : Engine) (src : St) (cmdStr : String) :
    (SMOD.Execute e src cmdStr).2.cl = src.cl := by
  have h := SMOD.CommandCheck_cl e src (SMOD.GetCommandFromString cmdStr)
  unfold SMOD.Execute
  dsimp only
  rcases hc : SMOD.CommandCheck e src (SMOD.GetCommandFromString cmdStr) with ⟨b, t⟩
  rw [hc] at h
  cases b
  · exact h
  · cases SMOD.GetCommandFromString cmdStr with
    | none => exact h
    | some c => exact h

theorem pureInv_of_coreOf {c : client_t} {n : Int} (h : coreOf c = (0, false, n)) : pureInv c := by
  unfold coreOf at h
  simp only [Prod.mk.injEq] at h
  intro h1
  rw [h.1] at h1
  exact absurd h1 (by decide)

/-! ## The purity invariant and the reliable-command cursor -/

/-- C8: processing a client message with SV_ExecuteClientMessage never lowers
`lastClientCommand`, whatever reliable commands and sequence numbers the
message carries; SV_ClientCommand raises it by exactly 1 for an accepted
command (`seq = lastClientCommand + 1`) and leaves it unchanged otherwise. -/
theorem lastClientCommand_monotone (e : Engine) (cl : St) (m : clientMessage) (seq : Int)
    (s : String) :
    cl.cl.lastClientCommand ≤ (SV_ExecuteClientMessage e cl m).cl.lastClientCommand
    ∧ cl.cl.lastClientCommand ≤ (readClientCommands e cl m.commands).2.cl.lastClientCommand
    ∧ (SV_ClientCommand e cl seq s).2.cl.lastClientCommand =
        (if seq = cl.cl.lastClientCommand + 1 then cl.cl.lastClientCommand + 1
         else cl.cl.lastClientCommand) := by
  refine ⟨(SV_ExecuteClientMessage_steps e cl m).1, (readClientCommands_steps e m.commands cl).1, ?_⟩
  by_cases h1 : seq ≤ cl.cl.lastClientCommand
  · rw [SV_ClientCommand_duplicate e cl seq s h1, if_neg (by omega)]
  · by_cases h2 : seq > cl.cl.lastClientCommand + 1
    · rw [SV_ClientCommand_lost e cl seq s h2, if_neg (by omega)]
      exact (Keeps_SV_DropClient e _ _).1
    · have h3 : seq = cl.cl.lastClientCommand + 1 := by omega
      rw [(SV_ClientCommand_accepted e cl seq s h3).2.1, if_pos h3, h3]

/-- C9: a reliable client command with `seq <= lastClientCommand` is ignored by
SV_ClientCommand: it returns `qtrue` with the slot and the trace unchanged (no
handler, nothing sent to the game module, `lastClientCommandString` and
`lastReliableTime` untouched), and the loop of SV_ExecuteClientMessage goes on
with the rest of the message. -/
theorem SV_ClientCommand_duplicate_ignored (e : Engine) (cl : St) (seq : Int) (s : String)
    (rest : List (Int × String)) (h : seq ≤ cl.cl.lastClientCommand) :
    SV_ClientCommand e cl seq s = (true, cl)
    ∧ (cl.cl.state ≠ CS_ZOMBIE →
        readClientCommands e cl ((seq, s) :: rest) = readClientCommands e cl rest) := by
  have hd := SV_ClientCommand_duplicate e cl seq s h
  refine ⟨hd, fun hz => ?_⟩
  conv_lhs => unfold readClientCommands
  dsimp only
  rw [hd]
  rw [if_neg (by simp), if_neg hz]

/-- Witness for `SV_ClientCommand_duplicate_ignored`: sequence number 0 for a slot
whose `lastClientCommand` is 0. -/
theorem SV_ClientCommand_duplicate_ignored_witness :
    (0 : Int) ≤ activeSlot.lastClientCommand
    ∧ SV_ClientCommand pureEngine { cl := activeSlot, out := [] } 0 "say hi"
        = (true, { cl := activeSlot, out := [] }) :=
  ⟨by decide,
    (SV_ClientCommand_duplicate_ignored pureEngine { cl := activeSlot, out := [] } 0 "say hi" []
      (by decide)).1⟩

theorem readClientCommands_lost (e : Engine) (cl : St) (seq : Int) (s : String)
    (rest : List (Int × String)) (h : seq > cl.cl.lastClientCommand + 1) :
    readClientCommands e cl ((seq, s) :: rest) = (false, (SV_ClientCommand e cl seq s).2) := by
  conv_lhs => unfold readClientCommands
  dsimp only
  rw [SV_ClientCommand_lost e cl seq s h, if_pos rfl]

theorem readMessageBody_lost (e : Engine) (cl : St) (m : clientMessage) (seq : Int) (s : String)
    (rest : List (Int × String)) (hm : m.commands = (seq, s) :: rest)
    (h : seq > cl.cl.lastClientCommand + 1) :
    readMessageBody e cl m = (SV_ClientCommand e (ackGamestate e cl m) seq s).2 := by
  have h' : seq > (ackGamestate e cl m).cl.lastClientCommand + 1 := by
    rw [(Keeps_ackGamestate e cl m).1]
    exact h
  unfold readMessageBody
  dsimp only
  rw [hm, readClientCommands_lost e _ seq s rest h', if_pos rfl]

/-- C10: a reliable client command with `seq > lastClientCommand + 1` makes
SV_ClientCommand call SV_DropClient with the reason "Lost reliable commands"
and return `qfalse`: the command is not dispatched (no handler, nothing sent
to the game module), `lastClientCommand` is unchanged, a slot that was not a
ZOMBIE already ends as ZOMBIE (FREE for a bot) with the `disconnect` command
queued, and SV_ExecuteClientMessage returns at once: the result does not
depend on the commands and the movement block that follow in the message. -/
theorem SV_ClientCommand_lost_commands (e : Engine) (cl : St) (seq : Int) (s : String)
    (rest : List (Int × String)) (m : clientMessage) (op : clcOp) (cmdCount : Int)
    (usercmds : List (List Nat)) (h : seq > cl.cl.lastClientCommand + 1) :
    (SV_ClientCommand e cl seq s).1 = false
    ∧ (∃ pre : St, pre.cl = cl.cl
        ∧ (SV_ClientCommand e cl seq s).2 = SV_DropClient e pre "Lost reliable commands")
    ∧ (SV_ClientCommand e cl seq s).2.cl.lastClientCommand = cl.cl.lastClientCommand
    ∧ (∃ l, (SV_ClientCommand e cl seq s).2.out = cl.out ++ l
        ∧ ∀ argv, Event.GVM_ClientCommand argv ∉ l)
    ∧ (cl.cl.state ≠ CS_ZOMBIE →
        (SV_ClientCommand e cl seq s).2.cl.state =
          (if cl.cl.netchan.remoteAddress.type = netadrtype_t.NA_BOT then CS_FREE else CS_ZOMBIE)
        ∧ Event.SV_SendServerCommand false ("disconnect \"" ++ "Lost reliable commands" ++ "\"")
            ∈ (SV_ClientCommand e cl seq s).2.out)
    ∧ readClientCommands e cl ((seq, s) :: rest) = (false, (SV_ClientCommand e cl seq s).2)
    ∧ SV_ExecuteClientMessage e cl
          { m with commands := (seq, s) :: rest, op := op, cmdCount := cmdCount,
                   usercmds := usercmds }
        = SV_ExecuteClientMessage e cl
          { m with commands := [(seq, s)], op := clcOp.clc_EOF, cmdCount := 0, usercmds := [] } := by
  have hlost := SV_ClientCommand_lost e cl seq s h
  refine ⟨by rw [hlost], ⟨lostCommandsReport cl seq s, rfl, by rw [hlost]⟩, ?_, ?_, ?_,
    readClientCommands_lost e cl seq s rest h, ?_⟩
  · rw [hlost]
    exact (Keeps_SV_DropClient e _ _).1
  · rw [hlost]
    obtain ⟨l, hl, hn⟩ := SV_DropClient_no_dispatch e (lostCommandsReport cl seq s)
      "Lost reliable commands"
    refine ⟨Event.Com_DPrintf
        ("clientCommand: " ++ cl.cl.name ++ " : " ++ toString seq ++ " : " ++ s ++ "\n")
      :: Event.Com_Printf ("Client " ++ cl.cl.name ++ " lost "
        ++ toString (seq - cl.cl.lastClientCommand + 1) ++ " clientCommands\n") :: l, ?_, ?_⟩
    · rw [hl]
      simp only [lostCommandsReport, St.emitS_out, St.emitS_cl, List.append_assoc,
        List.singleton_append, List.cons_append, List.nil_append]
    · intro argv hmem
      simp only [List.mem_cons] at hmem
      rcases hmem with h1 | h1 | h1
      · exact absurd h1 (by simp)
      · exact absurd h1 (by simp)
      · exact hn argv h1
  · intro hz
    rw [hlost]
    have hz' : (lostCommandsReport cl seq s).cl.state ≠ CS_ZOMBIE := hz
    refine ⟨?_, ?_⟩
    · simp only
      rw [SV_DropClient_cl e _ _ hz']
      rfl
    · simp only
      rw [SV_DropClient_out e _ _ hz']
      simp
  · have hc : ∀ m' : clientMessage, m'.serverId = m.serverId →
        m'.messageAcknowledge = m.messageAcknowledge →
        m'.reliableAcknowledge = m.reliableAcknowledge →
        (∃ r, m'.commands = (seq, s) :: r) →
        SV_ExecuteClientMessage e cl m' =
          if m.messageAcknowledge < 0 then
            cl.modify (fun c => { c with messageAcknowledge := m.messageAcknowledge })
          else if m.reliableAcknowledge
              < (storeAcks cl m).cl.reliableSequence - MAX_RELIABLE_COMMANDS then
            (storeAcks cl m).modify (fun c => { c with reliableAcknowledge := c.reliableSequence })
          else if m.serverId ≠ e.sv_serverId ∧ (storeAcks cl m).cl.downloadName = ""
              ∧ strstr (storeAcks cl m).cl.lastClientCommandString "nextdl" = false then
            staleServerId e (storeAcks cl m) m
          else (SV_ClientCommand e (ackGamestate e (storeAcks cl m) m) seq s).2 := by
      intro m' h1 h2 h3 ⟨r, h4⟩
      have hs : storeAcks cl m' = storeAcks cl m := by
        unfold storeAcks
        rw [h2, h3]
      have hst : ∀ x, staleServerId e x m' = staleServerId e x m := by
        intro x
        unfold staleServerId
        rw [h1]
      have hack : ∀ x, ackGamestate e x m' = ackGamestate e x m := by
        intro x
        unfold ackGamestate
        rw [h1]
      unfold SV_ExecuteClientMessage
      rw [hs, h1, h2, h3, hst, readMessageBody_lost e (storeAcks cl m) m' seq s r h4 h, hack]
    rw [hc { m with commands := (seq, s) :: rest, op := op, cmdCount := cmdCount,
                    usercmds := usercmds } rfl rfl rfl ⟨rest, rfl⟩,
      hc { m with commands := [(seq, s)], op := clcOp.clc_EOF, cmdCount := 0, usercmds := [] }
        rfl rfl rfl ⟨[], rfl⟩]

/-- Witness for `SV_ClientCommand_lost_commands`: sequence number 5 for a slot whose
`lastClientCommand` is 0. -/
theorem SV_ClientCommand_lost_commands_witness :
    (5 : Int) > activeSlot.lastClientCommand + 1
    ∧ (SV_ClientCommand pureEngine { cl := activeSlot, out := [] } 5 "say hi").1 = false
    ∧ (SV_ClientCommand pureEngine { cl := activeSlot, out := [] } 5 "say hi").2.cl.lastClientCommand
        = 0
    ∧ (SV_ClientCommand pureEngine { cl := activeSlot, out := [] } 5 "say hi").2.cl.state
        = CS_ZOMBIE :=
  ⟨by decide,
    (SV_ClientCommand_lost_commands pureEngine { cl := activeSlot, out := [] } 5 "say hi" []
      exampleMessage clcOp.clc_EOF 0 [] (by decide)).1,
    (SV_ClientCommand_lost_commands pureEngine { cl := activeSlot, out := [] } 5 "say hi" []
      exampleMessage clcOp.clc_EOF 0 [] (by decide)).2.2.1,
    ((SV_ClientCommand_lost_commands pureEngine { cl := activeSlot, out := [] } 5 "say hi" []
      exampleMessage clcOp.clc_EOF 0 [] (by decide)).2.2.2.2.1 (by decide)).1⟩

/-! ## Calls of the game module -/

theorem dispatches_append (a b : List Event) : dispatches (a ++ b) = dispatches a ++ dispatches b := by
  induction a with
  | nil => rfl
  | cons x xs ih =>
    cases x <;> simp [dispatches, ih]

theorem dispatches_eq_of_not_mem (l : List Event) (h : ∀ argv, Event.GVM_ClientCommand argv ∉ l) :
    dispatches l = [] := by
  induction l with
  | nil => rfl
  | cons x xs ih =>
    have hx : ∀ argv, Event.GVM_ClientCommand argv ∉ xs :=
      fun argv hm => h argv (List.mem_cons_of_mem _ hm)
    cases x <;> first
      | exact absurd (List.mem_cons_self _ _) (h _)
      | simpa [dispatches] using ih hx

theorem dispatches_emit (s : St) (ev : Event) (h : dispatches [ev] = []) :
    dispatches (s.emit ev).out = dispatches s.out := by
  rw [St.emit_out, dispatches_append, h, List.append_nil]

theorem dispatches_SV_DropClient (e : Engine) (s : St) (reason : String) :
    dispatches (SV_DropClient e s reason).out = dispatches s.out := by
  obtain ⟨l, hl, hn⟩ := SV_DropClient_no_dispatch e s reason
  rw [hl, dispatches_append, dispatches_eq_of_not_mem l hn, List.append_nil]

theorem dispatches_emitS (s : St) (f : client_t → Event) (h : ∀ c, dispatches [f c] = []) :
    dispatches (s.emitS f).out = dispatches s.out := dispatches_emit s (f s.cl) (h s.cl)

theorem dispatches_when (s : St) (c : Bool) (f : St → St)
    (hf : ∀ t, dispatches (f t).out = dispatches t.out) :
    dispatches (s.when c f).out = dispatches s.out := by
  cases c
  · rfl
  · exact hf s

theorem dispatches_whenS (s : St) (c : client_t → Bool) (f : St → St)
    (hf : ∀ t, dispatches (f t).out = dispatches t.out) :
    dispatches (s.whenS c f).out = dispatches s.out := dispatches_when s (c s.cl) f hf

theorem dispatches_SV_CloseDownload (s : St) :
    dispatches (SV_CloseDownload s).out = dispatches s.out := by
  have h : dispatches (downloadFreeEvents s.cl.downloadBlocks) = [] :=
    dispatches_eq_of_not_mem _ (fun argv hm => by
      have := downloadFreeEvents_mem _ _ hm
      obtain ⟨i, hi⟩ := this
      exact absurd hi (by simp))
  unfold SV_CloseDownload
  simp only [dispatches_append, h, List.append_nil]
  split_ifs <;> simp [dispatches]

theorem dispatches_SV_SendClientGameState (e : Engine) (s : St) :
    dispatches (SV_SendClientGameState e s).out = dispatches s.out := by
  unfold SV_SendClientGameState
  simp only [St.whenS, St.when]
  split_ifs <;> simp [dispatches_append, dispatches]

theorem dispatches_userinfoIp (e : Engine) (s : St) :
    dispatches (userinfoIp e s).out = dispatches s.out := by
  unfold userinfoIp
  dsimp only
  split_ifs <;> first
    | exact dispatches_SV_DropClient e s _
    | rfl

theorem dispatches_dstKick (e : Engine) (msg : client_t → Event) (hm : ∀ c, dispatches [msg c] = [])
    (t : St) :
    dispatches (((t.emitS msg).when (decide ((e.cvar "sv_antiDST").integer ≠ 0)) (fun s =>
      (SV_DropClient e s "was kicked for cheating by JKA.io").modify
        (fun cl => { cl with lastPacketTime := e.svs_time }))).out) = dispatches t.out := by
  refine (dispatches_when _ _ _ (fun u => ?_)).trans (dispatches_emitS t msg hm)
  exact dispatches_SV_DropClient e u _

theorem dispatches_userinfoModel (e : Engine) (s : St) :
    dispatches (userinfoModel e s).out = dispatches s.out := by
  unfold userinfoModel
  dsimp only
  split_ifs
  · refine (dispatches_when _ _ _ (fun u => ?_)).trans ?_
    · rfl
    · exact dispatches_when _ _ _ (fun u => dispatches_dstKick e _ (fun _ => by rfl) u)
  · rfl

theorem dispatches_SV_UserinfoChanged (e : Engine) (s : St) :
    dispatches (SV_UserinfoChanged e s).out = dispatches s.out := by
  have h1 : ∀ t, dispatches (userinfoName e t).out = dispatches t.out := by
    intro t; unfold userinfoName; split_ifs <;> rfl
  have h2 : ∀ t, dispatches (userinfoRate e t).out = dispatches t.out := fun t => rfl
  have h3 : ∀ t, dispatches (userinfoSnaps e t).out = dispatches t.out := fun t => rfl
  have h6 : ∀ t, dispatches (userinfoForcepowers e t).out = dispatches t.out := by
    intro t; unfold userinfoForcepowers; split_ifs <;> rfl
  have h7 : ∀ t, dispatches (userinfoPlugin e t).out = dispatches t.out := by
    intro t; unfold userinfoPlugin; split_ifs <;> rfl
  unfold SV_UserinfoChanged
  rw [h7, h6, dispatches_userinfoModel, dispatches_userinfoIp, h3, h2, h1]

theorem dispatches_SV_UpdateUserinfo_f (e : Engine) (s : St) (argv : Argv) :
    dispatches (SV_UpdateUserinfo_f e s argv).1.out = dispatches s.out := by
  have ha : ∀ t : St, dispatches ((SV_UserinfoChanged e t).emit Event.GVM_ClientUserinfoChanged).out
      = dispatches t.out := fun t =>
    (dispatches_emit _ _ (by rfl)).trans (dispatches_SV_UserinfoChanged e t)
  unfold SV_UpdateUserinfo_f
  dsimp only
  split_ifs
  · rfl
  · exact dispatches_emit _ _ (by rfl)
  · exact ha _
  · exact ha _

theorem dispatches_SV_VerifyPaks_f (e : Engine) (s : St) (argv : Argv) :
    dispatches (SV_VerifyPaks_f e s argv).1.out = dispatches s.out := by
  unfold SV_VerifyPaks_f
  dsimp only
  split_ifs
  · rfl
  · exact (dispatches_SV_DropClient e _ _).trans (dispatches_emit _ _ (by rfl))
  · rfl

theorem dispatches_SV_NextDownload_f (e : Engine) (s : St) (argv : Argv) :
    dispatches (SV_NextDownload_f e s argv).1.out = dispatches s.out := by
  unfold SV_NextDownload_f
  dsimp only
  split_ifs
  · rfl
  · exact (dispatches_SV_CloseDownload _).trans
      ((dispatches_emitS _ _ (fun _ => by rfl)).trans (dispatches_emit _ _ (by rfl)))
  · exact dispatches_emit _ _ (by rfl)
  · exact dispatches_SV_DropClient e s _

theorem dispatches_SV_BeginDownload_f (e : Engine) (s : St) (argv : Argv) :
    dispatches (SV_BeginDownload_f e s argv).1.out = dispatches s.out := by
  unfold SV_BeginDownload_f
  split_ifs
  · rfl
  · exact dispatches_SV_CloseDownload s

theorem dispatches_SV_StopDownload_f (e : Engine) (s : St) (argv : Argv) :
    dispatches (SV_StopDownload_f e s argv).1.out = dispatches s.out := by
  unfold SV_StopDownload_f
  split_ifs
  · rfl
  · refine (dispatches_SV_CloseDownload _).trans ?_
    exact dispatches_whenS _ _ _ (fun t => dispatches_emitS _ _ (fun _ => by rfl))

theorem dispatches_SV_DoneDownload_f (e : Engine) (s : St) (argv : Argv) :
    dispatches (SV_DoneDownload_f e s argv).1.out = dispatches s.out := by
  unfold SV_DoneDownload_f
  split_ifs
  · rfl
  · exact (dispatches_SV_SendClientGameState e _).trans (dispatches_emitS _ _ (fun _ => by rfl))

theorem dispatches_ucmds (e : Engine) (s : St) (argv : Argv) (name : String) (u : ucmd_t)
    (h : findUcmd name ucmds = some u) :
    dispatches (u.func e s argv).1.out = dispatches s.out := by
  simp only [ucmds, findUcmd] at h
  split_ifs at h <;> injection h with h' <;> subst h' <;> first
    | exact dispatches_SV_UpdateUserinfo_f e s argv
    | exact dispatches_SV_DropClient e s _
    | exact dispatches_SV_VerifyPaks_f e s argv
    | exact dispatches_SV_NextDownload_f e s argv
    | exact dispatches_SV_BeginDownload_f e s argv
    | exact dispatches_SV_StopDownload_f e s argv
    | exact dispatches_SV_DoneDownload_f e s argv
    | rfl

theorem dispatches_antiDST (e : Engine) (cmd : String) (s : St) :
    dispatches (antiDST e cmd s).out = dispatches s.out := by
  unfold antiDST
  exact dispatches_when _ _ _ (fun u => dispatches_dstKick e _ (fun _ => by rfl) u)

/-! ## Flood protection -/

theorem SV_ClientCommand_exec (e : Engine) (cl : St) (seq : Int) (s : String)
    (h : seq = cl.cl.lastClientCommand + 1) :
    SV_ClientCommand e cl seq s =
      (true, commandStored seq s
        (SV_ExecuteClientCommand e (commandArrived e cl seq s) s (floodProtect e cl.cl).1)) := by
  unfold SV_ClientCommand
  rw [if_neg (by omega)]
  dsimp only
  rw [if_neg (by omega)]
  rfl

/-- A command of the table `ucmds` runs its handler whatever `clientOK` is. -/
theorem SV_ExecuteClientCommand_known (e : Engine) (cl : St) (s : String) (clientOK : Bool)
    (u : ucmd_t) (hu : findUcmd (Cmd_Argv (e.Cmd_TokenizeString s) 0) ucmds = some u) :
    SV_ExecuteClientCommand e cl s clientOK =
      antiDST e (Cmd_Argv (u.func e cl (e.Cmd_TokenizeString s)).2 0)
        (u.func e cl (e.Cmd_TokenizeString s)).1 := by
  unfold SV_ExecuteClientCommand
  simp only [hu, Option.isSome_some, Bool.not_true, Bool.false_and, St.whenS, St.when]
  split_ifs <;> first
    | rfl
    | contradiction

/-- A command that is not in the table `ucmds` (and is no `jkaDST_` command). -/
theorem SV_ExecuteClientCommand_unknown (e : Engine) (cl : St) (s : String) (clientOK : Bool)
    (hu : findUcmd (Cmd_Argv (e.Cmd_TokenizeString s) 0) ucmds = none)
    (hd : Q_stricmpn_eq (Cmd_Argv (e.Cmd_TokenizeString s) 0) "jkaDST_" 7 = false) :
    SV_ExecuteClientCommand e cl s clientOK =
      if finalClientOK e s clientOK = true then
        cl.whenS (fun c => e.sv_state_is_SS_GAME
            && (decide (c.state = CS_ACTIVE) || decide (c.state = CS_PRIMED)))
          (fun t => t.emit (Event.GVM_ClientCommand
            (sanitizedArgs e (isSayCmd (Cmd_Argv (e.Cmd_TokenizeString s) 0))
              (e.Cmd_TokenizeString s))))
      else
        cl.emitS (fun c => Event.Com_DPrintf ("client text ignored for " ++ c.name ++ ": "
          ++ Cmd_Argv (e.Cmd_TokenizeString s) 0 ++ "\n")) := by
  have ha : ∀ t, antiDST e (Cmd_Argv (e.Cmd_TokenizeString s) 0) t = t := by
    intro t
    unfold antiDST
    rw [hd]
    simp
  unfold SV_ExecuteClientCommand finalClientOK
  simp only [hu, Option.isSome_none, Bool.not_false, Bool.true_and, ha, St.when_true]

/-- A command that is not in the table `ucmds`: the `jkaDST_` check of the
dedicated build comes first, then the game module or the debug line. -/
theorem SV_ExecuteClientCommand_other (e : Engine) (cl : St) (s : String) (clientOK : Bool)
    (hu : findUcmd (Cmd_Argv (e.Cmd_TokenizeString s) 0) ucmds = none) :
    SV_ExecuteClientCommand e cl s clientOK =
      if finalClientOK e s clientOK = true then
        (antiDST e (Cmd_Argv (e.Cmd_TokenizeString s) 0) cl).whenS
          (fun c => e.sv_state_is_SS_GAME
            && (decide (c.state = CS_ACTIVE) || decide (c.state = CS_PRIMED)))
          (fun t => t.emit (Event.GVM_ClientCommand
            (sanitizedArgs e (isSayCmd (Cmd_Argv (e.Cmd_TokenizeString s) 0))
              (e.Cmd_TokenizeString s))))
      else
        (antiDST e (Cmd_Argv (e.Cmd_TokenizeString s) 0) cl).emitS
          (fun c => Event.Com_DPrintf ("client text ignored for " ++ c.name ++ ": "
            ++ Cmd_Argv (e.Cmd_TokenizeString s) 0 ++ "\n")) := by
  unfold SV_ExecuteClientCommand finalClientOK
  simp only [hu, Option.isSome_none, Bool.not_false, Bool.true_and, St.when_true]

/-- With `clientOK` false nothing is handed to the game module. -/
theorem dispatches_SV_ExecuteClientCommand_rejected (e : Engine) (cl : St) (s : String) :
    dispatches (SV_ExecuteClientCommand e cl s false).out = dispatches cl.out := by
  cases hu : findUcmd (Cmd_Argv (e.Cmd_TokenizeString s) 0) ucmds with
  | some u =>
    rw [SV_ExecuteClientCommand_known e cl s false u hu]
    exact (dispatches_antiDST e _ _).trans (dispatches_ucmds e cl _ _ u hu)
  | none =>
    unfold SV_ExecuteClientCommand
    simp only [hu, Option.isSome_none, Bool.not_false, Bool.false_and, St.when_true]
    rw [if_neg (by simp)]
    exact (dispatches_emitS _ _ (fun _ => by rfl)).trans (dispatches_antiDST e _ _)

theorem floodProtect_rejects (e : Engine) (cl : client_t)
    (hrun : (e.cvar "com_cl_running").integer = 0) (hact : cl.state = CS_ACTIVE)
    (hfp : (e.cvar "sv_floodProtect").integer ≠ 0)
    (htime : e.svs_time < cl.lastReliableTime + floodTime e) :
    floodProtect e cl =
      (false, if (e.cvar "sv_floodProtectSlow").integer ≠ 0 then
                { cl with lastReliableTime := e.svs_time } else cl) := by
  unfold floodTime at htime
  unfold floodProtect
  rw [if_pos ⟨hrun, by rw [hact], hfp⟩]
  dsimp only
  rw [if_pos htime]
  split_ifs <;> rfl

theorem floodProtect_accepts (e : Engine) (cl : client_t)
    (hrun : (e.cvar "com_cl_running").integer = 0) (hact : cl.state = CS_ACTIVE)
    (hfp : (e.cvar "sv_floodProtect").integer ≠ 0)
    (htime : ¬ e.svs_time < cl.lastReliableTime + floodTime e) :
    floodProtect e cl = (true, { cl with lastReliableTime := e.svs_time }) := by
  unfold floodTime at htime
  unfold floodProtect
  rw [if_pos ⟨hrun, by rw [hact], hfp⟩]
  dsimp only
  rw [if_neg htime]
  split_ifs <;> rfl

/-- C12 as stated fails: under flood protection the built-in `disconnect` still
runs its handler (the slot is dropped); with a local client running
(`com_cl_running`) flood protection is off and `say` reaches the game module;
and on a dedicated server with `sv_antiDST` a verb that begins with `jkaDST_`,
which is in no table, is not dropped silently: the client is dropped and the
game module is told of the disconnect. -/
theorem SV_ClientCommand_flood_claim_counterexample :
    floodedSlot.state = CS_ACTIVE
    ∧ (floodEngine.cvar "sv_floodProtect").integer = 1
    ∧ floodEngine.svs_time < floodedSlot.lastReliableTime + floodTime floodEngine
    ∧ (SV_ClientCommand floodEngine { cl := floodedSlot, out := [] } 1 "disconnect").2.cl.state
        = CS_ZOMBIE
    ∧ Event.GVM_ClientDisconnect
        ∈ (SV_ClientCommand floodEngine { cl := floodedSlot, out := [] } 1 "disconnect").2.out
    ∧ (listenEngine.cvar "sv_floodProtect").integer = 1
    ∧ listenEngine.svs_time < floodedSlot.lastReliableTime + floodTime listenEngine
    ∧ dispatches (SV_ClientCommand listenEngine { cl := floodedSlot, out := [] } 1 "say hi").2.out
        = [["say", "hi"]]
    ∧ (dstEngine.cvar "com_cl_running").integer = 0
    ∧ (dstEngine.cvar "sv_floodProtect").integer = 1
    ∧ dstEngine.svs_time < floodedSlot.lastReliableTime + floodTime dstEngine
    ∧ (findUcmd "jkaDST_on" ucmds).isSome = false
    ∧ (SV_ClientCommand dstEngine { cl := floodedSlot, out := [] } 1 "jkaDST_on").2.cl.state
        = CS_ZOMBIE
    ∧ Event.GVM_ClientDisconnect
        ∈ (SV_ClientCommand dstEngine { cl := floodedSlot, out := [] } 1 "jkaDST_on").2.out := by
  refine ⟨rfl, by decide, by decide, by decide, by decide, by decide, by decide, by decide,
    by decide, by decide, by decide, rfl, by decide, by decide⟩

theorem dispatches_commandArrived (e : Engine) (cl : St) (seq : Int) (s : String) :
    dispatches (commandArrived e cl seq s).out = dispatches cl.out := by
  unfold commandArrived
  rw [St.modify_out]
  exact dispatches_emitS _ _ (fun _ => by rfl)

/-- Under flood protection no accepted, repeated or lost command reaches the game module. -/
theorem dispatches_SV_ClientCommand_flooded (e : Engine) (cl : St) (seq : Int) (s : String)
    (hf1 : (floodProtect e cl.cl).1 = false) :
    dispatches (SV_ClientCommand e cl seq s).2.out = dispatches cl.out := by
  by_cases h1 : seq ≤ cl.cl.lastClientCommand
  · rw [SV_ClientCommand_duplicate e cl seq s h1]
  · by_cases h2 : seq > cl.cl.lastClientCommand + 1
    · rw [SV_ClientCommand_lost e cl seq s h2]
      exact (dispatches_SV_DropClient e _ _).trans
        ((dispatches_emitS _ _ (fun _ => by rfl)).trans (dispatches_emitS _ _ (fun _ => by rfl)))
    · rw [SV_ClientCommand_exec e cl seq s (by omega), hf1]
      refine Eq.trans (b := dispatches (commandArrived e cl seq s).out) ?_ ?_
      · exact dispatches_SV_ExecuteClientCommand_rejected e _ s
      · exact dispatches_commandArrived e cl seq s

/-- C12 (amended): on a server without a local client (`com_cl_running` 0),
when the slot is ACTIVE, `sv_floodProtect` is non-zero and
`svs.time < lastReliableTime + floodTime`, `clientOk` is false and no command
reaches the game module, whatever its sequence number.  An accepted command
that is not in the table `ucmds` runs no handler: it passes the `jkaDST_` check
of the dedicated build (`antiDST`: for a verb that begins with `jkaDST_` from
an address other than loopback a console line and, with `sv_antiDST`, the drop
of the client), leaves the debug line `client text ignored` and is recorded as
executed; when the verb does not begin with `jkaDST_` the check does nothing
and only the two debug lines are left.  A command of the table still runs its
handler, on the slot as the flood-protection block left it. -/
theorem SV_ClientCommand_flood_rejected (e : Engine) (cl : St) (seq : Int) (s : String)
    (hrun : (e.cvar "com_cl_running").integer = 0) (hact : cl.cl.state = CS_ACTIVE)
    (hfp : (e.cvar "sv_floodProtect").integer ≠ 0)
    (htime : e.svs_time < cl.cl.lastReliableTime + floodTime e) :
    (floodProtect e cl.cl).1 = false
    ∧ dispatches (SV_ClientCommand e cl seq s).2.out = dispatches cl.out
    ∧ (seq = cl.cl.lastClientCommand + 1 →
        (findUcmd (Cmd_Argv (e.Cmd_TokenizeString s) 0) ucmds = none →
          (SV_ClientCommand e cl seq s).2 = commandStored seq s
            ((antiDST e (Cmd_Argv (e.Cmd_TokenizeString s) 0) (commandArrived e cl seq s)).emitS
              (fun c => Event.Com_DPrintf
                ("client text ignored for " ++ c.name ++ ": "
                  ++ Cmd_Argv (e.Cmd_TokenizeString s) 0 ++ "\n")))
          ∧ (Q_stricmpn_eq (Cmd_Argv (e.Cmd_TokenizeString s) 0) "jkaDST_" 7 = false →
              (SV_ClientCommand e cl seq s).2 = commandStored seq s
                ((commandArrived e cl seq s).emitS (fun c => Event.Com_DPrintf
                  ("client text ignored for " ++ c.name ++ ": "
                    ++ Cmd_Argv (e.Cmd_TokenizeString s) 0 ++ "\n")))))
        ∧ (∀ u, findUcmd (Cmd_Argv (e.Cmd_TokenizeString s) 0) ucmds = some u →
          (SV_ClientCommand e cl seq s).2 = commandStored seq s
            (antiDST e (Cmd_Argv (u.func e (commandArrived e cl seq s) (e.Cmd_TokenizeString s)).2 0)
              (u.func e (commandArrived e cl seq s) (e.Cmd_TokenizeString s)).1))) := by
  have hf := floodProtect_rejects e cl.cl hrun hact hfp htime
  have hf1 : (floodProtect e cl.cl).1 = false := by rw [hf]
  have hfin : finalClientOK e s false = false := by simp [finalClientOK]
  refine ⟨hf1, ?_, fun hseq => ⟨fun hu => ⟨?_, fun hd => ?_⟩, fun u hu => ?_⟩⟩
  · exact dispatches_SV_ClientCommand_flooded e cl seq s hf1
  · rw [SV_ClientCommand_exec e cl seq s hseq, hf1,
      SV_ExecuteClientCommand_other e _ s false hu, hfin]
    rfl
  · rw [SV_ClientCommand_exec e cl seq s hseq, hf1,
      SV_ExecuteClientCommand_unknown e _ s false hu hd, hfin]
    rfl
  · rw [SV_ClientCommand_exec e cl seq s hseq, SV_ExecuteClientCommand_known e _ s _ u hu]

/-- Witness for `SV_ClientCommand_flood_rejected`: `say hi` 100 ms after the last
accepted command. -/
theorem SV_ClientCommand_flood_rejected_witness :
    (floodEngine.cvar "com_cl_running").integer = 0
    ∧ floodedSlot.state = CS_ACTIVE
    ∧ (floodEngine.cvar "sv_floodProtect").integer ≠ 0
    ∧ floodEngine.svs_time < floodedSlot.lastReliableTime + floodTime floodEngine
    ∧ dispatches (SV_ClientCommand floodEngine { cl := floodedSlot, out := [] } 1 "say hi").2.out
        = [] :=
  ⟨by decide, rfl, by decide, by decide,
    (SV_ClientCommand_flood_rejected floodEngine { cl := floodedSlot, out := [] } 1 "say hi"
      (by decide) rfl (by decide) (by decide)).2.1⟩

theorem finalClientOK_say (e : Engine) (s : String) (ok : Bool)
    (hv : Cmd_Argv (e.Cmd_TokenizeString s) 0 = "say") :
    finalClientOK e s ok = (ok && ! (e.svs_gvmIsLegacy
      && decide ((e.cvar "sv_legacyFixes").integer ≠ 0)
      && decide ((e.Cmd_Args (e.Cmd_TokenizeString s)).length > 256))) := by
  have h1 : Q_stricmpn_eq "say" "gc" 2 = false := by decide
  have h2 : Q_stricmpn_eq "say" "npc" 3 = false := by decide
  have h3 : Q_stricmpn_eq "say" "team" 4 = false := by decide
  have h4 : Q_stricmpn_eq "say" "callteamvote" 12 = false := by decide
  have h5 : Q_stricmpn_eq "say" "callvote" 8 = false := by decide
  have h6 : isSayCmd "say" = true := by decide
  unfold finalClientOK legacyBlocked
  rw [hv, h1, h2, h3, h4, h5, h6]
  simp

/-- An accepted `say` that passes flood protection and the legacy length
filter, from an ACTIVE slot while the game runs, is handed to the game module. -/
theorem SV_ClientCommand_say_accepted (e : Engine) (cl : St) (seq : Int) (s : String)
    (hrun : (e.cvar "com_cl_running").integer = 0) (hact : cl.cl.state = CS_ACTIVE)
    (hfp : (e.cvar "sv_floodProtect").integer ≠ 0) (hgame : e.sv_state_is_SS_GAME = true)
    (hv : Cmd_Argv (e.Cmd_TokenizeString s) 0 = "say")
    (hlen : ¬ (e.svs_gvmIsLegacy = true ∧ (e.cvar "sv_legacyFixes").integer ≠ 0
      ∧ (e.Cmd_Args (e.Cmd_TokenizeString s)).length > 256))
    (htime : ¬ e.svs_time < cl.cl.lastReliableTime + floodTime e)
    (hseq : seq = cl.cl.lastClientCommand + 1) :
    SV_ClientCommand e cl seq s =
      (true, commandStored seq s ((commandArrived e cl seq s).emit
        (Event.GVM_ClientCommand (sanitizedArgs e true (e.Cmd_TokenizeString s))))) := by
  have hf := floodProtect_accepts e cl.cl hrun hact hfp htime
  have hf1 : (floodProtect e cl.cl).1 = true := by rw [hf]
  have hu : findUcmd (Cmd_Argv (e.Cmd_TokenizeString s) 0) ucmds = none := by
    rw [hv]
    rfl
  have hd : Q_stricmpn_eq (Cmd_Argv (e.Cmd_TokenizeString s) 0) "jkaDST_" 7 = false := by
    rw [hv]
    decide
  have hok : finalClientOK e s true = true := by
    rw [finalClientOK_say e s true hv]
    simp only [Bool.true_and, Bool.not_eq_true', Bool.and_eq_false_imp, Bool.and_eq_true,
      decide_eq_true_eq, decide_eq_false_iff_not]
    intro h
    exact fun h' => hlen ⟨h.1, h.2, h'⟩
  have hs : (commandArrived e cl seq s).cl.state = CS_ACTIVE := by
    unfold commandArrived
    rw [St.modify_cl, hf]
    exact hact
  rw [SV_ClientCommand_exec e cl seq s hseq, hf1, SV_ExecuteClientCommand_unknown e _ s true hu hd,
    if_pos hok, St.whenS_eq, hv]
  have h6 : isSayCmd "say" = true := by decide
  rw [hgame, hs, h6]
  rfl

/-- C11 as stated fails for an ACTIVE slot that had a command accepted less
than a second before the first `say`: at `svs.time` 10000 with
`lastReliableTime` 9900 the first `say` is rejected, and so is the second one
500 ms later; no command reaches the game module. -/
theorem SV_ClientCommand_two_says_claim_counterexample :
    floodedSlot.state = CS_ACTIVE
    ∧ (floodEngine.cvar "sv_floodProtect").integer = 1
    ∧ (floodEngine.cvar "com_cl_running").integer = 0
    ∧ floodEngineLater.svs_time = floodEngine.svs_time + 500
    ∧ dispatches (SV_ClientCommand floodEngineLater
        (SV_ClientCommand floodEngine { cl := floodedSlot, out := [] } 1 "say hi").2
        2 "say hi").2.out = [] := by
  refine ⟨rfl, by decide, by decide, by decide, by decide⟩

/-- C11 (amended): with `sv_floodProtect` 1 on a server without a local client,
for an ACTIVE slot whose `lastReliableTime` lies at least 1000 ms back when the
first command arrives, while the game runs: a `say` with the next sequence
number (not cut by the legacy length filter) is handed to the game module,
and the command with the following sequence number that arrives less than
1000 ms later is not; the two together make exactly one call of the game
module, for the first. -/
theorem SV_ClientCommand_two_says (e : Engine) (cl : St) (s1 s2 : String) (t2 : Int)
    (hrun : (e.cvar "com_cl_running").integer = 0) (hact : cl.cl.state = CS_ACTIVE)
    (hfp : (e.cvar "sv_floodProtect").integer = 1) (hgame : e.sv_state_is_SS_GAME = true)
    (hv : Cmd_Argv (e.Cmd_TokenizeString s1) 0 = "say")
    (hlen : ¬ (e.svs_gvmIsLegacy = true ∧ (e.cvar "sv_legacyFixes").integer ≠ 0
      ∧ (e.Cmd_Args (e.Cmd_TokenizeString s1)).length > 256))
    (hfirst : cl.cl.lastReliableTime + 1000 ≤ e.svs_time) (hgap : t2 < e.svs_time + 1000) :
    dispatches (SV_ClientCommand e cl (cl.cl.lastClientCommand + 1) s1).2.out
        = dispatches cl.out ++ [sanitizedArgs e true (e.Cmd_TokenizeString s1)]
    ∧ dispatches (SV_ClientCommand { e with svs_time := t2 }
          (SV_ClientCommand e cl (cl.cl.lastClientCommand + 1) s1).2
          (cl.cl.lastClientCommand + 2) s2).2.out
        = dispatches cl.out ++ [sanitizedArgs e true (e.Cmd_TokenizeString s1)] := by
  have hft : floodTime e = 1000 := by
    unfold floodTime
    rw [if_pos hfp]
  have hfp' : (e.cvar "sv_floodProtect").integer ≠ 0 := by
    rw [hfp]
    decide
  have htime : ¬ e.svs_time < cl.cl.lastReliableTime + floodTime e := by
    rw [hft]
    omega
  have h1 := SV_ClientCommand_say_accepted e cl (cl.cl.lastClientCommand + 1) s1 hrun hact hfp'
    hgame hv hlen htime rfl
  have hf := floodProtect_accepts e cl.cl hrun hact hfp' htime
  have hd1 : dispatches (SV_ClientCommand e cl (cl.cl.lastClientCommand + 1) s1).2.out
      = dispatches cl.out ++ [sanitizedArgs e true (e.Cmd_TokenizeString s1)] := by
    rw [h1]
    show dispatches ((commandArrived e cl _ s1).emit _).out = _
    rw [St.emit_out, dispatches_append, dispatches_commandArrived]
    rfl
  have hcl : (SV_ClientCommand e cl (cl.cl.lastClientCommand + 1) s1).2.cl
      = { (floodProtect e cl.cl).2 with
            lastClientCommand := cl.cl.lastClientCommand + 1,
            lastClientCommandString := Q_strncpyz s1 MAX_STRING_CHARS } := by
    rw [h1]
    rfl
  have hf2 : (floodProtect { e with svs_time := t2 }
      (SV_ClientCommand e cl (cl.cl.lastClientCommand + 1) s1).2.cl).1 = false := by
    rw [floodProtect_rejects { e with svs_time := t2 } _ hrun (by rw [hcl, hf]; exact hact) hfp'
      (by
        rw [hcl, hf]
        show t2 < e.svs_time + floodTime e
        rw [hft]
        exact hgap)]
  refine ⟨hd1, ?_⟩
  rw [dispatches_SV_ClientCommand_flooded _ _ _ _ hf2, hd1]

/-- Witness for `SV_ClientCommand_two_says`: `say hi` at `svs.time` 10000 and
again at 10500, from a slot that sent nothing before. -/
theorem SV_ClientCommand_two_says_witness :
    activeSlot.lastReliableTime + 1000 ≤ floodEngine.svs_time
    ∧ dispatches (SV_ClientCommand { floodEngine with svs_time := 10500 }
        (SV_ClientCommand floodEngine { cl := activeSlot, out := [] } (0 + 1) "say hi").2
        (0 + 2) "say hi").2.out = [] ++ [["say", "hi"]] :=
  ⟨by decide,
    (SV_ClientCommand_two_says floodEngine { cl := activeSlot, out := [] } "say hi" "say hi" 10500
      (by decide) rfl (by decide) rfl (by decide) (by decide) (by decide) (by decide)).2⟩

/-! ## The download window -/

theorem readDownloadBlock_cl (e : Engine) (s : St) :
    (readDownloadBlock e s).2.cl =
      { s.cl with
        downloadBlocks := s.cl.downloadBlocks.set (downloadIndex s.cl.downloadCurrentBlock)
          (some (e.FS_Read s.cl.download s.cl.downloadCount).2)
        downloadBlockSize := s.cl.downloadBlockSize.set (downloadIndex s.cl.downloadCurrentBlock)
          (e.FS_Read s.cl.download s.cl.downloadCount).1
        downloadCount := if (e.FS_Read s.cl.download s.cl.downloadCount).1 < 0
          then s.cl.downloadSize
          else s.cl.downloadCount + (e.FS_Read s.cl.download s.cl.downloadCount).1
        downloadCurrentBlock := if (e.FS_Read s.cl.download s.cl.downloadCount).1 < 0
          then s.cl.downloadCurrentBlock else s.cl.downloadCurrentBlock + 1 } := by
  unfold readDownloadBlock
  dsimp only
  rw [St.whenS_eq]
  generalize (s.cl.downloadBlocks.getD (downloadIndex s.cl.downloadCurrentBlock) none).isNone = b
  cases b <;> by_cases hr : (e.FS_Read s.cl.download s.cl.downloadCount).1 < 0 <;>
    simp only [hr, ↓reduceIte, St.when_true, St.when_false, St.modify_cl, St.emit_cl, List.set_set]

theorem readDownloadBlock_fst (e : Engine) (s : St) :
    (readDownloadBlock e s).1 = decide (¬ (e.FS_Read s.cl.download s.cl.downloadCount).1 < 0) := by
  unfold readDownloadBlock
  dsimp only
  split_ifs with h <;> simp [h]

theorem readDownloadBlocks_cursors (e : Engine) (fuel : Nat) (s : St) :
    (readDownloadBlocks e fuel s).cl.downloadClientBlock = s.cl.downloadClientBlock
    ∧ (readDownloadBlocks e fuel s).cl.downloadXmitBlock = s.cl.downloadXmitBlock
    ∧ s.cl.downloadCurrentBlock ≤ (readDownloadBlocks e fuel s).cl.downloadCurrentBlock
    ∧ (windowBound s.cl → windowBound (readDownloadBlocks e fuel s).cl) := by
  induction fuel generalizing s with
  | zero => exact ⟨rfl, rfl, le_refl _, id⟩
  | succ n ih =>
    unfold readDownloadBlocks
    split_ifs with hc hb
    · obtain ⟨h1, h2, h3, h4⟩ := ih (readDownloadBlock e s).2
      rw [readDownloadBlock_cl] at h1 h2 h3 h4
      rw [readDownloadBlock_fst] at hb
      simp only [decide_eq_true_eq] at hb
      refine ⟨h1, h2, ?_, fun _ => h4 ?_⟩
      · refine le_trans ?_ h3
        show s.cl.downloadCurrentBlock ≤ (if _ then _ else _)
        rw [if_neg hb]
        omega
      · show (if _ then _ else _) - s.cl.downloadClientBlock ≤ _
        rw [if_neg hb]
        have := hc.1
        omega
    · rw [readDownloadBlock_cl]
      rw [readDownloadBlock_fst] at hb
      simp only [decide_eq_true_eq, not_not] at hb
      refine ⟨rfl, rfl, ?_, fun hw => ?_⟩
      · show s.cl.downloadCurrentBlock ≤ (if _ then _ else _)
        rw [if_pos hb]
      · show (if _ then _ else _) - s.cl.downloadClientBlock ≤ _
        rw [if_pos hb]
        exact hw
    · exact ⟨rfl, rfl, le_refl _, id⟩

/-- The fuel `readFuel` is enough for the read loop: afterwards its condition
is false, because the window is full, the file is read, or the loop was left by
`break` with `downloadCount` set to `downloadSize`. -/
theorem readDownloadBlocks_done (e : Engine) (fuel : Nat) (s : St) (hfuel : readFuel s.cl ≤ fuel) :
    ¬ ((readDownloadBlocks e fuel s).cl.downloadCurrentBlock
          - (readDownloadBlocks e fuel s).cl.downloadClientBlock < MAX_DOWNLOAD_WINDOW
        ∧ (readDownloadBlocks e fuel s).cl.downloadSize
          ≠ (readDownloadBlocks e fuel s).cl.downloadCount) := by
  induction fuel generalizing s with
  | zero =>
    have h0 : readDownloadBlocks e 0 s = s := rfl
    rw [h0]
    intro hc
    have := hc.1
    unfold readFuel at hfuel
    change _ ≤ 0 at hfuel
    omega
  | succ n ih =>
    unfold readDownloadBlocks
    by_cases hc : s.cl.downloadCurrentBlock - s.cl.downloadClientBlock < MAX_DOWNLOAD_WINDOW
        ∧ s.cl.downloadSize ≠ s.cl.downloadCount
    · rw [if_pos hc]
      by_cases hb : (readDownloadBlock e s).1 = true
      · rw [if_pos hb]
        refine ih _ ?_
        rw [readDownloadBlock_fst] at hb
        simp only [decide_eq_true_eq] at hb
        unfold readFuel at hfuel ⊢
        rw [readDownloadBlock_cl]
        show ((MAX_DOWNLOAD_WINDOW : Int) - ((if _ then _ else _) - s.cl.downloadClientBlock)).toNat ≤ n
        rw [if_neg hb]
        have := hc.1
        omega
      · rw [if_neg hb]
        rw [readDownloadBlock_fst] at hb
        simp only [decide_eq_true_eq, not_not] at hb
        rw [readDownloadBlock_cl]
        intro hx
        have h2 : s.cl.downloadSize ≠ (if (e.FS_Read s.cl.download s.cl.downloadCount).1 < 0
            then s.cl.downloadSize
            else s.cl.downloadCount + (e.FS_Read s.cl.download s.cl.downloadCount).1) := hx.2
        rw [if_pos hb] at h2
        exact h2 rfl
    · rw [if_neg hc]
      exact hc

theorem addEOFBlock_cursors (s : St) :
    (addEOFBlock s).cl.downloadClientBlock = s.cl.downloadClientBlock
    ∧ (addEOFBlock s).cl.downloadXmitBlock = s.cl.downloadXmitBlock
    ∧ s.cl.downloadCurrentBlock ≤ (addEOFBlock s).cl.downloadCurrentBlock
    ∧ (windowBound s.cl → windowBound (addEOFBlock s).cl) := by
  unfold addEOFBlock
  rw [St.whenS_eq]
  cases hb : (decide (s.cl.downloadCount = s.cl.downloadSize) && ! s.cl.downloadEOF
      && decide (s.cl.downloadCurrentBlock - s.cl.downloadClientBlock < MAX_DOWNLOAD_WINDOW))
  · exact ⟨rfl, rfl, le_refl _, id⟩
  · simp only [Bool.and_eq_true, decide_eq_true_eq] at hb
    refine ⟨rfl, rfl, ?_, fun _ => ?_⟩
    · show s.cl.downloadCurrentBlock ≤ s.cl.downloadCurrentBlock + 1
      omega
    · show s.cl.downloadCurrentBlock + 1 - s.cl.downloadClientBlock ≤ _
      have := hb.2
      omega

theorem sendDownloadBlocks_cursors (e : Engine) (n : Nat) (s : St) :
    (sendDownloadBlocks e n s).cl.downloadClientBlock = s.cl.downloadClientBlock
    ∧ (sendDownloadBlocks e n s).cl.downloadCurrentBlock = s.cl.downloadCurrentBlock
    ∧ (s.cl.downloadClientBlock ≤ s.cl.downloadXmitBlock →
        s.cl.downloadXmitBlock ≤ s.cl.downloadCurrentBlock →
        (sendDownloadBlocks e n s).cl.downloadClientBlock
            ≤ (sendDownloadBlocks e n s).cl.downloadXmitBlock
        ∧ (sendDownloadBlocks e n s).cl.downloadXmitBlock
            ≤ (sendDownloadBlocks e n s).cl.downloadCurrentBlock) := by
  induction n generalizing s with
  | zero => exact ⟨rfl, rfl, fun h1 h2 => ⟨h1, h2⟩⟩
  | succ n ih =>
    unfold sendDownloadBlocks
    split_ifs with h1 h2
    · exact ⟨rfl, rfl, fun h1 h2 => ⟨h1, h2⟩⟩
    · exact ⟨rfl, rfl, fun h1 h2 => ⟨h1, h2⟩⟩
    · rw [St.whenS_eq]
      by_cases hx : s.cl.downloadXmitBlock = s.cl.downloadCurrentBlock
      · rw [decide_eq_true hx, St.when_true]
        obtain ⟨i1, i2, i3⟩ := ih ((((s.modify (fun cl =>
          { cl with downloadXmitBlock := cl.downloadClientBlock })).emitS downloadBlockMessage).emitS
            (fun cl => Event.Com_DPrintf ("clientDownload: " ++ toString e.clientNum
              ++ " : writing block " ++ toString cl.downloadXmitBlock ++ "\n"))).modify
            (fun cl => { cl with downloadXmitBlock := cl.downloadXmitBlock + 1,
                                 downloadSendTime := e.svs_time }))
        refine ⟨i1, i2, fun a b => i3 ?_ ?_⟩
        · show s.cl.downloadClientBlock ≤ s.cl.downloadClientBlock + 1
          omega
        · show s.cl.downloadClientBlock + 1 ≤ s.cl.downloadCurrentBlock
          omega
      · rw [decide_eq_false hx, St.when_false]
        obtain ⟨i1, i2, i3⟩ := ih (((s.emitS downloadBlockMessage).emitS
            (fun cl => Event.Com_DPrintf ("clientDownload: " ++ toString e.clientNum
              ++ " : writing block " ++ toString cl.downloadXmitBlock ++ "\n"))).modify
            (fun cl => { cl with downloadXmitBlock := cl.downloadXmitBlock + 1,
                                 downloadSendTime := e.svs_time }))
        refine ⟨i1, i2, fun a b => i3 ?_ ?_⟩
        · show s.cl.downloadClientBlock ≤ s.cl.downloadXmitBlock + 1
          omega
        · show s.cl.downloadXmitBlock + 1 ≤ s.cl.downloadCurrentBlock
          omega

theorem refuseDownload_cursors (e : Engine) (a b c : Bool) (s : St) :
    (refuseDownload e a b c s).cl.downloadClientBlock = s.cl.downloadClientBlock
    ∧ (refuseDownload e a b c s).cl.downloadXmitBlock = s.cl.downloadXmitBlock
    ∧ (refuseDownload e a b c s).cl.downloadCurrentBlock = s.cl.downloadCurrentBlock := by
  unfold refuseDownload
  simp only [St.whenS, St.when]
  split_ifs <;> exact ⟨rfl, rfl, rfl⟩

theorem openDownload_cursors (e : Engine) (s : St) :
    ((openDownload e s).1 = true →
      (openDownload e s).2.cl.downloadClientBlock = 0
      ∧ (openDownload e s).2.cl.downloadXmitBlock = 0
      ∧ (openDownload e s).2.cl.downloadCurrentBlock = 0)
    ∧ ((openDownload e s).1 = false →
      (openDownload e s).2.cl.downloadClientBlock = s.cl.downloadClientBlock
      ∧ (openDownload e s).2.cl.downloadXmitBlock = s.cl.downloadXmitBlock
      ∧ (openDownload e s).2.cl.downloadCurrentBlock = s.cl.downloadCurrentBlock) := by
  unfold openDownload
  dsimp only
  split_ifs
  · exact ⟨fun h => absurd h (by simp), fun _ => refuseDownload_cursors e _ _ _ _⟩
  · exact ⟨fun h => absurd h (by simp), fun _ => refuseDownload_cursors e _ _ _ _⟩
  · exact ⟨fun _ => ⟨rfl, rfl, rfl⟩, fun h => absurd h (by simp)⟩

theorem pumpDownload_cursors (e : Engine) (s : St) :
    (pumpDownload e s).cl.downloadClientBlock = s.cl.downloadClientBlock
    ∧ (windowBound s.cl → windowBound (pumpDownload e s).cl)
    ∧ (cursorsOrdered s.cl → cursorsOrdered (pumpDownload e s).cl) := by
  obtain ⟨r1, r2, r3, r4⟩ := readDownloadBlocks_cursors e (readFuel s.cl) s
  obtain ⟨a1, a2, a3, a4⟩ := addEOFBlock_cursors (readDownloadBlocks e (readFuel s.cl) s)
  have hw : ∀ t : St, ((t.when (decide ((e.cvar "sv_maxRate").integer ≠ 0)
      && decide ((e.cvar "sv_maxRate").integer < 1000))
      (fun t => t.emit (Event.Cvar_Set "sv_MaxRate" "1000"))).cl) = t.cl := by
    intro t
    generalize (decide ((e.cvar "sv_maxRate").integer ≠ 0)
      && decide ((e.cvar "sv_maxRate").integer < 1000)) = b
    cases b <;> rfl
  unfold pumpDownload
  dsimp only
  generalize hT : ((addEOFBlock (readDownloadBlocks e (readFuel s.cl) s)).when
      (decide ((e.cvar "sv_maxRate").integer ≠ 0) && decide ((e.cvar "sv_maxRate").integer < 1000))
      (fun t => t.emit (Event.Cvar_Set "sv_MaxRate" "1000"))) = T
  have hT' : T.cl = (addEOFBlock (readDownloadBlocks e (readFuel s.cl) s)).cl := by
    rw [← hT]
    exact hw _
  obtain ⟨s1, s2, s3⟩ := sendDownloadBlocks_cursors e (blockspersnap e T.cl).toNat T
  have c1 : T.cl.downloadClientBlock = s.cl.downloadClientBlock := by rw [hT', a1, r1]
  have c2 : T.cl.downloadXmitBlock = s.cl.downloadXmitBlock := by rw [hT', a2, r2]
  have c3 : s.cl.downloadCurrentBlock ≤ T.cl.downloadCurrentBlock := by
    rw [hT']
    exact le_trans r3 a3
  have c4 : windowBound s.cl → windowBound T.cl := by
    intro hb
    have := a4 (r4 hb)
    unfold windowBound at this ⊢
    rw [hT']
    exact this
  refine ⟨by rw [s1, c1], fun hb => ?_, fun ho => ?_⟩
  · have := c4 hb
    unfold windowBound at this ⊢
    rw [s1, s2]
    exact this
  · unfold cursorsOrdered at ho ⊢
    have := s3 (by rw [c1, c2]; exact ho.2.1) (by rw [c2]; omega)
    rw [s1, c1] at this ⊢
    exact ⟨ho.1, this.1, this.2⟩

theorem SV_WriteDownloadToClient_cursors (e : Engine) (s : St) :
    (windowBound s.cl → windowBound (SV_WriteDownloadToClient e s).cl)
    ∧ (cursorsOrdered s.cl → cursorsOrdered (SV_WriteDownloadToClient e s).cl) := by
  have hz : ∀ t : St, t.cl.downloadClientBlock = 0 → t.cl.downloadXmitBlock = 0 →
      t.cl.downloadCurrentBlock = 0 → windowBound t.cl ∧ cursorsOrdered t.cl := by
    intro t h1 h2 h3
    unfold windowBound cursorsOrdered
    rw [h1, h2, h3]
    simp
  unfold SV_WriteDownloadToClient
  split_ifs with h1 h2 h3
  · exact ⟨id, id⟩
  · obtain ⟨o1, o2, o3⟩ := (openDownload_cursors e s).1 h3
    obtain ⟨hw, ho⟩ := hz _ o1 o2 o3
    obtain ⟨_, p2, p3⟩ := pumpDownload_cursors e (openDownload e s).2
    exact ⟨fun _ => p2 hw, fun _ => p3 ho⟩
  · obtain ⟨o1, o2, o3⟩ := (openDownload_cursors e s).2 (by simpa using h3)
    unfold windowBound cursorsOrdered
    rw [o1, o2, o3]
    exact ⟨id, id⟩
  · obtain ⟨_, p2, p3⟩ := pumpDownload_cursors e s
    exact ⟨p2, p3⟩

theorem SV_DropClient_cursors (e : Engine) (s : St) (reason : String) :
    (SV_DropClient e s reason).cl.downloadClientBlock = s.cl.downloadClientBlock
    ∧ (SV_DropClient e s reason).cl.downloadXmitBlock = s.cl.downloadXmitBlock
    ∧ (SV_DropClient e s reason).cl.downloadCurrentBlock = s.cl.downloadCurrentBlock := by
  by_cases hz : s.cl.state = CS_ZOMBIE
  · rw [SV_DropClient_zombie e s reason hz]
    exact ⟨rfl, rfl, rfl⟩
  · rw [SV_DropClient_cl e s reason hz]
    exact ⟨rfl, rfl, rfl⟩

theorem SV_NextDownload_f_cursors (e : Engine) (s : St) (argv : Argv) :
    (windowBound s.cl → windowBound (SV_NextDownload_f e s argv).1.cl)
    ∧ (cursorsOrdered s.cl → atoi (Cmd_Argv argv 1) < s.cl.downloadXmitBlock →
        cursorsOrdered (SV_NextDownload_f e s argv).1.cl) := by
  unfold SV_NextDownload_f
  dsimp only
  split_ifs with h1 h2 h3
  · exact ⟨id, fun h _ => h⟩
  · exact ⟨id, fun h _ => h⟩
  · unfold windowBound cursorsOrdered
    refine ⟨fun h => ?_, fun h ha => ?_⟩
    · show s.cl.downloadCurrentBlock - (s.cl.downloadClientBlock + 1) ≤ _
      omega
    · show 0 ≤ s.cl.downloadClientBlock + 1 ∧ s.cl.downloadClientBlock + 1 ≤ s.cl.downloadXmitBlock
        ∧ s.cl.downloadXmitBlock ≤ s.cl.downloadCurrentBlock
      omega
  · obtain ⟨d1, d2, d3⟩ := SV_DropClient_cursors e s "broken download"
    unfold windowBound cursorsOrdered
    rw [d1, d2, d3]
    exact ⟨id, fun h _ => h⟩

theorem SV_BeginDownload_f_cursors (e : Engine) (s : St) (argv : Argv) :
    (windowBound s.cl → windowBound (SV_BeginDownload_f e s argv).1.cl)
    ∧ (cursorsOrdered s.cl → cursorsOrdered (SV_BeginDownload_f e s argv).1.cl) := by
  unfold SV_BeginDownload_f
  split_ifs <;> exact ⟨id, id⟩

theorem downloadOp_run_windowBound (e : Engine) (s : St) (op : downloadOp)
    (h : windowBound s.cl) : windowBound (op.run e s).cl := by
  cases op with
  | download argv => exact (SV_BeginDownload_f_cursors e s argv).1 h
  | nextdl argv => exact (SV_NextDownload_f_cursors e s argv).1 h
  | write => exact (SV_WriteDownloadToClient_cursors e s).1 h

theorem runDownloadOps_append (s : St) (a b : List (Engine × downloadOp)) :
    runDownloadOps s (a ++ b) = runDownloadOps (runDownloadOps s a) b := by
  induction a generalizing s with
  | nil => rfl
  | cons x xs ih => exact ih _

theorem runDownloadOps_windowBound (s : St) (ops : List (Engine × downloadOp))
    (h : windowBound s.cl) : windowBound (runDownloadOps s ops).cl := by
  induction ops generalizing s with
  | nil => exact h
  | cons x xs ih => exact ih _ (downloadOp_run_windowBound x.1 s x.2 h)

theorem runDownloadOps_cursorsOrdered (s : St) (ops : List (Engine × downloadOp))
    (h : cursorsOrdered s.cl) (ha : acksTransmitted s ops) :
    cursorsOrdered (runDownloadOps s ops).cl := by
  induction ops generalizing s with
  | nil => exact h
  | cons x xs ih =>
    obtain ⟨e, op⟩ := x
    obtain ⟨ha1, ha2⟩ := ha
    refine ih _ ?_ ha2
    cases op with
    | download argv => exact (SV_BeginDownload_f_cursors e s argv).2 h
    | nextdl argv => exact (SV_NextDownload_f_cursors e s argv).2 h ha1
    | write => exact (SV_WriteDownloadToClient_cursors e s).2 h

theorem acksTransmitted_take (s : St) (ops : List (Engine × downloadOp)) (k : Nat)
    (ha : acksTransmitted s ops) : acksTransmitted s (ops.take k) := by
  induction ops generalizing s k with
  | nil => simpa using ha
  | cons x xs ih =>
    cases k with
    | zero => exact trivial
    | succ k => exact ⟨ha.1, ih _ k ha.2⟩

/-- C13 as stated fails: after `download`, one call of SV_WriteDownloadToClient
(block 0 sent) and the acknowledgements `nextdl 0` and `nextdl 1`, the second
of a block that was not sent yet, `downloadClientBlock` is 2 and
`downloadXmitBlock` is 1. -/
theorem cursorsOrdered_claim_counterexample :
    cursorsOrdered connectedSlot
    ∧ (runDownloadOps { cl := connectedSlot, out := [] } ackAheadOps).cl.downloadClientBlock = 2
    ∧ (runDownloadOps { cl := connectedSlot, out := [] } ackAheadOps).cl.downloadXmitBlock = 1
    ∧ ¬ cursorsOrdered (runDownloadOps { cl := connectedSlot, out := [] } ackAheadOps).cl := by
  have h1 : (runDownloadOps { cl := connectedSlot, out := [] } ackAheadOps).cl.downloadClientBlock
      = 2 := by decide
  have h2 : (runDownloadOps { cl := connectedSlot, out := [] } ackAheadOps).cl.downloadXmitBlock
      = 1 := by decide
  refine ⟨⟨by decide, by decide, by decide⟩, h1, h2, fun h => ?_⟩
  have := h.2.1
  rw [h1, h2] at this
  exact absurd this (by decide)

/-- C13 (amended): across every sequence of `download` and `nextdl` commands
and SV_WriteDownloadToClient calls in which each `nextdl` names a block that was
transmitted before (its number is below `downloadXmitBlock`), the cursors
satisfy `0 <= downloadClientBlock <= downloadXmitBlock <= downloadCurrentBlock`
after each step, when they did at the start. -/
theorem cursorsOrdered_preserved (s : St) (ops : List (Engine × downloadOp)) (k : Nat)
    (h : cursorsOrdered s.cl) (ha : acksTransmitted s ops) :
    cursorsOrdered (runDownloadOps s (ops.take k)).cl
    ∧ cursorsOrdered (runDownloadOps s ops).cl :=
  ⟨runDownloadOps_cursorsOrdered s _ h (acksTransmitted_take s ops k ha),
    runDownloadOps_cursorsOrdered s ops h ha⟩

/-- Witness for `cursorsOrdered_preserved`: the first three steps of the example,
where block 0 is acknowledged after it was sent. -/
theorem cursorsOrdered_preserved_witness :
    cursorsOrdered connectedSlot
    ∧ cursorsOrdered (runDownloadOps { cl := connectedSlot, out := [] } (ackAheadOps.take 3)).cl :=
  ⟨⟨by decide, by decide, by decide⟩,
    (cursorsOrdered_preserved { cl := connectedSlot, out := [] } (ackAheadOps.take 3) 3
      ⟨by decide, by decide, by decide⟩
      ⟨trivial, trivial, (by decide), trivial⟩).2⟩

theorem readDownloadBlocks_full (e : Engine) (fuel : Nat) (s : St)
    (h : ¬ s.cl.downloadCurrentBlock - s.cl.downloadClientBlock < MAX_DOWNLOAD_WINDOW) :
    readDownloadBlocks e fuel s = s := by
  cases fuel with
  | zero => rfl
  | succ n =>
    unfold readDownloadBlocks
    rw [if_neg (fun hc => h hc.1)]

theorem addEOFBlock_full (s : St)
    (h : ¬ s.cl.downloadCurrentBlock - s.cl.downloadClientBlock < MAX_DOWNLOAD_WINDOW) :
    addEOFBlock s = s := by
  unfold addEOFBlock
  rw [St.whenS_eq, decide_eq_false h, Bool.and_false]
  rfl

/-- C14: across every sequence of `download` and `nextdl` commands and
SV_WriteDownloadToClient calls, `downloadCurrentBlock - downloadClientBlock <=
MAX_DOWNLOAD_WINDOW` holds after each step when it held at the start, as it does
for a zeroed slot; and while the window is full the read loop and the EOF
statement leave the slot alone, so that the buffer of a block is written again
only after that block was acknowledged. -/
theorem windowBound_preserved (s : St) (ops : List (Engine × downloadOp)) (k : Nat)
    (h : windowBound s.cl) :
    windowBound client_t.zero
    ∧ windowBound (runDownloadOps s (ops.take k)).cl
    ∧ windowBound (runDownloadOps s ops).cl
    ∧ (∀ (e : Engine) (fuel : Nat) (t : St),
        ¬ t.cl.downloadCurrentBlock - t.cl.downloadClientBlock < MAX_DOWNLOAD_WINDOW →
        readDownloadBlocks e fuel t = t ∧ addEOFBlock t = t) :=
  ⟨by unfold windowBound; decide, runDownloadOps_windowBound s _ h, runDownloadOps_windowBound s ops h,
    fun e fuel t ht => ⟨readDownloadBlocks_full e fuel t ht, addEOFBlock_full t ht⟩⟩

/-- Witness for `windowBound_preserved`: the example with its early acknowledgement. -/
theorem windowBound_preserved_witness :
    windowBound connectedSlot
    ∧ windowBound (runDownloadOps { cl := connectedSlot, out := [] } ackAheadOps).cl :=
  ⟨by unfold windowBound; decide,
    (windowBound_preserved { cl := connectedSlot, out := [] } ackAheadOps 0
      (by unfold windowBound; decide)).2.2.1⟩

/-! ## A download acknowledged block by block -/

theorem downloadIndex_lt (a : Int) (h : 0 ≤ a) : downloadIndex a < MAX_DOWNLOAD_WINDOW := by
  unfold downloadIndex MAX_DOWNLOAD_WINDOW
  rw [Int.tmod_eq_emod h (by decide)]
  omega

theorem downloadIndex_ne (a b : Int) (ha : 0 ≤ a) (hab : a < b) (hb : b < a + MAX_DOWNLOAD_WINDOW) :
    downloadIndex b ≠ downloadIndex a := by
  unfold MAX_DOWNLOAD_WINDOW at hb
  unfold downloadIndex MAX_DOWNLOAD_WINDOW
  rw [Int.tmod_eq_emod (by omega) (by decide), Int.tmod_eq_emod ha (by decide)]
  omega

theorem getD_set_self (l : List Int) (i : Nat) (v d : Int) (h : i < l.length) :
    (l.set i v).getD i d = v := by
  simp [h]

theorem getD_set_ne (l : List Int) (i j : Nat) (v d : Int) (h : i ≠ j) :
    (l.set i v).getD j d = l.getD j d := by
  simp [h]

theorem mul_lt_of_lt_blocks (B S N i : Int) (hB : 0 < B) (hN2 : B * (N - 1) < S) (hi : i < N) :
    B * i < S := by
  have : B * i ≤ B * (N - 1) := Int.mul_le_mul_of_nonneg_left (by omega) (le_of_lt hB)
  omega

theorem le_mul_of_blocks_le (B S N i : Int) (hB : 0 < B) (hN1 : S ≤ B * N) (hi : N ≤ i) :
    S ≤ B * i := by
  have : B * N ≤ B * i := Int.mul_le_mul_of_nonneg_left hi (le_of_lt hB)
  omega

theorem downloadBlockSizeAt_eq (cl : client_t) (b : Int) :
    downloadBlockSizeAt cl b = cl.downloadBlockSize.getD (downloadIndex b) 0 := rfl

/-- One pass of the read loop in the middle of a download: it reads the next
data block and goes on. -/
theorem readDownloadBlock_serving (e : Engine) (name : String) (handle S B N : Int) (s : St)
    (hB : 0 < B) (hN1 : S ≤ B * N)
    (hsv : servesFile e name handle S B) (hq : serving name handle S B N s.cl)
    (hc : s.cl.downloadCurrentBlock - s.cl.downloadClientBlock < MAX_DOWNLOAD_WINDOW
      ∧ s.cl.downloadSize ≠ s.cl.downloadCount) :
    (readDownloadBlock e s).1 = true
    ∧ serving name handle S B N (readDownloadBlock e s).2.cl
    ∧ (readDownloadBlock e s).2.cl.downloadClientBlock = s.cl.downloadClientBlock
    ∧ (readDownloadBlock e s).2.cl.downloadCurrentBlock = s.cl.downloadCurrentBlock + 1 := by
  obtain ⟨q1, q2, q3, q4, q5, q6, q7, q8, q9, q10, q11, q12⟩ := hq
  obtain ⟨_, _, _, _, hread⟩ := hsv
  obtain ⟨hc1, hc2⟩ := hc
  have hcur0 : 0 ≤ s.cl.downloadCurrentBlock := by omega
  have hBc : 0 ≤ B * s.cl.downloadCurrentBlock := Int.mul_nonneg (le_of_lt hB) hcur0
  have hlt : B * s.cl.downloadCurrentBlock < S := by
    rw [q4, q10] at hc2
    by_contra hge
    exact hc2 (by rw [min_eq_left (by omega)])
  have hcount : s.cl.downloadCount = B * s.cl.downloadCurrentBlock := by
    rw [q10, min_eq_right (by omega)]
  have hcurN : s.cl.downloadCurrentBlock < N := by
    by_contra hge
    have := le_mul_of_blocks_le B S N s.cl.downloadCurrentBlock hB hN1 (by omega)
    omega
  have hrd : (e.FS_Read s.cl.download s.cl.downloadCount).1
      = min B (S - B * s.cl.downloadCurrentBlock) := by
    rw [q3, hcount]
    exact hread _ hBc hlt
  have hrd1 : ¬ (e.FS_Read s.cl.download s.cl.downloadCount).1 < 0 := by
    rw [hrd]
    intro hneg
    rcases min_choice B (S - B * s.cl.downloadCurrentBlock) with hm | hm <;> rw [hm] at hneg <;> omega
  have hmul : B * (s.cl.downloadCurrentBlock + 1) = B * s.cl.downloadCurrentBlock + B := by ring
  rw [readDownloadBlock_fst, readDownloadBlock_cl]
  refine ⟨decide_eq_true hrd1, ⟨q1, q2, q3, q4, ?_, q6, ?_, ?_, ?_, ?_, ?_, ?_⟩, rfl, ?_⟩
  · show (s.cl.downloadBlockSize.set _ _).length = _
    rw [List.length_set]
    exact q5
  · show s.cl.downloadClientBlock ≤ (if _ then _ else _)
    rw [if_neg hrd1]
    omega
  · show (if _ then _ else _) ≤ s.cl.downloadClientBlock + _
    rw [if_neg hrd1]
    omega
  · show (if _ then _ else _) ≤ N + 1
    rw [if_neg hrd1]
    omega
  · show (if _ then _ else _) = min S (B * (if _ then _ else _))
    rw [if_neg hrd1, if_neg hrd1, hrd, hcount, hmul]
    rcases le_total B (S - B * s.cl.downloadCurrentBlock) with hcase | hcase
    · rw [min_eq_left hcase, min_eq_right (by omega)]
    · rw [min_eq_right hcase, min_eq_left (by omega)]
      omega
  · show s.cl.downloadEOF = true ↔ (if _ then _ else _) = N + 1
    rw [if_neg hrd1]
    constructor
    · intro h
      have := q11.1 h
      omega
    · intro h
      omega
  · intro i hi1 hi2
    have hi2' : i < s.cl.downloadCurrentBlock + 1 := by
      have h2 : i < (if (e.FS_Read s.cl.download s.cl.downloadCount).1 < 0
          then s.cl.downloadCurrentBlock else s.cl.downloadCurrentBlock + 1) := hi2
      rw [if_neg hrd1] at h2
      exact h2
    have hi1' : s.cl.downloadClientBlock ≤ i := hi1
    show (s.cl.downloadBlockSize.set (downloadIndex s.cl.downloadCurrentBlock)
      (e.FS_Read s.cl.download s.cl.downloadCount).1).getD (downloadIndex i) 0 = _
    by_cases hic : i = s.cl.downloadCurrentBlock
    · rw [hic, getD_set_self _ _ _ _ (by rw [q5]; exact downloadIndex_lt _ hcur0), hrd,
        if_pos hcurN]
    · rw [getD_set_ne _ _ _ _ _ (downloadIndex_ne i s.cl.downloadCurrentBlock (by omega) (by omega)
        (by omega))]
      exact q12 i hi1' (by omega)
  · show (if _ then _ else _) = _
    rw [if_neg hrd1]

/-- The read loop in the middle of a download, with fuel for the whole window:
it ends because the window is full or the file is read. -/
theorem readDownloadBlocks_serving (e : Engine) (name : String) (handle S B N : Int)
    (hB : 0 < B) (hN1 : S ≤ B * N) (hsv : servesFile e name handle S B)
    (fuel : Nat) (s : St) (hq : serving name handle S B N s.cl)
    (hfuel : ((MAX_DOWNLOAD_WINDOW : Int)
      - (s.cl.downloadCurrentBlock - s.cl.downloadClientBlock)).toNat ≤ fuel) :
    serving name handle S B N (readDownloadBlocks e fuel s).cl
    ∧ (readDownloadBlocks e fuel s).cl.downloadClientBlock = s.cl.downloadClientBlock
    ∧ ¬ ((readDownloadBlocks e fuel s).cl.downloadCurrentBlock
          - (readDownloadBlocks e fuel s).cl.downloadClientBlock < MAX_DOWNLOAD_WINDOW
        ∧ (readDownloadBlocks e fuel s).cl.downloadSize
          ≠ (readDownloadBlocks e fuel s).cl.downloadCount) := by
  induction fuel generalizing s with
  | zero =>
    have h0 : readDownloadBlocks e 0 s = s := rfl
    rw [h0]
    refine ⟨hq, rfl, fun hc => ?_⟩
    have := hc.1
    change _ ≤ 0 at hfuel
    omega
  | succ n ih =>
    unfold readDownloadBlocks
    by_cases hc : s.cl.downloadCurrentBlock - s.cl.downloadClientBlock < MAX_DOWNLOAD_WINDOW
        ∧ s.cl.downloadSize ≠ s.cl.downloadCount
    · obtain ⟨p1, p2, p3, p4⟩ := readDownloadBlock_serving e name handle S B N s hB hN1 hsv hq hc
      rw [if_pos hc, if_pos p1]
      obtain ⟨i1, i2, i3⟩ := ih (readDownloadBlock e s).2 p2 (by rw [p3, p4]; omega)
      exact ⟨i1, i2.trans p3, i3⟩
    · rw [if_neg hc]
      exact ⟨hq, rfl, hc⟩

/-- The EOF statement after the read loop: the invariant is kept and, unless
every block of the file was acknowledged, a block not yet acknowledged is in
the window. -/
theorem addEOFBlock_serving (name : String) (handle S B N : Int) (hB : 0 < B)
    (hN2 : B * (N - 1) < S) (s : St)
    (hq : serving name handle S B N s.cl)
    (hx : ¬ (s.cl.downloadCurrentBlock - s.cl.downloadClientBlock < MAX_DOWNLOAD_WINDOW
      ∧ s.cl.downloadSize ≠ s.cl.downloadCount)) :
    serving name handle S B N (addEOFBlock s).cl
    ∧ (addEOFBlock s).cl.downloadClientBlock = s.cl.downloadClientBlock
    ∧ (s.cl.downloadClientBlock ≤ N →
        s.cl.downloadClientBlock < (addEOFBlock s).cl.downloadCurrentBlock) := by
  obtain ⟨q1, q2, q3, q4, q5, q6, q7, q8, q9, q10, q11, q12⟩ := hq
  unfold addEOFBlock
  rw [St.whenS_eq]
  by_cases hc : (s.cl.downloadCount = s.cl.downloadSize ∧ s.cl.downloadEOF = false)
      ∧ s.cl.downloadCurrentBlock - s.cl.downloadClientBlock < MAX_DOWNLOAD_WINDOW
  · have hb : (decide (s.cl.downloadCount = s.cl.downloadSize) && ! s.cl.downloadEOF
        && decide (s.cl.downloadCurrentBlock - s.cl.downloadClientBlock < MAX_DOWNLOAD_WINDOW))
        = true := by
      simp only [Bool.and_eq_true, decide_eq_true_eq, Bool.not_eq_true']
      exact hc
    rw [hb, St.when_true]
    obtain ⟨⟨hc1, hc2⟩, hc3⟩ := hc
    have hcur0 : 0 ≤ s.cl.downloadCurrentBlock := by omega
    have hge : S ≤ B * s.cl.downloadCurrentBlock := by
      rw [q4, q10] at hc1
      by_contra hlt
      rw [min_eq_right (by omega)] at hc1
      omega
    have hNle : N ≤ s.cl.downloadCurrentBlock := by
      by_contra hlt
      have := mul_lt_of_lt_blocks B S N s.cl.downloadCurrentBlock hB hN2 (by omega)
      omega
    have hne : s.cl.downloadCurrentBlock ≠ N + 1 := by
      intro h
      have := q11.2 h
      rw [hc2] at this
      exact absurd this (by decide)
    have hcurN : s.cl.downloadCurrentBlock = N := by omega
    have hmul : B * (s.cl.downloadCurrentBlock + 1) = B * s.cl.downloadCurrentBlock + B := by ring
    refine ⟨⟨q1, q2, q3, q4, ?_, q6, ?_, ?_, ?_, ?_, ?_, ?_⟩, rfl, fun _ => ?_⟩
    · show (s.cl.downloadBlockSize.set _ _).length = _
      rw [List.length_set]
      exact q5
    · show s.cl.downloadClientBlock ≤ s.cl.downloadCurrentBlock + 1
      omega
    · show s.cl.downloadCurrentBlock + 1 ≤ s.cl.downloadClientBlock + _
      omega
    · show s.cl.downloadCurrentBlock + 1 ≤ N + 1
      omega
    · show s.cl.downloadCount = min S (B * (s.cl.downloadCurrentBlock + 1))
      rw [hc1, q4, hmul, min_eq_left (by omega)]
    · show true = true ↔ s.cl.downloadCurrentBlock + 1 = N + 1
      constructor
      · intro _
        omega
      · intro _
        rfl
    · intro i hi1 hi2
      have hi1' : s.cl.downloadClientBlock ≤ i := hi1
      have hi2' : i < s.cl.downloadCurrentBlock + 1 := hi2
      show (s.cl.downloadBlockSize.set (downloadIndex s.cl.downloadCurrentBlock) 0).getD
        (downloadIndex i) 0 = _
      by_cases hic : i = s.cl.downloadCurrentBlock
      · rw [hic, getD_set_self _ _ _ _ (by rw [q5]; exact downloadIndex_lt _ hcur0),
          if_neg (by omega)]
      · rw [getD_set_ne _ _ _ _ _ (downloadIndex_ne i s.cl.downloadCurrentBlock (by omega)
          (by omega) (by omega))]
        exact q12 i hi1' (by omega)
    · show s.cl.downloadClientBlock < s.cl.downloadCurrentBlock + 1
      omega
  · have hb : (decide (s.cl.downloadCount = s.cl.downloadSize) && ! s.cl.downloadEOF
        && decide (s.cl.downloadCurrentBlock - s.cl.downloadClientBlock < MAX_DOWNLOAD_WINDOW))
        = false := by
      rw [← Bool.not_eq_true]
      simp only [Bool.and_eq_true, decide_eq_true_eq, Bool.not_eq_true']
      exact hc
    rw [hb, St.when_false]
    refine ⟨⟨q1, q2, q3, q4, q5, q6, q7, q8, q9, q10, q11, q12⟩, rfl, fun hcl => ?_⟩
    by_cases hw : s.cl.downloadCurrentBlock - s.cl.downloadClientBlock < MAX_DOWNLOAD_WINDOW
    · have hsz : s.cl.downloadSize = s.cl.downloadCount := by
        by_contra hne
        exact hx ⟨hw, hne⟩
      cases hE : s.cl.downloadEOF with
      | true =>
        have := q11.1 hE
        omega
      | false => exact absurd ⟨⟨hsz.symm, hE⟩, hw⟩ hc
    · unfold MAX_DOWNLOAD_WINDOW at hw
      omega

/-- The loop that sends writes only `downloadXmitBlock` and `downloadSendTime`. -/
theorem sendDownloadBlocks_cl (e : Engine) (n : Nat) (s : St) :
    ∃ x t, (sendDownloadBlocks e n s).cl
      = { s.cl with downloadXmitBlock := x, downloadSendTime := t } := by
  induction n generalizing s with
  | zero => exact ⟨s.cl.downloadXmitBlock, s.cl.downloadSendTime, rfl⟩
  | succ n ih =>
    unfold sendDownloadBlocks
    split_ifs with h1 h2
    · exact ⟨s.cl.downloadXmitBlock, s.cl.downloadSendTime, rfl⟩
    · exact ⟨s.cl.downloadXmitBlock, s.cl.downloadSendTime, rfl⟩
    · rw [St.whenS_eq]
      by_cases hx : s.cl.downloadXmitBlock = s.cl.downloadCurrentBlock
      · rw [decide_eq_true hx, St.when_true]
        obtain ⟨x, t, hxt⟩ := ih ((((s.modify (fun cl =>
          { cl with downloadXmitBlock := cl.downloadClientBlock })).emitS downloadBlockMessage).emitS
            (fun cl => Event.Com_DPrintf ("clientDownload: " ++ toString e.clientNum
              ++ " : writing block " ++ toString cl.downloadXmitBlock ++ "\n"))).modify
            (fun cl => { cl with downloadXmitBlock := cl.downloadXmitBlock + 1,
                                 downloadSendTime := e.svs_time }))
        exact ⟨x, t, hxt.trans rfl⟩
      · rw [decide_eq_false hx, St.when_false]
        obtain ⟨x, t, hxt⟩ := ih (((s.emitS downloadBlockMessage).emitS
            (fun cl => Event.Com_DPrintf ("clientDownload: " ++ toString e.clientNum
              ++ " : writing block " ++ toString cl.downloadXmitBlock ++ "\n"))).modify
            (fun cl => { cl with downloadXmitBlock := cl.downloadXmitBlock + 1,
                                 downloadSendTime := e.svs_time }))
        exact ⟨x, t, hxt.trans rfl⟩

theorem serving_of_xmit (name : String) (handle S B N : Int) (cl : client_t) (x t : Int)
    (hq : serving name handle S B N cl) :
    serving name handle S B N { cl with downloadXmitBlock := x, downloadSendTime := t } := hq

/-- The pump of SV_WriteDownloadToClient in the middle of a download. -/
theorem pumpDownload_serving (e : Engine) (name : String) (handle S B N : Int)
    (hB : 0 < B) (hN1 : S ≤ B * N) (hN2 : B * (N - 1) < S)
    (hsv : servesFile e name handle S B) (s : St) (hq : serving name handle S B N s.cl) :
    serving name handle S B N (pumpDownload e s).cl
    ∧ (pumpDownload e s).cl.downloadClientBlock = s.cl.downloadClientBlock
    ∧ (s.cl.downloadClientBlock ≤ N →
        s.cl.downloadClientBlock < (pumpDownload e s).cl.downloadCurrentBlock) := by
  obtain ⟨r1, r2, r3⟩ := readDownloadBlocks_serving e name handle S B N hB hN1 hsv
    (readFuel s.cl) s hq (le_refl _)
  obtain ⟨a1, a2, a3⟩ := addEOFBlock_serving name handle S B N hB hN2 _ r1 r3
  unfold pumpDownload
  dsimp only
  generalize hT : ((addEOFBlock (readDownloadBlocks e (readFuel s.cl) s)).when
      (decide ((e.cvar "sv_maxRate").integer ≠ 0) && decide ((e.cvar "sv_maxRate").integer < 1000))
      (fun t => t.emit (Event.Cvar_Set "sv_MaxRate" "1000"))) = T
  have hT' : T.cl = (addEOFBlock (readDownloadBlocks e (readFuel s.cl) s)).cl := by
    rw [← hT]
    generalize (decide ((e.cvar "sv_maxRate").integer ≠ 0)
      && decide ((e.cvar "sv_maxRate").integer < 1000)) = b
    cases b <;> rfl
  obtain ⟨x, t, hxt⟩ := sendDownloadBlocks_cl e (blockspersnap e T.cl).toNat T
  rw [hxt, hT']
  refine ⟨serving_of_xmit _ _ _ _ _ _ _ _ a1, a2.trans r2, fun hle => ?_⟩
  have := a3 (by rw [r2]; exact hle)
  rw [r2] at this
  exact this

/-- The first call of SV_WriteDownloadToClient after the command `download`: the
file is opened and the cursors start at 0. -/
theorem openDownload_serving (e : Engine) (name : String) (handle S B N : Int)
    (hS : 0 ≤ S) (hN0 : 0 ≤ N) (hsv : servesFile e name handle S B) (s : St)
    (hstate : s.cl.state ≠ CS_ACTIVE) (hname : s.cl.downloadName = name)
    (hlen : s.cl.downloadBlockSize.length = MAX_DOWNLOAD_WINDOW) :
    (openDownload e s).1 = true
    ∧ serving name handle S B N (openDownload e s).2.cl
    ∧ (openDownload e s).2.cl.downloadClientBlock = 0 := by
  obtain ⟨h1, h2, h3, h4, _⟩ := hsv
  unfold openDownload
  dsimp only
  rw [hname, if_neg (by rw [h2, h3]; simp [h1])]
  have hsz : ((s.modify (fun cl => { cl with download := 0 })).modify (fun cl =>
      { cl with downloadSize := (e.FS_SV_FOpenFileRead cl.downloadName).1,
                download := (e.FS_SV_FOpenFileRead cl.downloadName).2 })).cl.downloadSize = S := by
    show (e.FS_SV_FOpenFileRead s.cl.downloadName).1 = S
    rw [hname, h4]
  rw [if_neg (by rw [hsz]; omega)]
  refine ⟨rfl, ⟨hstate, hname, ?_, ?_, hlen, le_refl _, le_refl _, ?_, ?_, ?_, ?_, ?_⟩, rfl⟩
  · show (e.FS_SV_FOpenFileRead s.cl.downloadName).2 = handle
    rw [hname, h4]
  · exact hsz
  · show (0 : Int) ≤ 0 + MAX_DOWNLOAD_WINDOW
    unfold MAX_DOWNLOAD_WINDOW
    decide
  · show (0 : Int) ≤ N + 1
    omega
  · show (0 : Int) = min S (B * 0)
    rw [mul_zero, min_eq_right hS]
  · show false = true ↔ (0 : Int) = N + 1
    constructor
    · intro h
      exact absurd h (by decide)
    · intro h
      omega
  · intro i hi1 hi2
    have h1' : (0 : Int) ≤ i := hi1
    have h2' : i < 0 := hi2
    omega

/-- The call of SV_WriteDownloadToClient of round `j`: afterwards block `j` is
in the window. -/
theorem SV_WriteDownloadToClient_round (e : Engine) (name : String) (handle S B N : Int)
    (hne : name ≠ "") (hh : handle ≠ 0) (hB : 0 < B) (hS : 0 ≤ S) (hN0 : 0 ≤ N)
    (hN1 : S ≤ B * N) (hN2 : B * (N - 1) < S) (hsv : servesFile e name handle S B)
    (j : Nat) (s : St) (hq : awaiting name handle S B N j s.cl) :
    serving name handle S B N (SV_WriteDownloadToClient e s).cl
    ∧ (SV_WriteDownloadToClient e s).cl.downloadClientBlock = j
    ∧ (j : Int) < (SV_WriteDownloadToClient e s).cl.downloadCurrentBlock := by
  obtain ⟨hj, hq | hq⟩ := hq
  · obtain ⟨hj0, hstate, hname, hclosed, hlen⟩ := hq
    obtain ⟨o1, o2, o3⟩ := openDownload_serving e name handle S B N hS hN0 hsv s hstate hname hlen
    obtain ⟨p1, p2, p3⟩ := pumpDownload_serving e name handle S B N hB hN1 hN2 hsv _ o2
    unfold SV_WriteDownloadToClient
    rw [if_neg (by rw [hname]; exact hne), if_pos hclosed, if_pos o1]
    rw [o3] at p2 p3
    subst hj0
    exact ⟨p1, p2, p3 hN0⟩
  · obtain ⟨hq, hcl⟩ := hq
    obtain ⟨p1, p2, p3⟩ := pumpDownload_serving e name handle S B N hB hN1 hN2 hsv s hq
    unfold SV_WriteDownloadToClient
    rw [if_neg (by rw [hq.2.1]; exact hne), if_neg (by rw [hq.2.2.1]; exact hh)]
    rw [hcl] at p2 p3
    exact ⟨p1, p2, p3 hj⟩

/-- The acknowledgement of a data block: the download goes on with the next block. -/
theorem SV_NextDownload_f_data (e : Engine) (name : String) (handle S B N : Int)
    (hB : 0 < B) (hN2 : B * (N - 1) < S) (j : Nat) (s : St) (argv : Argv)
    (hq : serving name handle S B N s.cl) (hcl : s.cl.downloadClientBlock = j)
    (hcur : (j : Int) < s.cl.downloadCurrentBlock) (hj : (j : Int) < N)
    (hack : atoi (Cmd_Argv argv 1) = j) :
    serving name handle S B N (SV_NextDownload_f e s argv).1.cl
    ∧ (SV_NextDownload_f e s argv).1.cl.downloadClientBlock = (j + 1 : Nat) := by
  obtain ⟨q1, q2, q3, q4, q5, q6, q7, q8, q9, q10, q11, q12⟩ := hq
  have hsz : downloadBlockSizeAt s.cl s.cl.downloadClientBlock ≠ 0 := by
    rw [q12 _ (le_refl _) (by omega), hcl, if_pos hj]
    have := mul_lt_of_lt_blocks B S N j hB hN2 hj
    rcases min_choice B (S - B * j) with hm | hm <;> rw [hm] <;> omega
  unfold SV_NextDownload_f
  dsimp only
  rw [if_neg q1, if_pos (by rw [hack, hcl]), if_neg hsz]
  refine ⟨⟨q1, q2, q3, q4, q5, ?_, ?_, ?_, q9, q10, q11, ?_⟩, ?_⟩
  · show 0 ≤ s.cl.downloadClientBlock + 1
    omega
  · show s.cl.downloadClientBlock + 1 ≤ s.cl.downloadCurrentBlock
    omega
  · show s.cl.downloadCurrentBlock ≤ s.cl.downloadClientBlock + 1 + _
    omega
  · intro i hi1 hi2
    have hi1' : s.cl.downloadClientBlock + 1 ≤ i := hi1
    exact q12 i (by omega) hi2
  · show s.cl.downloadClientBlock + 1 = ((j + 1 : Nat) : Int)
    rw [hcl]
    push_cast
    rfl

/-- The acknowledgement of the EOF block closes the download. -/
theorem SV_NextDownload_f_eof (e : Engine) (name : String) (handle S B N : Int)
    (hh : handle ≠ 0) (s : St) (argv : Argv)
    (hq : serving name handle S B N s.cl) (hcl : s.cl.downloadClientBlock = N)
    (hcur : N < s.cl.downloadCurrentBlock) (hack : atoi (Cmd_Argv argv 1) = N) :
    (SV_NextDownload_f e s argv).1.cl.downloadName = ""
    ∧ (SV_NextDownload_f e s argv).1.cl.download = 0
    ∧ (SV_NextDownload_f e s argv).1.cl.downloadBlocks = List.replicate MAX_DOWNLOAD_WINDOW none
    ∧ Event.FS_FCloseFile handle ∈ (SV_NextDownload_f e s argv).1.out := by
  obtain ⟨q1, q2, q3, q4, q5, q6, q7, q8, q9, q10, q11, q12⟩ := hq
  have hsz : downloadBlockSizeAt s.cl s.cl.downloadClientBlock = 0 := by
    rw [q12 _ (le_refl _) (by omega), hcl, if_neg (by omega)]
  unfold SV_NextDownload_f
  dsimp only
  rw [if_neg q1, if_pos (by rw [hack, hcl]), if_pos hsz]
  refine ⟨rfl, rfl, rfl, ?_⟩
  rw [SV_CloseDownload_out]
  have hd : ((s.emit (Event.Com_DPrintf ("clientDownload: " ++ toString e.clientNum
      ++ " : client acknowledge of block " ++ toString (atoi (Cmd_Argv argv 1)) ++ "\n"))).emitS
      (fun cl => Event.Com_Printf ("clientDownload: " ++ toString e.clientNum ++ " : file \""
        ++ cl.downloadName ++ "\" completed\n"))).cl.download = handle := q3
  rw [hd, if_pos hh]
  simp

theorem awaiting_name (name : String) (handle S B N : Int) (j : Nat) (cl : client_t)
    (h : awaiting name handle S B N j cl) : cl.downloadName = name := by
  obtain ⟨_, h | h⟩ := h
  · exact h.2.2.1
  · exact h.1.2.1

/-- The rounds of a download from round `j` on, when the acknowledgements are
`j`, `j + 1`, ... and the last one is the number of data blocks. -/
theorem downloadRounds_session (name : String) (handle S B : Int) (N : Nat)
    (hne : name ≠ "") (hh : handle ≠ 0) (hB : 0 < B) (hS : 0 ≤ S)
    (hN1 : S ≤ B * N) (hN2 : B * ((N : Int) - 1) < S)
    (rounds : List (Engine × Argv)) (j : Nat) (t : St)
    (hq : awaiting name handle S B N j t.cl) (hlen : j + rounds.length = N + 1)
    (hsv : ∀ r ∈ rounds, servesFile r.1 name handle S B)
    (hacks : rounds.map (fun r => atoi (Cmd_Argv r.2 1))
      = (List.range' j rounds.length).map Int.ofNat) :
    ((rounds.foldl downloadRound t).cl.downloadName = ""
      ∧ (rounds.foldl downloadRound t).cl.download = 0
      ∧ (rounds.foldl downloadRound t).cl.downloadBlocks = List.replicate MAX_DOWNLOAD_WINDOW none
      ∧ Event.FS_FCloseFile handle ∈ (rounds.foldl downloadRound t).out)
    ∧ ∀ m, m < rounds.length → ((rounds.take m).foldl downloadRound t).cl.downloadName = name := by
  induction rounds generalizing j t with
  | nil =>
    have := hq.1
    simp only [List.length_nil, Nat.add_zero] at hlen
    omega
  | cons r rs ih =>
    have hN0 : (0 : Int) ≤ N := Int.ofNat_nonneg N
    have hr := hsv r (List.mem_cons_self _ _)
    obtain ⟨w1, w2, w3⟩ := SV_WriteDownloadToClient_round r.1 name handle S B N hne hh hB hS hN0
      hN1 hN2 hr j t hq
    simp only [List.length_cons, List.map_cons, List.range'_succ, List.cons.injEq] at hlen hacks
    obtain ⟨hack, hacks'⟩ := hacks
    have hack' : atoi (Cmd_Argv r.2 1) = (j : Int) := hack
    by_cases hlast : rs = []
    · subst hlast
      simp only [List.length_nil] at hlen
      have hjN : j = N := by omega
      subst hjN
      refine ⟨?_, fun m hm => ?_⟩
      · exact SV_NextDownload_f_eof r.1 name handle S B j hh _ r.2 w1 w2 w3 hack'
      · simp only [List.length_cons, List.length_nil] at hm
        have hm0 : m = 0 := by omega
        subst hm0
        exact awaiting_name name handle S B j j _ hq
    · have hpos : 0 < rs.length := List.length_pos.mpr hlast
      have hjN : (j : Int) < N := by omega
      obtain ⟨d1, d2⟩ := SV_NextDownload_f_data r.1 name handle S B N hB hN2 j _ r.2 w1 w2 w3 hjN
        hack'
      have hq' : awaiting name handle S B N (j + 1) (downloadRound t r).cl :=
        ⟨by push_cast; omega, Or.inr ⟨d1, d2⟩⟩
      obtain ⟨c, p⟩ := ih (j + 1) (downloadRound t r) hq' (by omega)
        (fun x hx => hsv x (List.mem_cons_of_mem _ hx)) hacks'
      refine ⟨c, fun m hm => ?_⟩
      cases m with
      | zero => exact awaiting_name name handle S B N j _ hq
      | succ m' =>
        simp only [List.length_cons] at hm
        exact p m' (by omega)

/-- C15: for every number `N` of data blocks, a client that is not ACTIVE and
has asked for a file of `N` data blocks, is pumped the file by
SV_WriteDownloadToClient and acknowledges the blocks 0, 1, ..., `N` in turn
(block `N` is the zero-length EOF block) ends with `downloadName` empty, the
file handle closed and set to 0, and all window buffers released; before the
acknowledgement of the EOF block the download stays open. -/
theorem download_completes (name : String) (handle S B : Int) (N : Nat)
    (rounds : List (Engine × Argv)) (s : St)
    (hstate : s.cl.state ≠ CS_ACTIVE) (hname : s.cl.downloadName = name) (hne : name ≠ "")
    (hclosed : s.cl.download = 0)
    (hwin : s.cl.downloadBlockSize.length = MAX_DOWNLOAD_WINDOW)
    (hh : handle ≠ 0) (hB : 0 < B) (hS : 0 ≤ S)
    (hN1 : S ≤ B * N) (hN2 : B * ((N : Int) - 1) < S)
    (hlen : rounds.length = N + 1)
    (hsv : ∀ r ∈ rounds, servesFile r.1 name handle S B)
    (hacks : rounds.map (fun r => atoi (Cmd_Argv r.2 1)) = (List.range (N + 1)).map Int.ofNat) :
    (rounds.foldl downloadRound s).cl.downloadName = ""
    ∧ (rounds.foldl downloadRound s).cl.download = 0
    ∧ (rounds.foldl downloadRound s).cl.downloadBlocks = List.replicate MAX_DOWNLOAD_WINDOW none
    ∧ Event.FS_FCloseFile handle ∈ (rounds.foldl downloadRound s).out
    ∧ ∀ m, m ≤ N → ((rounds.take m).foldl downloadRound s).cl.downloadName = name := by
  have hq : awaiting name handle S B N 0 s.cl :=
    ⟨by push_cast; exact Int.ofNat_nonneg N, Or.inl ⟨rfl, hstate, hname, hclosed, hwin⟩⟩
  obtain ⟨⟨c1, c2, c3, c4⟩, p⟩ := downloadRounds_session name handle S B N hne hh hB hS hN1 hN2
    rounds 0 s hq (by omega) hsv (by rw [hacks, hlen, List.range_eq_range'])
  exact ⟨c1, c2, c3, c4, fun m hm => p m (by omega)⟩

set_option maxRecDepth 100000

theorem downloadEngine_servesFile : servesFile downloadEngine "MBII/x.pk3" 5 3800 1024 :=
  ⟨by decide, by decide, by decide, by decide, fun _ _ _ => rfl⟩

/-- Witness for `download_completes`: the file of 3800 bytes in four data blocks
of at most 1024 bytes, acknowledged by `nextdl 0` to `nextdl 4`. -/
theorem download_completes_witness :
    requestedSlot.cl.state ≠ CS_ACTIVE
    ∧ requestedSlot.cl.downloadName = "MBII/x.pk3"
    ∧ ackRounds.length = 4 + 1
    ∧ (ackRounds.foldl downloadRound requestedSlot).cl.downloadName = ""
    ∧ (ackRounds.foldl downloadRound requestedSlot).cl.download = 0 :=
  ⟨by decide, by decide, rfl,
    (download_completes "MBII/x.pk3" 5 3800 1024 4 ackRounds requestedSlot (by decide) (by decide)
      (by decide) (by decide) (by decide) (by decide) (by decide) (by decide) (by decide)
      (by decide) rfl
      (fun r hr => by
        simp only [ackRounds, List.mem_cons, List.mem_singleton, List.not_mem_nil, or_false] at hr
        rcases hr with h | h | h | h | h <;> rw [h] <;> exact downloadEngine_servesFile)
      (by decide)).1,
    (download_completes "MBII/x.pk3" 5 3800 1024 4 ackRounds requestedSlot (by decide) (by decide)
      (by decide) (by decide) (by decide) (by decide) (by decide) (by decide) (by decide)
      (by decide) rfl
      (fun r hr => by
        simp only [ackRounds, List.mem_cons, List.mem_singleton, List.not_mem_nil, or_false] at hr
        rcases hr with h | h | h | h | h <;> rw [h] <;> exact downloadEngine_servesFile)
      (by decide)).2.1⟩

/-! ## The download of a file of 3800 bytes -/

/-- C16 as stated fails: the fourth block of a file of 3800 bytes read in
blocks of 1024 bytes has 3800 - 3 * 1024 = 728 bytes, not 632. -/
theorem download_3800_claim_counterexample :
    (downloadEngine.cvar "sv_allowDownload").integer = 1
    ∧ downloadEngine.MAX_DOWNLOAD_BLKSIZE = 1024
    ∧ downloadEngine.FS_SV_FOpenFileRead "MBII/x.pk3" = (3800, 5)
    ∧ sentBlocks (runDownloadOps { cl := connectedSlot, out := [] } downloadSessionOps).out
        ≠ [(0, 1024), (1, 1024), (2, 1024), (3, 632), (4, 0)] := by
  refine ⟨by decide, by decide, by decide, by decide⟩

/-- C16 (amended): for the referenced pak of 3800 bytes with
`MAX_DOWNLOAD_BLKSIZE` 1024 and `sv_allowDownload` 1, the server writes exactly
the blocks 0, 1, 2, 3, 4 with the sizes 1024, 1024, 1024, 728 and 0, one block
or two blocks per frame; the download is still open after the
acknowledgement of block 3 and is cleared by the acknowledgement of block 4. -/
theorem download_3800_blocks :
    sentBlocks (runDownloadOps { cl := connectedSlot, out := [] } downloadSessionOps).out
        = [(0, 1024), (1, 1024), (2, 1024), (3, 728), (4, 0)]
    ∧ sentBlocks (runDownloadOps { cl := fastSlot, out := [] } downloadSessionOps).out
        = [(0, 1024), (1, 1024), (2, 1024), (3, 728), (4, 0)]
    ∧ (runDownloadOps { cl := connectedSlot, out := [] } (downloadSessionOps.take 9)).cl.downloadName
        = "MBII/x.pk3"
    ∧ (runDownloadOps { cl := connectedSlot, out := [] } downloadSessionOps).cl.downloadName = ""
    ∧ (runDownloadOps { cl := connectedSlot, out := [] } downloadSessionOps).cl.download = 0
    ∧ (runDownloadOps { cl := connectedSlot, out := [] } downloadSessionOps).cl.downloadBlocks
        = List.replicate MAX_DOWNLOAD_WINDOW none
    ∧ Event.FS_FCloseFile 5
        ∈ (runDownloadOps { cl := connectedSlot, out := [] } downloadSessionOps).out := by
  refine ⟨by decide, by decide, by decide, by decide, by decide, by decide, by decide⟩

/-! ## The block budget of a download -/

theorem ceilDiv_eq_ceil (a : Int) (b : Nat) :
    ceilDiv a b = Int.ceil ((a : ℚ) / (b : ℚ)) := by
  unfold ceilDiv
  rw [← Rat.floor_intCast_div_natCast (-a) b]
  have h : ((a : ℚ) / (b : ℚ)) = - (((-a : Int) : ℚ) / (b : ℚ)) := by
    push_cast
    ring
  rw [h, Int.ceil_neg]

theorem wrap32_eq (x : Int) (h1 : -2147483648 ≤ x) (h2 : x < 2147483648) : wrap32 x = x := by
  unfold wrap32 ofU32 toU32
  split_ifs <;> omega

theorem ediv_ediv_thousand (a c : Int) (ha : 0 ≤ a) (hc : 0 < c) :
    a / 1000 / c = a / (1000 * c) := by
  lift a to Nat using ha
  lift c to Nat using le_of_lt hc
  norm_cast
  exact Nat.div_div_eq_div_mul _ _ _

theorem downloadRate_eq (e : Engine) (cl : client_t) :
    downloadRate e cl =
      if (e.cvar "sv_maxRate").integer = 0 then cl.rate
      else min cl.rate (max (e.cvar "sv_maxRate").integer 1000) := by
  unfold downloadRate flooredMaxRate
  split_ifs <;> omega

/-- C17 as stated fails: with `sv_maxRate` 0 the rate is not capped (rate
25000, 50 ms: 2 blocks, the formula gives 1); a byte budget that is a multiple
of the block size gets one block more than the ceiling (rate 20480, 50 ms:
2 blocks, the formula gives 1); and a rate of 0 gets one block, not none. -/
theorem blockspersnap_claim_counterexample :
    blockspersnap (engineWith []) { client_t.zero with rate := 25000, snapshotMsec := 50 } = 2
    ∧ blockspersnapSpec (engineWith []) { client_t.zero with rate := 25000, snapshotMsec := 50 } = 1
    ∧ blockspersnap (engineWith [("sv_maxRate", "25000")])
        { client_t.zero with rate := 20480, snapshotMsec := 50 } = 2
    ∧ blockspersnapSpec (engineWith [("sv_maxRate", "25000")])
        { client_t.zero with rate := 20480, snapshotMsec := 50 } = 1
    ∧ blockspersnap (engineWith [("sv_maxRate", "25000")])
        { client_t.zero with rate := 0, snapshotMsec := 50 } = 1
    ∧ blockspersnapSpec (engineWith [("sv_maxRate", "25000")])
        { client_t.zero with rate := 0, snapshotMsec := 50 } = 0 := by
  refine ⟨by decide, by decide, by decide, by decide, by decide, by decide⟩

/-- C17 (amended): the rate used is `cl.rate` when `sv_maxRate` is 0 and
`min(cl.rate, max(sv_maxRate, 1000))` otherwise; when the product
`rate * snapshotMsec` is a non-negative `int` and the block size is positive
(at most 2^30), the block budget is 1 for the rate 0 and otherwise
`(rate * snapshotMsec / 1000) / MAX_DOWNLOAD_BLKSIZE + 1` with integer
divisions, which is the ceiling of the specification whenever
`rate * snapshotMsec` is not a multiple of `1000 * MAX_DOWNLOAD_BLKSIZE`. -/
theorem blockspersnap_eq (e : Engine) (cl : client_t)
    (hB1 : 0 < e.MAX_DOWNLOAD_BLKSIZE) (hB2 : e.MAX_DOWNLOAD_BLKSIZE ≤ 1073741824)
    (h0 : 0 ≤ downloadRate e cl * cl.snapshotMsec)
    (h1 : downloadRate e cl * cl.snapshotMsec < 2147483648) :
    (downloadRate e cl =
      if (e.cvar "sv_maxRate").integer = 0 then cl.rate
      else min cl.rate (max (e.cvar "sv_maxRate").integer 1000))
    ∧ blockspersnap e cl =
        (if downloadRate e cl = 0 then 1
         else downloadRate e cl * cl.snapshotMsec / 1000 / e.MAX_DOWNLOAD_BLKSIZE + 1)
    ∧ (downloadRate e cl ≠ 0 →
        (downloadRate e cl * cl.snapshotMsec) % (1000 * e.MAX_DOWNLOAD_BLKSIZE) ≠ 0 →
        blockspersnap e cl
          = ceilDiv (downloadRate e cl * cl.snapshotMsec) (1000 * e.MAX_DOWNLOAD_BLKSIZE)) := by
  have hx0 : 0 ≤ downloadRate e cl * cl.snapshotMsec / 1000 := Int.ediv_nonneg h0 (by decide)
  have hx1 : downloadRate e cl * cl.snapshotMsec / 1000 < 2147484 := by omega
  have hval : downloadRate e cl ≠ 0 → blockspersnap e cl
      = downloadRate e cl * cl.snapshotMsec / 1000 / e.MAX_DOWNLOAD_BLKSIZE + 1 := by
    intro hR
    unfold blockspersnap
    dsimp only
    rw [if_neg hR, wrap32_eq _ (by omega) h1, Int.tdiv_eq_ediv h0 (by decide),
      wrap32_eq _ (by omega) (by omega), Int.tdiv_eq_ediv (by omega) (le_of_lt hB1)]
    have hadd : (downloadRate e cl * cl.snapshotMsec / 1000 + e.MAX_DOWNLOAD_BLKSIZE)
        / e.MAX_DOWNLOAD_BLKSIZE
        = downloadRate e cl * cl.snapshotMsec / 1000 / e.MAX_DOWNLOAD_BLKSIZE + 1 := by
      have := Int.add_mul_ediv_right (downloadRate e cl * cl.snapshotMsec / 1000) 1
        (ne_of_gt hB1)
      rw [one_mul] at this
      exact this
    rw [hadd]
    have hq : 0 ≤ downloadRate e cl * cl.snapshotMsec / 1000 / e.MAX_DOWNLOAD_BLKSIZE :=
      Int.ediv_nonneg hx0 (le_of_lt hB1)
    rw [if_neg (by omega)]
  refine ⟨downloadRate_eq e cl, ?_, fun hR hm => ?_⟩
  · by_cases hR : downloadRate e cl = 0
    · rw [if_pos hR]
      unfold blockspersnap
      dsimp only
      rw [if_pos hR]
      rfl
    · rw [if_neg hR]
      exact hval hR
  · rw [hval hR]
    unfold ceilDiv
    rw [ediv_ediv_thousand _ _ h0 hB1]
    have hpos : 0 < 1000 * e.MAX_DOWNLOAD_BLKSIZE := by omega
    generalize downloadRate e cl * cl.snapshotMsec = a at hm ⊢
    generalize 1000 * e.MAX_DOWNLOAD_BLKSIZE = b at hm hpos ⊢
    have h1 := Int.emod_add_ediv a b
    have h2 := Int.emod_add_ediv (-a) b
    have h3 := Int.emod_nonneg a (ne_of_gt hpos)
    have h4 := Int.emod_lt_of_pos a hpos
    have h5 := Int.emod_nonneg (-a) (ne_of_gt hpos)
    have h6 := Int.emod_lt_of_pos (-a) hpos
    have h7 : b * (a / b + (-a) / b + 1) = b - a % b - (-a) % b := by
      have : b * (a / b + (-a) / b + 1) = b * (a / b) + b * ((-a) / b) + b := by ring
      rw [this]
      omega
    have h8 : a / b + (-a) / b + 1 = 0 := by
      have hlt : b * (a / b + (-a) / b + 1) < b * 1 := by
        rw [h7]
        omega
      have hgt : b * (-1) < b * (a / b + (-a) / b + 1) := by
        rw [h7]
        omega
      have hlt' := lt_of_mul_lt_mul_left hlt (le_of_lt hpos)
      have hgt' := lt_of_mul_lt_mul_left hgt (le_of_lt hpos)
      omega
    omega

/-- Witness for `blockspersnap_eq`: rate 25000, 50 ms, uncapped, blocks of 1024 bytes. -/
theorem blockspersnap_eq_witness :
    blockspersnap (engineWith []) { client_t.zero with rate := 25000, snapshotMsec := 50 }
      = (if downloadRate (engineWith []) { client_t.zero with rate := 25000, snapshotMsec := 50 } = 0
          then 1
         else downloadRate (engineWith []) { client_t.zero with rate := 25000, snapshotMsec := 50 }
              * 50 / 1000 / 1024 + 1) :=
  (blockspersnap_eq (engineWith []) { client_t.zero with rate := 25000, snapshotMsec := 50 }
    (by decide) (by decide) (by decide) (by decide)).2.1

/-! ## A wrong acknowledgement of a download block -/

/-- C18 as stated fails for an ACTIVE slot: with a download in progress that
waits for block 3, `nextdl 7` returns at once; the slot is not dropped and the
download is not closed. -/
theorem SV_NextDownload_f_claim_counterexample :
    activeDownloadSlot.downloadName ≠ ""
    ∧ atoi (Cmd_Argv ["nextdl", "7"] 1) ≠ activeDownloadSlot.downloadClientBlock
    ∧ (SV_NextDownload_f pureEngine { cl := activeDownloadSlot, out := [] } ["nextdl", "7"]).1.cl.state
        = CS_ACTIVE
    ∧ (SV_NextDownload_f pureEngine { cl := activeDownloadSlot, out := [] }
        ["nextdl", "7"]).1.cl.downloadName = "MBII/x.pk3"
    ∧ (SV_NextDownload_f pureEngine { cl := activeDownloadSlot, out := [] } ["nextdl", "7"]).1.out
        = [] := by
  refine ⟨by decide, by decide, by decide, by decide, by decide⟩

/-- C18 (amended): for a slot that is not ACTIVE, a `nextdl` whose block number
differs from `downloadClientBlock` calls SV_DropClient with the reason
"broken download"; unless the slot was a ZOMBIE already it ends as ZOMBIE
(FREE for a bot) with the download closed: name empty, handle closed and 0,
window buffers released, and the `disconnect` command sent. -/
theorem SV_NextDownload_f_broken (e : Engine) (s : St) (argv : Argv)
    (hact : s.cl.state ≠ CS_ACTIVE)
    (hblock : atoi (Cmd_Argv argv 1) ≠ s.cl.downloadClientBlock) :
    (SV_NextDownload_f e s argv).1 = SV_DropClient e s "broken download"
    ∧ (s.cl.state ≠ CS_ZOMBIE →
        (SV_NextDownload_f e s argv).1.cl.state =
          (if s.cl.netchan.remoteAddress.type = netadrtype_t.NA_BOT then CS_FREE else CS_ZOMBIE)
        ∧ (SV_NextDownload_f e s argv).1.cl.downloadName = ""
        ∧ (SV_NextDownload_f e s argv).1.cl.download = 0
        ∧ (SV_NextDownload_f e s argv).1.cl.downloadBlocks = List.replicate MAX_DOWNLOAD_WINDOW none
        ∧ (s.cl.download ≠ 0 →
            Event.FS_FCloseFile s.cl.download ∈ (SV_NextDownload_f e s argv).1.out)
        ∧ Event.SV_SendServerCommand false ("disconnect \"" ++ "broken download" ++ "\"")
            ∈ (SV_NextDownload_f e s argv).1.out) := by
  have h : (SV_NextDownload_f e s argv).1 = SV_DropClient e s "broken download" := by
    unfold SV_NextDownload_f
    dsimp only
    rw [if_neg hact, if_neg hblock]
  refine ⟨h, fun hz => ?_⟩
  rw [h, SV_DropClient_cl e s _ hz, SV_DropClient_out e s _ hz]
  refine ⟨rfl, rfl, rfl, rfl, fun hd => ?_, ?_⟩
  · rw [if_pos hd]
    simp
  · simp

/-- Witness for `SV_NextDownload_f_broken`: the same download on a slot that is
still CONNECTED. -/
theorem SV_NextDownload_f_broken_witness :
    ({ activeDownloadSlot with state := CS_CONNECTED } : client_t).state ≠ CS_ACTIVE
    ∧ (SV_NextDownload_f pureEngine
        { cl := { activeDownloadSlot with state := CS_CONNECTED }, out := [] }
        ["nextdl", "7"]).1.cl.state = CS_ZOMBIE :=
  ⟨by decide,
    ((SV_NextDownload_f_broken pureEngine
        { cl := { activeDownloadSlot with state := CS_CONNECTED }, out := [] } ["nextdl", "7"]
        (by decide) (by decide)).2 (by decide)).1⟩

/-! ## The acknowledgement of server commands -/

theorem storeAcks_cl (cl : St) (m : clientMessage) :
    (storeAcks cl m).cl = { cl.cl with messageAcknowledge := m.messageAcknowledge,
                                       reliableAcknowledge := m.reliableAcknowledge } := rfl

theorem SV_ExecuteClientMessage_readAcks (e : Engine) (cl : St) (m : clientMessage)
    (h : 0 ≤ m.messageAcknowledge) :
    SV_ExecuteClientMessage e cl m =
      if m.reliableAcknowledge < cl.cl.reliableSequence - MAX_RELIABLE_COMMANDS then readAcks cl m
      else if m.serverId ≠ e.sv_serverId ∧ (readAcks cl m).cl.downloadName = ""
          ∧ strstr (readAcks cl m).cl.lastClientCommandString "nextdl" = false then
        staleServerId e (readAcks cl m) m
      else readMessageBody e (readAcks cl m) m := by
  unfold SV_ExecuteClientMessage readAcks
  rw [if_neg (by omega)]
  have hs : (storeAcks cl m).cl.reliableSequence = cl.cl.reliableSequence := rfl
  rw [hs]
  split_ifs <;> rfl

/-- C19: once SV_ExecuteClientMessage has read `reliableAcknowledge` from a
message whose `messageAcknowledge` is not negative, and made its range check,
`reliableSequence - reliableAcknowledge <= MAX_RELIABLE_COMMANDS` holds; when the
value of the message would violate it, `reliableAcknowledge` is set to
`reliableSequence` and the function returns: the trace is unchanged and the
result does not depend on the rest of the message. -/
theorem readAcks_bound (e : Engine) (cl : St) (m : clientMessage)
    (h : 0 ≤ m.messageAcknowledge) :
    (readAcks cl m).cl.reliableSequence - (readAcks cl m).cl.reliableAcknowledge
        ≤ MAX_RELIABLE_COMMANDS
    ∧ (readAcks cl m).cl.reliableSequence = cl.cl.reliableSequence
    ∧ (cl.cl.reliableSequence - m.reliableAcknowledge > MAX_RELIABLE_COMMANDS →
        SV_ExecuteClientMessage e cl m = readAcks cl m
        ∧ (SV_ExecuteClientMessage e cl m).cl =
            { cl.cl with messageAcknowledge := m.messageAcknowledge,
                         reliableAcknowledge := cl.cl.reliableSequence }
        ∧ (SV_ExecuteClientMessage e cl m).out = cl.out)
    ∧ (¬ cl.cl.reliableSequence - m.reliableAcknowledge > MAX_RELIABLE_COMMANDS →
        SV_ExecuteClientMessage e cl m =
          if m.serverId ≠ e.sv_serverId ∧ (readAcks cl m).cl.downloadName = ""
              ∧ strstr (readAcks cl m).cl.lastClientCommandString "nextdl" = false then
            staleServerId e (readAcks cl m) m
          else readMessageBody e (readAcks cl m) m) := by
  have hx := SV_ExecuteClientMessage_readAcks e cl m h
  have hs : (storeAcks cl m).cl.reliableSequence = cl.cl.reliableSequence := rfl
  by_cases hc : m.reliableAcknowledge < cl.cl.reliableSequence - MAX_RELIABLE_COMMANDS
  · have hr : readAcks cl m = (storeAcks cl m).modify
        (fun c => { c with reliableAcknowledge := c.reliableSequence }) := by
      unfold readAcks
      rw [hs, if_pos hc]
    rw [if_pos hc] at hx
    refine ⟨?_, ?_, fun _ => ⟨hx, ?_, ?_⟩, fun hn => absurd hc (by omega)⟩
    · rw [hr]
      show cl.cl.reliableSequence - cl.cl.reliableSequence ≤ _
      simp [MAX_RELIABLE_COMMANDS]
    · rw [hr]
      rfl
    · rw [hx, hr]
      rfl
    · rw [hx, hr]
      rfl
  · have hr : readAcks cl m = storeAcks cl m := by
      unfold readAcks
      rw [hs, if_neg hc]
    rw [if_neg hc] at hx
    refine ⟨?_, ?_, fun hp => absurd hp (by omega), fun _ => hx⟩
    · rw [hr]
      show cl.cl.reliableSequence - m.reliableAcknowledge ≤ _
      omega
    · rw [hr]
      rfl

/-- Witness for `readAcks_bound`: the example message acknowledges command 0 of a
slot that has sent none. -/
theorem readAcks_bound_witness :
    0 ≤ exampleMessage.messageAcknowledge
    ∧ (readAcks { cl := activeSlot, out := [] } exampleMessage).cl.reliableSequence
        - (readAcks { cl := activeSlot, out := [] } exampleMessage).cl.reliableAcknowledge
        ≤ MAX_RELIABLE_COMMANDS :=
  ⟨by decide, (readAcks_bound pureEngine { cl := activeSlot, out := [] } exampleMessage
    (by decide)).1⟩

/-- C20 as stated fails: a message that acknowledges server command 1000 to a
slot that has sent 10 leaves `reliableAcknowledge` at 1000, above
`reliableSequence`. -/
theorem reliableAcknowledge_claim_counterexample :
    0 ≤ overAckMessage.messageAcknowledge
    ∧ (SV_ExecuteClientMessage pureEngine { cl := tenCommandsSlot, out := [] }
        overAckMessage).cl.reliableSequence = 10
    ∧ (SV_ExecuteClientMessage pureEngine { cl := tenCommandsSlot, out := [] }
        overAckMessage).cl.reliableAcknowledge = 1000 := by
  refine ⟨by decide, by decide, by decide⟩

/-- C20 (amended): for every value of `reliableAcknowledge` carried by a message
whose `messageAcknowledge` is not negative, the value kept by
SV_ExecuteClientMessage after its range check (the state from which the rest
of the message is processed, or the final state when the check fails) is `reliableSequence` when the
message's value is below `reliableSequence - MAX_RELIABLE_COMMANDS` and the
message's value otherwise; it is never below
`reliableSequence - MAX_RELIABLE_COMMANDS`, it lies in the closed interval up to
`reliableSequence` when the message's value does not exceed `reliableSequence`,
and a value above `reliableSequence` is kept as it is. -/
theorem readAcks_reliableAcknowledge (e : Engine) (cl : St) (m : clientMessage)
    (h : 0 ≤ m.messageAcknowledge) :
    (SV_ExecuteClientMessage e cl m =
      if m.reliableAcknowledge < cl.cl.reliableSequence - MAX_RELIABLE_COMMANDS then readAcks cl m
      else if m.serverId ≠ e.sv_serverId ∧ (readAcks cl m).cl.downloadName = ""
          ∧ strstr (readAcks cl m).cl.lastClientCommandString "nextdl" = false then
        staleServerId e (readAcks cl m) m
      else readMessageBody e (readAcks cl m) m)
    ∧ (readAcks cl m).cl.messageAcknowledge = m.messageAcknowledge
    ∧ (readAcks cl m).cl.reliableAcknowledge =
        (if m.reliableAcknowledge < cl.cl.reliableSequence - MAX_RELIABLE_COMMANDS
          then cl.cl.reliableSequence else m.reliableAcknowledge)
    ∧ cl.cl.reliableSequence - MAX_RELIABLE_COMMANDS ≤ (readAcks cl m).cl.reliableAcknowledge
    ∧ (m.reliableAcknowledge ≤ cl.cl.reliableSequence →
        (readAcks cl m).cl.reliableAcknowledge ≤ cl.cl.reliableSequence)
    ∧ (cl.cl.reliableSequence < m.reliableAcknowledge →
        (readAcks cl m).cl.reliableAcknowledge = m.reliableAcknowledge) := by
  have hs : (storeAcks cl m).cl.reliableSequence = cl.cl.reliableSequence := rfl
  have hm : (readAcks cl m).cl.messageAcknowledge = m.messageAcknowledge := by
    unfold readAcks
    split_ifs <;> rfl
  have hv : (readAcks cl m).cl.reliableAcknowledge =
      (if m.reliableAcknowledge < cl.cl.reliableSequence - MAX_RELIABLE_COMMANDS
        then cl.cl.reliableSequence else m.reliableAcknowledge) := by
    unfold readAcks
    rw [hs]
    split_ifs <;> rfl
  refine ⟨SV_ExecuteClientMessage_readAcks e cl m h, hm, hv, ?_, fun hle => ?_, fun hgt => ?_⟩
  · rw [hv]
    split_ifs <;> omega
  · rw [hv]
    split_ifs <;> omega
  · rw [hv]
    rw [if_neg (by omega)]

/-- Witness for `readAcks_reliableAcknowledge`: the message that acknowledges
command 1000. -/
theorem readAcks_reliableAcknowledge_witness :
    0 ≤ overAckMessage.messageAcknowledge
    ∧ (readAcks { cl := tenCommandsSlot, out := [] } overAckMessage).cl.reliableAcknowledge
        = 1000 :=
  ⟨by decide,
    ((readAcks_reliableAcknowledge pureEngine { cl := tenCommandsSlot, out := [] } overAckMessage
      (by decide)).2.2.2.2.2 (by decide))⟩

/-! ## The download pump and the purity flags -/

theorem coreOf_refuseDownload (e : Engine) (a b c : Bool) (s : St) :
    coreOf (refuseDownload e a b c s).cl = coreOf s.cl := by
  unfold refuseDownload
  simp only [St.whenS, St.when]
  split_ifs <;> rfl

theorem coreOf_openDownload (e : Engine) (s : St) :
    coreOf (openDownload e s).2.cl = coreOf s.cl := by
  unfold openDownload
  dsimp only
  split_ifs <;> first
    | exact coreOf_refuseDownload e _ _ _ _
    | rfl

theorem coreOf_readDownloadBlocks (e : Engine) (fuel : Nat) (s : St) :
    coreOf (readDownloadBlocks e fuel s).cl = coreOf s.cl := by
  induction fuel generalizing s with
  | zero => rfl
  | succ n ih =>
    unfold readDownloadBlocks
    split_ifs
    · rw [ih, readDownloadBlock_cl]
      rfl
    · rw [readDownloadBlock_cl]
      rfl
    · rfl

theorem coreOf_pumpDownload (e : Engine) (s : St) :
    coreOf (pumpDownload e s).cl = coreOf s.cl := by
  unfold pumpDownload
  dsimp only
  generalize hT : ((addEOFBlock (readDownloadBlocks e (readFuel s.cl) s)).when
      (decide ((e.cvar "sv_maxRate").integer ≠ 0) && decide ((e.cvar "sv_maxRate").integer < 1000))
      (fun t => t.emit (Event.Cvar_Set "sv_MaxRate" "1000"))) = T
  have hT' : coreOf T.cl = coreOf s.cl := by
    rw [← hT]
    refine Eq.trans (b := coreOf (addEOFBlock (readDownloadBlocks e (readFuel s.cl) s)).cl) ?_ ?_
    · generalize (decide ((e.cvar "sv_maxRate").integer ≠ 0)
        && decide ((e.cvar "sv_maxRate").integer < 1000)) = b
      cases b <;> rfl
    · refine Eq.trans (b := coreOf (readDownloadBlocks e (readFuel s.cl) s).cl) ?_
        (coreOf_readDownloadBlocks e _ s)
      unfold addEOFBlock
      simp only [St.whenS, St.when]
      split_ifs <;> rfl
  obtain ⟨x, t, hxt⟩ := sendDownloadBlocks_cl e (blockspersnap e T.cl).toNat T
  rw [hxt]
  exact hT'

theorem coreOf_SV_WriteDownloadToClient (e : Engine) (s : St) :
    coreOf (SV_WriteDownloadToClient e s).cl = coreOf s.cl := by
  unfold SV_WriteDownloadToClient
  split_ifs
  · rfl
  · exact (coreOf_pumpDownload e _).trans (coreOf_openDownload e s)
  · exact coreOf_openDownload e s
  · exact coreOf_pumpDownload e s

/-! ## Fields left alone by SV_UserinfoChanged -/

theorem sessionOf_SV_DropClient (e : Engine) (s : St) (reason : String) :
    sessionOf (SV_DropClient e s reason).cl = sessionOf s.cl := by
  by_cases h : s.cl.state = CS_ZOMBIE
  · rw [SV_DropClient_zombie e s reason h]
  · rw [SV_DropClient_cl e s reason h]
    rfl

theorem sessionOf_userinfoName (e : Engine) (s : St) : sessionOf (userinfoName e s).cl = sessionOf s.cl := by
  unfold userinfoName
  split_ifs <;> rfl

theorem sessionOf_userinfoRate (e : Engine) (s : St) : sessionOf (userinfoRate e s).cl = sessionOf s.cl := by
  unfold userinfoRate
  simp only [St.modify_cl]
  split_ifs <;> rfl

theorem sessionOf_userinfoSnaps (e : Engine) (s : St) : sessionOf (userinfoSnaps e s).cl = sessionOf s.cl := by
  unfold userinfoSnaps setSnapshotMsec
  simp only [St.modify_cl]
  split_ifs <;> rfl

theorem sessionOf_userinfoIp (e : Engine) (s : St) : sessionOf (userinfoIp e s).cl = sessionOf s.cl := by
  unfold userinfoIp
  dsimp only
  split_ifs <;> first | rfl | exact sessionOf_SV_DropClient e s _

theorem sessionOf_when (s : St) (c : Bool) (f : St → St) (hf : ∀ t, sessionOf (f t).cl = sessionOf t.cl) :
    sessionOf (s.when c f).cl = sessionOf s.cl := by
  cases c
  · rfl
  · exact hf s

theorem sessionOf_whenS (s : St) (c : client_t → Bool) (f : St → St)
    (hf : ∀ t, sessionOf (f t).cl = sessionOf t.cl) : sessionOf (s.whenS c f).cl = sessionOf s.cl :=
  sessionOf_when s (c s.cl) f hf

theorem sessionOf_when' (s s0 : St) (c : Bool) (f : St → St)
    (hf : ∀ t, sessionOf (f t).cl = sessionOf t.cl) (hs : sessionOf s.cl = sessionOf s0.cl) :
    sessionOf (s.when c f).cl = sessionOf s0.cl := (sessionOf_when s c f hf).trans hs

theorem sessionOf_whenS' (s s0 : St) (c : client_t → Bool) (f : St → St)
    (hf : ∀ t, sessionOf (f t).cl = sessionOf t.cl) (hs : sessionOf s.cl = sessionOf s0.cl) :
    sessionOf (s.whenS c f).cl = sessionOf s0.cl := (sessionOf_whenS s c f hf).trans hs

/-- The `sv_antiDST` reaction shared by SV_UserinfoChanged and SV_ExecuteClientCommand. -/
theorem sessionOf_dstKick (e : Engine) (msg : client_t → Event) (t : St) :
    sessionOf (((t.emitS msg).when (decide ((e.cvar "sv_antiDST").integer ≠ 0)) (fun s =>
      (SV_DropClient e s "was kicked for cheating by JKA.io").modify
        (fun cl => { cl with lastPacketTime := e.svs_time }))).cl) = sessionOf t.cl := by
  refine (sessionOf_when _ _ _ (fun u => ?_)).trans ?_
  · exact sessionOf_SV_DropClient e u _
  · rfl

theorem sessionOf_userinfoModel (e : Engine) (s : St) : sessionOf (userinfoModel e s).cl = sessionOf s.cl := by
  unfold userinfoModel
  dsimp only
  split_ifs
  · refine (sessionOf_when _ _ _ (fun t => ?_)).trans ?_
    · rfl
    · exact sessionOf_when _ _ _ (fun t => sessionOf_dstKick e _ t)
  · rfl

theorem sessionOf_userinfoForcepowers (e : Engine) (s : St) :
    sessionOf (userinfoForcepowers e s).cl = sessionOf s.cl := by
  unfold userinfoForcepowers
  split_ifs <;> rfl

theorem sessionOf_userinfoPlugin (e : Engine) (s : St) :
    sessionOf (userinfoPlugin e s).cl = sessionOf s.cl := by
  unfold userinfoPlugin
  by_cases hD : e.DEDICATED = true
  · rw [if_pos hD]
    simp only [St.modify_cl]
    split_ifs <;> rfl
  · rw [if_neg hD]

theorem sessionOf_SV_UserinfoChanged (e : Engine) (s : St) :
    sessionOf (SV_UserinfoChanged e s).cl = sessionOf s.cl := by
  unfold SV_UserinfoChanged
  rw [sessionOf_userinfoPlugin, sessionOf_userinfoForcepowers, sessionOf_userinfoModel, sessionOf_userinfoIp,
    sessionOf_userinfoSnaps, sessionOf_userinfoRate, sessionOf_userinfoName]

/-! ## SV_ClientThink and the loop over the user commands -/

theorem sessionOf_applyUserinfo (e : Engine) (s : St) (arg : String) :
    sessionOf (applyUserinfo e s arg).cl = sessionOf s.cl := by
  unfold applyUserinfo
  rw [St.emit_cl, sessionOf_SV_UserinfoChanged]
  rfl

theorem lastUsercmd_applyPostponedUserinfo (e : Engine) (s : St) :
    (applyPostponedUserinfo e s).cl.lastUsercmd = s.cl.lastUsercmd := by
  unfold applyPostponedUserinfo
  simp only [St.whenS, St.when]
  split_ifs
  · have h := sessionOf_SV_UserinfoChanged e
      (s.modify (fun cl => { cl with userinfo := Q_strncpyz cl.userinfoPostponed MAX_INFO_STRING }))
    exact congrArg (fun p => p.2.2.2.1) h
  · rfl

/-- The postponed userinfo is left alone while fewer than three changes were counted. -/
theorem applyPostponedUserinfo_idle (e : Engine) (s : St)
    (h : s.cl.lastUserInfoCount < INFO_CHANGE_MAX_COUNT) : applyPostponedUserinfo e s = s := by
  unfold applyPostponedUserinfo
  have hc : decide (s.cl.lastUserInfoCount ≥ INFO_CHANGE_MAX_COUNT) = false := by
    simp only [decide_eq_false_iff_not]
    omega
  simp only [St.whenS, hc, Bool.false_and]
  rfl

/-- After SV_ClientThink the last user command of the slot is the command it was given. -/
theorem SV_ClientThink_lastUsercmd (e : Engine) (cl : St) (cmd : usercmd_t) :
    (SV_ClientThink e cl cmd).cl.lastUsercmd = cmd := by
  unfold SV_ClientThink
  dsimp only
  split_ifs
  · rfl
  · rw [St.emit_cl, lastUsercmd_applyPostponedUserinfo]
    rfl
  · rfl
  · rw [St.emit_cl, lastUsercmd_applyPostponedUserinfo]
    rfl

/-- The command `followPrev` issued by SV_ClientThink only reaches the game module. -/
theorem SV_ExecuteClientCommand_followPrev_cl (e : Engine) (s : St)
    (htok : e.Cmd_TokenizeString "followPrev" = ["followPrev"]) :
    (SV_ExecuteClientCommand e s "followPrev" true).cl = s.cl := by
  rw [SV_ExecuteClientCommand_unknown e s "followPrev" true (by rw [htok]; rfl)
    (by rw [htok]; decide)]
  split_ifs
  · exact St.whenS_cl_of_keeps _ _ _ (fun t => rfl)
  · rfl

/-- SV_ClientThink on an ACTIVE slot without a postponed userinfo that is due:
the slot only takes the command. -/
theorem SV_ClientThink_quiet (e : Engine) (s : St) (cmd : usercmd_t)
    (htok : e.Cmd_TokenizeString "followPrev" = ["followPrev"])
    (hact : s.cl.state = CS_ACTIVE) (hcount : s.cl.lastUserInfoCount < INFO_CHANGE_MAX_COUNT) :
    (SV_ClientThink e s cmd).cl = { s.cl with lastUsercmd := cmd } := by
  have hfp : (s.whenS (fun c => followPrevWanted e c cmd)
      (fun t => SV_ExecuteClientCommand e t "followPrev" true)).cl = s.cl :=
    St.whenS_cl_of_keeps _ _ _ (fun t => SV_ExecuteClientCommand_followPrev_cl e t htok)
  unfold SV_ClientThink
  dsimp only
  have hna : ¬ (s.cl.state ≠ CS_ACTIVE) := fun h => h hact
  by_cases hD : e.DEDICATED = true
  · rw [if_pos hD, if_neg hna, St.emit_cl, applyPostponedUserinfo_idle]
    · rw [St.modify_cl, hfp]
    · rw [St.modify_cl, hfp]
      exact hcount
  · rw [if_neg hD, if_neg hna, St.emit_cl, applyPostponedUserinfo_idle]
    · rfl
    · exact hcount

/-- The loop of SV_UserMove hands on exactly the commands of `dispatchedCmds`, in order. -/
theorem thinkLoop_fst (e : Engine) (last : Int) (cmds : List usercmd_t) (s : St) (first lastT : Int) :
    (thinkLoop e last (s, first, lastT) cmds).1 =
      (dispatchedCmds last s.cl.lastUsercmd.serverTime cmds).foldl
        (fun t c => SV_ClientThink e t c) s := by
  induction cmds generalizing s first lastT with
  | nil => rfl
  | cons c cs ih =>
    unfold thinkLoop dispatchedCmds
    dsimp only
    by_cases h1 : c.serverTime > last
    · rw [if_pos h1, if_neg (show ¬ (s.cl.lastUsercmd.serverTime < c.serverTime ∧ c.serverTime ≤ last)
        from fun h => by omega)]
      exact ih s first lastT
    · rw [if_neg h1]
      by_cases h2 : c.serverTime ≤ s.cl.lastUsercmd.serverTime
      · rw [if_pos h2, if_neg (show ¬ (s.cl.lastUsercmd.serverTime < c.serverTime
          ∧ c.serverTime ≤ last) from fun h => by omega)]
        exact ih s first lastT
      · rw [if_neg h2, if_pos (show s.cl.lastUsercmd.serverTime < c.serverTime ∧ c.serverTime ≤ last
          from ⟨by omega, by omega⟩), List.foldl_cons, ih]
        rw [SV_ClientThink_lastUsercmd]

/-- The times of the commands handed on increase strictly, starting above `cur`. -/
theorem dispatchedCmds_chain (last : Int) (cmds : List usercmd_t) (cur : Int) :
    List.Chain (fun a b => a < b) cur ((dispatchedCmds last cur cmds).map (fun c => c.serverTime)) := by
  induction cmds generalizing cur with
  | nil => exact List.Chain.nil
  | cons c cs ih =>
    unfold dispatchedCmds
    split_ifs with h
    · rw [List.map_cons]
      exact List.Chain.cons h.1 (ih c.serverTime)
    · exact ih cur

/-- Every command handed on is not older than `cur`, the last one included. -/
theorem dispatchedCmds_getLast (last : Int) (cmds : List usercmd_t) (c0 : usercmd_t) :
    c0.serverTime ≤ ((dispatchedCmds last c0.serverTime cmds).getLast?.getD c0).serverTime := by
  suffices h : ∀ (cur : Int) (d : usercmd_t), cur ≤ d.serverTime →
      cur ≤ ((dispatchedCmds last d.serverTime cmds).getLast?.getD d).serverTime from
    h c0.serverTime c0 (le_refl _)
  induction cmds with
  | nil =>
    intro cur d hd
    exact hd
  | cons c cs ih =>
    intro cur d hd
    unfold dispatchedCmds
    split_ifs with h
    · rw [List.getLast?_cons]
      have := ih cur c (by omega)
      cases hl : (dispatchedCmds last c.serverTime cs).getLast? with
      | none =>
        rw [hl] at this
        simpa using this
      | some x =>
        rw [hl] at this
        simpa using this
    · exact ih cur d hd

/-- The last user command after a run of SV_ClientThink calls is the last command of the run. -/
theorem foldl_SV_ClientThink_lastUsercmd (e : Engine) (l : List usercmd_t) (s : St) :
    (l.foldl (fun t c => SV_ClientThink e t c) s).cl.lastUsercmd
      = l.getLast?.getD s.cl.lastUsercmd := by
  induction l generalizing s with
  | nil => rfl
  | cons c cs ih =>
    rw [List.foldl_cons, ih, SV_ClientThink_lastUsercmd, List.getLast?_cons]
    cases cs.getLast? <;> rfl

/-- A run of SV_ClientThink calls on an ACTIVE slot without a postponed
userinfo that is due leaves the slot ACTIVE. -/
theorem foldl_SV_ClientThink_active (e : Engine) (l : List usercmd_t) (s : St)
    (htok : e.Cmd_TokenizeString "followPrev" = ["followPrev"])
    (hact : s.cl.state = CS_ACTIVE) (hcount : s.cl.lastUserInfoCount < INFO_CHANGE_MAX_COUNT) :
    (l.foldl (fun t c => SV_ClientThink e t c) s).cl.state = CS_ACTIVE := by
  induction l generalizing s with
  | nil => exact hact
  | cons c cs ih =>
    rw [List.foldl_cons]
    have hq := SV_ClientThink_quiet e s c htok hact hcount
    refine ih _ ?_ ?_
    · rw [hq]
      exact hact
    · rw [hq]
      exact hcount

/-! ## The user commands of a packet -/

theorem SV_UserMove_eq (e : Engine) (cl : St) (delta : Bool) (cmdCount : Int)
    (wire : List (List Nat)) (h1 : 1 ≤ cmdCount) (h2 : cmdCount ≤ MAX_PACKET_USERCMDS) :
    SV_UserMove e cl delta cmdCount wire =
      userMoveExecute e (userMoveReady e cl delta) (userMoveCmds e cl cmdCount wire)
        (userMoveOldServerTime e cl) := by
  have hk : ∀ b : Bool, usercmdKey e (((cl.modify (fun c =>
      { c with deltaMessage := if delta then c.messageAcknowledge else -1 })).when b
      (fun s => s.modify (fun c => { c with unfixPing := false }))).cl) = usercmdKey e cl.cl := by
    intro b
    cases b <;> rfl
  have hs : ∀ b : Bool, (((cl.modify (fun c =>
      { c with deltaMessage := if delta then c.messageAcknowledge else -1 })).when b
      (fun s => s.modify (fun c => { c with unfixPing := false }))).cl).state = cl.cl.state := by
    intro b
    cases b <;> rfl
  unfold SV_UserMove
  dsimp only
  rw [if_neg (by omega), if_neg (by omega)]
  unfold userMoveReady userMoveCmds userMoveOldServerTime
  rw [hk, hs]
  rfl

theorem userMoveReady_fields (e : Engine) (cl : St) (delta : Bool) :
    (userMoveReady e cl delta).cl.state = cl.cl.state
    ∧ (userMoveReady e cl delta).cl.pureAuthentic = cl.cl.pureAuthentic
    ∧ (userMoveReady e cl delta).cl.gotCP = cl.cl.gotCP
    ∧ (userMoveReady e cl delta).cl.lastUsercmd = cl.cl.lastUsercmd
    ∧ (userMoveReady e cl delta).cl.lastUserInfoCount = cl.cl.lastUserInfoCount := by
  unfold userMoveReady saveAckTime
  generalize ((e.DEDICATED && cl.cl.unfixPing) && decide ((e.cvar "sv_pingFix").integer ≠ 2)) = b
  cases b <;> simp only [St.when_true, St.when_false, St.modify_cl] <;> split_ifs <;>
    exact ⟨rfl, rfl, rfl, rfl, rfl⟩

theorem pingFixTail_fields (e : Engine) (a b c : Int) (s : St) :
    (pingFixTail e a b c s).cl.state = s.cl.state
    ∧ (pingFixTail e a b c s).cl.lastUsercmd = s.cl.lastUsercmd := by
  have hw : ∀ (t : St) (c : Bool) (f : St → St), (∀ u, (f u).cl = u.cl) →
      (t.when c f).cl.state = t.cl.state ∧ (t.when c f).cl.lastUsercmd = t.cl.lastUsercmd := by
    intro t c f hf
    rw [St.when_cl_of_keeps t c f hf]
    exact ⟨rfl, rfl⟩
  unfold pingFixTail
  dsimp only
  split_ifs <;>
    first
    | exact ⟨rfl, rfl⟩
    | exact ⟨(hw _ _ _ (fun u => by rfl)).1.trans (by rfl), (hw _ _ _ (fun u => by rfl)).2.trans (by rfl)⟩

/-- The slot that SV_UserMove has put into the world. -/
theorem enteredWorld_fields (e : Engine) (s : St) (cmd : Option usercmd_t) (c : client_t → Bool) :
    ((SV_ClientEnterWorld e s cmd).whenS c (SV_SendClientChatLogPolicy e)).cl.state = CS_ACTIVE
    ∧ ((SV_ClientEnterWorld e s cmd).whenS c (SV_SendClientChatLogPolicy e)).cl.lastUsercmd
        = cmd.getD usercmd_t.zero
    ∧ ((SV_ClientEnterWorld e s cmd).whenS c (SV_SendClientChatLogPolicy e)).cl.lastUserInfoCount = 0
    ∧ ((SV_ClientEnterWorld e s cmd).whenS c (SV_SendClientChatLogPolicy e)).cl.pureAuthentic
        = s.cl.pureAuthentic := by
  have h1 : (SV_ClientEnterWorld e s cmd).cl.state = CS_ACTIVE
      ∧ (SV_ClientEnterWorld e s cmd).cl.lastUsercmd = cmd.getD usercmd_t.zero
      ∧ (SV_ClientEnterWorld e s cmd).cl.lastUserInfoCount = 0
      ∧ (SV_ClientEnterWorld e s cmd).cl.pureAuthentic = s.cl.pureAuthentic := by
    unfold SV_ClientEnterWorld
    simp only [St.when]
    split_ifs <;> exact ⟨rfl, rfl, rfl, rfl⟩
  have h2 : ∀ t : St, (SV_SendClientChatLogPolicy e t).cl.state = t.cl.state
      ∧ (SV_SendClientChatLogPolicy e t).cl.lastUsercmd = t.cl.lastUsercmd
      ∧ (SV_SendClientChatLogPolicy e t).cl.lastUserInfoCount = t.cl.lastUserInfoCount
      ∧ (SV_SendClientChatLogPolicy e t).cl.pureAuthentic = t.cl.pureAuthentic := by
    intro t
    unfold SV_SendClientChatLogPolicy
    split_ifs <;> exact ⟨rfl, rfl, rfl, rfl⟩
  simp only [St.whenS]
  split_ifs
  · obtain ⟨a1, a2, a3, a4⟩ := h2 (SV_ClientEnterWorld e s cmd)
    exact ⟨a1.trans h1.1, a2.trans h1.2.1, a3.trans h1.2.2.1, a4.trans h1.2.2.2⟩
  · exact h1

/-- SV_UserMove for an ACTIVE slot whose purity is accepted: the loop over the
decoded commands, then the ping bookkeeping. -/
theorem SV_UserMove_active (e : Engine) (cl : St) (delta : Bool) (cmdCount : Int)
    (wire : List (List Nat)) (hact : cl.cl.state = CS_ACTIVE)
    (hpure : (e.cvar "sv_pure").integer = 0 ∨ cl.cl.pureAuthentic ≠ 0)
    (h1 : 1 ≤ cmdCount) (h2 : cmdCount ≤ MAX_PACKET_USERCMDS) :
    SV_UserMove e cl delta cmdCount wire =
      if e.DEDICATED = true then
        pingFixTail e (userMoveOldServerTime e cl)
          (thinkLoop e (lastServerTimeOf (userMoveCmds e cl cmdCount wire))
            (userMoveReady e cl delta, 0, 0) (userMoveCmds e cl cmdCount wire)).2.1
          (thinkLoop e (lastServerTimeOf (userMoveCmds e cl cmdCount wire))
            (userMoveReady e cl delta, 0, 0) (userMoveCmds e cl cmdCount wire)).2.2
          (thinkLoop e (lastServerTimeOf (userMoveCmds e cl cmdCount wire))
            (userMoveReady e cl delta, 0, 0) (userMoveCmds e cl cmdCount wire)).1
      else
        (thinkLoop e (lastServerTimeOf (userMoveCmds e cl cmdCount wire))
          (userMoveReady e cl delta, 0, 0) (userMoveCmds e cl cmdCount wire)).1 := by
  obtain ⟨r1, r2, r3, -, -⟩ := userMoveReady_fields e cl delta
  rw [SV_UserMove_eq e cl delta cmdCount wire h1 h2]
  unfold userMoveExecute
  dsimp only
  have hg : ¬ ((e.cvar "sv_pure").integer ≠ 0 ∧ (userMoveReady e cl delta).cl.pureAuthentic = 0
      ∧ (userMoveReady e cl delta).cl.gotCP = false) := by
    rw [r2]
    rintro ⟨a, b, -⟩
    rcases hpure with h | h
    · exact a h
    · exact h b
  have hw : (userMoveReady e cl delta).whenS (fun c => decide (c.state = CS_PRIMED)) (fun s =>
      (SV_ClientEnterWorld e s (userMoveCmds e cl cmdCount wire).head?).whenS
        (fun c => e.DEDICATED && ! c.chatLogPolicySent
          && decide (e.svs_servermod = servermod_t.SVMOD_MBII))
        (SV_SendClientChatLogPolicy e)) = userMoveReady e cl delta := by
    rw [St.whenS_eq, r1, hact]
    rfl
  rw [if_neg hg, hw]
  have hg2 : ¬ ((e.cvar "sv_pure").integer ≠ 0 ∧ (userMoveReady e cl delta).cl.pureAuthentic = 0) := by
    rw [r2]
    rintro ⟨a, b⟩
    rcases hpure with h | h
    · exact a h
    · exact h b
  rw [if_neg hg2, if_neg (by rw [r1, hact]; exact fun h => h rfl)]
  rfl

/-- C30: for an ACTIVE slot whose purity is accepted, SV_UserMove on a move
block with `cmdCount` in range hands to SV_ClientThink exactly the decoded
commands of `dispatchedCmds`, in order: those whose `serverTime` is greater
than the `serverTime` of `lastUsercmd` at that moment and not greater than that
of `cmds[cmdCount-1]`; the rest of the call is the ping bookkeeping.  The times
of the commands handed on increase strictly from the `serverTime` of
`lastUsercmd` at the start, after the call `lastUsercmd` is the last command
handed on (the old one if there was none), and its `serverTime` has not
decreased. -/
theorem SV_UserMove_dispatch (e : Engine) (cl : St) (delta : Bool) (cmdCount : Int)
    (wire : List (List Nat)) (hact : cl.cl.state = CS_ACTIVE)
    (hpure : (e.cvar "sv_pure").integer = 0 ∨ cl.cl.pureAuthentic ≠ 0)
    (h1 : 1 ≤ cmdCount) (h2 : cmdCount ≤ MAX_PACKET_USERCMDS) :
    (∃ first lastT : Int, SV_UserMove e cl delta cmdCount wire =
        if e.DEDICATED = true then
          pingFixTail e (userMoveOldServerTime e cl) first lastT
            ((dispatchedCmds (lastServerTimeOf (userMoveCmds e cl cmdCount wire))
                cl.cl.lastUsercmd.serverTime (userMoveCmds e cl cmdCount wire)).foldl
              (fun t c => SV_ClientThink e t c) (userMoveReady e cl delta))
        else
          (dispatchedCmds (lastServerTimeOf (userMoveCmds e cl cmdCount wire))
              cl.cl.lastUsercmd.serverTime (userMoveCmds e cl cmdCount wire)).foldl
            (fun t c => SV_ClientThink e t c) (userMoveReady e cl delta))
    ∧ List.Chain (fun a b => a < b) cl.cl.lastUsercmd.serverTime
        ((dispatchedCmds (lastServerTimeOf (userMoveCmds e cl cmdCount wire))
          cl.cl.lastUsercmd.serverTime (userMoveCmds e cl cmdCount wire)).map (fun c => c.serverTime))
    ∧ (SV_UserMove e cl delta cmdCount wire).cl.lastUsercmd =
        (dispatchedCmds (lastServerTimeOf (userMoveCmds e cl cmdCount wire))
          cl.cl.lastUsercmd.serverTime (userMoveCmds e cl cmdCount wire)).getLast?.getD cl.cl.lastUsercmd
    ∧ cl.cl.lastUsercmd.serverTime ≤ (SV_UserMove e cl delta cmdCount wire).cl.lastUsercmd.serverTime := by
  obtain ⟨-, -, -, r4, -⟩ := userMoveReady_fields e cl delta
  have hrun := SV_UserMove_active e cl delta cmdCount wire hact hpure h1 h2
  rw [thinkLoop_fst, r4] at hrun
  have hlast : (SV_UserMove e cl delta cmdCount wire).cl.lastUsercmd =
      (dispatchedCmds (lastServerTimeOf (userMoveCmds e cl cmdCount wire))
        cl.cl.lastUsercmd.serverTime (userMoveCmds e cl cmdCount wire)).getLast?.getD
        cl.cl.lastUsercmd := by
    rw [hrun]
    split_ifs
    · rw [(pingFixTail_fields e _ _ _ _).2, foldl_SV_ClientThink_lastUsercmd, r4]
    · rw [foldl_SV_ClientThink_lastUsercmd, r4]
  refine ⟨⟨_, _, hrun⟩, dispatchedCmds_chain _ _ _, hlast, ?_⟩
  rw [hlast]
  exact dispatchedCmds_getLast _ _ _

/-- Witness for `SV_UserMove_dispatch`: a block of three commands with the
times 50, 110 and 120 for a slot whose last command has the time 100. -/
theorem SV_UserMove_dispatch_witness :
    movingSlot.state = CS_ACTIVE
    ∧ (dispatchedCmds (lastServerTimeOf (userMoveCmds (engineWith [])
          { cl := movingSlot, out := [] } 3 [[50], [60], [10]]))
        movingSlot.lastUsercmd.serverTime
        (userMoveCmds (engineWith []) { cl := movingSlot, out := [] } 3 [[50], [60], [10]])).map
        (fun c => c.serverTime) = [110, 120]
    ∧ movingSlot.lastUsercmd.serverTime ≤
        (SV_UserMove (engineWith []) { cl := movingSlot, out := [] } true 3
          [[50], [60], [10]]).cl.lastUsercmd.serverTime :=
  ⟨by decide, by decide,
    (SV_UserMove_dispatch (engineWith []) { cl := movingSlot, out := [] } true 3 [[50], [60], [10]]
      (by decide) (Or.inl (by decide)) (by decide) (by decide)).2.2.2⟩

/-- Counterexample to C24 as stated: on a pure server a PRIMED slot that has
not sent its `cp` command stays PRIMED when a move block with one command
arrives, and a PRIMED slot whose `cp` command was refused is dropped. -/
theorem SV_UserMove_claim_counterexample :
    primedSlot.state = CS_PRIMED
    ∧ (SV_UserMove pureEngine { cl := primedSlot, out := [] } true 1 [[50]]).cl.state = CS_PRIMED
    ∧ refusedSlot.state = CS_PRIMED
    ∧ (SV_UserMove pureEngine { cl := refusedSlot, out := [] } true 1 [[50]]).cl.state = CS_ZOMBIE := by
  decide

/-- C24 (amended): for every PRIMED slot whose purity is accepted (`sv_pure`
is 0 or the slot is authenticated), SV_UserMove on a move block with `cmdCount`
in range puts the client into the world with the first decoded command `c0` as
`lastUsercmd`: after the call `lastUsercmd` is `c0` or the last later command
of the block that was run, it is `c0` when the block carries a single command,
and the slot is ACTIVE (the command `followPrev` that SV_ClientThink may issue
being tokenized as itself). -/
theorem SV_UserMove_enters_world (e : Engine) (cl : St) (delta : Bool) (cmdCount : Int)
    (wire : List (List Nat)) (hprimed : cl.cl.state = CS_PRIMED)
    (hpure : (e.cvar "sv_pure").integer = 0 ∨ cl.cl.pureAuthentic ≠ 0)
    (h1 : 1 ≤ cmdCount) (h2 : cmdCount ≤ MAX_PACKET_USERCMDS) :
    ∃ c0 rest, userMoveCmds e cl cmdCount wire = c0 :: rest
      ∧ (SV_UserMove e cl delta cmdCount wire).cl.lastUsercmd =
          (dispatchedCmds (lastServerTimeOf (c0 :: rest)) c0.serverTime rest).getLast?.getD c0
      ∧ c0.serverTime ≤ (SV_UserMove e cl delta cmdCount wire).cl.lastUsercmd.serverTime
      ∧ (cmdCount = 1 → (SV_UserMove e cl delta cmdCount wire).cl.lastUsercmd = c0)
      ∧ (e.Cmd_TokenizeString "followPrev" = ["followPrev"] →
          (SV_UserMove e cl delta cmdCount wire).cl.state = CS_ACTIVE) := by
  obtain ⟨r1, r2, r3, -, -⟩ := userMoveReady_fields e cl delta
  -- the block is not empty
  have hne : ∃ c0 rest, userMoveCmds e cl cmdCount wire = c0 :: rest
      ∧ (cmdCount = 1 → rest = []) := by
    unfold userMoveCmds
    obtain ⟨n, hn⟩ : ∃ n : Nat, cmdCount.toNat = n + 1 := ⟨cmdCount.toNat - 1, by omega⟩
    rw [hn, List.range_succ_eq_map, List.map_cons]
    unfold decodeUsercmds
    refine ⟨_, _, rfl, fun h => ?_⟩
    have : n = 0 := by omega
    subst this
    rfl
  obtain ⟨c0, rest, hcmds, hone⟩ := hne
  -- the call, step by step
  have hrun : SV_UserMove e cl delta cmdCount wire =
      if e.DEDICATED = true then
        pingFixTail e (userMoveOldServerTime e cl)
          (thinkLoop e (lastServerTimeOf (c0 :: rest))
            ((SV_ClientEnterWorld e (userMoveReady e cl delta) (some c0)).whenS
              (fun c => e.DEDICATED && ! c.chatLogPolicySent
                && decide (e.svs_servermod = servermod_t.SVMOD_MBII))
              (SV_SendClientChatLogPolicy e), 0, 0) (c0 :: rest)).2.1
          (thinkLoop e (lastServerTimeOf (c0 :: rest))
            ((SV_ClientEnterWorld e (userMoveReady e cl delta) (some c0)).whenS
              (fun c => e.DEDICATED && ! c.chatLogPolicySent
                && decide (e.svs_servermod = servermod_t.SVMOD_MBII))
              (SV_SendClientChatLogPolicy e), 0, 0) (c0 :: rest)).2.2
          (thinkLoop e (lastServerTimeOf (c0 :: rest))
            ((SV_ClientEnterWorld e (userMoveReady e cl delta) (some c0)).whenS
              (fun c => e.DEDICATED && ! c.chatLogPolicySent
                && decide (e.svs_servermod = servermod_t.SVMOD_MBII))
              (SV_SendClientChatLogPolicy e), 0, 0) (c0 :: rest)).1
      else
        (thinkLoop e (lastServerTimeOf (c0 :: rest))
          ((SV_ClientEnterWorld e (userMoveReady e cl delta) (some c0)).whenS
            (fun c => e.DEDICATED && ! c.chatLogPolicySent
              && decide (e.svs_servermod = servermod_t.SVMOD_MBII))
            (SV_SendClientChatLogPolicy e), 0, 0) (c0 :: rest)).1 := by
    obtain ⟨f1, -, -, f4⟩ := enteredWorld_fields e (userMoveReady e cl delta) (some c0)
      (fun c => e.DEDICATED && ! c.chatLogPolicySent
        && decide (e.svs_servermod = servermod_t.SVMOD_MBII))
    rw [SV_UserMove_eq e cl delta cmdCount wire h1 h2, hcmds]
    unfold userMoveExecute
    dsimp only
    have hg : ¬ ((e.cvar "sv_pure").integer ≠ 0 ∧ (userMoveReady e cl delta).cl.pureAuthentic = 0
        ∧ (userMoveReady e cl delta).cl.gotCP = false) := by
      rw [r2]
      rintro ⟨a, b, -⟩
      rcases hpure with h | h
      · exact a h
      · exact h b
    have hw : (userMoveReady e cl delta).whenS (fun c => decide (c.state = CS_PRIMED)) (fun s =>
        (SV_ClientEnterWorld e s (c0 :: rest).head?).whenS
          (fun c => e.DEDICATED && ! c.chatLogPolicySent
            && decide (e.svs_servermod = servermod_t.SVMOD_MBII))
          (SV_SendClientChatLogPolicy e)) =
        (SV_ClientEnterWorld e (userMoveReady e cl delta) (some c0)).whenS
          (fun c => e.DEDICATED && ! c.chatLogPolicySent
            && decide (e.svs_servermod = servermod_t.SVMOD_MBII))
          (SV_SendClientChatLogPolicy e) := by
      rw [St.whenS_eq, r1, hprimed]
      rfl
    rw [if_neg hg, hw]
    have hg2 : ¬ ((e.cvar "sv_pure").integer ≠ 0
        ∧ ((SV_ClientEnterWorld e (userMoveReady e cl delta) (some c0)).whenS
          (fun c => e.DEDICATED && ! c.chatLogPolicySent
            && decide (e.svs_servermod = servermod_t.SVMOD_MBII))
          (SV_SendClientChatLogPolicy e)).cl.pureAuthentic = 0) := by
      rw [f4, r2]
      rintro ⟨a, b⟩
      rcases hpure with h | h
      · exact a h
      · exact h b
    rw [if_neg hg2, if_neg (by rw [f1]; exact fun h => h rfl)]
    rfl
  obtain ⟨f1, f2, f3, -⟩ := enteredWorld_fields e (userMoveReady e cl delta) (some c0)
    (fun c => e.DEDICATED && ! c.chatLogPolicySent
      && decide (e.svs_servermod = servermod_t.SVMOD_MBII))
  rw [thinkLoop_fst, f2] at hrun
  have hskip : dispatchedCmds (lastServerTimeOf (c0 :: rest)) ((some c0).getD usercmd_t.zero).serverTime
      (c0 :: rest) = dispatchedCmds (lastServerTimeOf (c0 :: rest)) c0.serverTime rest := by
    show dispatchedCmds _ c0.serverTime (c0 :: rest) = _
    rw [dispatchedCmds, if_neg (fun h => lt_irrefl _ h.1)]
  rw [hskip] at hrun
  have hlast : (SV_UserMove e cl delta cmdCount wire).cl.lastUsercmd =
      (dispatchedCmds (lastServerTimeOf (c0 :: rest)) c0.serverTime rest).getLast?.getD c0 := by
    rw [hrun]
    split_ifs
    · rw [(pingFixTail_fields e _ _ _ _).2, foldl_SV_ClientThink_lastUsercmd, f2]
      rfl
    · rw [foldl_SV_ClientThink_lastUsercmd, f2]
      rfl
  refine ⟨c0, rest, hcmds, hlast, ?_, ?_, ?_⟩
  · rw [hlast]
    exact dispatchedCmds_getLast _ _ _
  · intro h
    rw [hlast, hone h]
    rfl
  · intro htok
    rw [hrun]
    split_ifs
    · rw [(pingFixTail_fields e _ _ _ _).1]
      exact foldl_SV_ClientThink_active e _ _ htok f1 (by rw [f3]; decide)
    · exact foldl_SV_ClientThink_active e _ _ htok f1 (by rw [f3]; decide)

/-- Witness for `SV_UserMove_enters_world`: the first move block of a PRIMED
client, with one command of the time 50, on a server that is not pure. -/
theorem SV_UserMove_enters_world_witness :
    primedSlot.state = CS_PRIMED
    ∧ (SV_UserMove (engineWith []) { cl := primedSlot, out := [] } true 1 [[50]]).cl.state
        = CS_ACTIVE
    ∧ (SV_UserMove (engineWith []) { cl := primedSlot, out := [] } true 1
        [[50]]).cl.lastUsercmd.serverTime = 50 := by
  obtain ⟨c0, rest, hc, -, -, hone, hact⟩ :=
    SV_UserMove_enters_world (engineWith []) { cl := primedSlot, out := [] } true 1 [[50]]
      (by decide) (Or.inl (by decide)) (by decide) (by decide)
  refine ⟨by decide, hact (by decide), ?_⟩
  rw [hone rfl]
  have h0 : (userMoveCmds (engineWith []) { cl := primedSlot, out := [] } 1 [[50]]).head?
      = some c0 := by rw [hc]; rfl
  have h1 : (userMoveCmds (engineWith []) { cl := primedSlot, out := [] } 1 [[50]]).head?.map
      (fun c => c.serverTime) = some 50 := by decide
  rw [h0] at h1
  exact Option.some.inj h1

/-! ## The states left by SV_DropClient -/

theorem Z_Free_mem_downloadFreeEvents (blocks : List (Option (List Nat))) (i : Nat)
    (hi : i < MAX_DOWNLOAD_WINDOW) (hb : (blocks.getD i none).isSome = true) :
    Event.Z_Free i ∈ downloadFreeEvents blocks := by
  unfold downloadFreeEvents
  rw [List.mem_filterMap]
  exact ⟨i, List.mem_range.mpr hi, by rw [if_pos hb]⟩

/-- C25: SV_DropClient on a slot that is not a ZOMBIE leaves it ZOMBIE when
its address is not a bot and FREE when it is a bot, with the download closed:
the name empty, the file handle 0 (after `FS_FCloseFile` on an open handle),
every window buffer released (`Z_Free` on each allocated buffer, all pointers
cleared); on a slot that is a ZOMBIE it changes nothing and makes no call. -/
theorem SV_DropClient_state (e : Engine) (s : St) (reason : String) :
    (s.cl.state ≠ CS_ZOMBIE →
      (SV_DropClient e s reason).cl.state =
        (if s.cl.netchan.remoteAddress.type = netadrtype_t.NA_BOT then CS_FREE else CS_ZOMBIE)
      ∧ (SV_DropClient e s reason).cl.downloadName = ""
      ∧ (SV_DropClient e s reason).cl.download = 0
      ∧ (SV_DropClient e s reason).cl.downloadBlocks = List.replicate MAX_DOWNLOAD_WINDOW none
      ∧ (s.cl.download ≠ 0 → Event.FS_FCloseFile s.cl.download ∈ (SV_DropClient e s reason).out)
      ∧ ∀ i, i < MAX_DOWNLOAD_WINDOW → (s.cl.downloadBlocks.getD i none).isSome = true →
          Event.Z_Free i ∈ (SV_DropClient e s reason).out)
    ∧ (s.cl.state = CS_ZOMBIE → SV_DropClient e s reason = s) := by
  refine ⟨fun h => ?_, fun h => SV_DropClient_zombie e s reason h⟩
  rw [SV_DropClient_cl e s reason h, SV_DropClient_out e s reason h]
  refine ⟨rfl, rfl, rfl, rfl, fun hd => ?_, fun i hi hb => ?_⟩
  · simp only [List.append_assoc, List.mem_append]
    exact Or.inr (Or.inl (by rw [if_pos hd]; exact List.mem_singleton.mpr rfl))
  · simp only [List.append_assoc, List.mem_append]
    exact Or.inr (Or.inr (Or.inl (Z_Free_mem_downloadFreeEvents _ i hi hb)))

/-- Witness for `SV_DropClient_state`: an ACTIVE client in the middle of a
download is dropped, and a ZOMBIE is dropped again. -/
theorem SV_DropClient_state_witness :
    (activeDownloadSlot.state ≠ CS_ZOMBIE
      ∧ (SV_DropClient (engineWith []) { cl := activeDownloadSlot, out := [] } "bye").cl.state =
          (if activeDownloadSlot.netchan.remoteAddress.type = netadrtype_t.NA_BOT then CS_FREE
            else CS_ZOMBIE)
      ∧ (SV_DropClient (engineWith []) { cl := activeDownloadSlot, out := [] } "bye").cl.download = 0)
    ∧ zombieSlot.state = CS_ZOMBIE
    ∧ (SV_DropClient (engineWith []) { cl := zombieSlot, out := [] } "bye").cl.download
        = zombieSlot.download :=
  ⟨⟨by decide,
     ((SV_DropClient_state (engineWith []) { cl := activeDownloadSlot, out := [] } "bye").1
       (by decide)).1,
     ((SV_DropClient_state (engineWith []) { cl := activeDownloadSlot, out := [] } "bye").1
       (by decide)).2.2.1⟩,
   by decide,
   congrArg (fun t : St => t.cl.download)
     ((SV_DropClient_state (engineWith []) { cl := zombieSlot, out := [] } "bye").2 (by decide))⟩

/-! ## The rate of a slot -/

theorem rateOf_SV_DropClient (e : Engine) (s : St) (reason : String) :
    rateOf (SV_DropClient e s reason).cl = rateOf s.cl := by
  by_cases h : s.cl.state = CS_ZOMBIE
  · rw [SV_DropClient_zombie e s reason h]
  · rw [SV_DropClient_cl e s reason h]
    rfl

theorem rateOf_userinfoSnaps (e : Engine) (s : St) : rateOf (userinfoSnaps e s).cl = rateOf s.cl := by
  unfold userinfoSnaps setSnapshotMsec
  simp only [St.modify_cl]
  split_ifs <;> rfl

theorem rateOf_userinfoIp (e : Engine) (s : St) : rateOf (userinfoIp e s).cl = rateOf s.cl := by
  unfold userinfoIp
  dsimp only
  split_ifs <;> first | rfl | exact rateOf_SV_DropClient e s _

theorem rateOf_when (s : St) (c : Bool) (f : St → St) (hf : ∀ t, rateOf (f t).cl = rateOf t.cl) :
    rateOf (s.when c f).cl = rateOf s.cl := by
  cases c
  · rfl
  · exact hf s

/-- The `sv_antiDST` reaction shared by SV_UserinfoChanged and SV_ExecuteClientCommand. -/
theorem rateOf_dstKick (e : Engine) (msg : client_t → Event) (t : St) :
    rateOf (((t.emitS msg).when (decide ((e.cvar "sv_antiDST").integer ≠ 0)) (fun s =>
      (SV_DropClient e s "was kicked for cheating by JKA.io").modify
        (fun cl => { cl with lastPacketTime := e.svs_time }))).cl) = rateOf t.cl := by
  refine (rateOf_when _ _ _ (fun u => ?_)).trans ?_
  · exact rateOf_SV_DropClient e u _
  · rfl

theorem rateOf_userinfoModel (e : Engine) (s : St) : rateOf (userinfoModel e s).cl = rateOf s.cl := by
  unfold userinfoModel
  dsimp only
  split_ifs
  · refine (rateOf_when _ _ _ (fun t => ?_)).trans ?_
    · rfl
    · exact rateOf_when _ _ _ (fun t => rateOf_dstKick e _ t)
  · rfl

theorem rateOf_userinfoForcepowers (e : Engine) (s : St) :
    rateOf (userinfoForcepowers e s).cl = rateOf s.cl := by
  unfold userinfoForcepowers
  split_ifs <;> rfl

theorem rateOf_userinfoPlugin (e : Engine) (s : St) :
    rateOf (userinfoPlugin e s).cl = rateOf s.cl := by
  unfold userinfoPlugin
  by_cases hD : e.DEDICATED = true
  · rw [if_pos hD]
    simp only [St.modify_cl]
    split_ifs <;> rfl
  · rw [if_neg hD]

/-- The rate with which a slot leaves SV_UserinfoChanged is the one set by its rate block. -/
theorem SV_UserinfoChanged_rate (e : Engine) (s : St) :
    (SV_UserinfoChanged e s).cl.rate = (userinfoRate e (userinfoName e s)).cl.rate := by
  unfold SV_UserinfoChanged
  have h : rateOf (userinfoPlugin e (userinfoForcepowers e (userinfoModel e (userinfoIp e
      (userinfoSnaps e (userinfoRate e (userinfoName e s))))))).cl
      = rateOf (userinfoRate e (userinfoName e s)).cl := by
    rw [rateOf_userinfoPlugin, rateOf_userinfoForcepowers, rateOf_userinfoModel, rateOf_userinfoIp,
      rateOf_userinfoSnaps]
  exact h

/-- Counterexample to C29 as stated: with `sv_ratePolicy 2` and `sv_maxRate`
left at 0, a client that asks for the rate 25000 is given the rate 0, which is
not in the interval from `max(1000, sv_minRate)` to `sv_maxRate`. -/
theorem userinfo_rate_claim_counterexample :
    (ratePolicyEngine.cvar "sv_ratePolicy").integer = 2
    ∧ ratePolicyEngine.Sys_IsLANAddress rateSlot.netchan.remoteAddress = false
    ∧ ratePolicyEngine.Info_ValueForKey rateSlot.userinfo "rate" = "25000"
    ∧ (SV_UserinfoChanged ratePolicyEngine { cl := rateSlot, out := [] }).cl.rate = 0
    ∧ ¬ (max 1000 (ratePolicyEngine.cvar "sv_minRate").integer
          ≤ (SV_UserinfoChanged ratePolicyEngine { cl := rateSlot, out := [] }).cl.rate
        ∧ (SV_UserinfoChanged ratePolicyEngine { cl := rateSlot, out := [] }).cl.rate
          ≤ (ratePolicyEngine.cvar "sv_maxRate").integer) := by
  decide

/-- C29 (amended): with `sv_ratePolicy 2`, for a client that is not pinned to
the LAN rate, whatever `rate` value the userinfo holds, and for every setting
of `sv_minRate` and `sv_maxRate` with `max(1000, sv_minRate) <= sv_maxRate`, the
rate of the slot after SV_UserinfoChanged lies between `max(1000, sv_minRate)`
and `sv_maxRate`. -/
theorem userinfo_rate_clamped (e : Engine) (s : St)
    (hpol : (e.cvar "sv_ratePolicy").integer = 2)
    (hlan : ¬ (e.Sys_IsLANAddress s.cl.netchan.remoteAddress = true
      ∧ (e.cvar "com_dedicated").integer ≠ 2 ∧ (e.cvar "sv_lanForceRate").integer = 1))
    (hint : max 1000 (e.cvar "sv_minRate").integer ≤ (e.cvar "sv_maxRate").integer) :
    max 1000 (e.cvar "sv_minRate").integer ≤ (SV_UserinfoChanged e s).cl.rate
    ∧ (SV_UserinfoChanged e s).cl.rate ≤ (e.cvar "sv_maxRate").integer := by
  have hadr : (userinfoName e s).cl.netchan.remoteAddress = s.cl.netchan.remoteAddress :=
    congrArg (fun p => p.2.2.2.2.1.remoteAddress) (sessionOf_userinfoName e s)
  have hrate : (userinfoRate e (userinfoName e s)).cl.rate =
      userinfoRateValue e (e.Info_ValueForKey (userinfoName e s).cl.userinfo "rate") := by
    unfold userinfoRate
    rw [St.modify_cl, hadr, if_neg hlan, if_neg (by rw [hpol]; decide), if_pos hpol]
  rw [SV_UserinfoChanged_rate, hrate]
  unfold userinfoRateValue Com_Clampi
  dsimp only
  have h1 : (1000 : Int) ≤ (e.cvar "sv_maxRate").integer := le_trans (le_max_left _ _) hint
  have h2 : (e.cvar "sv_minRate").integer ≤ (e.cvar "sv_maxRate").integer :=
    le_trans (le_max_right _ _) hint
  rw [max_le_iff]
  split_ifs <;> omega

/-- Witness for `userinfo_rate_clamped`: the client asks for 25000 on a server
with `sv_minRate 4000` and `sv_maxRate 20000`. -/
theorem userinfo_rate_clamped_witness :
    max 1000 ((infoEngine [("sv_ratePolicy", "2"), ("sv_minRate", "4000"),
        ("sv_maxRate", "20000")]).cvar "sv_minRate").integer
      ≤ (SV_UserinfoChanged (infoEngine [("sv_ratePolicy", "2"), ("sv_minRate", "4000"),
          ("sv_maxRate", "20000")]) { cl := rateSlot, out := [] }).cl.rate
    ∧ (SV_UserinfoChanged (infoEngine [("sv_ratePolicy", "2"), ("sv_minRate", "4000"),
          ("sv_maxRate", "20000")]) { cl := rateSlot, out := [] }).cl.rate
      ≤ ((infoEngine [("sv_ratePolicy", "2"), ("sv_minRate", "4000"),
          ("sv_maxRate", "20000")]).cvar "sv_maxRate").integer :=
  userinfo_rate_clamped (infoEngine [("sv_ratePolicy", "2"), ("sv_minRate", "4000"),
    ("sv_maxRate", "20000")]) { cl := rateSlot, out := [] } (by decide) (by decide) (by decide)

/-! ## SV_DirectConnect -/

theorem Table.onSlot_some (t : Table) (i : Nat) (f : St → St) (cl : client_t)
    (h : t.clients.get? i = some cl) :
    t.onSlot i f = { clients := t.clients.set i (f { cl := cl, out := t.out }).cl,
                     out := (f { cl := cl, out := t.out }).out } := by
  unfold Table.onSlot
  rw [h]

theorem scannedSlots_get? (e : Engine) (clients : List client_t) (i : Nat) (cl : client_t)
    (h : (scannedSlots e clients).get? i = some cl) : clients.get? i = some cl := by
  unfold scannedSlots at h
  rw [List.get?_eq_getElem?] at h ⊢
  rw [List.getElem?_take] at h
  split_ifs at h
  exact h

/-- The quick-reject loop decides on the first slot that matches. -/
theorem quickReject_first (e : Engine) (from_ : netadr_t) (qport : Int) (l : List client_t)
    (i : Nat) (cl : client_t) (hi : l.get? i = some cl)
    (hsame : sameClient e from_ qport cl = true)
    (hfirst : ∀ c ∈ l.take i, sameClient e from_ qport c = false) :
    quickReject e from_ qport l =
      decide (e.svs_time - cl.lastConnectTime < (e.cvar "sv_reconnectlimit").integer * 1000) := by
  induction l generalizing i with
  | nil => simp at hi
  | cons c cs ih =>
    cases i with
    | zero =>
      simp only [List.get?_cons_zero, Option.some.injEq] at hi
      subst hi
      unfold quickReject
      rw [if_pos hsame]
    | succ n =>
      have hc : sameClient e from_ qport c = false := hfirst c (by simp)
      unfold quickReject
      rw [if_neg (by rw [hc]; simp)]
      exact ih n hi (fun c' hc' => hfirst c' (by simp [hc']))

theorem reuseScan_none (e : Engine) (from_ : netadr_t) (qport : Int) (l : List client_t) (k : Nat)
    (h : ∀ c ∈ l, c.state ≠ CS_FREE → sameClient e from_ qport c = false) :
    reuseScan e from_ qport k l = none := by
  induction l generalizing k with
  | nil => rfl
  | cons c cs ih =>
    unfold reuseScan
    rw [if_neg (fun hc => by
      have := h c (by simp) hc.1
      rw [this] at hc
      exact absurd hc.2 (by simp))]
    exact ih (k + 1) (fun c' hc' => h c' (by simp [hc']))

/-- The scan for a FREE slot stops at the lowest index from `startIndex` on that holds one. -/
theorem freeScan_least (start : Int) (l : List client_t) (k i : Nat) (cl : client_t)
    (hi : l.get? i = some cl) (hfree : cl.state = CS_FREE) (hstart : start ≤ ((k + i : Nat) : Int))
    (hleast : ∀ j, j < i → start ≤ ((k + j : Nat) : Int) →
      (l.get? j).map (fun c => c.state) ≠ some CS_FREE) :
    freeScan start k l = some (k + i) := by
  induction l generalizing k i with
  | nil => simp at hi
  | cons c cs ih =>
    cases i with
    | zero =>
      simp only [List.get?_cons_zero, Option.some.injEq] at hi
      subst hi
      unfold freeScan
      rw [if_pos ⟨by simpa using hstart, hfree⟩]
      rfl
    | succ n =>
      unfold freeScan
      rw [if_neg (fun hc => by
        have := hleast 0 (Nat.succ_pos n) (by simpa using hc.1)
        simp only [List.get?_cons_zero, Option.map_some'] at this
        exact this (congrArg some hc.2))]
      have := ih (k + 1) n hi (by rw [show k + 1 + n = k + (n + 1) by omega]; exact hstart)
        (fun j hj hs => by
          have := hleast (j + 1) (by omega) (by rw [show k + (j + 1) = k + 1 + j by omega]; exact hs)
          simpa using this)
      rw [this]
      congr 1
      omega

/-- A connection that the game module accepts leaves its slot CONNECTED and
bound to the channel and the challenge, and is answered with `connectResponse`. -/
theorem SV_DirectConnect_gotnewcl_accepted (e : Engine) (newcl : St) (challenge : Int)
    (netchan : netchan_t) (userinfo : String) (hibernating : Bool) :
    (SV_DirectConnect_gotnewcl e newcl challenge netchan userinfo none hibernating).cl.state
        = CS_CONNECTED
    ∧ (SV_DirectConnect_gotnewcl e newcl challenge netchan userinfo none hibernating).cl.netchan
        = netchan
    ∧ (SV_DirectConnect_gotnewcl e newcl challenge netchan userinfo none hibernating).cl.challenge
        = challenge
    ∧ (SV_DirectConnect_gotnewcl e newcl challenge netchan userinfo none hibernating).cl.lastConnectTime
        = e.svs_time
    ∧ Event.NET_OutOfBandPrint "connectResponse"
        ∈ (SV_DirectConnect_gotnewcl e newcl challenge netchan userinfo none hibernating).out := by
  unfold SV_DirectConnect_gotnewcl
  dsimp only
  simp only [St.whenS, St.when]
  split_ifs <;>
    refine ⟨rfl, ?_, ?_, rfl, by simp⟩ <;>
    first
    | exact (congrArg (fun p => p.2.2.2.2.1) (sessionOf_SV_UserinfoChanged e _)).trans rfl
    | exact (congrArg (fun p => p.2.2.2.2.2) (sessionOf_SV_UserinfoChanged e _)).trans rfl

/-- SV_DirectConnect for a request that passes the ban list, the protocol
check, the reconnect limit, the length check and the challenge. -/
theorem SV_DirectConnect_passed (e : Engine) (sv : Table) (from_ : netadr_t) (argv : Argv)
    (denied : Option String) (hibernating : Bool)
    (hban : SV_IsBanned e from_ false = false)
    (hver : atoi (e.Info_ValueForKey (connectUserinfo argv) "protocol") = e.PROTOCOL_VERSION)
    (hquick : quickReject e from_ (atoi (e.Info_ValueForKey (connectUserinfo argv) "qport"))
      (scannedSlots e sv.clients) = false)
    (hlen : ((connectIp e from_).length : Int) + (connectUserinfo argv).length + 4 < MAX_INFO_STRING)
    (hchal : e.NET_IsLocalAddress from_ = true
      ∨ e.SV_VerifyChallenge (atoi (e.Info_ValueForKey (connectUserinfo argv) "challenge")) from_
          = true) :
    SV_DirectConnect e sv from_ argv denied hibernating =
      match reuseScan e from_ (atoi (e.Info_ValueForKey (connectUserinfo argv) "qport")) 0
          (scannedSlots e sv.clients) with
      | some i =>
        gotnewcl e
          (((sv.emit (Event.Com_DPrintf "SVC_DirectConnect ()\n")).emit
            (Event.Com_Printf (e.NET_AdrToString from_ ++ ":reconnect\n"))).emit
            Event.GVM_ClientDisconnect)
          i from_ (atoi (e.Info_ValueForKey (connectUserinfo argv) "challenge"))
          (atoi (e.Info_ValueForKey (connectUserinfo argv) "qport"))
          (e.Info_SetValueForKey (connectUserinfo argv) "ip" (connectIp e from_)) denied hibernating
      | none =>
        findFreeSlot e (sv.emit (Event.Com_DPrintf "SVC_DirectConnect ()\n")) from_
          (atoi (e.Info_ValueForKey (connectUserinfo argv) "challenge"))
          (atoi (e.Info_ValueForKey (connectUserinfo argv) "qport"))
          (e.Info_SetValueForKey (connectUserinfo argv) "ip" (connectIp e from_)) denied
          hibernating := by
  unfold SV_DirectConnect
  dsimp only
  rw [if_neg (by rw [hban]; simp), if_neg (fun h => h hver), if_neg (by rw [hquick]; simp),
    if_neg (by omega), if_neg (fun h => by
      rcases hchal with h' | h'
      · rw [h'] at h
        exact absurd h.1 (by simp)
      · rw [h'] at h
        exact absurd h.2 (by simp))]

/-- C21: for a connect request from an address that is not banned whose
userinfo names a protocol other than `PROTOCOL_VERSION`, SV_DirectConnect leaves
every slot of `svs.clients` as it was and makes three calls and no other: the
debug line on entry, one out-of-band `print` reply that names the two
versions, and the debug line of the rejection. -/
theorem SV_DirectConnect_protocol_mismatch (e : Engine) (sv : Table) (from_ : netadr_t)
    (argv : Argv) (denied : Option String) (hibernating : Bool)
    (hban : SV_IsBanned e from_ false = false)
    (hver : atoi (e.Info_ValueForKey (connectUserinfo argv) "protocol") ≠ e.PROTOCOL_VERSION) :
    (SV_DirectConnect e sv from_ argv denied hibernating).clients = sv.clients
    ∧ (SV_DirectConnect e sv from_ argv denied hibernating).out =
        sv.out ++ [Event.Com_DPrintf "SVC_DirectConnect ()\n",
          Event.NET_OutOfBandPrint ("print\nServer uses protocol version "
            ++ toString e.PROTOCOL_VERSION ++ " (yours is "
            ++ toString (atoi (e.Info_ValueForKey (connectUserinfo argv) "protocol")) ++ ").\n"),
          Event.Com_DPrintf ("    rejected connect from version "
            ++ toString (atoi (e.Info_ValueForKey (connectUserinfo argv) "protocol")) ++ "\n")] := by
  unfold SV_DirectConnect
  dsimp only
  rw [if_neg (by rw [hban]; simp), if_pos hver]
  exact ⟨rfl, by simp [Table.emit]⟩

/-- Witness for `SV_DirectConnect_protocol_mismatch`: a client that speaks
protocol 25 asks a server of protocol 26 on which the client of the examples
is connected. -/
theorem SV_DirectConnect_protocol_mismatch_witness :
    SV_IsBanned connectEngine lukeAdr false = false
    ∧ atoi (connectEngine.Info_ValueForKey (connectUserinfo connectOldArgv) "protocol") = 25
    ∧ (SV_DirectConnect connectEngine joinedTable lukeAdr connectOldArgv none false).clients
        = joinedTable.clients
    ∧ (SV_DirectConnect connectEngine joinedTable lukeAdr connectOldArgv none false).out =
        [Event.Com_DPrintf "SVC_DirectConnect ()\n",
         Event.NET_OutOfBandPrint "print\nServer uses protocol version 26 (yours is 25).\n",
         Event.Com_DPrintf "    rejected connect from version 25\n"] :=
  ⟨by decide, by decide,
    (SV_DirectConnect_protocol_mismatch connectEngine joinedTable lukeAdr connectOldArgv none false
      (by decide) (by decide)).1,
    (SV_DirectConnect_protocol_mismatch connectEngine joinedTable lukeAdr connectOldArgv none false
      (by decide) (by decide)).2⟩

/-- C22 at its failing input.  The client of the examples is connected in
slot 1 since 2 seconds, and the private slot 0 is FREE but still holds the
channel of an earlier connection of the same client, made at the time 0;
`sv_reconnectlimit` is 5.  The quick-reject loop, which no longer skips FREE
slots, tests the stale slot 0 and leaves with `break`: the recent slot 1 is not
examined, the request is not rejected, and slot 1 is initialised again. -/
theorem SV_DirectConnect_reconnect_accepted :
    (staleTable.clients.map (fun c => (c.state, c.lastConnectTime)))
        = [(CS_FREE, 0), (CS_CONNECTED, 8000), (CS_FREE, 0)]
    ∧ (connectEngine.cvar "sv_reconnectlimit").integer = 5
    ∧ sameClient connectEngine lukeAdr 9000 staleSlot = true
    ∧ (recentSlot.state ≠ CS_FREE
      ∧ sameClient connectEngine lukeAdr 9000 recentSlot = true
      ∧ connectEngine.svs_time - recentSlot.lastConnectTime
          < (connectEngine.cvar "sv_reconnectlimit").integer * 1000)
    ∧ Event.NET_OutOfBandPrint "print\nReconnect rejected : too soon\n"
        ∉ (SV_DirectConnect connectEngine staleTable lukeAdr connectArgv none false).out
    ∧ Event.NET_OutOfBandPrint "connectResponse"
        ∈ (SV_DirectConnect connectEngine staleTable lukeAdr connectArgv none false).out
    ∧ ((SV_DirectConnect connectEngine staleTable lukeAdr connectArgv none false).clients.map
        (fun c => c.lastConnectTime)) = [0, 10000, 0] := by
  decide

/-- The reconnect limit where it works: for a connect request from an address
that is not banned and with the protocol of the server, if the lowest-indexed
slot of `svs.clients[0 .. sv_maxclients)` that matches the base address of the
sender and its qport or its port was connected less than `sv_reconnectlimit`
seconds before `svs.time`, SV_DirectConnect leaves every slot as it was and
answers "Reconnect rejected : too soon". -/
theorem SV_DirectConnect_too_soon (e : Engine) (sv : Table) (from_ : netadr_t) (argv : Argv)
    (denied : Option String) (hibernating : Bool) (i : Nat) (cl : client_t)
    (hban : SV_IsBanned e from_ false = false)
    (hver : atoi (e.Info_ValueForKey (connectUserinfo argv) "protocol") = e.PROTOCOL_VERSION)
    (hi : (scannedSlots e sv.clients).get? i = some cl)
    (hsame : sameClient e from_ (atoi (e.Info_ValueForKey (connectUserinfo argv) "qport")) cl = true)
    (hfirst : ∀ c ∈ (scannedSlots e sv.clients).take i,
      sameClient e from_ (atoi (e.Info_ValueForKey (connectUserinfo argv) "qport")) c = false)
    (hsoon : e.svs_time - cl.lastConnectTime < (e.cvar "sv_reconnectlimit").integer * 1000) :
    (SV_DirectConnect e sv from_ argv denied hibernating).clients = sv.clients
    ∧ (SV_DirectConnect e sv from_ argv denied hibernating).out =
        sv.out ++ [Event.Com_DPrintf "SVC_DirectConnect ()\n",
          Event.NET_OutOfBandPrint "print\nReconnect rejected : too soon\n",
          Event.Com_DPrintf (e.NET_AdrToString from_ ++ ":reconnect rejected : too soon\n")] := by
  have hq := quickReject_first e from_ _ (scannedSlots e sv.clients) i cl hi hsame hfirst
  rw [decide_eq_true hsoon] at hq
  unfold SV_DirectConnect
  dsimp only
  rw [if_neg (by rw [hban]; simp), if_neg (fun h => h hver), if_pos hq]
  exact ⟨rfl, by simp [Table.emit]⟩

/-- Example for `SV_DirectConnect_too_soon`: with `sv_reconnectlimit 5`, the
client that has connected at the time 10000 sends `connect` again at the time
12000. -/
theorem SV_DirectConnect_too_soon_example :
    (connectEngineLater.cvar "sv_reconnectlimit").integer = 5
    ∧ (joinedTable.clients.map (fun c => (c.state, c.lastConnectTime)))
        = [(CS_FREE, 0), (CS_CONNECTED, 10000), (CS_FREE, 0)]
    ∧ connectEngineLater.svs_time = 12000
    ∧ (SV_DirectConnect connectEngineLater joinedTable lukeAdr connectArgv none false).out =
        joinedTable.out ++ [Event.Com_DPrintf "SVC_DirectConnect ()\n",
          Event.NET_OutOfBandPrint "print\nReconnect rejected : too soon\n",
          Event.Com_DPrintf (connectEngineLater.NET_AdrToString lukeAdr
            ++ ":reconnect rejected : too soon\n")] :=
  ⟨by decide, by decide, by decide,
    (SV_DirectConnect_too_soon connectEngineLater joinedTable lukeAdr connectArgv none false 1
      (joinedTable.clients.getD 1 client_t.zero) (by decide) (by decide) (by rfl) (by decide)
      (by decide) (by decide)).2⟩

/-- Counterexample to C23 as stated: a connection from the local address to a
server whose two slots are taken by bots is accepted, there is no FREE slot for
it, and it is put into the last slot after the bot there was dropped. -/
theorem SV_DirectConnect_slot_claim_counterexample :
    (botTable.clients.map (fun c => c.state)) = [CS_ACTIVE, CS_ACTIVE]
    ∧ (∀ c ∈ botTable.clients, sameClient botEngine lukeAdr 9000 c = false)
    ∧ Event.NET_OutOfBandPrint "connectResponse"
        ∈ (SV_DirectConnect botEngine botTable lukeAdr connectArgv none false).out
    ∧ ((SV_DirectConnect botEngine botTable lukeAdr connectArgv none false).clients.map
        (fun c => (c.state, c.netchan.remoteAddress)))
        = [(CS_ACTIVE, client_t.zero.netchan.remoteAddress), (CS_CONNECTED, lukeAdr)] := by
  decide

/-- C23 (amended): for a connect request that passes the checks of
SV_DirectConnect, matches no slot that is not FREE, and is accepted by the game
module, when a slot of `svs.clients[0 .. sv_maxclients)` with an index from
`startIndex` on is FREE, the client is put into the lowest-indexed such slot
`i`: that slot becomes CONNECTED and bound to the address, the qport and the
challenge of the request, no other slot changes, and the request is answered
with `connectResponse`.  `startIndex` is `sv_privateClients` when the password
of the userinfo differs from `sv_privatePassword`, so that none of the first
`sv_privateClients` slots is taken, and 0 when it is equal. -/
theorem SV_DirectConnect_placement (e : Engine) (sv : Table) (from_ : netadr_t) (argv : Argv)
    (hibernating : Bool) (i : Nat) (cl : client_t)
    (hban : SV_IsBanned e from_ false = false)
    (hver : atoi (e.Info_ValueForKey (connectUserinfo argv) "protocol") = e.PROTOCOL_VERSION)
    (hquick : quickReject e from_ (atoi (e.Info_ValueForKey (connectUserinfo argv) "qport"))
      (scannedSlots e sv.clients) = false)
    (hlen : ((connectIp e from_).length : Int) + (connectUserinfo argv).length + 4 < MAX_INFO_STRING)
    (hchal : e.NET_IsLocalAddress from_ = true
      ∨ e.SV_VerifyChallenge (atoi (e.Info_ValueForKey (connectUserinfo argv) "challenge")) from_
          = true)
    (hnomatch : ∀ c ∈ scannedSlots e sv.clients, c.state ≠ CS_FREE →
      sameClient e from_ (atoi (e.Info_ValueForKey (connectUserinfo argv) "qport")) c = false)
    (hi : (scannedSlots e sv.clients).get? i = some cl) (hfree : cl.state = CS_FREE)
    (hstart : connectStartIndex e
      (e.Info_SetValueForKey (connectUserinfo argv) "ip" (connectIp e from_)) ≤ (i : Int))
    (hleast : ∀ j, j < i →
      connectStartIndex e (e.Info_SetValueForKey (connectUserinfo argv) "ip" (connectIp e from_))
        ≤ (j : Int) →
      ((scannedSlots e sv.clients).get? j).map (fun c => c.state) ≠ some CS_FREE) :
    (∃ newcl : client_t,
      (SV_DirectConnect e sv from_ argv none hibernating).clients = sv.clients.set i newcl
      ∧ newcl.state = CS_CONNECTED
      ∧ newcl.netchan = e.Netchan_Setup from_
          (atoi (e.Info_ValueForKey (connectUserinfo argv) "qport"))
      ∧ newcl.challenge = atoi (e.Info_ValueForKey (connectUserinfo argv) "challenge"))
    ∧ Event.NET_OutOfBandPrint "connectResponse"
        ∈ (SV_DirectConnect e sv from_ argv none hibernating).out
    ∧ (e.Info_ValueForKey (e.Info_SetValueForKey (connectUserinfo argv) "ip" (connectIp e from_))
          "password" ≠ (e.cvar "sv_privatePassword").string →
        (e.cvar "sv_privateClients").integer ≤ (i : Int))
    ∧ (e.Info_ValueForKey (e.Info_SetValueForKey (connectUserinfo argv) "ip" (connectIp e from_))
          "password" = (e.cvar "sv_privatePassword").string →
        ∀ j, j < i → ((scannedSlots e sv.clients).get? j).map (fun c => c.state) ≠ some CS_FREE) := by
  have hrun := SV_DirectConnect_passed e sv from_ argv none hibernating hban hver hquick hlen hchal
  rw [reuseScan_none e from_ _ _ 0 hnomatch] at hrun
  have hscan := freeScan_least _ (scannedSlots e sv.clients) 0 i cl hi hfree
    (by simpa using hstart) (fun j hj hs => hleast j hj (by simpa using hs))
  rw [Nat.zero_add] at hscan
  have hrun2 : SV_DirectConnect e sv from_ argv none hibernating =
      gotnewcl e (sv.emit (Event.Com_DPrintf "SVC_DirectConnect ()\n")) i from_
        (atoi (e.Info_ValueForKey (connectUserinfo argv) "challenge"))
        (atoi (e.Info_ValueForKey (connectUserinfo argv) "qport"))
        (e.Info_SetValueForKey (connectUserinfo argv) "ip" (connectIp e from_)) none hibernating := by
    rw [hrun]
    show findFreeSlot _ _ _ _ _ _ _ _ = _
    unfold findFreeSlot
    dsimp only
    rw [show (sv.emit (Event.Com_DPrintf "SVC_DirectConnect ()\n")).clients = sv.clients from rfl,
      hscan]
  have hget : (sv.emit (Event.Com_DPrintf "SVC_DirectConnect ()\n")).clients.get? i = some cl :=
    scannedSlots_get? e sv.clients i cl hi
  rw [hrun2]
  unfold gotnewcl
  rw [Table.onSlot_some _ _ _ cl hget]
  obtain ⟨a1, a2, a3, -, a5⟩ := SV_DirectConnect_gotnewcl_accepted
    (e.forSlot (sv.emit (Event.Com_DPrintf "SVC_DirectConnect ()\n")).clients i)
    { cl := cl, out := (sv.emit (Event.Com_DPrintf "SVC_DirectConnect ()\n")).out }
    (atoi (e.Info_ValueForKey (connectUserinfo argv) "challenge"))
    (e.Netchan_Setup from_ (atoi (e.Info_ValueForKey (connectUserinfo argv) "qport")))
    (e.Info_SetValueForKey (connectUserinfo argv) "ip" (connectIp e from_)) hibernating
  refine ⟨⟨_, rfl, a1, a2, a3⟩, a5, fun hp => ?_, fun hp j hj => ?_⟩
  · unfold connectStartIndex at hstart
    rw [if_neg hp] at hstart
    exact hstart
  · refine hleast j hj ?_
    unfold connectStartIndex
    rw [if_pos hp]
    exact Int.ofNat_nonneg j

/-- Witness for `SV_DirectConnect_placement`: on the empty server with one
private slot the client of the examples is put into slot 1 without the
password and into slot 0 with it. -/
theorem SV_DirectConnect_placement_witness :
    (connectEngine.cvar "sv_privateClients").integer = 1
    ∧ ((SV_DirectConnect connectEngine emptyTable lukeAdr connectArgv none false).clients.map
        (fun c => c.state)) = [CS_FREE, CS_CONNECTED, CS_FREE]
    ∧ ((SV_DirectConnect connectEngine emptyTable lukeAdr connectPrivateArgv none false).clients.map
        (fun c => c.state)) = [CS_CONNECTED, CS_FREE, CS_FREE] := by
  obtain ⟨⟨n1, h1, s1, -, -⟩, -, -, -⟩ :=
    SV_DirectConnect_placement connectEngine emptyTable lukeAdr connectArgv false 1 client_t.zero
      (by decide) (by decide) (by decide) (by decide) (Or.inr (by decide)) (by decide) (by rfl)
      (by decide) (by decide) (by decide)
  obtain ⟨⟨n0, h0, s0, -, -⟩, -, -, -⟩ :=
    SV_DirectConnect_placement connectEngine emptyTable lukeAdr connectPrivateArgv false 0
      client_t.zero (by decide) (by decide) (by decide) (by decide) (Or.inr (by decide))
      (by decide) (by rfl) (by decide) (by decide) (by decide)
  refine ⟨by decide, ?_, ?_⟩
  · rw [h1]
    show [client_t.zero.state, n1.state, client_t.zero.state] = _
    rw [s1]
    rfl
  · rw [h0]
    show [n0.state, client_t.zero.state, client_t.zero.state] = _
    rw [s0]
    rfl

/-! ## The throttle of userinfo changes -/

theorem Q_strncpyz_ne_empty (s : String) (n : Nat) (hs : s ≠ "") (hn : 2 ≤ n) :
    Q_strncpyz s n ≠ "" := by
  unfold Q_strncpyz
  intro h
  have hl : (s.toList.take (n - 1)) = [] := by
    have := congrArg String.toList h
    simpa using this
  rw [List.take_eq_nil_iff] at hl
  rcases hl with hl | hl
  · omega
  · exact hs (by
      cases s with
      | mk l =>
        simp only [String.toList] at hl
        subst hl
        rfl)

theorem Q_strncpyz_idem (s : String) (n : Nat) : Q_strncpyz (Q_strncpyz s n) n = Q_strncpyz s n := by
  unfold Q_strncpyz
  simp [List.take_take]

/-- A `userinfo` command outside the window of the throttle: it opens a new
window and is applied. -/
theorem SV_UpdateUserinfo_f_opens (e : Engine) (s : St) (argv : Argv)
    (harg : Cmd_Argv argv 1 ≠ "") (hout : s.cl.lastUserInfoChange ≤ e.svs_time) :
    (SV_UpdateUserinfo_f e s argv).1 =
      applyUserinfo e (s.modify (fun cl =>
        { cl with userinfoPostponed := "", lastUserInfoCount := 0,
                  lastUserInfoChange := e.svs_time + INFO_CHANGE_MIN_INTERVAL })) (Cmd_Argv argv 1) := by
  unfold SV_UpdateUserinfo_f
  dsimp only
  rw [if_neg harg, if_neg (fun h => by omega)]
  rfl

/-- A `userinfo` command inside the window that is not yet the third after
the one that opened it: it is counted and applied. -/
theorem SV_UpdateUserinfo_f_counts (e : Engine) (s : St) (argv : Argv)
    (hF : e.FINAL_BUILD = true) (harg : Cmd_Argv argv 1 ≠ "")
    (hin : e.svs_time < s.cl.lastUserInfoChange)
    (hcount : s.cl.lastUserInfoCount + 1 < INFO_CHANGE_MAX_COUNT) :
    (SV_UpdateUserinfo_f e s argv).1 =
      applyUserinfo e (s.modify (fun cl => { cl with lastUserInfoCount := cl.lastUserInfoCount + 1 }))
        (Cmd_Argv argv 1) := by
  unfold SV_UpdateUserinfo_f
  dsimp only
  rw [if_neg harg, if_pos ⟨hF, hin⟩]
  split_ifs with h
  · exact absurd (show s.cl.lastUserInfoCount + 1 ≥ INFO_CHANGE_MAX_COUNT from h) (by omega)
  · rfl

/-- A `userinfo` command inside the window after the count has reached its
limit: it is stored in `userinfoPostponed` and the client is warned. -/
theorem SV_UpdateUserinfo_f_postpones (e : Engine) (s : St) (argv : Argv)
    (hF : e.FINAL_BUILD = true) (harg : Cmd_Argv argv 1 ≠ "")
    (hin : e.svs_time < s.cl.lastUserInfoChange)
    (hcount : INFO_CHANGE_MAX_COUNT ≤ s.cl.lastUserInfoCount + 1) :
    (SV_UpdateUserinfo_f e s argv).1 =
      (s.modify (fun cl =>
        { cl with lastUserInfoCount := cl.lastUserInfoCount + 1,
                  userinfoPostponed := Q_strncpyz (Cmd_Argv argv 1) MAX_INFO_STRING })).emit
        (Event.SV_SendServerCommand false
          "print \"Warning: Too many info changes, last info postponed\n\"\n") := by
  unfold SV_UpdateUserinfo_f
  dsimp only
  rw [if_neg harg, if_pos ⟨hF, hin⟩]
  split_ifs with h
  · rfl
  · exact absurd (show s.cl.lastUserInfoCount + 1 ≥ INFO_CHANGE_MAX_COUNT from hcount) h

/-- The block of SV_ClientThink that applies a postponed userinfo, when it is due. -/
theorem applyPostponedUserinfo_due (e : Engine) (s : St)
    (hcount : INFO_CHANGE_MAX_COUNT ≤ s.cl.lastUserInfoCount)
    (htime : s.cl.lastUserInfoChange < e.svs_time) (hpost : s.cl.userinfoPostponed ≠ "") :
    applyPostponedUserinfo e s =
      (((SV_UserinfoChanged e
          (s.modify (fun cl =>
            { cl with userinfo := Q_strncpyz cl.userinfoPostponed MAX_INFO_STRING }))).emit
          Event.GVM_ClientUserinfoChanged).modify (fun cl =>
        { cl with userinfo := e.Info_SetValueForKey cl.userinfo "name"
                    (e.Info_ValueForKey e.SV_GetConfigstring_player "n"),
                  name := Q_strncpyz (e.Info_ValueForKey e.SV_GetConfigstring_player "n")
                    MAX_NAME_LENGTH })).modify
        (fun cl => { cl with userinfoPostponed := "", lastUserInfoCount := 0,
                             lastUserInfoChange := e.svs_time + INFO_CHANGE_MIN_INTERVAL }) := by
  unfold applyPostponedUserinfo
  rw [St.whenS_eq, decide_eq_true (show s.cl.lastUserInfoCount ≥ INFO_CHANGE_MAX_COUNT from hcount),
    decide_eq_true htime, decide_eq_true hpost]
  rfl

/-- SV_ClientThink on an ACTIVE slot with a postponed userinfo that is due. -/
theorem SV_ClientThink_applies (e : Engine) (s : St) (cmd : usercmd_t)
    (htok : e.Cmd_TokenizeString "followPrev" = ["followPrev"])
    (hact : s.cl.state = CS_ACTIVE)
    (hcount : INFO_CHANGE_MAX_COUNT ≤ s.cl.lastUserInfoCount)
    (htime : s.cl.lastUserInfoChange < e.svs_time) (hpost : s.cl.userinfoPostponed ≠ "") :
    ∃ x : St,
      x.cl = { s.cl with lastUsercmd := cmd,
                         userinfo := Q_strncpyz s.cl.userinfoPostponed MAX_INFO_STRING }
      ∧ SV_ClientThink e s cmd =
          ((((SV_UserinfoChanged e x).emit Event.GVM_ClientUserinfoChanged).modify (fun cl =>
            { cl with userinfo := e.Info_SetValueForKey cl.userinfo "name"
                        (e.Info_ValueForKey e.SV_GetConfigstring_player "n"),
                      name := Q_strncpyz (e.Info_ValueForKey e.SV_GetConfigstring_player "n")
                        MAX_NAME_LENGTH })).modify
            (fun cl => { cl with userinfoPostponed := "", lastUserInfoCount := 0,
                                 lastUserInfoChange := e.svs_time + INFO_CHANGE_MIN_INTERVAL })).emit
            (Event.GVM_ClientThink cmd) := by
  have hfp : (s.whenS (fun c => followPrevWanted e c cmd)
      (fun t => SV_ExecuteClientCommand e t "followPrev" true)).cl = s.cl :=
    St.whenS_cl_of_keeps _ _ _ (fun t => SV_ExecuteClientCommand_followPrev_cl e t htok)
  have hna : ¬ (s.cl.state ≠ CS_ACTIVE) := fun h => h hact
  unfold SV_ClientThink
  dsimp only
  by_cases hD : e.DEDICATED = true
  · rw [if_pos hD, if_neg hna, applyPostponedUserinfo_due e _
      (by rw [St.modify_cl, hfp]; exact hcount) (by rw [St.modify_cl, hfp]; exact htime)
      (by rw [St.modify_cl, hfp]; exact hpost)]
    refine ⟨_, ?_, rfl⟩
    rw [St.modify_cl, St.modify_cl, hfp]
  · rw [if_neg hD, if_neg hna, applyPostponedUserinfo_due e _
      (by rw [St.modify_cl]; exact hcount) (by rw [St.modify_cl]; exact htime)
      (by rw [St.modify_cl]; exact hpost)]
    exact ⟨_, rfl, rfl⟩

/-- C27: in the rate-limited (`FINAL_BUILD`) configuration, let a `userinfo`
command open a window of the throttle at the time `t1` and let three more
follow at times before `t1 + INFO_CHANGE_MIN_INTERVAL`, each with a userinfo
that is not empty.  The first three are applied.  The fourth is not: the slot
changes only in its counter, which reaches 3, and in `userinfoPostponed`, which
takes the argument, so that `userinfo` is unchanged.  An SV_ClientThink of the
slot, if it is ACTIVE, at a time after `t1 + INFO_CHANGE_MIN_INTERVAL` copies
`userinfoPostponed` into `userinfo`, applies it with SV_UserinfoChanged, tells
the game module, and clears `userinfoPostponed` and the counter (the command
`followPrev` that SV_ClientThink may issue being tokenized as itself). -/
theorem userinfo_change_postponed (e : Engine) (s : St) (a1 a2 a3 a4 : Argv) (t1 t2 t3 t4 : Int)
    (hF : e.FINAL_BUILD = true)
    (h1 : Cmd_Argv a1 1 ≠ "") (h2 : Cmd_Argv a2 1 ≠ "") (h3 : Cmd_Argv a3 1 ≠ "")
    (h4 : Cmd_Argv a4 1 ≠ "")
    (hopen : s.cl.lastUserInfoChange ≤ t1)
    (h12 : t2 < t1 + INFO_CHANGE_MIN_INTERVAL) (h13 : t3 < t1 + INFO_CHANGE_MIN_INTERVAL)
    (h14 : t4 < t1 + INFO_CHANGE_MIN_INTERVAL) :
    runUserinfo e s [(t1, a1), (t2, a2), (t3, a3)] =
        applyUserinfo (e.atTime t3)
          ((applyUserinfo (e.atTime t2)
            ((applyUserinfo (e.atTime t1)
              (s.modify (fun cl =>
                { cl with userinfoPostponed := "", lastUserInfoCount := 0,
                          lastUserInfoChange := t1 + INFO_CHANGE_MIN_INTERVAL })) (Cmd_Argv a1 1)).modify
              (fun cl => { cl with lastUserInfoCount := cl.lastUserInfoCount + 1 }))
            (Cmd_Argv a2 1)).modify
            (fun cl => { cl with lastUserInfoCount := cl.lastUserInfoCount + 1 }))
          (Cmd_Argv a3 1)
    ∧ (runUserinfo e s [(t1, a1), (t2, a2), (t3, a3), (t4, a4)]).cl =
        { (runUserinfo e s [(t1, a1), (t2, a2), (t3, a3)]).cl with
          lastUserInfoCount := 3,
          userinfoPostponed := Q_strncpyz (Cmd_Argv a4 1) MAX_INFO_STRING }
    ∧ (runUserinfo e s [(t1, a1), (t2, a2), (t3, a3), (t4, a4)]).cl.userinfo =
        (runUserinfo e s [(t1, a1), (t2, a2), (t3, a3)]).cl.userinfo
    ∧ ∀ (t5 : Int) (cmd : usercmd_t), t1 + INFO_CHANGE_MIN_INTERVAL < t5 →
        (runUserinfo e s [(t1, a1), (t2, a2), (t3, a3), (t4, a4)]).cl.state = CS_ACTIVE →
        e.Cmd_TokenizeString "followPrev" = ["followPrev"] →
        ∃ x : St,
          x.cl = { (runUserinfo e s [(t1, a1), (t2, a2), (t3, a3), (t4, a4)]).cl with
                   lastUsercmd := cmd,
                   userinfo := Q_strncpyz (Cmd_Argv a4 1) MAX_INFO_STRING }
          ∧ SV_ClientThink (e.atTime t5)
              (runUserinfo e s [(t1, a1), (t2, a2), (t3, a3), (t4, a4)]) cmd =
            ((((SV_UserinfoChanged (e.atTime t5) x).emit Event.GVM_ClientUserinfoChanged).modify
              (fun cl =>
                { cl with userinfo := e.Info_SetValueForKey cl.userinfo "name"
                            (e.Info_ValueForKey e.SV_GetConfigstring_player "n"),
                          name := Q_strncpyz (e.Info_ValueForKey e.SV_GetConfigstring_player "n")
                            MAX_NAME_LENGTH })).modify
              (fun cl => { cl with userinfoPostponed := "", lastUserInfoCount := 0,
                                   lastUserInfoChange := t5 + INFO_CHANGE_MIN_INTERVAL })).emit
              (Event.GVM_ClientThink cmd) := by
  -- the three commands that are applied
  have e1 := SV_UpdateUserinfo_f_opens (e.atTime t1) s a1 h1 hopen
  have k1 := sessionOf_applyUserinfo (e.atTime t1)
    (s.modify (fun cl =>
      { cl with userinfoPostponed := "", lastUserInfoCount := 0,
                lastUserInfoChange := (e.atTime t1).svs_time + INFO_CHANGE_MIN_INTERVAL }))
    (Cmd_Argv a1 1)
  rw [← e1] at k1
  have c1 : (SV_UpdateUserinfo_f (e.atTime t1) s a1).1.cl.lastUserInfoChange
      = t1 + INFO_CHANGE_MIN_INTERVAL := congrArg (fun p => p.1) k1
  have n1 : (SV_UpdateUserinfo_f (e.atTime t1) s a1).1.cl.lastUserInfoCount = 0 :=
    congrArg (fun p => p.2.1) k1
  have e2 := SV_UpdateUserinfo_f_counts (e.atTime t2) (SV_UpdateUserinfo_f (e.atTime t1) s a1).1 a2
    hF h2 (by rw [c1]; exact h12) (by rw [n1]; decide)
  have k2 := sessionOf_applyUserinfo (e.atTime t2)
    ((SV_UpdateUserinfo_f (e.atTime t1) s a1).1.modify
      (fun cl => { cl with lastUserInfoCount := cl.lastUserInfoCount + 1 })) (Cmd_Argv a2 1)
  rw [← e2] at k2
  have c2 : (SV_UpdateUserinfo_f (e.atTime t2) (SV_UpdateUserinfo_f (e.atTime t1) s a1).1 a2).1.cl.lastUserInfoChange
      = t1 + INFO_CHANGE_MIN_INTERVAL := (congrArg (fun p => p.1) k2).trans c1
  have n2 : (SV_UpdateUserinfo_f (e.atTime t2) (SV_UpdateUserinfo_f (e.atTime t1) s a1).1 a2).1.cl.lastUserInfoCount
      = 1 := by
    have := congrArg (fun p => p.2.1) k2
    dsimp only [sessionOf, St.modify_cl] at this
    rw [this, n1]
    rfl
  have e3 := SV_UpdateUserinfo_f_counts (e.atTime t3)
    (SV_UpdateUserinfo_f (e.atTime t2) (SV_UpdateUserinfo_f (e.atTime t1) s a1).1 a2).1 a3
    hF h3 (by rw [c2]; exact h13) (by rw [n2]; decide)
  have k3 := sessionOf_applyUserinfo (e.atTime t3)
    ((SV_UpdateUserinfo_f (e.atTime t2) (SV_UpdateUserinfo_f (e.atTime t1) s a1).1 a2).1.modify
      (fun cl => { cl with lastUserInfoCount := cl.lastUserInfoCount + 1 })) (Cmd_Argv a3 1)
  rw [← e3] at k3
  have hs3 : runUserinfo e s [(t1, a1), (t2, a2), (t3, a3)] =
      (SV_UpdateUserinfo_f (e.atTime t3)
        (SV_UpdateUserinfo_f (e.atTime t2) (SV_UpdateUserinfo_f (e.atTime t1) s a1).1 a2).1 a3).1 := rfl
  have c3 : (runUserinfo e s [(t1, a1), (t2, a2), (t3, a3)]).cl.lastUserInfoChange
      = t1 + INFO_CHANGE_MIN_INTERVAL := by
    rw [hs3]
    exact (congrArg (fun p => p.1) k3).trans c2
  have n3 : (runUserinfo e s [(t1, a1), (t2, a2), (t3, a3)]).cl.lastUserInfoCount = 2 := by
    rw [hs3]
    have := congrArg (fun p => p.2.1) k3
    dsimp only [sessionOf, St.modify_cl] at this
    rw [this, n2]
    rfl
  -- the fourth command
  have hs4 : runUserinfo e s [(t1, a1), (t2, a2), (t3, a3), (t4, a4)] =
      (SV_UpdateUserinfo_f (e.atTime t4) (runUserinfo e s [(t1, a1), (t2, a2), (t3, a3)]) a4).1 := rfl
  have e4 := SV_UpdateUserinfo_f_postpones (e.atTime t4)
    (runUserinfo e s [(t1, a1), (t2, a2), (t3, a3)]) a4 hF h4 (by rw [c3]; exact h14)
    (by rw [n3]; decide)
  have hcl4 : (runUserinfo e s [(t1, a1), (t2, a2), (t3, a3), (t4, a4)]).cl =
      { (runUserinfo e s [(t1, a1), (t2, a2), (t3, a3)]).cl with
        lastUserInfoCount := 3,
        userinfoPostponed := Q_strncpyz (Cmd_Argv a4 1) MAX_INFO_STRING } := by
    rw [hs4, e4, St.emit_cl, St.modify_cl, n3]
    rfl
  refine ⟨?_, hcl4, ?_, ?_⟩
  · rw [hs3, e3, e2, e1]
    rfl
  · rw [hcl4]
  · intro t5 cmd h5 hact htok
    have n4 : (runUserinfo e s [(t1, a1), (t2, a2), (t3, a3), (t4, a4)]).cl.lastUserInfoCount = 3 := by
      rw [hcl4]
    have c4 : (runUserinfo e s [(t1, a1), (t2, a2), (t3, a3), (t4, a4)]).cl.lastUserInfoChange
        = t1 + INFO_CHANGE_MIN_INTERVAL := by
      rw [hcl4]
      exact c3
    have p4 : (runUserinfo e s [(t1, a1), (t2, a2), (t3, a3), (t4, a4)]).cl.userinfoPostponed
        = Q_strncpyz (Cmd_Argv a4 1) MAX_INFO_STRING := by rw [hcl4]
    obtain ⟨x, hx, hrun⟩ := SV_ClientThink_applies (e.atTime t5)
      (runUserinfo e s [(t1, a1), (t2, a2), (t3, a3), (t4, a4)]) cmd htok hact
      (by rw [n4]; decide) (by rw [c4]; exact h5)
      (by rw [p4]; exact Q_strncpyz_ne_empty _ _ h4 (by decide))
    refine ⟨x, ?_, hrun⟩
    rw [hx, p4, Q_strncpyz_idem]

/-- Witness for `userinfo_change_postponed`: four changes of the name at the
times 10000, 11000, 12000 and 13000, and a think at the time 17000. -/
theorem userinfo_change_postponed_witness :
    (runUserinfo (infoEngine []) { cl := activeSlot, out := [] } fourChanges).cl.userinfoPostponed
        = "\\name\\D"
    ∧ (runUserinfo (infoEngine []) { cl := activeSlot, out := [] } fourChanges).cl.userinfo
        = (runUserinfo (infoEngine []) { cl := activeSlot, out := [] }
            (fourChanges.take 3)).cl.userinfo
    ∧ (SV_ClientThink ((infoEngine []).atTime 17000)
        (runUserinfo (infoEngine []) { cl := activeSlot, out := [] } fourChanges)
        usercmd_t.zero).cl.userinfoPostponed = ""
    ∧ (SV_ClientThink ((infoEngine []).atTime 17000)
        (runUserinfo (infoEngine []) { cl := activeSlot, out := [] } fourChanges)
        usercmd_t.zero).cl.lastUserInfoCount = 0 := by
  obtain ⟨-, h2, h3, h4⟩ :=
    userinfo_change_postponed (infoEngine []) { cl := activeSlot, out := [] }
      (userinfoArgv "A") (userinfoArgv "B") (userinfoArgv "C") (userinfoArgv "D")
      10000 11000 12000 13000 (by decide) (by decide) (by decide) (by decide) (by decide)
      (by decide) (by decide) (by decide) (by decide)
  obtain ⟨x, -, hrun⟩ := h4 17000 usercmd_t.zero (by decide) (by decide) (by decide)
  refine ⟨?_, h3, ?_, ?_⟩
  · show (runUserinfo (infoEngine []) { cl := activeSlot, out := [] }
      [(10000, userinfoArgv "A"), (11000, userinfoArgv "B"), (12000, userinfoArgv "C"),
       (13000, userinfoArgv "D")]).cl.userinfoPostponed = _
    rw [h2]
    decide
  · exact (congrArg (fun t : St => t.cl.userinfoPostponed) hrun).trans rfl
  · exact (congrArg (fun t : St => t.cl.lastUserInfoCount) hrun).trans rfl

/-! ## The force powers of the userinfo -/

theorem forcePowersScan_spec (l : List Char) : ∀ (prev : Option Char) (i seps : Nat),
    ((forcePowersScan prev i seps l).1 = false ↔
      (∀ c ∈ l, c = '-' ∨ ('0' ≤ c ∧ c ≤ '9'))
      ∧ (∀ k, l.get? k = some '-' → 1 ≤ i + k ∧ i + k ≤ 5)
      ∧ (∀ k, l.get? k = some '-' → l.get? (k + 1) ≠ some '-')
      ∧ (i ≠ 0 → prev = some '-' → l.head? ≠ some '-'))
    ∧ ((forcePowersScan prev i seps l).1 = false →
        (forcePowersScan prev i seps l).2 = seps + l.count '-') := by
  induction l with
  | nil =>
    intro prev i seps
    simp [forcePowersScan]
  | cons c rest ih =>
    intro prev i seps
    unfold forcePowersScan
    by_cases h1 : c ≠ '-' ∧ (c < '0' ∨ c > '9')
    · rw [if_pos h1]
      refine ⟨⟨fun h => absurd h (by simp), ?_⟩, fun h => absurd h (by simp)⟩
      rintro ⟨hall, -⟩
      rcases hall c (List.mem_cons_self _ _) with h | ⟨ha, hb⟩
      · exact absurd h h1.1
      · rcases h1.2 with h | h
        · exact absurd ha (not_le.mpr h)
        · exact absurd hb (not_le.mpr h)
    · rw [if_neg h1]
      by_cases h2 : c = '-' ∧ (i < 1 ∨ i > 5)
      · rw [if_pos h2]
        refine ⟨⟨fun h => absurd h (by simp), ?_⟩, fun h => absurd h (by simp)⟩
        rintro ⟨-, hpos, -⟩
        have := hpos 0 (by rw [h2.1]; rfl)
        omega
      · rw [if_neg h2]
        by_cases h3 : i ≠ 0 ∧ prev = some '-' ∧ c = '-'
        · rw [if_pos h3]
          refine ⟨⟨fun h => absurd h (by simp), ?_⟩, fun h => absurd h (by simp)⟩
          rintro ⟨-, -, -, h4⟩
          exact (h4 h3.1 h3.2.1 (by rw [h3.2.2]; rfl)).elim
        · rw [if_neg h3]
          obtain ⟨ih1, ih2⟩ := ih (some c) (i + 1) (if c = '-' then seps + 1 else seps)
          have hc : c = '-' ∨ ('0' ≤ c ∧ c ≤ '9') := by
            by_cases hd : c = '-'
            · exact Or.inl hd
            · refine Or.inr ⟨?_, ?_⟩
              · by_contra hn
                exact h1 ⟨hd, Or.inl (not_le.mp hn)⟩
              · by_contra hn
                exact h1 ⟨hd, Or.inr (not_le.mp hn)⟩
          refine ⟨?_, ?_⟩
          · rw [ih1]
            constructor
            · rintro ⟨a1, a2, a3, a4⟩
              refine ⟨?_, ?_, ?_, ?_⟩
              · intro d hd
                rcases List.mem_cons.mp hd with hd | hd
                · rw [hd]
                  exact hc
                · exact a1 d hd
              · intro k hk
                cases k with
                | zero =>
                  have hd : c = '-' := by simpa using hk
                  by_contra hn
                  exact h2 ⟨hd, by omega⟩
                | succ j =>
                  have := a2 j (by simpa using hk)
                  omega
              · intro k hk
                cases k with
                | zero =>
                  have hd : c = '-' := by simpa using hk
                  have := a4 (by omega) (by rw [hd])
                  intro hx
                  apply this
                  cases rest with
                  | nil => simp at hx
                  | cons r rs =>
                    simp only [List.get?_cons_succ, List.get?_cons_zero] at hx
                    simpa using hx
                | succ j =>
                  have := a3 j (by simpa using hk)
                  simpa using this
              · intro hi hp hh
                have hd : c = '-' := by simpa using hh
                exact h3 ⟨hi, hp, hd⟩
            · rintro ⟨b1, b2, b3, b4⟩
              refine ⟨fun d hd => b1 d (List.mem_cons_of_mem _ hd), ?_, ?_, ?_⟩
              · intro k hk
                have := b2 (k + 1) (by simpa using hk)
                omega
              · intro k hk
                have := b3 (k + 1) (by simpa using hk)
                simpa using this
              · intro _ hp hh
                have hd : c = '-' := by simpa using hp
                have := b3 0 (by rw [hd]; rfl)
                apply this
                cases rest with
                | nil => simp at hh
                | cons r rs =>
                  simp only [List.head?_cons, Option.some.injEq] at hh
                  rw [hh]
                  rfl
          · intro hf
            rw [ih2 hf]
            by_cases hd : c = '-'
            · rw [if_pos hd, hd, List.count_cons_self]
              omega
            · rw [if_neg hd, List.count_cons_of_ne (fun h => hd h.symm)]

/-- The test of SV_UserinfoChanged on the copied `forcepowers` value accepts
exactly the well-formed values of the specification. -/
theorem badForce_iff (v : String) :
    badForce (Q_strncpyz v 30) = false ↔ forcepowersWellFormed v := by
  have hlen : (Q_strncpyz v 30).length = min 29 v.length := by
    unfold Q_strncpyz
    show (List.take 29 v.toList).length = min 29 v.toList.length
    exact List.length_take _ _
  by_cases hv : v.length ≤ 24
  · have hcopy : Q_strncpyz v 30 = v := by
      unfold Q_strncpyz
      rw [List.take_of_length_le (by
        show v.toList.length ≤ 30 - 1
        have : v.toList.length = v.length := rfl
        omega)]
      rfl
    rw [hcopy]
    unfold badForce forcepowersWellFormed
    by_cases hr : 22 ≤ v.length ∧ v.length ≤ 24
    · rw [if_pos hr]
      obtain ⟨s1, s2⟩ := forcePowersScan_spec v.toList none 0 0
      simp only [Bool.or_eq_false_iff, decide_eq_false_iff_not, not_not]
      constructor
      · rintro ⟨a, b⟩
        obtain ⟨c1, c2, c3, -⟩ := s1.mp a
        have hcnt := s2 a
        rw [hcnt] at b
        have hle : v.toList.count '-' ≤ v.length := List.count_le_length _ _
        refine ⟨hr.1, hr.2, c1, by omega, fun i hi => by simpa using c2 i hi, c3⟩
      · rintro ⟨-, -, c1, c4, c2, c3⟩
        have a : (forcePowersScan none 0 0 v.toList).1 = false :=
          s1.mpr ⟨c1, fun k hk => by simpa using c2 k hk, c3, fun h => absurd rfl h⟩
        refine ⟨a, ?_⟩
        rw [s2 a, c4]
    · rw [if_neg hr]
      constructor
      · intro h
        exact absurd h (by simp)
      · rintro ⟨a, b, -⟩
        exact absurd ⟨a, b⟩ hr
  · constructor
    · intro h
      unfold badForce at h
      rw [if_neg (by rw [hlen]; omega)] at h
      exact absurd h (by simp)
    · rintro ⟨-, b, -⟩
      exact absurd b hv

theorem userinfoPlugin_userinfo (e : Engine) (s : St) :
    (userinfoPlugin e s).cl.userinfo = s.cl.userinfo := by
  unfold userinfoPlugin
  by_cases hD : e.DEDICATED = true
  · rw [if_pos hD]
    simp only [St.modify_cl]
    split_ifs <;> rfl
  · rw [if_neg hD]

/-- With the force-power fix enabled, SV_UserinfoChanged hands to
`Info_SetValueForKey`, for the key `forcepowers`, the value that it finds in
the userinfo when that value is well-formed (length 22 to 24, only digits and
`-`, exactly two `-`, both at an index from 1 to 5 and not next to each other),
and the default `7-1-030000000000003332` in every other case; where reading
the key from the info string returns what was handed over, the `forcepowers`
value after SV_UserinfoChanged is that value. -/
theorem forcepowers_normalised (e : Engine) (s : St)
    (hfix : legacyFix e "ALLOW_INVALID_FORCEPOWERS" = true) :
    ∃ x : String,
      (SV_UserinfoChanged e s).cl.userinfo =
        e.Info_SetValueForKey (userinfoBeforeForcepowers e s).cl.userinfo "forcepowers" x
      ∧ (forcepowersWellFormed
            (e.Info_ValueForKey (userinfoBeforeForcepowers e s).cl.userinfo "forcepowers") →
          x = e.Info_ValueForKey (userinfoBeforeForcepowers e s).cl.userinfo "forcepowers")
      ∧ (¬ forcepowersWellFormed
            (e.Info_ValueForKey (userinfoBeforeForcepowers e s).cl.userinfo "forcepowers") →
          x = defaultForcepowers)
      ∧ (e.Info_ValueForKey
            (e.Info_SetValueForKey (userinfoBeforeForcepowers e s).cl.userinfo "forcepowers" x)
            "forcepowers" = x →
          e.Info_ValueForKey (SV_UserinfoChanged e s).cl.userinfo "forcepowers" = x) := by
  have hrun : (SV_UserinfoChanged e s).cl.userinfo =
      e.Info_SetValueForKey (userinfoBeforeForcepowers e s).cl.userinfo "forcepowers"
        (if badForce (Q_strncpyz
            (e.Info_ValueForKey (userinfoBeforeForcepowers e s).cl.userinfo "forcepowers") 30) = true
          then Q_strncpyz "7-1-030000000000003332" 30
          else Q_strncpyz
            (e.Info_ValueForKey (userinfoBeforeForcepowers e s).cl.userinfo "forcepowers") 30) := by
    show (userinfoPlugin e (userinfoForcepowers e (userinfoBeforeForcepowers e s))).cl.userinfo = _
    rw [userinfoPlugin_userinfo]
    unfold userinfoForcepowers
    rw [if_pos hfix]
    rfl
  refine ⟨_, hrun, fun hw => ?_, fun hw => ?_, fun hg => ?_⟩
  · have hb := (badForce_iff _).mpr hw
    rw [if_neg (by rw [hb]; simp)]
    unfold Q_strncpyz
    rw [List.take_of_length_le (by
      have h24 := hw.2.1
      show (e.Info_ValueForKey (userinfoBeforeForcepowers e s).cl.userinfo
        "forcepowers").toList.length ≤ 30 - 1
      have : (e.Info_ValueForKey (userinfoBeforeForcepowers e s).cl.userinfo
        "forcepowers").toList.length = (e.Info_ValueForKey
          (userinfoBeforeForcepowers e s).cl.userinfo "forcepowers").length := rfl
      omega)]
    rfl
  · have hb : badForce (Q_strncpyz
        (e.Info_ValueForKey (userinfoBeforeForcepowers e s).cl.userinfo "forcepowers") 30)
        = true := by
      cases h : badForce (Q_strncpyz
        (e.Info_ValueForKey (userinfoBeforeForcepowers e s).cl.userinfo "forcepowers") 30)
      · exact absurd ((badForce_iff _).mp h) hw
      · rfl
    rw [if_pos hb]
    decide
  · rw [hrun]
    exact hg

/-- Example for `forcepowers_normalised`: on a server with the fix enabled a
well-formed value is kept and a value with a letter is replaced. -/
theorem forcepowers_normalised_example :
    legacyFix fixesEngine "ALLOW_INVALID_FORCEPOWERS" = true
    ∧ (∃ x : String,
        (SV_UserinfoChanged fixesEngine { cl := forceSlot, out := [] }).cl.userinfo =
          fixesEngine.Info_SetValueForKey
            (userinfoBeforeForcepowers fixesEngine { cl := forceSlot, out := [] }).cl.userinfo
            "forcepowers" x
        ∧ (forcepowersWellFormed
              (fixesEngine.Info_ValueForKey
                (userinfoBeforeForcepowers fixesEngine { cl := forceSlot, out := [] }).cl.userinfo
                "forcepowers") →
            x = fixesEngine.Info_ValueForKey
              (userinfoBeforeForcepowers fixesEngine { cl := forceSlot, out := [] }).cl.userinfo
              "forcepowers"))
    ∧ fixesEngine.Info_ValueForKey
        (SV_UserinfoChanged fixesEngine { cl := forceSlot, out := [] }).cl.userinfo "forcepowers"
        = "7-1-032330000000001333"
    ∧ fixesEngine.Info_ValueForKey
        (SV_UserinfoChanged fixesEngine { cl := badForceSlot, out := [] }).cl.userinfo "forcepowers"
        = defaultForcepowers := by
  obtain ⟨x, h1, h2, -, -⟩ :=
    forcepowers_normalised fixesEngine { cl := forceSlot, out := [] } (by decide)
  exact ⟨by decide, ⟨x, h1, h2⟩, by decide, by decide⟩

/-- C28 at its failing input: on a server with the force-power fix enabled a
connected client sends a userinfo of 1000 bytes whose `forcepowers` value is
`x`.  The ip pair still fits and the client is not dropped; the force-power
block finds `x`, which is not well-formed, and writes the default without a
test of the length: the pair does not fit below `MAX_INFO_STRING`, and the
userinfo after SV_UserinfoChanged has no `forcepowers` value at all, neither
the value of the client nor the default. -/
theorem forcepowers_full_userinfo :
    legacyFix boundedInfoEngine "ALLOW_INVALID_FORCEPOWERS" = true
    ∧ fullUserinfoSlot.userinfo.length = 1000
    ∧ boundedInfoEngine.Info_ValueForKey
        (userinfoBeforeForcepowers boundedInfoEngine
          { cl := fullUserinfoSlot, out := [] }).cl.userinfo "forcepowers" = "x"
    ∧ ¬ forcepowersWellFormed "x"
    ∧ (SV_UserinfoChanged boundedInfoEngine { cl := fullUserinfoSlot, out := [] }).cl.state
        = CS_CONNECTED
    ∧ boundedInfoEngine.Info_ValueForKey
        (SV_UserinfoChanged boundedInfoEngine { cl := fullUserinfoSlot, out := [] }).cl.userinfo
        "ip" = "10.0.0.2:29070"
    ∧ boundedInfoEngine.Info_ValueForKey
        (SV_UserinfoChanged boundedInfoEngine { cl := fullUserinfoSlot, out := [] }).cl.userinfo
        "forcepowers" = ""
    ∧ boundedInfoEngine.Info_ValueForKey
        (SV_UserinfoChanged boundedInfoEngine { cl := fullUserinfoSlot, out := [] }).cl.userinfo
        "forcepowers" ≠ defaultForcepowers := by
  refine ⟨by decide, by decide, by decide, fun h => absurd h.1 (by decide), by decide, by decide,
    by decide, by decide⟩

/-! ## SV_ClientCleanName -/

theorem SV_ClientCleanName_eq (e : Engine) (inp : String) (n : Nat) :
    SV_ClientCleanName e inp n =
      if (cleanNameLoop e n (cleanNameStart e inp) [] 0).1 = []
          ∨ (cleanNameLoop e n (cleanNameStart e inp) [] 0).2 = 0 then Q_strncpyz "Padawan" n
      else String.mk (cleanNameLoop e n (cleanNameStart e inp) [] 0).1 := by
  unfold SV_ClientCleanName cleanNameStart
  by_cases h : e.svs_servermod = servermod_t.SVMOD_BASEJKA
  · simp only [if_pos h]
  · simp only [if_neg h]

theorem cleanNameKept_cons (c : Char) (rest : List Char) :
    cleanNameKept (c :: rest) =
      if cleanNameTriple c rest = true ∨ c.toNat < 0x20 ∨ c.toNat ∈ cleanNameBlacklist then
        cleanNameKept rest
      else c :: cleanNameKept rest := rfl

theorem colorlessDelta_cons (e : Engine) (prev : Option Char) (c : Char) (t : List Char) :
    colorlessDelta e prev (c :: t) =
      (if prev = some Q_COLOR_ESCAPE then
          (if e.Q_IsColorStringExt Q_COLOR_ESCAPE c = true then -1 else 1)
        else 1)
        + colorlessDelta e (some c) t := rfl

/-- The main loop of SV_ClientCleanName, in closed form: the kept bytes are
appended while the buffer has room, and `colorlessLen` changes with them. -/
theorem cleanNameLoop_eq (e : Engine) (n : Nat) (l : List Char) :
    ∀ (out : List Char) (k : Int),
      cleanNameLoop e n l out k =
        (out ++ (cleanNameKept l).take (n - 1 - out.length),
          k + colorlessDelta e out.getLast? ((cleanNameKept l).take (n - 1 - out.length))) := by
  induction l with
  | nil =>
    intro out k
    simp [cleanNameLoop, cleanNameKept, colorlessDelta]
  | cons c rest ih =>
    intro out k
    unfold cleanNameLoop
    by_cases h0 : out.length < n - 1
    · rw [if_neg (not_not.mpr h0)]
      by_cases h1 : cleanNameTriple c rest = true
      · rw [if_pos h1, ih]
        rw [cleanNameKept_cons, if_pos (Or.inl h1)]
      · rw [if_neg h1]
        by_cases h2 : c.toNat < 0x20
        · rw [if_pos h2, ih]
          rw [show cleanNameKept (c :: rest) = cleanNameKept rest from by
            rw [cleanNameKept_cons, if_pos (Or.inr (Or.inl h2))]]
        · rw [if_neg h2]
          by_cases h3 : c.toNat ∈ cleanNameBlacklist
          · rw [if_pos h3, ih]
            rw [show cleanNameKept (c :: rest) = cleanNameKept rest from by
              rw [cleanNameKept_cons, if_pos (Or.inr (Or.inr h3))]]
          · rw [if_neg h3]
            have hk : cleanNameKept (c :: rest) = c :: cleanNameKept rest := by
              rw [cleanNameKept_cons, if_neg (by
                rintro (h | h | h)
                · exact h1 h
                · exact h2 h
                · exact h3 h)]
            have hm : n - 1 - out.length = (n - 1 - (out ++ [c]).length) + 1 := by
              rw [List.length_append, List.length_singleton]
              omega
            have hlast : (out ++ [c]).getLast? = some c := by simp
            rw [hk, hm, List.take_succ_cons]
            by_cases h4 : out.getLast? = some Q_COLOR_ESCAPE
            · rw [if_pos h4]
              by_cases h5 : e.Q_IsColorStringExt Q_COLOR_ESCAPE c = true
              · rw [if_pos h5, ih, hlast]
                rw [colorlessDelta_cons, if_pos h4, if_pos h5]
                refine Prod.ext (by simp) ?_
                show k - 1 + _ = k + (-1 + _)
                omega
              · rw [if_neg h5, ih, hlast]
                rw [colorlessDelta_cons, if_pos h4, if_neg h5]
                refine Prod.ext (by simp) ?_
                show k + 1 + _ = k + (1 + _)
                omega
            · rw [if_neg h4, ih, hlast]
              rw [colorlessDelta_cons, if_neg h4]
              refine Prod.ext (by simp) ?_
              show k + 1 + _ = k + (1 + _)
              omega
    · rw [if_pos h0]
      have : n - 1 - out.length = 0 := by omega
      rw [this]
      simp [colorlessDelta]

theorem cleanNameTriple_take (c : Char) (rest : List Char) :
    cleanNameTriple c rest = cleanNameTriple c (rest.take 2) := by
  match rest with
  | [] => rfl
  | [_] => rfl
  | _ :: _ :: _ => rfl

theorem cleanNameTriple_cons (c c1 : Char) (rest : List Char)
    (h : cleanNameTriple c (c1 :: rest) = true) : ∃ rest', rest = c :: rest' ∧ c1 = c := by
  match rest with
  | [] => exact absurd h (by simp [cleanNameTriple])
  | c2 :: rest' =>
    simp only [cleanNameTriple, Bool.or_eq_true, Bool.and_eq_true, beq_iff_eq] at h
    rcases h with ⟨⟨a, b⟩, c'⟩ | ⟨⟨a, b⟩, c'⟩
    · exact ⟨rest', by rw [c', a], by rw [b, a]⟩
    · exact ⟨rest', by rw [c', a], by rw [b, a]⟩

/-- The kept bytes of a plain list begin like the list. -/
theorem cleanNameKept_take_two (l : List Char)
    (hl : ∀ c ∈ l, 0x20 ≤ c.toNat ∧ c.toNat ∉ cleanNameBlacklist) :
    (cleanNameKept l).head? = l.head? ∧ (cleanNameKept l).take 2 = l.take 2 := by
  induction l with
  | nil => exact ⟨rfl, rfl⟩
  | cons c rest ih =>
    obtain ⟨ih1, ih2⟩ := ih (fun d hd => hl d (List.mem_cons_of_mem _ hd))
    have hc := hl c (List.mem_cons_self _ _)
    rw [cleanNameKept_cons]
    by_cases h1 : cleanNameTriple c rest = true
    · rw [if_pos (Or.inl h1)]
      match rest, h1, ih1, ih2 with
      | [], h1, _, _ => exact absurd h1 (by simp [cleanNameTriple])
      | c1 :: rest1, h1, ih1, ih2 =>
        obtain ⟨rest2, hr, hc1⟩ := cleanNameTriple_cons c c1 rest1 h1
        subst hr
        subst hc1
        exact ⟨by rw [ih1]; rfl, by rw [ih2]; rfl⟩
    · rw [if_neg (by
        rintro (h | h | h)
        · exact h1 h
        · omega
        · exact hc.2 h)]
      refine ⟨rfl, ?_⟩
      show c :: (cleanNameKept rest).take 1 = c :: rest.take 1
      congr 1
      have := ih1
      cases hk : cleanNameKept rest with
      | nil =>
        rw [hk] at this
        cases rest with
        | nil => rfl
        | cons r rs => simp at this
      | cons k ks =>
        rw [hk] at this
        cases rest with
        | nil => simp at this
        | cons r rs =>
          simp only [List.head?_cons, Option.some.injEq] at this
          rw [this]
          rfl

theorem cleanNameKept_subset (l : List Char) : ∀ c ∈ cleanNameKept l, c ∈ l := by
  induction l with
  | nil =>
    intro c hc
    exact hc
  | cons d rest ih =>
    intro c hc
    rw [cleanNameKept_cons] at hc
    split_ifs at hc
    · exact List.mem_cons_of_mem _ (ih c hc)
    · rcases List.mem_cons.mp hc with h | h
      · rw [h]
        exact List.mem_cons_self _ _
      · exact List.mem_cons_of_mem _ (ih c h)

/-- Among the kept bytes of a plain list no byte is the first of three blanks or of three `@`. -/
theorem tripleFree_cleanNameKept (l : List Char)
    (hl : ∀ c ∈ l, 0x20 ≤ c.toNat ∧ c.toNat ∉ cleanNameBlacklist) :
    tripleFree (cleanNameKept l) := by
  induction l with
  | nil => exact trivial
  | cons c rest ih =>
    have ihr := ih (fun d hd => hl d (List.mem_cons_of_mem _ hd))
    rw [cleanNameKept_cons]
    split_ifs with h
    · exact ihr
    · refine ⟨?_, ihr⟩
      rw [cleanNameTriple_take,
        (cleanNameKept_take_two rest (fun d hd => hl d (List.mem_cons_of_mem _ hd))).2,
        ← cleanNameTriple_take]
      cases ht : cleanNameTriple c rest
      · rfl
      · exact absurd (Or.inl ht) h

theorem cleanNameTriple_take_false (c : Char) (rest : List Char) (m : Nat)
    (h : cleanNameTriple c rest = false) : cleanNameTriple c (rest.take m) = false := by
  match rest, m, h with
  | [], m, _ => simp [cleanNameTriple]
  | [a], 0, _ => rfl
  | [a], m + 1, _ => simp [cleanNameTriple]
  | a :: b :: r, 0, _ => rfl
  | a :: b :: r, 1, _ => rfl
  | a :: b :: r, m + 2, h => simpa [cleanNameTriple] using h

theorem tripleFree_take (l : List Char) (h : tripleFree l) : ∀ m, tripleFree (l.take m) := by
  induction l with
  | nil =>
    intro m
    rw [List.take_nil]
    exact trivial
  | cons c rest ih =>
    intro m
    cases m with
    | zero => exact trivial
    | succ m =>
      rw [List.take_succ_cons]
      exact ⟨cleanNameTriple_take_false c rest m h.1, ih h.2 m⟩

theorem cleanNameKept_of_tripleFree (l : List Char)
    (hl : ∀ c ∈ l, 0x20 ≤ c.toNat ∧ c.toNat ∉ cleanNameBlacklist) (ht : tripleFree l) :
    cleanNameKept l = l := by
  induction l with
  | nil => rfl
  | cons c rest ih =>
    have hc := hl c (List.mem_cons_self _ _)
    rw [cleanNameKept_cons]
    rw [if_neg (by
      rintro (h | h | h)
      · rw [ht.1] at h
        exact absurd h (by simp)
      · omega
      · exact hc.2 h), ih (fun d hd => hl d (List.mem_cons_of_mem _ hd)) ht.2]

theorem dropWhile_eq_self_of_head (p : Char → Bool) (l : List Char)
    (h : ∀ c, l.head? = some c → p c = false) : l.dropWhile p = l := by
  cases l with
  | nil => rfl
  | cons c rest =>
    rw [List.dropWhile_cons, h c rfl]
    rfl

theorem head_dropWhile (p : Char → Bool) (l : List Char) :
    ∀ c, (l.dropWhile p).head? = some c → p c = false := by
  induction l with
  | nil =>
    intro c hc
    simp at hc
  | cons d rest ih =>
    intro c hc
    rw [List.dropWhile_cons] at hc
    cases hd : p d
    · rw [hd] at hc
      simp only [Bool.false_eq_true, if_false, List.head?_cons, Option.some.injEq] at hc
      rw [← hc]
      exact hd
    · rw [hd] at hc
      exact ih c (by simpa using hc)

/-- A name that begins with neither a blank nor (on a BASEJKA server) an
asterisk is handed to the main loop as it is. -/
theorem cleanNameStart_of_head (e : Engine) (t : List Char) (h1 : t.head? ≠ some ' ')
    (h2 : e.svs_servermod = servermod_t.SVMOD_BASEJKA → t.head? ≠ some '*') :
    cleanNameStart e (String.mk t) = t := by
  have hb1 : List.dropWhile (fun c => c == ' ') t = t := by
    apply dropWhile_eq_self_of_head
    intro c hc
    cases hcc : (c == ' ')
    · rfl
    · rw [beq_iff_eq] at hcc
      rw [hcc] at hc
      exact absurd hc h1
  unfold cleanNameStart
  split_ifs with hb
  · show List.dropWhile (fun c => c == '*') (List.dropWhile (fun c => c == ' ') t) = t
    rw [hb1]
    apply dropWhile_eq_self_of_head
    intro c hc
    cases hcc : (c == '*')
    · rfl
    · rw [beq_iff_eq] at hcc
      rw [hcc] at hc
      exact absurd hc (h2 hb)
  · exact hb1

/-- The name `Padawan` is left as it is. -/
theorem SV_ClientCleanName_Padawan (e : Engine) :
    SV_ClientCleanName e "Padawan" MAX_NAME_LENGTH = "Padawan" := by
  have hstart : cleanNameStart e "Padawan" = "Padawan".toList := by
    unfold cleanNameStart
    split_ifs <;> rfl
  rw [SV_ClientCleanName_eq, hstart, cleanNameLoop_eq]
  have hk : cleanNameKept "Padawan".toList = "Padawan".toList := by decide
  have hd : colorlessDelta e ([] : List Char).getLast?
      (List.take (MAX_NAME_LENGTH - 1 - ([] : List Char).length) "Padawan".toList) = 7 := by
    show colorlessDelta e none "Padawan".toList = 7
    simp [colorlessDelta, Q_COLOR_ESCAPE]
  rw [hk, hd]
  rfl

/-- C26 at its failing input: a control byte in front of a blank (on every
server) and an asterisk in front of a blank (on a BASEJKA server) are removed
after the leading blanks were discarded, so that the cleaned name begins with
a blank, which a second cleaning removes: the cleaning is not idempotent. -/
theorem SV_ClientCleanName_leading_blank :
    SV_ClientCleanName (engineWith []) "\x01 a" MAX_NAME_LENGTH = " a"
    ∧ SV_ClientCleanName (engineWith []) " a" MAX_NAME_LENGTH = "a"
    ∧ SV_ClientCleanName (engineWith [])
        (SV_ClientCleanName (engineWith []) "\x01 a" MAX_NAME_LENGTH) MAX_NAME_LENGTH
        ≠ SV_ClientCleanName (engineWith []) "\x01 a" MAX_NAME_LENGTH
    ∧ SV_ClientCleanName basejkaEngine "* a" MAX_NAME_LENGTH = " a"
    ∧ SV_ClientCleanName basejkaEngine
        (SV_ClientCleanName basejkaEngine "* a" MAX_NAME_LENGTH) MAX_NAME_LENGTH
        ≠ SV_ClientCleanName basejkaEngine "* a" MAX_NAME_LENGTH := by
  decide

/-- SV_ClientCleanName with the 64-byte name buffer is idempotent on every
name that holds no byte below 0x20 and none of the seven dropped bytes and, on
a BASEJKA server, does not have a blank right after its leading blanks and
asterisks: cleaning the cleaned name returns it unchanged. -/
theorem SV_ClientCleanName_idempotent (e : Engine) (s : String) (hplain : plainName s)
    (hstar : e.svs_servermod = servermod_t.SVMOD_BASEJKA → (cleanNameStart e s).head? ≠ some ' ') :
    SV_ClientCleanName e (SV_ClientCleanName e s MAX_NAME_LENGTH) MAX_NAME_LENGTH
      = SV_ClientCleanName e s MAX_NAME_LENGTH := by
  -- the list the loop runs over is plain and does not begin with a blank
  have hsub : ∀ c ∈ cleanNameStart e s, c ∈ s.toList := by
    intro c hc
    unfold cleanNameStart at hc
    split_ifs at hc
    · exact (List.dropWhile_sublist _).subset ((List.dropWhile_sublist _).subset hc)
    · exact (List.dropWhile_sublist _).subset hc
  have hin : ∀ c ∈ cleanNameStart e s, 0x20 ≤ c.toNat ∧ c.toNat ∉ cleanNameBlacklist :=
    fun c hc => hplain c (hsub c hc)
  have hblank : (cleanNameStart e s).head? ≠ some ' ' := by
    by_cases hb : e.svs_servermod = servermod_t.SVMOD_BASEJKA
    · exact hstar hb
    · unfold cleanNameStart
      rw [if_neg hb]
      intro h
      have := head_dropWhile (fun c => c == ' ') s.toList ' ' h
      exact absurd this (by decide)
  have hast : e.svs_servermod = servermod_t.SVMOD_BASEJKA →
      (cleanNameStart e s).head? ≠ some '*' := by
    intro hb
    unfold cleanNameStart
    rw [if_pos hb]
    intro h
    have := head_dropWhile (fun c => c == '*') _ '*' h
    exact absurd this (by decide)
  -- the first cleaning
  have hT : cleanNameLoop e MAX_NAME_LENGTH (cleanNameStart e s) [] 0 =
      ((cleanNameKept (cleanNameStart e s)).take 63,
        colorlessDelta e none ((cleanNameKept (cleanNameStart e s)).take 63)) := by
    rw [cleanNameLoop_eq]
    refine Prod.ext ?_ ?_
    · show [] ++ _ = _
      rw [List.nil_append]
      rfl
    · show (0 : Int) + _ = _
      rw [zero_add]
      rfl
  rw [SV_ClientCleanName_eq e s, hT]
  dsimp only
  split_ifs with hp
  · rw [show Q_strncpyz "Padawan" MAX_NAME_LENGTH = "Padawan" from by decide]
    exact SV_ClientCleanName_Padawan e
  · -- the second cleaning runs over the same bytes
    have hhead : ((cleanNameKept (cleanNameStart e s)).take 63).head? = (cleanNameStart e s).head? := by
      rw [← (cleanNameKept_take_two _ hin).1]
      cases cleanNameKept (cleanNameStart e s) <;> rfl
    have hstart2 : cleanNameStart e (String.mk ((cleanNameKept (cleanNameStart e s)).take 63))
        = (cleanNameKept (cleanNameStart e s)).take 63 :=
      cleanNameStart_of_head e _ (by rw [hhead]; exact hblank)
        (fun hb => by rw [hhead]; exact hast hb)
    have hplainT : ∀ c ∈ (cleanNameKept (cleanNameStart e s)).take 63,
        0x20 ≤ c.toNat ∧ c.toNat ∉ cleanNameBlacklist :=
      fun c hc => hin c (cleanNameKept_subset _ c ((List.take_sublist _ _).subset hc))
    have hfree : tripleFree ((cleanNameKept (cleanNameStart e s)).take 63) :=
      tripleFree_take _ (tripleFree_cleanNameKept _ hin) 63
    have hT2 : cleanNameLoop e MAX_NAME_LENGTH ((cleanNameKept (cleanNameStart e s)).take 63) [] 0 =
        ((cleanNameKept (cleanNameStart e s)).take 63,
          colorlessDelta e none ((cleanNameKept (cleanNameStart e s)).take 63)) := by
      rw [cleanNameLoop_eq, cleanNameKept_of_tripleFree _ hplainT hfree]
      have htake : List.take (MAX_NAME_LENGTH - 1 - ([] : List Char).length)
          ((cleanNameKept (cleanNameStart e s)).take 63)
          = (cleanNameKept (cleanNameStart e s)).take 63 := by
        show List.take 63 (List.take 63 _) = _
        rw [List.take_take, min_self]
      rw [htake]
      refine Prod.ext ?_ ?_
      · show [] ++ _ = _
        rw [List.nil_append]
      · show (0 : Int) + _ = _
        rw [zero_add]
        rfl
    rw [SV_ClientCleanName_eq, hstart2, hT2]
    dsimp only
    rw [if_neg hp]

/-- Example for `SV_ClientCleanName_idempotent`: a name with leading blanks,
a run of blanks, a colour code and a run of `@`. -/
theorem SV_ClientCleanName_idempotent_example :
    SV_ClientCleanName (engineWith []) "  Luke    ^1Sky@@@@" MAX_NAME_LENGTH = "Luke  ^1Sky@@"
    ∧ SV_ClientCleanName (engineWith [])
        (SV_ClientCleanName (engineWith []) "  Luke    ^1Sky@@@@" MAX_NAME_LENGTH) MAX_NAME_LENGTH
        = SV_ClientCleanName (engineWith []) "  Luke    ^1Sky@@@@" MAX_NAME_LENGTH :=
  ⟨by decide,
    SV_ClientCleanName_idempotent (engineWith []) "  Luke    ^1Sky@@@@"
      (by unfold plainName; decide) (by decide)⟩

/-! ## The commands decoded under sv_strictPacketTimestamp -/

theorem fixUsercmd_serverTime (e : Engine) (raw : usercmd_t)
    (hstrict : (e.cvar "sv_strictPacketTimestamp").integer ≠ 0) :
    (raw.serverTime < e.sv_time - 1000 →
        (fixUsercmd e true raw).serverTime = e.sv_time - 1000)
    ∧ (raw.serverTime > e.sv_time + 200 →
        (fixUsercmd e true raw).serverTime = e.sv_time + 200)
    ∧ (e.sv_time - 1000 ≤ raw.serverTime → raw.serverTime ≤ e.sv_time + 200 →
        (fixUsercmd e true raw).serverTime = raw.serverTime) := by
  have key : ∀ c : usercmd_t,
      (if (e.cvar "sv_strictPacketTimestamp").integer ≠ 0 ∧ true = true then
        if c.serverTime < e.sv_time - 1000 then { c with serverTime := e.sv_time - 1000 }
        else if c.serverTime > e.sv_time + 200 then { c with serverTime := e.sv_time + 200 }
        else c
      else c).serverTime
      = if c.serverTime < e.sv_time - 1000 then e.sv_time - 1000
        else if c.serverTime > e.sv_time + 200 then e.sv_time + 200 else c.serverTime := by
    intro c
    rw [if_pos ⟨hstrict, rfl⟩]
    split_ifs <;> rfl
  have hfix : (fixUsercmd e true raw).serverTime
      = if raw.serverTime < e.sv_time - 1000 then e.sv_time - 1000
        else if raw.serverTime > e.sv_time + 200 then e.sv_time + 200 else raw.serverTime := by
    unfold fixUsercmd
    dsimp only
    rw [key]
    split_ifs <;> rfl
  refine ⟨fun h => ?_, fun h => ?_, fun h1 h2 => ?_⟩
  · rw [hfix, if_pos h]
  · rw [hfix, if_neg (by omega), if_pos h]
  · rw [hfix, if_neg (by omega), if_neg (by omega)]

theorem decodeUsercmds_length (e : Engine) (key : Int) (active : Bool) (old : usercmd_t)
    (ws : List (List Nat)) : (decodeUsercmds e key active old ws).length = ws.length := by
  induction ws generalizing old with
  | nil => rfl
  | cons w ws ih =>
    unfold decodeUsercmds
    simp only [List.length_cons, ih]

/-- Every command of the decoding loop is the command read from the wire
against the command before it (the zeroed command for the first), with the
fixes applied. -/
theorem decodeUsercmds_get (e : Engine) (key : Int) (active : Bool) (old : usercmd_t)
    (ws : List (List Nat)) (i : Nat) (c : usercmd_t)
    (h : (decodeUsercmds e key active old ws).get? i = some c) :
    c = fixUsercmd e active (e.MSG_ReadDeltaUsercmdKey key
      (if i = 0 then old else (decodeUsercmds e key active old ws).getD (i - 1) old)
      (ws.getD i [])) := by
  induction ws generalizing old i with
  | nil => simp [decodeUsercmds] at h
  | cons w ws ih =>
    unfold decodeUsercmds at h ⊢
    cases i with
    | zero =>
      simp only [List.get?_cons_zero, Option.some.injEq] at h
      rw [← h]
      simp
    | succ j =>
      simp only [List.get?_cons_succ] at h
      have := ih _ j h
      rw [this]
      cases j with
      | zero => simp
      | succ k =>
        simp only [Nat.add_one_ne_zero, if_false, Nat.add_sub_cancel, List.getD_cons_succ]
        have hk : k < (decodeUsercmds e key active
            (fixUsercmd e active (e.MSG_ReadDeltaUsercmdKey key old w)) ws).length := by
          have := List.get?_eq_some.mp h
          obtain ⟨hlt, _⟩ := this
          omega
        rw [List.getD_eq_getElem _ _ hk, List.getD_eq_getElem _ _ hk]

theorem userMoveCmds_wire (cmdCount : Int) (wire : List (List Nat)) (i : Nat)
    (hi : i < cmdCount.toNat) :
    ((List.range cmdCount.toNat).map (fun i => wire.getD i [])).getD i [] = wire.getD i [] := by
  rw [List.getD_eq_getElem _ _ (by simpa using hi)]
  simp

/-- C31: when `sv_strictPacketTimestamp` is on and the slot is ACTIVE, SV_UserMove
(for a `cmdCount` in range, so that commands are decoded at all) works on the
commands `userMoveCmds`, `cmdCount` of them, and each of them has its
`serverTime` in `[sv.time - 1000, sv.time + 200]`: with `raw` the command as
read from the wire against the command before it, a `raw.serverTime` inside
the interval is kept, a lower one becomes `sv.time - 1000`, a higher one
`sv.time + 200`. -/
theorem SV_UserMove_strict_timestamp (e : Engine) (cl : St) (delta : Bool) (cmdCount : Int)
    (wire : List (List Nat)) (h1 : 1 ≤ cmdCount) (h2 : cmdCount ≤ MAX_PACKET_USERCMDS)
    (hstrict : (e.cvar "sv_strictPacketTimestamp").integer ≠ 0)
    (hact : cl.cl.state = CS_ACTIVE) :
    SV_UserMove e cl delta cmdCount wire =
        userMoveExecute e (userMoveReady e cl delta) (userMoveCmds e cl cmdCount wire)
          (userMoveOldServerTime e cl)
    ∧ (userMoveCmds e cl cmdCount wire).length = cmdCount.toNat
    ∧ ∀ i c, (userMoveCmds e cl cmdCount wire).get? i = some c →
        (e.sv_time - 1000 ≤ c.serverTime ∧ c.serverTime ≤ e.sv_time + 200)
        ∧ ∀ raw, raw = e.MSG_ReadDeltaUsercmdKey (usercmdKey e cl.cl)
              (if i = 0 then usercmd_t.zero
                else (userMoveCmds e cl cmdCount wire).getD (i - 1) usercmd_t.zero)
              (wire.getD i []) →
            (raw.serverTime < e.sv_time - 1000 → c.serverTime = e.sv_time - 1000)
            ∧ (raw.serverTime > e.sv_time + 200 → c.serverTime = e.sv_time + 200)
            ∧ (e.sv_time - 1000 ≤ raw.serverTime → raw.serverTime ≤ e.sv_time + 200 →
                c.serverTime = raw.serverTime) := by
  have hlen : (userMoveCmds e cl cmdCount wire).length = cmdCount.toNat := by
    unfold userMoveCmds
    rw [decodeUsercmds_length]
    simp
  refine ⟨SV_UserMove_eq e cl delta cmdCount wire h1 h2, hlen, fun i c hc => ?_⟩
  have hi : i < cmdCount.toNat := by
    have := (List.get?_eq_some.mp hc).1
    omega
  have hget : c = fixUsercmd e true (e.MSG_ReadDeltaUsercmdKey (usercmdKey e cl.cl)
      (if i = 0 then usercmd_t.zero
        else (userMoveCmds e cl cmdCount wire).getD (i - 1) usercmd_t.zero)
      (wire.getD i [])) := by
    have hc' := hc
    unfold userMoveCmds at hc' ⊢
    rw [hact] at hc' ⊢
    have := decodeUsercmds_get e _ _ _ _ i c hc'
    rw [userMoveCmds_wire cmdCount wire i hi] at this
    simpa using this
  obtain ⟨f1, f2, f3⟩ := fixUsercmd_serverTime e (e.MSG_ReadDeltaUsercmdKey (usercmdKey e cl.cl)
      (if i = 0 then usercmd_t.zero
        else (userMoveCmds e cl cmdCount wire).getD (i - 1) usercmd_t.zero)
      (wire.getD i [])) hstrict
  rw [← hget] at f1 f2 f3
  refine ⟨?_, fun raw hraw => ?_⟩
  · by_cases a : (e.MSG_ReadDeltaUsercmdKey (usercmdKey e cl.cl)
        (if i = 0 then usercmd_t.zero
          else (userMoveCmds e cl cmdCount wire).getD (i - 1) usercmd_t.zero)
        (wire.getD i [])).serverTime < e.sv_time - 1000
    · rw [f1 a]
      omega
    · by_cases b : (e.MSG_ReadDeltaUsercmdKey (usercmdKey e cl.cl)
          (if i = 0 then usercmd_t.zero
            else (userMoveCmds e cl cmdCount wire).getD (i - 1) usercmd_t.zero)
          (wire.getD i [])).serverTime > e.sv_time + 200
      · rw [f2 b]
        omega
      · rw [f3 (by omega) (by omega)]
        omega
  · rw [hraw]
    exact ⟨f1, f2, f3⟩

/-- Witness for `SV_UserMove_strict_timestamp`: at `sv.time` 10000 the three
commands read as 50, 19100 and 10220 are run with the times 9000, 10200 and
10200 (each is read against the corrected command before it). -/
theorem SV_UserMove_strict_timestamp_witness :
    ((engineWith [("sv_strictPacketTimestamp", "1")]).cvar "sv_strictPacketTimestamp").integer = 1
    ∧ movingSlot.state = CS_ACTIVE
    ∧ (userMoveCmds (engineWith [("sv_strictPacketTimestamp", "1")])
        { cl := movingSlot, out := [] } 3 [[50], [10100], [20]]).map (fun c => c.serverTime)
        = [9000, 10200, 10200]
    ∧ (userMoveCmds (engineWith [("sv_strictPacketTimestamp", "1")])
        { cl := movingSlot, out := [] } 3 [[50], [10100], [20]]).length = (3 : Int).toNat :=
  ⟨by decide, by decide, by decide,
    (SV_UserMove_strict_timestamp (engineWith [("sv_strictPacketTimestamp", "1")])
      { cl := movingSlot, out := [] } true 3 [[50], [10100], [20]] (by decide) (by decide)
      (by decide) (by decide)).2.1⟩

/-! ## The key of the decoder of the user commands -/

theorem toU32_and32_mask (x : Int) :
    toU32 (and32 x ((MAX_RELIABLE_COMMANDS : Int) - 1)) = (x % 64).toNat := by
  have h63 : toU32 ((MAX_RELIABLE_COMMANDS : Int) - 1) = 2 ^ 6 - 1 := by decide
  unfold and32
  rw [h63, Nat.and_pow_two_sub_one_eq_mod, toU32_ofU32]
  · unfold toU32
    omega
  · have : toU32 x % 2 ^ 6 < 64 := Nat.mod_lt _ (by decide)
    omega

/-- C38: the key with which SV_UserMove (for a `cmdCount` in range) decodes the
user commands is `checksumFeed XOR messageAcknowledge XOR
Com_HashKey(reliableCommands[reliableAcknowledge mod 64], 32)`; the index lies
in 0..63, also for a negative `reliableAcknowledge`; and the key is the same
for every server and slot that agree on `checksumFeed`, `messageAcknowledge`
and the hash of the indexed command. -/
theorem usercmdKey_derivation (e : Engine) (cl : St) (delta : Bool) (cmdCount : Int)
    (wire : List (List Nat)) :
    (1 ≤ cmdCount → cmdCount ≤ MAX_PACKET_USERCMDS →
      SV_UserMove e cl delta cmdCount wire =
        userMoveExecute e (userMoveReady e cl delta)
          (decodeUsercmds e (usercmdKey e cl.cl) (decide (cl.cl.state = CS_ACTIVE)) usercmd_t.zero
            ((List.range cmdCount.toNat).map (fun i => wire.getD i [])))
          (userMoveOldServerTime e cl))
    ∧ usercmdKey e cl.cl =
        xor32 (xor32 e.sv_checksumFeed cl.cl.messageAcknowledge)
          (e.Com_HashKey (cl.cl.reliableCommands.getD
            (cl.cl.reliableAcknowledge % (MAX_RELIABLE_COMMANDS : Int)).toNat "") 32)
    ∧ (cl.cl.reliableAcknowledge % (MAX_RELIABLE_COMMANDS : Int)).toNat < MAX_RELIABLE_COMMANDS
    ∧ ∀ (e2 : Engine) (cl2 : client_t),
        e2.sv_checksumFeed = e.sv_checksumFeed →
        cl2.messageAcknowledge = cl.cl.messageAcknowledge →
        e2.Com_HashKey (cl2.reliableCommands.getD
            (cl2.reliableAcknowledge % (MAX_RELIABLE_COMMANDS : Int)).toNat "") 32
          = e.Com_HashKey (cl.cl.reliableCommands.getD
            (cl.cl.reliableAcknowledge % (MAX_RELIABLE_COMMANDS : Int)).toNat "") 32 →
        usercmdKey e2 cl2 = usercmdKey e cl.cl := by
  have hkey : ∀ (e : Engine) (c : client_t), usercmdKey e c =
      xor32 (xor32 e.sv_checksumFeed c.messageAcknowledge)
        (e.Com_HashKey (c.reliableCommands.getD
          (c.reliableAcknowledge % (MAX_RELIABLE_COMMANDS : Int)).toNat "") 32) := by
    intro e c
    unfold usercmdKey
    rw [toU32_and32_mask]
    rfl
  refine ⟨fun h1 h2 => SV_UserMove_eq e cl delta cmdCount wire h1 h2, hkey e cl.cl, ?_,
    fun e2 cl2 a b c => ?_⟩
  · unfold MAX_RELIABLE_COMMANDS
    omega
  · rw [hkey e2 cl2, hkey e cl.cl, a, b, c]

/-- Witness for `usercmdKey_derivation`: with the feed 17, the acknowledged
message 4 and `reliableAcknowledge = -3` the command at index 61 is hashed and
the key is `17 XOR 4 XOR 6`. -/
theorem usercmdKey_derivation_witness :
    ((ackedSlot.reliableAcknowledge % (MAX_RELIABLE_COMMANDS : Int)).toNat = 61
      ∧ ackedSlot.reliableCommands.getD 61 "" = "cs 1 x"
      ∧ xor32 (xor32 17 4) 6 = 19)
    ∧ usercmdKey hashEngine ackedSlot =
        xor32 (xor32 hashEngine.sv_checksumFeed ackedSlot.messageAcknowledge)
          (hashEngine.Com_HashKey (ackedSlot.reliableCommands.getD
            (ackedSlot.reliableAcknowledge % (MAX_RELIABLE_COMMANDS : Int)).toNat "") 32) :=
  ⟨by decide, (usercmdKey_derivation hashEngine { cl := ackedSlot, out := [] } true 1 [[50]]).2.1⟩

/-! ## The download commands of a client that is in the game -/

theorem antiDST_plain (e : Engine) (cmd : String) (s : St)
    (h : Q_stricmpn_eq cmd "jkaDST_" 7 = false) : antiDST e cmd s = s := by
  unfold antiDST
  rw [h]
  simp [St.when]

/-- C40: on an ACTIVE slot each of the handlers of `download`, `nextdl`,
`stopdl` and `donedl` returns at once: the slot and the trace of calls are
the same after it as before, so that no download is opened, advanced or
closed, the client is not dropped whatever block `nextdl` names, and no
gamestate is sent; and SV_ExecuteClientCommand on a command line whose first
token is one of the four names leaves slot and trace unchanged as well,
whatever `clientOK` is. -/
theorem download_commands_active (e : Engine) (s : St) (argv : Argv)
    (hact : s.cl.state = CS_ACTIVE) :
    SV_BeginDownload_f e s argv = (s, argv)
    ∧ SV_NextDownload_f e s argv = (s, argv)
    ∧ SV_StopDownload_f e s argv = (s, argv)
    ∧ SV_DoneDownload_f e s argv = (s, argv)
    ∧ ∀ (line : String) (clientOK : Bool),
        Cmd_Argv (e.Cmd_TokenizeString line) 0 ∈ ["download", "nextdl", "stopdl", "donedl"] →
        SV_ExecuteClientCommand e s line clientOK = s := by
  have b : ∀ a : Argv, SV_BeginDownload_f e s a = (s, a) := fun a => by
    unfold SV_BeginDownload_f
    rw [if_pos hact]
  have n : ∀ a : Argv, SV_NextDownload_f e s a = (s, a) := fun a => by
    unfold SV_NextDownload_f
    dsimp only
    rw [if_pos hact]
  have st : ∀ a : Argv, SV_StopDownload_f e s a = (s, a) := fun a => by
    unfold SV_StopDownload_f
    rw [if_pos hact]
  have d : ∀ a : Argv, SV_DoneDownload_f e s a = (s, a) := fun a => by
    unfold SV_DoneDownload_f
    rw [if_pos hact]
  refine ⟨b argv, n argv, st argv, d argv, fun line clientOK hmem => ?_⟩
  simp only [List.mem_cons, List.mem_singleton, List.not_mem_nil, or_false] at hmem
  rcases hmem with h | h | h | h
  · rw [SV_ExecuteClientCommand_known e s line clientOK
      { name := "download", func := SV_BeginDownload_f } (by rw [h]; rfl)]
    show antiDST e (Cmd_Argv (SV_BeginDownload_f e s _).2 0) (SV_BeginDownload_f e s _).1 = s
    rw [b, h]
    exact antiDST_plain e _ s (by decide)
  · rw [SV_ExecuteClientCommand_known e s line clientOK
      { name := "nextdl", func := SV_NextDownload_f } (by rw [h]; rfl)]
    show antiDST e (Cmd_Argv (SV_NextDownload_f e s _).2 0) (SV_NextDownload_f e s _).1 = s
    rw [n, h]
    exact antiDST_plain e _ s (by decide)
  · rw [SV_ExecuteClientCommand_known e s line clientOK
      { name := "stopdl", func := SV_StopDownload_f } (by rw [h]; rfl)]
    show antiDST e (Cmd_Argv (SV_StopDownload_f e s _).2 0) (SV_StopDownload_f e s _).1 = s
    rw [st, h]
    exact antiDST_plain e _ s (by decide)
  · rw [SV_ExecuteClientCommand_known e s line clientOK
      { name := "donedl", func := SV_DoneDownload_f } (by rw [h]; rfl)]
    show antiDST e (Cmd_Argv (SV_DoneDownload_f e s _).2 0) (SV_DoneDownload_f e s _).1 = s
    rw [d, h]
    exact antiDST_plain e _ s (by decide)

/-- Witness for `download_commands_active`: `nextdl 7` on an ACTIVE slot whose
download waits for the acknowledgement of block 3 changes nothing. -/
theorem download_commands_active_witness :
    activeDownloadSlot.state = CS_ACTIVE
    ∧ atoi (Cmd_Argv ["nextdl", "7"] 1) ≠ activeDownloadSlot.downloadClientBlock
    ∧ SV_NextDownload_f (engineWith []) { cl := activeDownloadSlot, out := [] } ["nextdl", "7"]
        = ({ cl := activeDownloadSlot, out := [] }, ["nextdl", "7"]) :=
  ⟨by decide, by decide,
    (download_commands_active (engineWith []) { cl := activeDownloadSlot, out := [] }
      ["nextdl", "7"] (by decide)).2.1⟩

/-! ## The bytes of a cleaned name -/

theorem cleanNameKept_plain (l : List Char) :
    ∀ c ∈ cleanNameKept l, 0x20 ≤ c.toNat ∧ c.toNat ∉ cleanNameBlacklist := by
  induction l with
  | nil =>
    intro c hc
    simp [cleanNameKept] at hc
  | cons a rest ih =>
    intro c hc
    rw [cleanNameKept_cons] at hc
    split_ifs at hc with h
    · exact ih c hc
    · rcases List.mem_cons.mp hc with h1 | h1
      · subst h1
        exact ⟨by omega, fun hb => h (Or.inr (Or.inr hb))⟩
      · exact ih c h1

/-- The bytes that the loop of SV_ClientCleanName leaves in the 64-byte buffer. -/
theorem cleanNameLoop_out (e : Engine) (l : List Char) :
    (cleanNameLoop e MAX_NAME_LENGTH l [] 0).1 = (cleanNameKept l).take 63 := by
  rw [cleanNameLoop_eq]
  show [] ++ _ = _
  rw [List.nil_append]
  rfl

/-- C36: for every input, the name that SV_ClientCleanName leaves in the
64-byte buffer is not empty, is at most 63 bytes long, holds no byte below
0x20 and none of the bytes 0x81, 0x8D, 0x8F, 0x90, 0x9D, 0xA0, 0xAD; and when
the loop leaves the buffer empty, or counts no visible glyph, the name is
`Padawan`. -/
theorem SV_ClientCleanName_safe (e : Engine) (s : String) :
    SV_ClientCleanName e s MAX_NAME_LENGTH ≠ ""
    ∧ (SV_ClientCleanName e s MAX_NAME_LENGTH).length ≤ 63
    ∧ (∀ c ∈ (SV_ClientCleanName e s MAX_NAME_LENGTH).toList,
        0x20 ≤ c.toNat ∧ c.toNat ∉ cleanNameBlacklist)
    ∧ ((cleanNameLoop e MAX_NAME_LENGTH (cleanNameStart e s) [] 0).1 = []
        ∨ (cleanNameLoop e MAX_NAME_LENGTH (cleanNameStart e s) [] 0).2 = 0 →
        SV_ClientCleanName e s MAX_NAME_LENGTH = "Padawan") := by
  have hpad : Q_strncpyz "Padawan" MAX_NAME_LENGTH = "Padawan" := by decide
  rw [SV_ClientCleanName_eq]
  by_cases h : (cleanNameLoop e MAX_NAME_LENGTH (cleanNameStart e s) [] 0).1 = []
      ∨ (cleanNameLoop e MAX_NAME_LENGTH (cleanNameStart e s) [] 0).2 = 0
  · rw [if_pos h, hpad]
    exact ⟨by decide, by decide, by decide, fun _ => rfl⟩
  · rw [if_neg h]
    have hne : (cleanNameLoop e MAX_NAME_LENGTH (cleanNameStart e s) [] 0).1 ≠ [] :=
      fun x => h (Or.inl x)
    refine ⟨fun x => hne ?_, ?_, fun c hc => ?_, fun x => absurd x h⟩
    · have := congrArg String.toList x
      exact this
    · show (cleanNameLoop e MAX_NAME_LENGTH (cleanNameStart e s) [] 0).1.length ≤ 63
      rw [cleanNameLoop_out, List.length_take]
      omega
    · have hc' : c ∈ (cleanNameLoop e MAX_NAME_LENGTH (cleanNameStart e s) [] 0).1 := hc
      rw [cleanNameLoop_out] at hc'
      exact cleanNameKept_plain _ c (List.mem_of_mem_take hc')

theorem tripleFree_no_run (c : Char) (hc : c = ' ' ∨ c = '@') (l : List Char)
    (h : tripleFree l) : ¬ [c, c, c] <:+: l := by
  induction l with
  | nil =>
    intro hin
    have := List.eq_nil_of_infix_nil hin
    simp at this
  | cons a rest ih =>
    intro hin
    rcases List.infix_cons_iff.mp hin with hp | hi
    · obtain ⟨t, ht⟩ := hp
      simp only [List.cons_append, List.nil_append, List.cons.injEq] at ht
      obtain ⟨ha, hr⟩ := ht
      have htr : cleanNameTriple a rest = true := by
        rw [← hr, ← ha]
        rcases hc with rfl | rfl <;> simp [cleanNameTriple]
      rw [h.1] at htr
      exact absurd htr (by simp)
    · exact ih h.2 hi

/-- C35 at its failing input: a byte that is dropped between blanks, or
between `@` signs, hides the run from the test, which reads the input before
the byte is dropped; the cleaned name has three blanks, or three `@`, in a
row, and with a dropped byte after every blank or `@` a run of five. -/
theorem SV_ClientCleanName_run_kept :
    SV_ClientCleanName (engineWith []) "a  \x01 b" MAX_NAME_LENGTH = "a   b"
    ∧ [' ', ' ', ' '] <:+: (SV_ClientCleanName (engineWith []) "a  \x01 b" MAX_NAME_LENGTH).toList
    ∧ SV_ClientCleanName (engineWith []) "@@\x01@" MAX_NAME_LENGTH = "@@@"
    ∧ ['@', '@', '@'] <:+: (SV_ClientCleanName (engineWith []) "@@\x01@" MAX_NAME_LENGTH).toList
    ∧ SV_ClientCleanName (engineWith []) "a \x01 \x01 \x01 \x01 b" MAX_NAME_LENGTH = "a     b"
    ∧ SV_ClientCleanName (engineWith []) "@\x01@\x01@\x01@\x01@" MAX_NAME_LENGTH = "@@@@@" := by
  refine ⟨by decide, ?_, by decide, ?_, by decide, by decide⟩
  · have : SV_ClientCleanName (engineWith []) "a  \x01 b" MAX_NAME_LENGTH = "a   b" := by decide
    rw [this]
    exact ⟨['a'], ['b'], rfl⟩
  · have : SV_ClientCleanName (engineWith []) "@@\x01@" MAX_NAME_LENGTH = "@@@" := by decide
    rw [this]
    exact ⟨[], [], rfl⟩

/-- For every input that holds no byte below 0x20 and none of the seven
dropped bytes, the name produced by SV_ClientCleanName with the 64-byte buffer
has no three blanks in a row and no three `@` in a row. -/
theorem SV_ClientCleanName_no_runs (e : Engine) (s : String) (hplain : plainName s) :
    ¬ [' ', ' ', ' '] <:+: (SV_ClientCleanName e s MAX_NAME_LENGTH).toList
    ∧ ¬ ['@', '@', '@'] <:+: (SV_ClientCleanName e s MAX_NAME_LENGTH).toList := by
  have hsub : ∀ c ∈ cleanNameStart e s, c ∈ s.toList := by
    intro c hc
    unfold cleanNameStart at hc
    split_ifs at hc
    · exact (List.dropWhile_sublist _).subset ((List.dropWhile_sublist _).subset hc)
    · exact (List.dropWhile_sublist _).subset hc
  have hfree : tripleFree (SV_ClientCleanName e s MAX_NAME_LENGTH).toList := by
    rw [SV_ClientCleanName_eq]
    split_ifs
    · have : Q_strncpyz "Padawan" MAX_NAME_LENGTH = "Padawan" := by decide
      rw [this]
      exact ⟨by decide, by decide, by decide, by decide, by decide, by decide, by decide, trivial⟩
    · show tripleFree (cleanNameLoop e MAX_NAME_LENGTH (cleanNameStart e s) [] 0).1
      rw [cleanNameLoop_out]
      exact tripleFree_take _
        (tripleFree_cleanNameKept _ (fun c hc => hplain c (hsub c hc))) 63
  exact ⟨tripleFree_no_run ' ' (Or.inl rfl) _ hfree, tripleFree_no_run '@' (Or.inr rfl) _ hfree⟩

/-- Example for `SV_ClientCleanName_no_runs`: five blanks inside a name are cut to two. -/
theorem SV_ClientCleanName_no_runs_example :
    SV_ClientCleanName (engineWith []) "Obi     Wan" MAX_NAME_LENGTH = "Obi  Wan"
    ∧ ¬ [' ', ' ', ' '] <:+: (SV_ClientCleanName (engineWith []) "Obi     Wan" MAX_NAME_LENGTH).toList :=
  ⟨by decide,
    (SV_ClientCleanName_no_runs (engineWith []) "Obi     Wan" (by
      intro c hc
      simp only [String.toList, List.mem_cons, List.mem_singleton, List.not_mem_nil,
        or_false] at hc
      rcases hc with h | h | h | h | h | h | h | h | h | h | h <;> subst h <;> decide)).1⟩

/-! ## The slot freed by SV_DropClient -/

/-- Counterexample to C37 as stated: a bot that is dropped becomes FREE and
keeps its entity, its rate and its last user command, which are not those of
a zeroed slot. -/
theorem SV_DropClient_bot_claim_counterexample :
    playedBotSlot.netchan.remoteAddress.type = netadrtype_t.NA_BOT
    ∧ playedBotSlot.state = CS_ACTIVE
    ∧ (SV_DropClient (engineWith []) { cl := playedBotSlot, out := [] } "was kicked").cl.state
        = CS_FREE
    ∧ (SV_DropClient (engineWith []) { cl := playedBotSlot, out := [] } "was kicked").cl.gentity
        = some 1
    ∧ (SV_DropClient (engineWith []) { cl := playedBotSlot, out := [] } "was kicked").cl.rate
        = 16384
    ∧ (SV_DropClient (engineWith []) { cl := playedBotSlot, out := []
        } "was kicked").cl.lastUsercmd.serverTime = 9950
    ∧ client_t.zero.gentity = none ∧ client_t.zero.rate = 0
    ∧ client_t.zero.lastUsercmd.serverTime = 0 := by
  decide

/-- C37 (amended): SV_DropClient on a bot slot that is not a ZOMBIE leaves the
slot FREE with the download closed and the userinfo empty, and does not write
the channel, the challenge, the acknowledgement numbers received from the
client, the last client command, the last user command, the entity, the rate,
the snapshot interval, the connect and packet times and the purity flags of
the slot.  The queue of reliable commands (`reliableSequence`,
`reliableCommands`) and `name` are not in the list: the print and the
`disconnect` sent by SV_DropClient and SV_SetUserinfo write them. -/
theorem SV_DropClient_free (e : Engine) (s : St) (reason : String)
    (hbot : s.cl.netchan.remoteAddress.type = netadrtype_t.NA_BOT)
    (hz : s.cl.state ≠ CS_ZOMBIE) :
    ((SV_DropClient e s reason).cl.state = CS_FREE
      ∧ (SV_DropClient e s reason).cl.userinfo = ""
      ∧ (SV_DropClient e s reason).cl.downloadName = ""
      ∧ (SV_DropClient e s reason).cl.download = 0
      ∧ (SV_DropClient e s reason).cl.downloadBlocks = List.replicate MAX_DOWNLOAD_WINDOW none)
    ∧ (SV_DropClient e s reason).cl.netchan = s.cl.netchan
    ∧ (SV_DropClient e s reason).cl.challenge = s.cl.challenge
    ∧ (SV_DropClient e s reason).cl.reliableAcknowledge = s.cl.reliableAcknowledge
    ∧ (SV_DropClient e s reason).cl.messageAcknowledge = s.cl.messageAcknowledge
    ∧ (SV_DropClient e s reason).cl.gamestateMessageNum = s.cl.gamestateMessageNum
    ∧ (SV_DropClient e s reason).cl.lastClientCommand = s.cl.lastClientCommand
    ∧ (SV_DropClient e s reason).cl.lastClientCommandString = s.cl.lastClientCommandString
    ∧ (SV_DropClient e s reason).cl.lastUsercmd = s.cl.lastUsercmd
    ∧ (SV_DropClient e s reason).cl.gentity = s.cl.gentity
    ∧ (SV_DropClient e s reason).cl.rate = s.cl.rate
    ∧ (SV_DropClient e s reason).cl.snapshotMsec = s.cl.snapshotMsec
    ∧ (SV_DropClient e s reason).cl.lastConnectTime = s.cl.lastConnectTime
    ∧ (SV_DropClient e s reason).cl.lastPacketTime = s.cl.lastPacketTime
    ∧ (SV_DropClient e s reason).cl.pureAuthentic = s.cl.pureAuthentic
    ∧ (SV_DropClient e s reason).cl.gotCP = s.cl.gotCP := by
  rw [SV_DropClient_cl e s reason hz]
  refine ⟨⟨?_, rfl, rfl, rfl, rfl⟩, rfl, rfl, rfl, rfl, rfl, rfl, rfl, rfl, rfl, rfl, rfl,
    rfl, rfl, rfl, rfl⟩
  show (if s.cl.netchan.remoteAddress.type = netadrtype_t.NA_BOT then CS_FREE else CS_ZOMBIE)
    = CS_FREE
  rw [if_pos hbot]

/-- Witness for `SV_DropClient_free`: the bot that has played is dropped. -/
theorem SV_DropClient_free_witness :
    playedBotSlot.netchan.remoteAddress.type = netadrtype_t.NA_BOT
    ∧ playedBotSlot.state ≠ CS_ZOMBIE
    ∧ (SV_DropClient (engineWith []) { cl := playedBotSlot, out := [] } "was kicked").cl.state
        = CS_FREE
    ∧ (SV_DropClient (engineWith []) { cl := playedBotSlot, out := [] } "was kicked").cl.netchan
        = playedBotSlot.netchan :=
  ⟨by decide, by decide,
    (SV_DropClient_free (engineWith []) { cl := playedBotSlot, out := [] } "was kicked"
      (by decide) (by decide)).1.1,
    (SV_DropClient_free (engineWith []) { cl := playedBotSlot, out := [] } "was kicked"
      (by decide) (by decide)).2.1⟩

/-! ## The divisor of the snapshot interval -/

/-- Under `sv_snapsPolicy 2` (and unless `sv_snapsPolicy` is 1 with `sv_fps`
set) the snaps block of SV_UserinfoChanged divides 1000 by `snapsDivisor`. -/
theorem userinfoSnaps_policy2 (e : Engine) (s : St)
    (hpol : (e.cvar "sv_snapsPolicy").integer = 2) :
    (userinfoSnaps e s).cl =
      setSnapshotMsec
        { s.cl with wishSnaps :=
            (if atoi (e.Info_ValueForKey s.cl.userinfo "snaps") = 0 then userinfoMaxSnaps e
              else atoi (e.Info_ValueForKey s.cl.userinfo "snaps")) }
        (Int.tdiv 1000 (snapsDivisor e s.cl)) := by
  unfold userinfoSnaps snapsDivisor
  simp only [St.modify_cl]
  rw [if_neg (by rw [hpol]; rintro ⟨-, h⟩; exact absurd h (by decide)), if_pos hpol]

/-- With `sv_fps` at least 1 and either `sv_snapsMin` unset or `sv_snapsMax`
at least 1, the divisor is at least 1 and the quotient lies in `[0, 1000]`. -/
theorem snapsDivisor_pos (e : Engine) (cl : client_t) (hfps : 1 ≤ (e.cvar "sv_fps").integer)
    (hmin : (e.cvar "sv_snapsMin").integer ≤ 0 ∨ 1 ≤ (e.cvar "sv_snapsMax").integer) :
    1 ≤ snapsDivisor e cl
    ∧ 0 ≤ Int.tdiv 1000 (snapsDivisor e cl) ∧ Int.tdiv 1000 (snapsDivisor e cl) ≤ 1000 := by
  have hlo : 1 ≤ userinfoMinSnaps e := by
    unfold userinfoMinSnaps Com_Clampi
    split_ifs <;> omega
  have hhi : 1 ≤ userinfoMaxSnaps e := by
    unfold userinfoMaxSnaps
    split_ifs <;> omega
  have hd : 1 ≤ snapsDivisor e cl := by
    unfold snapsDivisor Com_Clampi
    split_ifs <;> omega
  refine ⟨hd, ?_, ?_⟩
  · rw [Int.tdiv_eq_ediv (by decide) (by omega)]
    exact Int.ediv_nonneg (by decide) (by omega)
  · rw [Int.tdiv_eq_ediv (by decide) (by omega)]
    exact Int.ediv_le_self _ (by decide)

/-- C39 at its failing input: with `sv_snapsPolicy 2`, `sv_fps 40`,
`sv_snapsMin 10` and `sv_snapsMax 0`, `minSnaps` is 0, and for a client whose
userinfo has `snaps` -1 the divisor `Com_Clampi(minSnaps, maxSnaps, wishSnaps)`
of `1000 / ...` in SV_UserinfoChanged is 0. -/
theorem snaps_divisor_zero :
    (snapsEngine.cvar "sv_snapsPolicy").integer = 2
    ∧ userinfoMinSnaps snapsEngine = 0
    ∧ userinfoMaxSnaps snapsEngine = 40
    ∧ atoi (snapsEngine.Info_ValueForKey snapsSlot.userinfo "snaps") = -1
    ∧ snapsDivisor snapsEngine snapsSlot = 0
    ∧ (userinfoSnaps snapsEngine { cl := snapsSlot, out := [] }).cl.snapshotMsec
        = Int.tdiv 1000 (snapsDivisor snapsEngine snapsSlot) := by
  refine ⟨by decide, by decide, by decide, by decide, by decide, ?_⟩
  rw [userinfoSnaps_policy2 snapsEngine _ (by decide)]
  decide

/-! ## A client message from another server id -/

theorem St.whenS_of (s : St) (c : client_t → Bool) (f : St → St) (b : Bool) (h : c s.cl = b) :
    s.whenS c f = s.when b f := by
  rw [St.whenS_eq, h]

/-- The calls made by SV_SendClientGameState, in order. -/
theorem SV_SendClientGameState_out (e : Engine) (s : St) :
    (SV_SendClientGameState e s).out =
      s.out
      ++ (if s.cl.state ≠ CS_FREE ∧ s.cl.netchan.unsentFragments = true then
            [Event.Com_Printf ("[ISM]SV_SendClientGameState() [2] for " ++ s.cl.name
              ++ ", writing out old fragments\n"), Event.SV_Netchan_TransmitNextFragment]
          else [])
      ++ [Event.Com_DPrintf ("SV_SendClientGameState() for " ++ s.cl.name ++ "\n"),
          Event.Com_DPrintf ("Going from CS_CONNECTED to CS_PRIMED for " ++ s.cl.name ++ "\n"),
          Event.SV_SendMessageToClient true] := by
  unfold SV_SendClientGameState
  cases hb : (decide (s.cl.state ≠ CS_FREE) && s.cl.netchan.unsentFragments)
  · have hn : ¬ (s.cl.state ≠ CS_FREE ∧ s.cl.netchan.unsentFragments = true) := by
      rintro ⟨a, b⟩
      rw [b, decide_eq_true a] at hb
      exact absurd hb (by decide)
    rw [if_neg hn, St.whenS_of s _ _ false hb, St.when_false]
    cases hc : decide (s.cl.state = CS_CONNECTED) <;>
      simp [St.whenS_eq, hc]
  · have hp : s.cl.state ≠ CS_FREE ∧ s.cl.netchan.unsentFragments = true := by
      simpa using hb
    rw [if_pos hp, St.whenS_of s _ _ true hb, St.when_true]
    cases hc : decide (s.cl.state = CS_CONNECTED) <;>
      simp [St.whenS_eq, hc]

/-- The fields that SV_SendClientGameState leaves alone, among them the
cursor of the client commands and the last user command. -/
theorem SV_SendClientGameState_keeps (e : Engine) (s : St) :
    (SV_SendClientGameState e s).cl.lastClientCommand = s.cl.lastClientCommand
    ∧ (SV_SendClientGameState e s).cl.lastUsercmd = s.cl.lastUsercmd := by
  unfold SV_SendClientGameState
  simp only [St.whenS, St.when, St.modify_cl, St.emitS_cl, St.emit_cl]
  split_ifs <;> exact ⟨rfl, rfl⟩

theorem gamestatesSent_SV_SendClientGameState (e : Engine) (s : St) :
    gamestatesSent (SV_SendClientGameState e s).out = gamestatesSent s.out + 1 := by
  rw [SV_SendClientGameState_out]
  unfold gamestatesSent
  split_ifs <;> simp [List.count_append, List.count_cons]

/-- Counterexample to C32 as stated.  The server is at the id 7 after a
restart at 5, the slot is PRIMED and has no download, the packet acknowledges
message 9 and the gamestate went out as message 0.  A packet with the id 5 is
not strictly between 5 and 7, yet no gamestate is sent; a packet with the id 3
whose `reliableAcknowledge` is out of range is dropped before the test, and no
gamestate is sent; and when the last client command was `nextdl`, the reliable
command and the movement block of a packet with the id 3 are processed. -/
theorem SV_ExecuteClientMessage_claim_counterexample :
    (restartEngine.sv_serverId = 7 ∧ restartEngine.sv_restartedServerId = 5
      ∧ primedSlot.state = CS_PRIMED ∧ primedSlot.downloadName = ""
      ∧ primedSlot.gamestateMessageNum = 0)
    ∧ gamestatesSent (SV_ExecuteClientMessage restartEngine { cl := primedSlot, out := [] }
        (staleMessage 5)).out = 0
    ∧ gamestatesSent (SV_ExecuteClientMessage restartEngine { cl := primedSlot, out := [] }
        { staleMessage 3 with reliableAcknowledge := -100 }).out = 0
    ∧ (afterDownloadSlot.downloadName = ""
      ∧ (SV_ExecuteClientMessage restartEngine { cl := afterDownloadSlot, out := [] }
          (staleMessage 3)).cl.lastClientCommand = 1
      ∧ dispatches (SV_ExecuteClientMessage restartEngine { cl := afterDownloadSlot, out := [] }
          (staleMessage 3)).out = [["say", "hi"]]
      ∧ (SV_ExecuteClientMessage restartEngine { cl := afterDownloadSlot, out := [] }
          (staleMessage 3)).cl.lastUsercmd.serverTime = 50) := by
  decide

/-- C32 (amended): for a packet whose `serverId` differs from `sv.serverId` and
whose header is accepted (`messageAcknowledge` not negative, `reliableAcknowledge`
not below `reliableSequence - MAX_RELIABLE_COMMANDS`), sent by a client with no
download open and whose last client command does not contain `nextdl`,
SV_ExecuteClientMessage stores the two acknowledge numbers and then prints one
debug line and stops (when `restartedServerId <= serverId < sv.serverId`), or
sends the gamestate again (otherwise, when the slot is not ACTIVE and
`messageAcknowledge > gamestateMessageNum`), or does nothing more.  No reliable
command and no movement block is processed: `lastClientCommand` and
`lastUsercmd` are unchanged, and nothing is handed to the game module; and
the number of gamestates sent grows by one exactly in the second case. -/
theorem SV_ExecuteClientMessage_stale (e : Engine) (cl : St) (m : clientMessage)
    (hack : 0 ≤ m.messageAcknowledge)
    (hrel : cl.cl.reliableSequence - MAX_RELIABLE_COMMANDS ≤ m.reliableAcknowledge)
    (hid : m.serverId ≠ e.sv_serverId)
    (hdl : cl.cl.downloadName = "")
    (hnext : strstr cl.cl.lastClientCommandString "nextdl" = false) :
    ((e.sv_restartedServerId ≤ m.serverId ∧ m.serverId < e.sv_serverId) →
      SV_ExecuteClientMessage e cl m = (storeAcks cl m).emitS (fun c => Event.Com_DPrintf
        (c.name ++ " : ignoring pre map_restart / outdated client message\n")))
    ∧ (¬ (e.sv_restartedServerId ≤ m.serverId ∧ m.serverId < e.sv_serverId) →
        cl.cl.state ≠ CS_ACTIVE → m.messageAcknowledge > cl.cl.gamestateMessageNum →
        SV_ExecuteClientMessage e cl m = SV_SendClientGameState e
          ((storeAcks cl m).emitS (fun c => Event.Com_DPrintf
            (c.name ++ " : dropped gamestate, resending\n"))))
    ∧ (¬ (e.sv_restartedServerId ≤ m.serverId ∧ m.serverId < e.sv_serverId) →
        ¬ (cl.cl.state ≠ CS_ACTIVE ∧ m.messageAcknowledge > cl.cl.gamestateMessageNum) →
        SV_ExecuteClientMessage e cl m = storeAcks cl m)
    ∧ (SV_ExecuteClientMessage e cl m).cl.lastClientCommand = cl.cl.lastClientCommand
    ∧ (SV_ExecuteClientMessage e cl m).cl.lastUsercmd = cl.cl.lastUsercmd
    ∧ dispatches (SV_ExecuteClientMessage e cl m).out = dispatches cl.out
    ∧ (∀ cmd, Event.GVM_ClientThink cmd ∈ (SV_ExecuteClientMessage e cl m).out →
        Event.GVM_ClientThink cmd ∈ cl.out)
    ∧ gamestatesSent (SV_ExecuteClientMessage e cl m).out =
        gamestatesSent cl.out
          + (if ¬ (e.sv_restartedServerId ≤ m.serverId ∧ m.serverId < e.sv_serverId)
                ∧ cl.cl.state ≠ CS_ACTIVE ∧ m.messageAcknowledge > cl.cl.gamestateMessageNum
             then 1 else 0) := by
  have hrun : SV_ExecuteClientMessage e cl m = staleServerId e (storeAcks cl m) m := by
    unfold SV_ExecuteClientMessage
    rw [if_neg (by omega), if_neg (by
      show ¬ m.reliableAcknowledge < cl.cl.reliableSequence - MAX_RELIABLE_COMMANDS
      omega), if_pos ⟨hid, hdl, hnext⟩]
  have e1 : (e.sv_restartedServerId ≤ m.serverId ∧ m.serverId < e.sv_serverId) →
      SV_ExecuteClientMessage e cl m = (storeAcks cl m).emitS (fun c => Event.Com_DPrintf
        (c.name ++ " : ignoring pre map_restart / outdated client message\n")) := by
    intro h
    rw [hrun]
    unfold staleServerId
    rw [if_pos ⟨by omega, h.2⟩]
  have e2 : ¬ (e.sv_restartedServerId ≤ m.serverId ∧ m.serverId < e.sv_serverId) →
      cl.cl.state ≠ CS_ACTIVE → m.messageAcknowledge > cl.cl.gamestateMessageNum →
      SV_ExecuteClientMessage e cl m = SV_SendClientGameState e
        ((storeAcks cl m).emitS (fun c => Event.Com_DPrintf
          (c.name ++ " : dropped gamestate, resending\n"))) := by
    intro h hs hg
    rw [hrun]
    unfold staleServerId
    rw [if_neg (fun x => h ⟨by omega, x.2⟩), St.whenS_of _ _ _ true (by
      show (decide (cl.cl.state ≠ CS_ACTIVE)
        && decide (m.messageAcknowledge > cl.cl.gamestateMessageNum)) = true
      rw [decide_eq_true hs, decide_eq_true hg]
      rfl)]
    rfl
  have e3 : ¬ (e.sv_restartedServerId ≤ m.serverId ∧ m.serverId < e.sv_serverId) →
      ¬ (cl.cl.state ≠ CS_ACTIVE ∧ m.messageAcknowledge > cl.cl.gamestateMessageNum) →
      SV_ExecuteClientMessage e cl m = storeAcks cl m := by
    intro h hn
    rw [hrun]
    unfold staleServerId
    rw [if_neg (fun x => h ⟨by omega, x.2⟩), St.whenS_of _ _ _ false (by
      show (decide (cl.cl.state ≠ CS_ACTIVE)
        && decide (m.messageAcknowledge > cl.cl.gamestateMessageNum)) = false
      by_cases hs : cl.cl.state ≠ CS_ACTIVE
      · have hg : ¬ m.messageAcknowledge > cl.cl.gamestateMessageNum := fun x => hn ⟨hs, x⟩
        rw [decide_eq_false hg, Bool.and_false]
      · rw [decide_eq_false hs, Bool.false_and])]
    rfl
  refine ⟨e1, e2, e3, ?_⟩
  by_cases h : e.sv_restartedServerId ≤ m.serverId ∧ m.serverId < e.sv_serverId
  · rw [e1 h, if_neg (fun x => x.1 h)]
    refine ⟨rfl, rfl, ?_, fun cmd hc => ?_, ?_⟩
    · exact dispatches_emitS _ _ (fun _ => by rfl)
    · simpa [storeAcks] using hc
    · simp [gamestatesSent, storeAcks, List.count_append, List.count_cons]
  · by_cases hc : cl.cl.state ≠ CS_ACTIVE ∧ m.messageAcknowledge > cl.cl.gamestateMessageNum
    · rw [e2 h hc.1 hc.2, if_pos ⟨h, hc⟩]
      refine ⟨(SV_SendClientGameState_keeps e _).1, (SV_SendClientGameState_keeps e _).2, ?_,
        fun cmd hm => ?_, ?_⟩
      · exact (dispatches_SV_SendClientGameState e _).trans
          (dispatches_emitS _ _ (fun _ => by rfl))
      · rw [SV_SendClientGameState_out] at hm
        split_ifs at hm <;> simpa [storeAcks] using hm
      · rw [gamestatesSent_SV_SendClientGameState]
        simp [gamestatesSent, storeAcks, List.count_append, List.count_cons]
    · rw [e3 h hc, if_neg (fun x => hc x.2)]
      exact ⟨rfl, rfl, rfl, fun cmd hm => hm, rfl⟩

/-- Witness for `SV_ExecuteClientMessage_stale`: the PRIMED slot receives a
packet with the id 3 from before the restart at 5, and the gamestate is sent
again. -/
theorem SV_ExecuteClientMessage_stale_witness :
    (0 ≤ (staleMessage 3).messageAcknowledge
      ∧ (staleMessage 3).serverId ≠ restartEngine.sv_serverId
      ∧ ¬ (restartEngine.sv_restartedServerId ≤ (staleMessage 3).serverId
          ∧ (staleMessage 3).serverId < restartEngine.sv_serverId)
      ∧ primedSlot.state ≠ CS_ACTIVE
      ∧ (staleMessage 3).messageAcknowledge > primedSlot.gamestateMessageNum)
    ∧ gamestatesSent (SV_ExecuteClientMessage restartEngine { cl := primedSlot, out := [] }
        (staleMessage 3)).out = gamestatesSent [] + 1
    ∧ (SV_ExecuteClientMessage restartEngine { cl := primedSlot, out := [] }
        (staleMessage 3)).cl.lastClientCommand = primedSlot.lastClientCommand :=
  ⟨by decide, by decide,
    (SV_ExecuteClientMessage_stale restartEngine { cl := primedSlot, out := [] } (staleMessage 3)
      (by decide) (by decide) (by decide) (by decide) (by decide)).2.2.2.1⟩

/-! ## A packet with a command that flood protection rejects -/

/-- The flag `clientOk` depends on the state of the slot and on the time of
its last accepted command only. -/
theorem floodProtect_fst_congr (e : Engine) (a b : client_t) (hs : a.state = b.state)
    (ht : a.lastReliableTime = b.lastReliableTime) :
    (floodProtect e a).1 = (floodProtect e b).1 := by
  have key : ∀ c : client_t, (floodProtect e c).1 =
      if (e.cvar "com_cl_running").integer = 0 ∧ c.state.toInt ≥ CS_ACTIVE.toInt
          ∧ (e.cvar "sv_floodProtect").integer ≠ 0 then
        (if e.svs_time < c.lastReliableTime
            + (if (e.cvar "sv_floodProtect").integer = 1 then 1000
                else (e.cvar "sv_floodProtect").integer) then false else true)
      else true := by
    intro c
    unfold floodProtect
    dsimp only
    split_ifs <;> rfl
  rw [key a, key b, hs, ht]

/-- The slot in which the client commands of an accepted message are read. -/
theorem ackGamestate_fields (e : Engine) (cl : St) (m : clientMessage) :
    (ackGamestate e (storeAcks cl m) m).cl.state = cl.cl.state
    ∧ (ackGamestate e (storeAcks cl m) m).cl.lastReliableTime = cl.cl.lastReliableTime
    ∧ (ackGamestate e (storeAcks cl m) m).cl.lastClientCommand = cl.cl.lastClientCommand
    ∧ dispatches (ackGamestate e (storeAcks cl m) m).out = dispatches cl.out := by
  unfold ackGamestate
  rw [St.whenS_eq]
  cases (decide ((storeAcks cl m).cl.oldServerTime ≠ 0) && decide (m.serverId = e.sv_serverId))
  · exact ⟨rfl, rfl, rfl, rfl⟩
  · refine ⟨rfl, rfl, rfl, ?_⟩
    rw [St.when_true, St.modify_out]
    exact dispatches_emitS _ _ (fun _ => by rfl)

/-- Counterexample to C33 as stated: the first `say` of the packet is
rejected by flood protection (it comes 100 ms after the last accepted
command, `sv_floodProtect` is 1), yet the second command of the packet is
consumed and the movement block is run. -/
theorem SV_ExecuteClientMessage_flood_claim_counterexample :
    (floodedSlot.state = CS_ACTIVE
      ∧ exampleMessage.commands = [(1, "say hi"), (2, "say again")]
      ∧ (floodProtect floodEngine floodedSlot).1 = false)
    ∧ (SV_ExecuteClientMessage floodEngine { cl := floodedSlot, out := [] }
        exampleMessage).cl.lastClientCommand = 2
    ∧ (SV_ExecuteClientMessage floodEngine { cl := floodedSlot, out := [] }
        exampleMessage).cl.lastUsercmd.serverTime = 50
    ∧ Event.GVM_ClientThink { usercmd_t.zero with serverTime := 50 }
        ∈ (SV_ExecuteClientMessage floodEngine { cl := floodedSlot, out := [] } exampleMessage).out
    ∧ dispatches (SV_ExecuteClientMessage floodEngine { cl := floodedSlot, out := [] }
        exampleMessage).out = [] := by
  decide

/-- C33 (amended): when the first reliable command of an accepted packet (the
next in sequence) is rejected by flood protection, SV_ClientCommand still
returns `qtrue`: the command is recorded as executed and does not reach the
game module, and SV_ExecuteClientMessage stops only if the slot has become a
ZOMBIE; otherwise it goes on with the later reliable commands of the packet
and then with its movement block. -/
theorem SV_ExecuteClientMessage_flood_rejected (e : Engine) (cl : St) (m : clientMessage)
    (seq : Int) (line : String) (rest : List (Int × String))
    (hack : 0 ≤ m.messageAcknowledge)
    (hrel : cl.cl.reliableSequence - MAX_RELIABLE_COMMANDS ≤ m.reliableAcknowledge)
    (hid : m.serverId = e.sv_serverId)
    (hcmds : m.commands = (seq, line) :: rest)
    (hseq : seq = cl.cl.lastClientCommand + 1)
    (hflood : (floodProtect e cl.cl).1 = false) :
    (SV_ClientCommand e (ackGamestate e (storeAcks cl m) m) seq line).1 = true
    ∧ (SV_ClientCommand e (ackGamestate e (storeAcks cl m) m) seq line).2.cl.lastClientCommand
        = seq
    ∧ dispatches (SV_ClientCommand e (ackGamestate e (storeAcks cl m) m) seq line).2.out
        = dispatches cl.out
    ∧ ((SV_ClientCommand e (ackGamestate e (storeAcks cl m) m) seq line).2.cl.state = CS_ZOMBIE →
        SV_ExecuteClientMessage e cl m
          = (SV_ClientCommand e (ackGamestate e (storeAcks cl m) m) seq line).2)
    ∧ ((SV_ClientCommand e (ackGamestate e (storeAcks cl m) m) seq line).2.cl.state ≠ CS_ZOMBIE →
        SV_ExecuteClientMessage e cl m =
          if (readClientCommands e
                (SV_ClientCommand e (ackGamestate e (storeAcks cl m) m) seq line).2 rest).1 = false
          then (readClientCommands e
                (SV_ClientCommand e (ackGamestate e (storeAcks cl m) m) seq line).2 rest).2
          else readUsercmd e (readClientCommands e
                (SV_ClientCommand e (ackGamestate e (storeAcks cl m) m) seq line).2 rest).2 m) := by
  obtain ⟨f1, f2, f3, f4⟩ := ackGamestate_fields e cl m
  have hseq' : seq = (ackGamestate e (storeAcks cl m) m).cl.lastClientCommand + 1 := by
    rw [f3]
    exact hseq
  have hflood' : (floodProtect e (ackGamestate e (storeAcks cl m) m).cl).1 = false :=
    (floodProtect_fst_congr e _ _ f1 f2).trans hflood
  have hexec := SV_ClientCommand_exec e (ackGamestate e (storeAcks cl m) m) seq line hseq'
  have hrun : SV_ExecuteClientMessage e cl m = readMessageBody e (storeAcks cl m) m := by
    unfold SV_ExecuteClientMessage
    rw [if_neg (by omega), if_neg (by
      show ¬ m.reliableAcknowledge < cl.cl.reliableSequence - MAX_RELIABLE_COMMANDS
      omega), if_neg (fun x => x.1 hid)]
  have hfst : (SV_ClientCommand e (ackGamestate e (storeAcks cl m) m) seq line).1 = true := by
    rw [hexec]
  have hread : readClientCommands e (ackGamestate e (storeAcks cl m) m) m.commands =
      if (SV_ClientCommand e (ackGamestate e (storeAcks cl m) m) seq line).2.cl.state = CS_ZOMBIE
      then (false, (SV_ClientCommand e (ackGamestate e (storeAcks cl m) m) seq line).2)
      else readClientCommands e
        (SV_ClientCommand e (ackGamestate e (storeAcks cl m) m) seq line).2 rest := by
    rw [hcmds]
    show (if (SV_ClientCommand e (ackGamestate e (storeAcks cl m) m) seq line).1 = false then _
      else _) = _
    rw [if_neg (by rw [hfst]; decide)]
  refine ⟨hfst, ?_, ?_, fun hz => ?_, fun hz => ?_⟩
  · rw [hexec]
    rfl
  · rw [dispatches_SV_ClientCommand_flooded e _ seq line hflood', f4]
  · rw [hrun]
    unfold readMessageBody
    dsimp only
    rw [hread, if_pos hz, if_pos rfl]
  · rw [hrun]
    unfold readMessageBody
    dsimp only
    rw [hread, if_neg hz]

/-- Witness for `SV_ExecuteClientMessage_flood_rejected`: the packet with two
`say` commands and a user command, 100 ms after the last accepted command. -/
theorem SV_ExecuteClientMessage_flood_rejected_witness :
    (exampleMessage.serverId = floodEngine.sv_serverId
      ∧ exampleMessage.commands = (1, "say hi") :: [(2, "say again")]
      ∧ (floodProtect floodEngine floodedSlot).1 = false)
    ∧ (SV_ClientCommand floodEngine
        (ackGamestate floodEngine (storeAcks { cl := floodedSlot, out := [] } exampleMessage)
          exampleMessage) 1 "say hi").1 = true :=
  ⟨by decide,
    (SV_ExecuteClientMessage_flood_rejected floodEngine { cl := floodedSlot, out := [] }
      exampleMessage 1 "say hi" [(2, "say again")] (by decide) (by decide) (by decide) (by decide)
      (by decide) (by decide)).1⟩

/-! ## The blocks written in the course of a download -/

theorem sentBlocks_append (a b : List Event) : sentBlocks (a ++ b) = sentBlocks a ++ sentBlocks b := by
  induction a with
  | nil => rfl
  | cons ev rest ih =>
    cases ev <;> simp [sentBlocks, ih]

theorem blockList_zero (S B N a : Int) : blockList S B N a 0 = [] := rfl

theorem blockList_succ (S B N a : Int) (k : Nat) :
    blockList S B N a (k + 1) = (a, downloadBlockLen S B N a) :: blockList S B N (a + 1) k := by
  unfold blockList
  rw [List.range_succ_eq_map, List.map_cons, List.map_map]
  simp only [Nat.cast_zero, add_zero, List.cons.injEq, true_and]
  apply List.map_congr_left
  intro i _
  simp only [Function.comp, Nat.cast_succ]
  rw [show a + ((i : Int) + 1) = a + 1 + (i : Int) by ring]

theorem blockList_add (S B N a : Int) (k m : Nat) :
    blockList S B N a (k + m) = blockList S B N a k ++ blockList S B N (a + k) m := by
  induction k generalizing a with
  | zero => simp [blockList_zero]
  | succ k ih =>
    rw [show k + 1 + m = (k + m) + 1 by omega, blockList_succ, blockList_succ, ih (a + 1)]
    simp only [List.cons_append, Nat.cast_succ]
    rw [show a + 1 + (k : Int) = a + ((k : Int) + 1) by ring]

/-- One pass of the read loop writes no block and leaves the cursor of the
blocks written and the time of the last write alone. -/
theorem readDownloadBlock_sent (e : Engine) (s : St) :
    sentBlocks (readDownloadBlock e s).2.out = sentBlocks s.out
    ∧ (readDownloadBlock e s).2.cl.downloadSendTime = s.cl.downloadSendTime := by
  refine ⟨?_, by rw [readDownloadBlock_cl]⟩
  unfold readDownloadBlock
  dsimp only
  rw [St.whenS_eq]
  generalize (s.cl.downloadBlocks.getD (downloadIndex s.cl.downloadCurrentBlock) none).isNone = b
  cases b <;> by_cases hr : (e.FS_Read s.cl.download s.cl.downloadCount).1 < 0 <;>
    simp [hr, sentBlocks_append, sentBlocks]

theorem readDownloadBlocks_sent (e : Engine) (fuel : Nat) (s : St) :
    sentBlocks (readDownloadBlocks e fuel s).out = sentBlocks s.out
    ∧ (readDownloadBlocks e fuel s).cl.downloadSendTime = s.cl.downloadSendTime := by
  induction fuel generalizing s with
  | zero => exact ⟨rfl, rfl⟩
  | succ n ih =>
    unfold readDownloadBlocks
    split_ifs
    · exact ⟨(ih _).1.trans (readDownloadBlock_sent e s).1,
        (ih _).2.trans (readDownloadBlock_sent e s).2⟩
    · exact readDownloadBlock_sent e s
    · exact ⟨rfl, rfl⟩

theorem addEOFBlock_sent (s : St) :
    sentBlocks (addEOFBlock s).out = sentBlocks s.out
    ∧ (addEOFBlock s).cl.downloadSendTime = s.cl.downloadSendTime := by
  unfold addEOFBlock
  rw [St.whenS_eq]
  cases (decide (s.cl.downloadCount = s.cl.downloadSize) && ! s.cl.downloadEOF
      && decide (s.cl.downloadCurrentBlock - s.cl.downloadClientBlock < MAX_DOWNLOAD_WINDOW))
  · exact ⟨rfl, rfl⟩
  · exact ⟨rfl, rfl⟩

/-- The loop that writes blocks, in the middle of a download and as long as
no retransmission is due: it writes the next blocks of the window, in order. -/
theorem sendDownloadBlocks_sent (e : Engine) (name : String) (handle S B N : Int) (n : Nat)
    (T : St) (hq : serving name handle S B N T.cl)
    (hlo : T.cl.downloadClientBlock ≤ T.cl.downloadXmitBlock)
    (hhi : T.cl.downloadXmitBlock ≤ T.cl.downloadCurrentBlock)
    (hnt : T.cl.downloadXmitBlock = T.cl.downloadCurrentBlock →
      ¬ (e.svs_time - T.cl.downloadSendTime > 1000)) :
    ∃ k : Nat, T.cl.downloadXmitBlock + k ≤ T.cl.downloadCurrentBlock
      ∧ (sendDownloadBlocks e n T).cl.downloadXmitBlock = T.cl.downloadXmitBlock + k
      ∧ sentBlocks (sendDownloadBlocks e n T).out
          = sentBlocks T.out ++ blockList S B N T.cl.downloadXmitBlock k := by
  induction n generalizing T with
  | zero => exact ⟨0, by simpa using hhi, by simp [sendDownloadBlocks], by
      simp [sendDownloadBlocks, blockList_zero]⟩
  | succ n ih =>
    unfold sendDownloadBlocks
    split_ifs with h1 h2
    · exact ⟨0, by simpa using hhi, by simp, by simp [blockList_zero]⟩
    · exact ⟨0, by simpa using hhi, by simp, by simp [blockList_zero]⟩
    · have hx : T.cl.downloadXmitBlock ≠ T.cl.downloadCurrentBlock :=
        fun hx => h2 ⟨hx, hnt hx⟩
      rw [St.whenS_eq, decide_eq_false hx, St.when_false]
      have hsz : downloadBlockSizeAt T.cl T.cl.downloadXmitBlock
          = downloadBlockLen S B N T.cl.downloadXmitBlock :=
        hq.2.2.2.2.2.2.2.2.2.2.2 _ hlo (lt_of_le_of_ne hhi hx)
      obtain ⟨k, k1, k2, k3⟩ := ih (((T.emitS downloadBlockMessage).emitS
          (fun cl => Event.Com_DPrintf ("clientDownload: " ++ toString e.clientNum
            ++ " : writing block " ++ toString cl.downloadXmitBlock ++ "\n"))).modify
          (fun cl => { cl with downloadXmitBlock := cl.downloadXmitBlock + 1,
                               downloadSendTime := e.svs_time }))
        (serving_of_xmit _ _ _ _ _ _ _ _ hq)
        (by
          show T.cl.downloadClientBlock ≤ T.cl.downloadXmitBlock + 1
          omega)
        (by
          show T.cl.downloadXmitBlock + 1 ≤ T.cl.downloadCurrentBlock
          have := lt_of_le_of_ne hhi hx
          omega)
        (fun _ => by
          show ¬ (e.svs_time - e.svs_time > 1000)
          omega)
      refine ⟨k + 1, ?_, ?_, ?_⟩
      · have : T.cl.downloadXmitBlock + 1 + (k : Int) ≤ T.cl.downloadCurrentBlock := k1
        push_cast
        omega
      · rw [k2]
        show T.cl.downloadXmitBlock + 1 + (k : Int) = _
        push_cast
        omega
      · rw [k3, blockList_succ]
        show sentBlocks ((T.out ++ [downloadBlockMessage T.cl]) ++ [_])
            ++ blockList S B N (T.cl.downloadXmitBlock + 1) k = _
        rw [sentBlocks_append, sentBlocks_append]
        have hm : sentBlocks [downloadBlockMessage T.cl]
            = [(T.cl.downloadXmitBlock, downloadBlockLen S B N T.cl.downloadXmitBlock)] := by
          unfold downloadBlockMessage
          rw [hsz]
          rfl
        rw [hm]
        simp [sentBlocks]

/-- The pump of SV_WriteDownloadToClient in the middle of a download, when no
retransmission is due: it writes the next blocks of the window, in order. -/
theorem pumpDownload_sent (e : Engine) (name : String) (handle S B N : Int)
    (hB : 0 < B) (hN1 : S ≤ B * N) (hN2 : B * (N - 1) < S)
    (hsv : servesFile e name handle S B) (s : St) (hq : serving name handle S B N s.cl)
    (hjN : s.cl.downloadClientBlock ≤ N)
    (hlo : s.cl.downloadClientBlock ≤ s.cl.downloadXmitBlock)
    (hhi : s.cl.downloadXmitBlock ≤ s.cl.downloadCurrentBlock)
    (hnt : s.cl.downloadXmitBlock = s.cl.downloadClientBlock
      ∨ ¬ (e.svs_time - s.cl.downloadSendTime > 1000)) :
    ∃ k : Nat, (pumpDownload e s).cl.downloadXmitBlock = s.cl.downloadXmitBlock + k
      ∧ (pumpDownload e s).cl.downloadXmitBlock ≤ (pumpDownload e s).cl.downloadCurrentBlock
      ∧ sentBlocks (pumpDownload e s).out
          = sentBlocks s.out ++ blockList S B N s.cl.downloadXmitBlock k := by
  obtain ⟨r1, r2, r3⟩ := readDownloadBlocks_serving e name handle S B N hB hN1 hsv
    (readFuel s.cl) s hq (le_refl _)
  obtain ⟨a1, a2, a3⟩ := addEOFBlock_serving name handle S B N hB hN2 _ r1 r3
  obtain ⟨c1, c2, c3, -⟩ := readDownloadBlocks_cursors e (readFuel s.cl) s
  obtain ⟨d1, d2, d3, -⟩ := addEOFBlock_cursors (readDownloadBlocks e (readFuel s.cl) s)
  obtain ⟨f1, f2⟩ := readDownloadBlocks_sent e (readFuel s.cl) s
  obtain ⟨g1, g2⟩ := addEOFBlock_sent (readDownloadBlocks e (readFuel s.cl) s)
  unfold pumpDownload
  dsimp only
  generalize hT : ((addEOFBlock (readDownloadBlocks e (readFuel s.cl) s)).when
      (decide ((e.cvar "sv_maxRate").integer ≠ 0) && decide ((e.cvar "sv_maxRate").integer < 1000))
      (fun t => t.emit (Event.Cvar_Set "sv_MaxRate" "1000"))) = T
  have hT' : T.cl = (addEOFBlock (readDownloadBlocks e (readFuel s.cl) s)).cl := by
    rw [← hT]
    generalize (decide ((e.cvar "sv_maxRate").integer ≠ 0)
      && decide ((e.cvar "sv_maxRate").integer < 1000)) = b
    cases b <;> rfl
  have hTo : sentBlocks T.out
      = sentBlocks (addEOFBlock (readDownloadBlocks e (readFuel s.cl) s)).out := by
    rw [← hT]
    generalize (decide ((e.cvar "sv_maxRate").integer ≠ 0)
      && decide ((e.cvar "sv_maxRate").integer < 1000)) = b
    cases b
    · rfl
    · rw [St.when_true, St.emit_out, sentBlocks_append]
      simp [sentBlocks]
  have hx : T.cl.downloadXmitBlock = s.cl.downloadXmitBlock := by rw [hT', d2, c2]
  have hc : T.cl.downloadClientBlock = s.cl.downloadClientBlock := by rw [hT', d1, c1]
  have ht : T.cl.downloadSendTime = s.cl.downloadSendTime := by rw [hT', g2, f2]
  have hcur : s.cl.downloadCurrentBlock ≤ T.cl.downloadCurrentBlock := by
    rw [hT']
    exact le_trans c3 d3
  have hlt : s.cl.downloadClientBlock < T.cl.downloadCurrentBlock := by
    rw [hT']
    have := a3 (by rw [r2]; exact hjN)
    rw [r2] at this
    exact this
  obtain ⟨k, k1, k2, k3⟩ := sendDownloadBlocks_sent e name handle S B N
    (blockspersnap e T.cl).toNat T (by rw [hT']; exact a1) (by rw [hx, hc]; exact hlo)
    (by rw [hx]; exact le_trans hhi hcur)
    (by
      rw [hx, ht]
      intro heq
      rcases hnt with h | h
      · omega
      · exact h)
  obtain ⟨-, s2, -⟩ := sendDownloadBlocks_cursors e (blockspersnap e T.cl).toNat T
  refine ⟨k, by rw [k2, hx], ?_, ?_⟩
  · rw [k2, s2]
    exact k1
  · rw [k3, hTo, g1, f1, hx]

theorem sentBlocks_downloadFreeEvents (blocks : List (Option (List Nat))) :
    sentBlocks (downloadFreeEvents blocks) = [] := by
  have key : ∀ l : List Event, (∀ ev ∈ l, ∃ i, ev = Event.Z_Free i) → sentBlocks l = [] := by
    intro l
    induction l with
    | nil => intro _; rfl
    | cons ev rest ih =>
      intro h
      obtain ⟨i, hi⟩ := h ev (List.mem_cons_self _ _)
      rw [hi]
      exact ih (fun x hx => h x (List.mem_cons_of_mem _ hx))
  exact key _ (fun ev hev => downloadFreeEvents_mem blocks ev hev)

/-- The acknowledgement of a data block writes no block, leaves the cursor
of the blocks written alone and notes the time. -/
theorem SV_NextDownload_f_data_sent (e : Engine) (name : String) (handle S B N : Int)
    (hB : 0 < B) (hN2 : B * (N - 1) < S) (j : Nat) (s : St) (argv : Argv)
    (hq : serving name handle S B N s.cl) (hcl : s.cl.downloadClientBlock = j)
    (hcur : (j : Int) < s.cl.downloadCurrentBlock) (hj : (j : Int) < N)
    (hack : atoi (Cmd_Argv argv 1) = j) :
    (SV_NextDownload_f e s argv).1.cl.downloadXmitBlock = s.cl.downloadXmitBlock
    ∧ (SV_NextDownload_f e s argv).1.cl.downloadCurrentBlock = s.cl.downloadCurrentBlock
    ∧ (SV_NextDownload_f e s argv).1.cl.downloadSendTime = e.svs_time
    ∧ sentBlocks (SV_NextDownload_f e s argv).1.out = sentBlocks s.out := by
  obtain ⟨q1, q2, q3, q4, q5, q6, q7, q8, q9, q10, q11, q12⟩ := hq
  have hsz : downloadBlockSizeAt s.cl s.cl.downloadClientBlock ≠ 0 := by
    rw [q12 _ (le_refl _) (by omega), hcl, if_pos hj]
    have := mul_lt_of_lt_blocks B S N j hB hN2 hj
    rcases min_choice B (S - B * j) with hm | hm <;> rw [hm] <;> omega
  unfold SV_NextDownload_f
  dsimp only
  rw [if_neg q1, if_pos (by rw [hack, hcl]), if_neg hsz]
  refine ⟨rfl, rfl, rfl, ?_⟩
  rw [St.modify_out, St.emit_out, sentBlocks_append]
  simp [sentBlocks]

/-- The acknowledgement of the EOF block writes no block. -/
theorem SV_NextDownload_f_eof_sent (e : Engine) (name : String) (handle S B N : Int)
    (s : St) (argv : Argv)
    (hq : serving name handle S B N s.cl) (hcl : s.cl.downloadClientBlock = N)
    (hcur : N < s.cl.downloadCurrentBlock) (hack : atoi (Cmd_Argv argv 1) = N) :
    sentBlocks (SV_NextDownload_f e s argv).1.out = sentBlocks s.out := by
  obtain ⟨q1, q2, q3, q4, q5, q6, q7, q8, q9, q10, q11, q12⟩ := hq
  have hsz : downloadBlockSizeAt s.cl s.cl.downloadClientBlock = 0 := by
    rw [q12 _ (le_refl _) (by omega), hcl, if_neg (by omega)]
  unfold SV_NextDownload_f
  dsimp only
  rw [if_neg q1, if_pos (by rw [hack, hcl]), if_pos hsz]
  rw [SV_CloseDownload_out, sentBlocks_append, sentBlocks_append, sentBlocks_downloadFreeEvents]
  simp only [St.emitS_out, St.emit_out, St.emitS_cl, St.emit_cl, sentBlocks_append]
  split_ifs <;> simp [sentBlocks]

/-- The block the server opens a download with writes no block and resets the cursors. -/
theorem openDownload_sent (e : Engine) (name : String) (handle S B : Int)
    (hS : 0 ≤ S) (hsv : servesFile e name handle S B) (s : St)
    (hname : s.cl.downloadName = name) :
    sentBlocks (openDownload e s).2.out = sentBlocks s.out
    ∧ (openDownload e s).2.cl.downloadXmitBlock = 0
    ∧ (openDownload e s).2.cl.downloadCurrentBlock = 0 := by
  obtain ⟨h1, h2, h3, h4, _⟩ := hsv
  unfold openDownload
  dsimp only
  rw [hname, if_neg (by rw [h2, h3]; simp [h1])]
  have hsz : ((s.modify (fun cl => { cl with download := 0 })).modify (fun cl =>
      { cl with downloadSize := (e.FS_SV_FOpenFileRead cl.downloadName).1,
                download := (e.FS_SV_FOpenFileRead cl.downloadName).2 })).cl.downloadSize = S := by
    show (e.FS_SV_FOpenFileRead s.cl.downloadName).1 = S
    rw [hname, h4]
  rw [if_neg (by rw [hsz]; omega)]
  refine ⟨?_, rfl, rfl⟩
  rw [St.modify_out, St.emitS_out, sentBlocks_append]
  simp [sentBlocks]

theorem awaiting_of_sending (name : String) (handle S B N : Int) (base : List (Int × Int))
    (tprev : Int) (j : Nat) (t : St) (h : sending name handle S B N base tprev j t) :
    awaiting name handle S B N j t.cl := by
  obtain ⟨hj, h | h⟩ := h
  · exact ⟨hj, Or.inl ⟨h.1, h.2.1, h.2.2.1, h.2.2.2.1, h.2.2.2.2.1⟩⟩
  · exact ⟨hj, Or.inr ⟨h.2.1, h.2.2.1⟩⟩

/-- The call of SV_WriteDownloadToClient of round `j`, made before a
retransmission is due: the blocks written so far are the blocks `0 .. x-1`. -/
theorem SV_WriteDownloadToClient_sent (e : Engine) (name : String) (handle S B N : Int)
    (hne : name ≠ "") (hh : handle ≠ 0) (hB : 0 < B) (hS : 0 ≤ S) (hN0 : 0 ≤ N)
    (hN1 : S ≤ B * N) (hN2 : B * (N - 1) < S) (hsv : servesFile e name handle S B)
    (base : List (Int × Int)) (tprev : Int) (j : Nat) (s : St)
    (hq : sending name handle S B N base tprev j s)
    (hprompt : j ≠ 0 → e.svs_time - tprev ≤ 1000) :
    ∃ x : Nat, (SV_WriteDownloadToClient e s).cl.downloadXmitBlock = x
      ∧ (x : Int) ≤ (SV_WriteDownloadToClient e s).cl.downloadCurrentBlock
      ∧ sentBlocks (SV_WriteDownloadToClient e s).out = base ++ blockList S B N 0 x := by
  obtain ⟨hj, hq | hq⟩ := hq
  · obtain ⟨hj0, hstate, hname, hclosed, hlen, hbase⟩ := hq
    obtain ⟨o1, o2, o3⟩ := openDownload_serving e name handle S B N hS hN0 hsv s hstate hname hlen
    obtain ⟨o4, o5, o6⟩ := openDownload_sent e name handle S B hS hsv s hname
    obtain ⟨k, k1, k2, k3⟩ := pumpDownload_sent e name handle S B N hB hN1 hN2 hsv _ o2
      (by rw [o3]; exact hN0) (by rw [o3, o5]) (by rw [o5, o6]) (Or.inl (by rw [o3, o5]))
    unfold SV_WriteDownloadToClient
    rw [if_neg (by rw [hname]; exact hne), if_pos hclosed, if_pos o1]
    refine ⟨k, by rw [k1, o5, zero_add], ?_, ?_⟩
    · rw [← zero_add (k : Int), ← o5, ← k1]
      exact k2
    · rw [k3, o4, hbase, o5]
  · obtain ⟨hj1, hq, hcl, htime, x, hx1, hx2, hx3, hsent⟩ := hq
    obtain ⟨k, k1, k2, k3⟩ := pumpDownload_sent e name handle S B N hB hN1 hN2 hsv s hq
      (by rw [hcl]; exact hj) (by rw [hcl, hx2]; exact hx1) (by rw [hx2]; exact hx3)
      (Or.inr (by
        rw [htime]
        have := hprompt (by omega)
        omega))
    unfold SV_WriteDownloadToClient
    rw [if_neg (by rw [hq.2.1]; exact hne), if_neg (by rw [hq.2.2.1]; exact hh)]
    refine ⟨x + k, by rw [k1, hx2]; push_cast; rfl, ?_, ?_⟩
    · have : (pumpDownload e s).cl.downloadXmitBlock = ((x + k : Nat) : Int) := by
        rw [k1, hx2]
        push_cast
        rfl
      rw [← this]
      exact k2
    · rw [k3, hsent, hx2, blockList_add, List.append_assoc, zero_add]

/-- The rounds of a download from round `j` on, each made before a
retransmission is due and each acknowledging a block that was written: the
blocks written are the blocks 0 to `N`, each once and in order. -/
theorem downloadRounds_sent (name : String) (handle S B : Int) (N : Nat)
    (hne : name ≠ "") (hh : handle ≠ 0) (hB : 0 < B) (hS : 0 ≤ S)
    (hN1 : S ≤ B * N) (hN2 : B * ((N : Int) - 1) < S) (base : List (Int × Int))
    (rounds : List (Engine × Argv)) (j : Nat) (t : St) (tprev : Int)
    (hq : sending name handle S B N base tprev j t) (hlen : j + rounds.length = N + 1)
    (hsv : ∀ r ∈ rounds, servesFile r.1 name handle S B)
    (hacks : rounds.map (fun r => atoi (Cmd_Argv r.2 1))
      = (List.range' j rounds.length).map Int.ofNat)
    (hfirst : ∀ r ∈ rounds.head?, j ≠ 0 → r.1.svs_time - tprev ≤ 1000)
    (hchain : List.Chain' (fun a b : Engine × Argv => b.1.svs_time - a.1.svs_time ≤ 1000) rounds)
    (hrecv : acksReceived t rounds) :
    sentBlocks (rounds.foldl downloadRound t).out = base ++ blockList S B N 0 (N + 1) := by
  induction rounds generalizing j t tprev with
  | nil =>
    have := hq.1
    simp only [List.length_nil, Nat.add_zero] at hlen
    omega
  | cons r rs ih =>
    have hN0 : (0 : Int) ≤ N := Int.ofNat_nonneg N
    have hr := hsv r (List.mem_cons_self _ _)
    obtain ⟨w1, w2, w3⟩ := SV_WriteDownloadToClient_round r.1 name handle S B N hne hh hB hS hN0
      hN1 hN2 hr j t (awaiting_of_sending _ _ _ _ _ _ _ _ _ hq)
    obtain ⟨x, x1, x2, x3⟩ := SV_WriteDownloadToClient_sent r.1 name handle S B N hne hh hB hS hN0
      hN1 hN2 hr base tprev j t hq (hfirst r rfl)
    simp only [List.length_cons, List.map_cons, List.range'_succ, List.cons.injEq] at hlen hacks
    obtain ⟨hack, hacks'⟩ := hacks
    have hack' : atoi (Cmd_Argv r.2 1) = (j : Int) := hack
    obtain ⟨hrecv1, hrecv2⟩ := hrecv
    rw [hack', x1] at hrecv1
    by_cases hlast : rs = []
    · subst hlast
      simp only [List.length_nil] at hlen
      have hjN : j = N := by omega
      subst hjN
      have hxN : x = j + 1 := by
        have := w1.2.2.2.2.2.2.2.2.1
        omega
      show sentBlocks (SV_NextDownload_f r.1 (SV_WriteDownloadToClient r.1 t) r.2).1.out = _
      rw [SV_NextDownload_f_eof_sent r.1 name handle S B j _ r.2 w1 w2 w3 hack', x3, hxN]
    · have hpos : 0 < rs.length := List.length_pos.mpr hlast
      have hjN : (j : Int) < N := by omega
      obtain ⟨d1, d2⟩ := SV_NextDownload_f_data r.1 name handle S B N hB hN2 j _ r.2 w1 w2 w3 hjN
        hack'
      obtain ⟨d3, d4, d5, d6⟩ := SV_NextDownload_f_data_sent r.1 name handle S B N hB hN2 j _ r.2
        w1 w2 w3 hjN hack'
      have hq' : sending name handle S B N base r.1.svs_time (j + 1) (downloadRound t r) :=
        ⟨by push_cast; omega, Or.inr ⟨by omega, d1, d2, d5, x, by push_cast; omega,
          d3.trans x1, by
            show (x : Int) ≤ (SV_NextDownload_f r.1 (SV_WriteDownloadToClient r.1 t) r.2).1.cl.downloadCurrentBlock
            rw [d4]
            exact x2, d6.trans x3⟩⟩
      exact ih (j + 1) (downloadRound t r) r.1.svs_time hq' (by omega)
        (fun y hy => hsv y (List.mem_cons_of_mem _ hy)) hacks'
        (fun y hy _ => hchain.rel_head? hy) hchain.tail hrecv2

theorem blockLens_sum (S B : Int) (N : Nat) (hB : 0 < B) (hS : 0 ≤ S)
    (hN2 : B * ((N : Int) - 1) < S) :
    ∀ k : Nat, k ≤ N →
      ((List.range k).map (fun (i : Nat) => min B (S - B * (i : Int)))).sum = min S (B * k) := by
  intro k
  induction k with
  | zero =>
    intro _
    simp [hS]
  | succ k ih =>
    intro hk
    rw [List.range_succ, List.map_append, List.sum_append, ih (by omega)]
    have hlt : B * (k : Int) < S := mul_lt_of_lt_blocks B S N k hB hN2 (by omega)
    have hmul : B * ((k + 1 : Nat) : Int) = B * (k : Int) + B := by
      push_cast
      ring
    simp only [List.map_cons, List.map_nil, List.sum_cons, List.sum_nil, add_zero]
    rw [hmul, min_eq_right (le_of_lt hlt)]
    rcases le_total B (S - B * (k : Int)) with h | h
    · rw [min_eq_left h, min_eq_right (by omega)]
    · rw [min_eq_right h, min_eq_left (by omega)]
      omega

theorem blockCount_eq (S B : Int) (N : Nat) (hB : 0 < B) (hN1 : S ≤ B * N)
    (hN2 : B * ((N : Int) - 1) < S) :
    (N : Int) = S / B + (if S % B = 0 then 0 else 1) := by
  have hdiv : S % B + B * (S / B) = S := Int.emod_add_ediv S B
  have hr0 : 0 ≤ S % B := Int.emod_nonneg S (by omega)
  have hr1 : S % B < B := Int.emod_lt_of_pos S hB
  by_cases hr : S % B = 0
  · rw [if_pos hr]
    have h1 : B * ((N : Int) - 1) < B * (S / B) := by omega
    have h2 : B * (S / B) ≤ B * (N : Int) := by omega
    have h3 := Int.lt_of_mul_lt_mul_left h1 (le_of_lt hB)
    have h4 := Int.le_of_mul_le_mul_left h2 hB
    omega
  · rw [if_neg hr]
    have hq : B * (S / B + 1) = B * (S / B) + B := by ring
    have h1 : B * ((N : Int) - 1) < B * (S / B + 1) := by omega
    have h2 : B * (S / B) < B * (N : Int) := by omega
    have h3 := Int.lt_of_mul_lt_mul_left h1 (le_of_lt hB)
    have h4 := Int.lt_of_mul_lt_mul_left h2 (le_of_lt hB)
    omega

/-- Counterexample to C34 as stated: the file of 3800 bytes is read in blocks
of 1024 bytes, the server writes two blocks per call, and the client
acknowledges the blocks 0 to 4 in order, each after it was written, one every
two seconds.  After the whole window is written the server starts again at the
first block that is not acknowledged: the blocks 3 and 4 are written again
after the EOF block 4.  And on a slot that has entered the game with the
download pending (state ACTIVE), `nextdl` is ignored: with acknowledgements
900 ms apart the five blocks are written three times. -/
theorem download_order_claim_counterexample :
    slowRounds.map (fun r => atoi (Cmd_Argv r.2 1)) = [0, 1, 2, 3, 4]
    ∧ acksReceived fastRequestedSlot slowRounds
    ∧ sentBlocks (slowRounds.foldl downloadRound fastRequestedSlot).out
        = [(0, 1024), (1, 1024), (2, 1024), (3, 728), (4, 0), (3, 728), (4, 0), (4, 0)]
    ∧ activeRequestedSlot.cl.state = CS_ACTIVE
    ∧ activeRequestedSlot.cl.downloadName = "MBII/x.pk3"
    ∧ activeRequestedSlot.cl.download = 0
    ∧ promptRounds.map (fun r => (r.1.svs_time, atoi (Cmd_Argv r.2 1)))
        = [(10000, 0), (10900, 1), (11800, 2), (12700, 3), (13600, 4)]
    ∧ acksReceived activeRequestedSlot promptRounds
    ∧ sentBlocks (promptRounds.foldl downloadRound activeRequestedSlot).out
        = [(0, 1024), (1, 1024), (2, 1024), (3, 728), (4, 0),
           (0, 1024), (1, 1024), (2, 1024), (3, 728), (4, 0),
           (0, 1024), (1, 1024), (2, 1024), (3, 728), (4, 0)] := by
  refine ⟨by decide, ⟨by decide, by decide, by decide, by decide, by decide, trivial⟩, by decide,
    by decide, by decide, by decide, by decide,
    ⟨by decide, by decide, by decide, by decide, by decide, trivial⟩, by decide⟩

/-- C34 (amended): on a slot that is not ACTIVE, for which the file was
named by `download` and is not yet opened, on a server that allows the
download and opens the file with a handle, for a file of `S >= 0` bytes and
the block size `B = MAX_DOWNLOAD_BLKSIZE`, with reads that return
`min(B, remaining)` bytes, and a client that acknowledges the blocks 0 to `N`
in order, each after the server has written it and at most one second after
the acknowledgement before it (so that no retransmission falls due), the calls
of SV_WriteDownloadToClient before the acknowledgements write, after what the
slot was sent before, the blocks 0, 1, ..., `N`, each once and in
this order: `floor(S/B)` blocks of `B` bytes, then one block of `S mod B` bytes
when that is not 0, then the zero-length EOF block `N` and nothing after it;
the sizes of the data blocks add up to `S`. -/
theorem download_blocks_in_order (name : String) (handle S B : Int) (N : Nat)
    (rounds : List (Engine × Argv)) (s : St)
    (hstate : s.cl.state ≠ CS_ACTIVE) (hname : s.cl.downloadName = name) (hne : name ≠ "")
    (hclosed : s.cl.download = 0)
    (hwin : s.cl.downloadBlockSize.length = MAX_DOWNLOAD_WINDOW)
    (hh : handle ≠ 0) (hB : 0 < B) (hS : 0 ≤ S)
    (hN1 : S ≤ B * N) (hN2 : B * ((N : Int) - 1) < S)
    (hlen : rounds.length = N + 1)
    (hsv : ∀ r ∈ rounds, r.1.MAX_DOWNLOAD_BLKSIZE = B ∧ servesFile r.1 name handle S B)
    (hacks : rounds.map (fun r => atoi (Cmd_Argv r.2 1)) = (List.range (N + 1)).map Int.ofNat)
    (hprompt : List.Chain' (fun a b : Engine × Argv => b.1.svs_time - a.1.svs_time ≤ 1000) rounds)
    (hrecv : acksReceived s rounds) :
    sentBlocks (rounds.foldl downloadRound s).out
        = sentBlocks s.out ++ (List.range (N + 1)).map
            (fun (i : Nat) => ((i : Int), if (i : Int) < N then min B (S - B * (i : Int)) else 0))
    ∧ (N : Int) = S / B + (if S % B = 0 then 0 else 1)
    ∧ (∀ i : Nat, (i : Int) < S / B → min B (S - B * (i : Int)) = B)
    ∧ (S % B ≠ 0 → min B (S - B * (S / B)) = S % B)
    ∧ ((List.range N).map (fun (i : Nat) => min B (S - B * (i : Int)))).sum = S := by
  have hq : sending name handle S B N (sentBlocks s.out) 0 0 s :=
    ⟨by push_cast; exact Int.ofNat_nonneg N, Or.inl ⟨rfl, hstate, hname, hclosed, hwin, rfl⟩⟩
  have hsent := downloadRounds_sent name handle S B N hne hh hB hS hN1 hN2 (sentBlocks s.out)
    rounds 0 s 0 hq (by omega) (fun r hr => (hsv r hr).2)
    (by rw [hacks, hlen, List.range_eq_range']) (fun _ _ h => absurd rfl h) hprompt hrecv
  have hdiv : S % B + B * (S / B) = S := Int.emod_add_ediv S B
  have hr0 : 0 ≤ S % B := Int.emod_nonneg S (by omega)
  have hr1 : S % B < B := Int.emod_lt_of_pos S hB
  refine ⟨?_, blockCount_eq S B N hB hN1 hN2, fun i hi => ?_, fun _ => ?_, ?_⟩
  · rw [hsent]
    congr 1
    unfold blockList downloadBlockLen
    apply List.map_congr_left
    intro i _
    simp only [zero_add]
  · have h1 : B * ((i : Int) + 1) ≤ B * (S / B) :=
      Int.mul_le_mul_of_nonneg_left (by omega) (le_of_lt hB)
    have h2 : B * ((i : Int) + 1) = B * (i : Int) + B := by ring
    exact min_eq_left (by omega)
  · rw [min_eq_right (by omega)]
    omega
  · rw [blockLens_sum S B N hB hS hN2 N (le_refl _)]
    exact min_eq_left hN1

/-- Witness for `download_blocks_in_order`: the file of 3800 bytes in blocks of
1024 bytes, acknowledged by `nextdl 0` to `nextdl 4` without delay. -/
theorem download_blocks_in_order_witness :
    (requestedSlot.cl.state ≠ CS_ACTIVE ∧ requestedSlot.cl.downloadName = "MBII/x.pk3"
      ∧ ackRounds.length = 4 + 1 ∧ acksReceived requestedSlot ackRounds)
    ∧ sentBlocks (ackRounds.foldl downloadRound requestedSlot).out
        = sentBlocks requestedSlot.out ++ (List.range (4 + 1)).map
            (fun (i : Nat) => ((i : Int),
              if (i : Int) < (4 : Nat) then min 1024 (3800 - 1024 * (i : Int)) else 0)) :=
  ⟨⟨by decide, by decide, rfl, by decide, by decide, by decide, by decide, by decide, trivial⟩,
    (download_blocks_in_order "MBII/x.pk3" 5 3800 1024 4 ackRounds requestedSlot (by decide)
      (by decide) (by decide) (by decide) (by decide) (by decide) (by decide) (by decide)
      (by decide) (by decide) rfl
      (fun r hr => by
        simp only [ackRounds, List.mem_cons, List.mem_singleton, List.not_mem_nil, or_false] at hr
        rcases hr with h | h | h | h | h <;> rw [h] <;>
          exact ⟨by decide, downloadEngine_servesFile⟩)
      (by decide)
      (by
        simp only [ackRounds, List.chain'_cons, List.chain'_singleton, and_true]
        decide)
      ⟨by decide, by decide, by decide, by decide, by decide, trivial⟩).1⟩

/-! ## The purity flags of the slots of the table -/

theorem Table.onSlot_pureInv (t : Table) (i : Nat) (f : St → St)
    (hf : ∀ s : St, pureInv s.cl → pureInv (f s).cl) (h : ∀ c ∈ t.clients, pureInv c) :
    ∀ c ∈ (t.onSlot i f).clients, pureInv c := by
  unfold Table.onSlot
  cases hg : t.clients.get? i with
  | none => exact h
  | some cl =>
    intro c hc
    rcases List.mem_or_eq_of_mem_set hc with hm | he
    · exact h c hm
    · rw [he]
      exact hf _ (h cl (List.get?_mem hg))

theorem gotnewcl_pureInv (e : Engine) (sv : Table) (i : Nat) (from_ : netadr_t)
    (challenge qport : Int) (userinfo : String) (denied : Option String) (hibernating : Bool)
    (h : ∀ c ∈ sv.clients, pureInv c) :
    ∀ c ∈ (gotnewcl e sv i from_ challenge qport userinfo denied hibernating).clients, pureInv c :=
  Table.onSlot_pureInv sv i _
    (fun s _ => pureInv_of_coreOf (coreOf_SV_DirectConnect_gotnewcl _ s _ _ _ _ _)) h

theorem findFreeSlot_pureInv (e : Engine) (sv : Table) (from_ : netadr_t)
    (challenge qport : Int) (userinfo : String) (denied : Option String) (hibernating : Bool)
    (h : ∀ c ∈ sv.clients, pureInv c) :
    ∀ c ∈ (findFreeSlot e sv from_ challenge qport userinfo denied hibernating).clients,
      pureInv c := by
  unfold findFreeSlot
  dsimp only
  cases freeScan (connectStartIndex e userinfo) 0 (scannedSlots e sv.clients) with
  | some i => exact gotnewcl_pureInv e sv i _ _ _ _ _ _ h
  | none =>
    dsimp only
    split_ifs
    · exact gotnewcl_pureInv e _ _ _ _ _ _ _ _
        (Table.onSlot_pureInv sv _ _ (fun s hs => (Keeps_SV_DropClient _ s _).2 hs) h)
    · exact h
    · exact h
    · exact h

/-- SV_DirectConnect keeps the invariant of the purity flags in every slot of the table. -/
theorem SV_DirectConnect_pureInv (e : Engine) (sv : Table) (from_ : netadr_t) (argv : Argv)
    (denied : Option String) (hibernating : Bool) (h : ∀ c ∈ sv.clients, pureInv c) :
    ∀ c ∈ (SV_DirectConnect e sv from_ argv denied hibernating).clients, pureInv c := by
  unfold SV_DirectConnect
  dsimp only
  split_ifs
  · exact h
  · exact h
  · exact h
  · exact h
  · exact h
  · cases reuseScan e from_ (atoi (e.Info_ValueForKey (connectUserinfo argv) "qport")) 0
      (scannedSlots e sv.clients) with
    | some i => exact gotnewcl_pureInv e _ i _ _ _ _ _ _ h
    | none => exact findFreeSlot_pureInv e _ _ _ _ _ _ _ h

/-- C7: `pureAuthentic = 1` implies `gotCP = true` is an invariant of a slot:
it holds for a zeroed slot and for the slot initialised by SV_DirectConnect,
and, when it holds before, it holds after SV_VerifyPaks_f, SV_ResetPureClient_f,
SV_SendClientGameState and after every other operation on the slot: the map
change and chat-log messages, dropping, closing a download, entering the
world, the userinfo update, each client command handler, command execution,
SV_ClientCommand, SV_ClientThink, SV_UserMove, the processing of a whole
client message, the download pump SV_WriteDownloadToClient, and the SMOD
login, logout and command execution; and when it holds in every slot of
`svs.clients` it holds in every slot after SV_DirectConnect. -/
theorem pureInv_preserved (e : Engine) (s : St) (argv : Argv) (reason str : String) (ok : Bool)
    (seq : Int) (cmd : Option usercmd_t) (ucmd : usercmd_t) (delta : Bool) (cmdCount : Int)
    (wire : List (List Nat)) (m : clientMessage) (challenge : Int) (netchan : netchan_t)
    (userinfo : String) (denied : Option String) (hibernating : Bool) (id : Int)
    (password : String) (sv : Table) (from_ : netadr_t) (h : pureInv s.cl) :
    pureInv client_t.zero
    ∧ pureInv (SV_DirectConnect_gotnewcl e s challenge netchan userinfo denied hibernating).cl
    ∧ pureInv (SV_VerifyPaks_f e s argv).1.cl
    ∧ pureInv (SV_ResetPureClient_f e s argv).1.cl
    ∧ pureInv (SV_SendClientGameState e s).cl
    ∧ pureInv (SV_DropClient e s reason).cl
    ∧ pureInv (SV_CloseDownload s).cl
    ∧ pureInv (SV_ClientEnterWorld e s cmd).cl
    ∧ pureInv (SV_UserinfoChanged e s).cl
    ∧ pureInv (SV_UpdateUserinfo_f e s argv).1.cl
    ∧ pureInv (SV_Disconnect_f e s argv).1.cl
    ∧ pureInv (SV_BeginDownload_f e s argv).1.cl
    ∧ pureInv (SV_NextDownload_f e s argv).1.cl
    ∧ pureInv (SV_StopDownload_f e s argv).1.cl
    ∧ pureInv (SV_DoneDownload_f e s argv).1.cl
    ∧ pureInv (SV_ExecuteClientCommand e s str ok).cl
    ∧ pureInv (SV_ClientCommand e s seq str).2.cl
    ∧ pureInv (SV_ClientThink e s ucmd).cl
    ∧ pureInv (SV_UserMove e s delta cmdCount wire).cl
    ∧ pureInv (SV_ExecuteClientMessage e s m).cl
    ∧ pureInv (SV_SendClientMapChange s).cl
    ∧ pureInv (SV_SendClientChatLogPolicy e s).cl
    ∧ pureInv (SMOD.AuthenticateClient e s.cl id password)
    ∧ pureInv (SMOD.LogoutClient s.cl)
    ∧ pureInv (SMOD.Execute e s str).2.cl
    ∧ pureInv (SV_WriteDownloadToClient e s).cl
    ∧ ((∀ c ∈ sv.clients, pureInv c) →
        ∀ c ∈ (SV_DirectConnect e sv from_ argv denied hibernating).clients, pureInv c) :=
  ⟨fun h0 => absurd (show (0 : Int) = 1 from h0) (by decide),
    pureInv_of_coreOf
      (coreOf_SV_DirectConnect_gotnewcl e s challenge netchan userinfo denied hibernating),
    (Keeps_SV_VerifyPaks_f e s argv).2 h,
    (Keeps_SV_ResetPureClient_f e s argv).2 h,
    (Keeps_SV_SendClientGameState e s).2 h,
    (Keeps_SV_DropClient e s reason).2 h,
    (Keeps.of_coreOf (a := s.cl) (b := (SV_CloseDownload s).cl) rfl).2 h,
    (Keeps.of_coreOf (coreOf_SV_ClientEnterWorld e s cmd)).2 h,
    (Keeps.of_coreOf (coreOf_SV_UserinfoChanged e s)).2 h,
    (Keeps.of_coreOf (coreOf_SV_UpdateUserinfo_f e s argv)).2 h,
    (Keeps.of_coreOf (coreOf_SV_Disconnect_f e s argv)).2 h,
    (Keeps.of_coreOf (coreOf_SV_BeginDownload_f e s argv)).2 h,
    (Keeps.of_coreOf (coreOf_SV_NextDownload_f e s argv)).2 h,
    (Keeps.of_coreOf (coreOf_SV_StopDownload_f e s argv)).2 h,
    (Keeps_SV_DoneDownload_f e s argv).2 h,
    (Keeps_SV_ExecuteClientCommand e s str ok).2 h,
    (SV_ClientCommand_steps e s seq str).2 h,
    (Keeps_SV_ClientThink e s ucmd).2 h,
    (Keeps_SV_UserMove e s delta cmdCount wire).2 h,
    (SV_ExecuteClientMessage_steps e s m).2 h,
    (Keeps.of_coreOf (a := s.cl) (b := (SV_SendClientMapChange s).cl) rfl).2 h,
    (Keeps.of_coreOf (coreOf_SV_SendClientChatLogPolicy e s)).2 h,
    (Keeps.of_coreOf (SMOD.coreOf_AuthenticateClient e s.cl id password)).2 h,
    (Keeps.of_coreOf (a := s.cl) (b := SMOD.LogoutClient s.cl) rfl).2 h,
    (Keeps.of_coreOf (congrArg coreOf (SMOD.Execute_cl e s str))).2 h,
    (Keeps.of_coreOf (coreOf_SV_WriteDownloadToClient e s)).2 h,
    SV_DirectConnect_pureInv e sv from_ argv denied hibernating⟩

/-- Witness for `pureInv_preserved`: the ACTIVE slot on the pure server; after
`cp 111 222 @ 170 187 2` the slot has `pureAuthentic = 1` and `gotCP = true`. -/
theorem pureInv_preserved_witness :
    pureInv activeSlot
    ∧ (SV_VerifyPaks_f pureEngine { cl := activeSlot, out := [] }
        ["cp", "111", "222", "@", "170", "187", "2"]).1.cl.pureAuthentic = 1
    ∧ (SV_VerifyPaks_f pureEngine { cl := activeSlot, out := [] }
        ["cp", "111", "222", "@", "170", "187", "2"]).1.cl.gotCP = true :=
  ⟨fun h0 => absurd (show (0 : Int) = 1 from h0) (by decide), by decide,
    (pureInv_preserved pureEngine { cl := activeSlot, out := [] }
      ["cp", "111", "222", "@", "170", "187", "2"] "" "" true 0 none usercmd_t.zero true 0 []
      exampleMessage 0 activeSlot.netchan "" none false 1 "" emptyTable lukeAdr
      (fun h0 => absurd (show (0 : Int) = 1 from h0) (by decide))).2.2.1 (by decide)⟩
